import Mathlib

/-!
# L-SMASH Works, AviUtl libav reader: index, random-access locator,
# video and audio decode sequencers

A shallow embedding of `AviUtl/libav_input.c`.

Conventions of the embedding

* C arrays indexed from the 1-origin sample number are lists whose element 0 is
  the zero-initialised record left by `malloc_zero`; a read outside the list
  yields that zero record.
* `uint32_t` counters, sample numbers and sizes are `Nat`; timestamps and file
  offsets (`int64_t`) are `Int`.  Sample counts are taken to stay below `2^31`,
  so no counter wraps.
* `uint8_t` flags (`keyframe`, `is_leading`) are `Nat` and tested against `0`
  exactly as the C code does.
* The libav primitives are parameters: a record of total functions over a
  library-private state of arbitrary type, so that every pattern of seek
  failures, decode errors and missing output is an instance.
* The container is a finite sequence of packets; `av_read_frame` hands them out
  in order from a cursor.
-/

set_option autoImplicit false

namespace LSmash

/-! ## Constants -/

def SEEK_MODE_NORMAL : Nat := 0
def SEEK_MODE_UNSAFE : Nat := 1
def SEEK_MODE_AGGRESSIVE : Nat := 2

def SEEK_DTS_BASED : Nat := 1
def SEEK_PTS_BASED : Nat := 2
def SEEK_FILE_OFFSET_BASED : Nat := 4

/-- Value of `INT64_MIN`. -/
def INT64_MIN : Int := -9223372036854775808

/-- Value of `AV_NOPTS_VALUE` (libavutil): `0x8000000000000000` as `int64_t`. -/
def AV_NOPTS_VALUE : Int := -9223372036854775808

/-- Value of `AV_PKT_FLAG_KEY` (libavcodec). -/
def AV_PKT_FLAG_KEY : Nat := 1

/-- Value of `AVFMT_NO_BYTE_SEEK` (libavformat). -/
def AVFMT_NO_BYTE_SEEK : Nat := 0x8000

/-- Value of `FF_THREAD_FRAME` (libavcodec). -/
def FF_THREAD_FRAME : Nat := 1

def AVSEEK_FLAG_BACKWARD : Nat := 1
def AVSEEK_FLAG_BYTE : Nat := 2
def AVSEEK_FLAG_ANY : Nat := 4
def AVSEEK_FLAG_FRAME : Nat := 8

/-- Value of `AVDISCARD_DEFAULT` (libavcodec). -/
def AVDISCARD_DEFAULT : Int := 0

/-- Value of `AVDISCARD_NONREF` (libavcodec). -/
def AVDISCARD_NONREF : Int := 8

/-- Value of `AVCODEC_MAX_AUDIO_FRAME_SIZE` (libavcodec). -/
def AVCODEC_MAX_AUDIO_FRAME_SIZE : Nat := 192000

/-- The C expression `x &= ~flag` on a 32-bit `int` holding a flag set. -/
def clear_flag (x flag : Nat) : Nat := x &&& (0xFFFFFFFF ^^^ flag)

/-! ## Data model -/

inductive decode_status_t where
  | DECODE_REQUIRE_INITIAL
  | DECODE_INITIALIZING
  | DECODE_INITIALIZED
deriving DecidableEq, Repr

structure video_frame_info_t where
  keyframe : Nat
  is_leading : Nat
  sample_number : Nat
  pts : Int
  dts : Int
  file_offset : Int
deriving DecidableEq, Repr

structure audio_frame_info_t where
  length : Int
  sample_number : Nat
  pts : Int
  dts : Int
  file_offset : Int
deriving DecidableEq, Repr

/-- Record produced by `malloc_zero`. -/
def video_zero : video_frame_info_t :=
  { keyframe := 0, is_leading := 0, sample_number := 0, pts := 0, dts := 0, file_offset := 0 }

/-- Record produced by `malloc_zero`. -/
def audio_zero : audio_frame_info_t :=
  { length := 0, sample_number := 0, pts := 0, dts := 0, file_offset := 0 }

/-- Fields of `AVPacket` the reader looks at.  `data` is the compressed payload. -/
structure AVPacket where
  stream_index : Int
  pts : Int
  dts : Int
  pos : Int
  flags : Nat
  duration : Int
  size : Int
  data : List Nat
deriving DecidableEq, Repr

/-- Fields of `lsmash_handler_t` used by the reader. -/
structure lsmash_handler_t where
  framerate_num : Int
  framerate_den : Int
  video_sample_count : Nat
  audio_pcm_sample_count : Nat
  nBlockAlign : Nat
deriving DecidableEq, Repr

/-- Fields of `libav_handler_t` that are plain data (the libav contexts live in
the worlds below). -/
structure libav_handler_t where
  video_index : Int
  video_frame_count : Nat
  last_video_frame_number : Nat
  last_rap_number : Nat
  delay_count : Nat
  first_valid_video_frame_number : Nat
  first_valid_video_frame_size : Nat
  first_valid_video_frame_data : List Nat
  decode_status : decode_status_t
  video_frame_list : List video_frame_info_t
  keyframe_list : List Nat
  video_seek_base : Nat
  seek_mode : Nat
  audio_index : Int
  audio_output_buffer : List Nat
  audio_frame_count : Nat
  audio_frame_length : Nat
  audio_frame_list : List audio_frame_info_t
  audio_seek_base : Nat
  next_audio_pcm_sample_number : Nat
  last_audio_frame_number : Nat
  last_remainder_size : Nat
  av_gap : Int
deriving DecidableEq, Repr

/-- Handler as left by `malloc_zero( sizeof(libav_handler_t) )`. -/
def libav_handler_zero : libav_handler_t :=
  { video_index := 0, video_frame_count := 0, last_video_frame_number := 0,
    last_rap_number := 0, delay_count := 0, first_valid_video_frame_number := 0,
    first_valid_video_frame_size := 0, first_valid_video_frame_data := [],
    decode_status := decode_status_t.DECODE_REQUIRE_INITIAL,
    video_frame_list := [], keyframe_list := [], video_seek_base := 0, seek_mode := 0,
    audio_index := 0, audio_output_buffer := [], audio_frame_count := 0,
    audio_frame_length := 0, audio_frame_list := [], audio_seek_base := 0,
    next_audio_pcm_sample_number := 0, last_audio_frame_number := 0,
    last_remainder_size := 0, av_gap := 0 }

/-- Read `info[i]` of a video record array. -/
def vinfo (info : List video_frame_info_t) (i : Nat) : video_frame_info_t :=
  info.getD i video_zero

/-- Read `keyframe_list[i]`. -/
def kflag (keyframe_list : List Nat) (i : Nat) : Nat :=
  keyframe_list.getD i 0

/-- Read `info[i]` of an audio record array. -/
def ainfo (info : List audio_frame_info_t) (i : Nat) : audio_frame_info_t :=
  info.getD i audio_zero

/-! ## Index builder (video part of `create_index`) and addressing mode -/

/-- Loop `for( i = 1; i < sample_count; i++ ) if( info[i].pts < info[i - 1].pts ) return 1;`
of `check_frame_reordering`. -/
def check_frame_reordering (info : List video_frame_info_t) (sample_count : Nat) : Bool :=
  (List.range' 1 (sample_count - 1)).any
    (fun i => decide ((vinfo info i).pts < (vinfo info (i - 1)).pts))

/-- Comparison callback handed to `qsort`. -/
def compare_pts (a b : video_frame_info_t) : Int :=
  let diff := a.pts - b.pts
  if diff > 0 then 1 else (if diff = 0 then 0 else -1)

/-- Sorting by `compare_pts`: `qsort( info, sample_count, ... )`.  The C library
leaves the order of records with equal `pts` open; the embedding keeps them in
their original order. -/
def sort_presentation_order (info : List video_frame_info_t) : List video_frame_info_t :=
  info.insertionSort (fun a b => compare_pts a b ≤ 0)

/-- Video part of the scanning loop of `create_index`: the records written to
`video_info[video_sample_count + 1 ..]`, given the running `video_sample_count`
and `last_keyframe_pts`. -/
def scan_video (video_index : Int) :
    List AVPacket → Nat → Int → List video_frame_info_t
  | [], _, _ => []
  | pkt :: rest, video_sample_count, last_keyframe_pts =>
    if pkt.stream_index = video_index then
      let video_sample_count := video_sample_count + 1
      let r : video_frame_info_t :=
        { pts := pkt.pts, dts := pkt.dts, file_offset := pkt.pos,
          sample_number := video_sample_count,
          is_leading := if pkt.pts < last_keyframe_pts then 1 else 0,
          keyframe := if pkt.flags &&& AV_PKT_FLAG_KEY ≠ 0 then 1 else 0 }
      r :: scan_video video_index rest video_sample_count
        (if pkt.flags &&& AV_PKT_FLAG_KEY ≠ 0 then pkt.pts else last_keyframe_pts)
    else
      scan_video video_index rest video_sample_count last_keyframe_pts

/-- Body of `decide_video_seek_method`: returns `video_seek_base` and the
resolved `video_frame_list`.  `iformat_name` and `iformat_flags` are the
container's `iformat->name` and `iformat->flags`. -/
def decide_video_seek_method (iformat_name : String) (iformat_flags : Nat)
    (info : List video_frame_info_t) (sample_count : Nat) :
    Nat × List video_frame_info_t :=
  let base0 : Nat :=
    if iformat_name = "mpeg" ∨ iformat_name = "mpegts"
    then SEEK_DTS_BASED ||| SEEK_PTS_BASED ||| SEEK_FILE_OFFSET_BASED
    else SEEK_DTS_BASED ||| SEEK_PTS_BASED
  let base1 : Nat :=
    if (List.range' 1 sample_count).any (fun i => decide ((vinfo info i).pts = AV_NOPTS_VALUE))
    then clear_flag base0 SEEK_PTS_BASED else base0
  let base2 : Nat :=
    if (List.range' 1 sample_count).any (fun i => decide ((vinfo info i).dts = AV_NOPTS_VALUE))
    then clear_flag base1 SEEK_DTS_BASED else base1
  let base3 : Nat :=
    if base2 &&& SEEK_FILE_OFFSET_BASED ≠ 0 then
      (if iformat_flags &&& AVFMT_NO_BYTE_SEEK ≠ 0 then clear_flag base2 SEEK_FILE_OFFSET_BASED
       else if (List.range' 1 sample_count).any (fun i => decide ((vinfo info i).file_offset = -1))
       then clear_flag base2 SEEK_FILE_OFFSET_BASED else base2)
    else base2
  if base3 &&& SEEK_PTS_BASED ≠ 0 then
    (if check_frame_reordering info sample_count then
      (base3, info.take 1 ++ sort_presentation_order ((info.drop 1).take sample_count)
                ++ info.drop (1 + sample_count))
     else (base3, info))
  else if base3 &&& SEEK_DTS_BASED ≠ 0 then
    (base3, info.take 1 ++ ((info.drop 1).take sample_count).map (fun r => { r with pts := r.dts })
              ++ info.drop (1 + sample_count))
  else (base3, info)

/-- Video part of `create_index` on a container whose `av_read_frame` yields
`packets`: fills `video_frame_list`, `keyframe_list`, `video_frame_count` and
`video_seek_base` of the handler (no allocation fails). -/
def create_index_video (iformat_name : String) (iformat_flags : Nat)
    (packets : List AVPacket) (hp : libav_handler_t) : libav_handler_t :=
  let video_info := video_zero :: scan_video hp.video_index packets 0 INT64_MIN
  let video_sample_count := video_info.length - 1
  let keyframe_list := video_info.map (fun r => r.keyframe)
  let res := decide_video_seek_method iformat_name iformat_flags video_info video_sample_count
  { hp with keyframe_list := keyframe_list, video_frame_list := res.2,
            video_frame_count := video_sample_count, video_seek_base := res.1 }

/-! ## Random-access locator -/

/-- Loop `while( *rap_number ) { ... --(*rap_number); }` of
`find_random_accessible_point`; yields the value of `*rap_number` at loop exit. -/
def rap_walk (keyframe_list : List Nat) : Nat → Nat → Nat
  | 0, _ => 0
  | rap_number + 1, is_leading =>
    if kflag keyframe_list (rap_number + 1) ≠ 0 then
      (if is_leading = 0 then rap_number + 1
       else rap_walk keyframe_list rap_number 0)
    else rap_walk keyframe_list rap_number is_leading

/-- Seek key of record `r` by the precedence byte offset, pts, dts, sample number. -/
def seek_key (video_seek_base : Nat) (r : video_frame_info_t) : Int :=
  if video_seek_base &&& SEEK_FILE_OFFSET_BASED ≠ 0 then r.file_offset
  else if video_seek_base &&& SEEK_PTS_BASED ≠ 0 then r.pts
  else if video_seek_base &&& SEEK_DTS_BASED ≠ 0 then r.dts
  else (r.sample_number : Int)

/-- Loop `for( i = 1; i <= h->video_sample_count; i++ ) if( *rap_number == ...sample_number )`
of `find_random_accessible_point`: the seek key of the record whose decode-order
number is `rap_number`, or `INT64_MIN` when there is none. -/
def rap_pos_of (video_sample_count : Nat) (video_frame_list : List video_frame_info_t)
    (video_seek_base rap_number : Nat) : Int :=
  match (List.range' 1 video_sample_count).find?
      (fun i => decide (rap_number = (vinfo video_frame_list i).sample_number)) with
  | some i => seek_key video_seek_base (vinfo video_frame_list i)
  | none => INT64_MIN

/-- Translation of `find_random_accessible_point`: returns `rap_pos`, the value
stored through `rap_number`, and the handler with `last_rap_number` updated. -/
def find_random_accessible_point (h : lsmash_handler_t) (hp : libav_handler_t)
    (presentation_sample_number decoding_sample_number : Nat) :
    Int × Nat × libav_handler_t :=
  let is_leading := (vinfo hp.video_frame_list presentation_sample_number).is_leading
  let decoding_sample_number :=
    if decoding_sample_number = 0
    then (vinfo hp.video_frame_list presentation_sample_number).sample_number
    else decoding_sample_number
  let rap0 := rap_walk hp.keyframe_list decoding_sample_number is_leading
  let rap_number := if rap0 = 0 then 1 else rap0
  let hp := { hp with last_rap_number := rap_number }
  (rap_pos_of h.video_sample_count hp.video_frame_list hp.video_seek_base rap_number,
   rap_number, hp)

/-! ## The libav boundary for video -/

/-- Decoded picture (`AVFrame`): its pixel data. -/
abbrev AVFrame := List Nat

/-- Calls recorded in the order the reader makes them. -/
inductive Event where
  | seek_video (presentation_sample_number rap_number : Nat) (rap_pos : Int)
      (error_ignorance : Bool)
  | av_seek_frame (timestamp : Int) (flags : Nat)
  | flush_buffers
  | decode_video_sample (sample_number : Nat)
  | avcodec_decode_video2 (with_packet : Bool)
deriving DecidableEq, Repr

/-- State behind `hp->video_format` and `hp->video_ctx`: the container's packets
with the demuxer's read position, the codec-context fields the reader inspects,
whatever else the library keeps (`priv`), and the record of calls made. -/
structure VideoWorld (σ : Type) where
  packets : List AVPacket
  cursor : Nat
  has_b_frames : Nat
  active_thread_type : Nat
  thread_count : Nat
  skip_frame : Int
  priv : σ
  trace : List Event

/-- Outcome of `av_seek_frame`: return value and where the demuxer now stands. -/
structure SeekResult (σ : Type) where
  ret : Int
  cursor : Nat
  priv : σ

/-- Outcome of `avcodec_decode_video2`. -/
structure DecodeResult (σ : Type) where
  ret : Int
  got_picture : Int
  picture : AVFrame
  has_b_frames : Nat
  priv : σ

/-- Outcome of `avcodec_close` followed by `avcodec_open2`. -/
structure OpenResult (σ : Type) where
  has_b_frames : Nat
  active_thread_type : Nat
  priv : σ

/-- The demux, decode and colorspace primitives the video sequencer calls.
`av_seek_frame w stream_index timestamp flags`; `avcodec_decode_video2 w pkt`
with `none` for the empty flush packet; `convert_colorspace` returns the byte
count and the bytes stored in the caller's buffer. -/
structure Libav (σ : Type) where
  av_seek_frame : VideoWorld σ → Int → Int → Nat → SeekResult σ
  avcodec_decode_video2 : VideoWorld σ → Option AVPacket → DecodeResult σ
  avcodec_reopen : VideoWorld σ → OpenResult σ
  convert_colorspace : VideoWorld σ → AVFrame → Int × List Nat

/-- The macro `DECODER_DELAY( ctx )`. -/
def DECODER_DELAY {σ : Type} (w : VideoWorld σ) : Nat :=
  w.has_b_frames +
    (if w.active_thread_type &&& FF_THREAD_FRAME ≠ 0 then w.thread_count - 1 else 0)

/-- Append a call to the record. -/
def VideoWorld.log {σ : Type} (w : VideoWorld σ) (e : Event) : VideoWorld σ :=
  { w with trace := w.trace ++ [e] }

/-- Loop of `get_sample` over the packets not yet read: the first packet of
`stream_index`, and how many packets `av_read_frame` handed out. -/
def get_sample (stream_index : Int) : List AVPacket → Nat → Option AVPacket × Nat
  | [], consumed => (none, consumed)
  | pkt :: rest, consumed =>
    if pkt.stream_index ≠ stream_index then get_sample stream_index rest (consumed + 1)
    else (some pkt, consumed + 1)

/-- Result of `decode_video_sample`: return value, `*picture`, `*got_picture`
and the updated state. -/
structure DecodeSampleResult (σ : Type) where
  ret : Int
  picture : AVFrame
  got_picture : Int
  hp : libav_handler_t
  w : VideoWorld σ

/-- Translation of `decode_video_sample`. -/
def decode_video_sample {σ : Type} (L : Libav σ) (hp : libav_handler_t) (w : VideoWorld σ)
    (picture : AVFrame) (got_picture : Int) (sample_number : Nat) : DecodeSampleResult σ :=
  let w := w.log (Event.decode_video_sample sample_number)
  match get_sample hp.video_index (w.packets.drop w.cursor) 0 with
  | (none, consumed) =>
    { ret := 1, picture := picture, got_picture := got_picture, hp := hp,
      w := { w with cursor := w.cursor + consumed } }
  | (some pkt, consumed) =>
    let w := { w with cursor := w.cursor + consumed }
    let hp := if pkt.flags = AV_PKT_FLAG_KEY then { hp with last_rap_number := sample_number }
              else hp
    let d := L.avcodec_decode_video2 w (some pkt)
    let w := { w with has_b_frames := d.has_b_frames, priv := d.priv,
                      trace := w.trace ++ [Event.avcodec_decode_video2 true] }
    { ret := if d.ret < 0 then -1 else 0, picture := d.picture,
      got_picture := d.got_picture, hp := hp, w := w }

/-- Translation of `flush_buffers( hp->video_ctx )`. -/
def flush_buffers {σ : Type} (L : Libav σ) (w : VideoWorld σ) : VideoWorld σ :=
  let o := L.avcodec_reopen w
  { w with has_b_frames := o.has_b_frames, active_thread_type := o.active_thread_type,
           priv := o.priv, trace := w.trace ++ [Event.flush_buffers] }

/-- State at the end of the replay loop of `seek_video`; `aborted` marks the
`return 0` taken on a decode error without error ignorance. -/
structure SeekLoopResult (σ : Type) where
  aborted : Bool
  i : Nat
  picture : AVFrame
  hp : libav_handler_t
  w : VideoWorld σ

/-- The `for` loop of `seek_video`.  Every pass that goes round again has taken a
packet from the demuxer, so `fuel` above the number of unread packets is never
used up. -/
def seek_video_loop {σ : Type} (L : Libav σ) (presentation_sample_number : Nat)
    (error_ignorance : Bool) :
    Nat → Nat → AVFrame → libav_handler_t → VideoWorld σ → SeekLoopResult σ
  | 0, i, picture, hp, w => { aborted := false, i := i, picture := picture, hp := hp, w := w }
  | fuel + 1, i, picture, hp, w =>
    if i < presentation_sample_number + DECODER_DELAY w then
      let w := if i + DECODER_DELAY w = presentation_sample_number
               then { w with skip_frame := AVDISCARD_DEFAULT } else w
      let r := decode_video_sample L hp w picture 0 i
      if r.ret = -1 ∧ error_ignorance = false then
        { aborted := true, i := i, picture := r.picture, hp := r.hp, w := r.w }
      else if r.ret = 1 then
        { aborted := false, i := i, picture := r.picture, hp := r.hp, w := r.w }
      else seek_video_loop L presentation_sample_number error_ignorance fuel (i + 1)
             r.picture r.hp r.w
    else { aborted := false, i := i, picture := picture, hp := hp, w := w }

/-- Result of `seek_video`: the returned sample number (0 on failure). -/
structure SeekVideoResult (σ : Type) where
  ret : Nat
  picture : AVFrame
  hp : libav_handler_t
  w : VideoWorld σ

/-- Translation of `seek_video`. -/
def seek_video {σ : Type} (L : Libav σ) (hp : libav_handler_t) (w : VideoWorld σ)
    (picture : AVFrame) (presentation_sample_number rap_number : Nat) (rap_pos : Int)
    (error_ignorance : Bool) : SeekVideoResult σ :=
  let w := w.log (Event.seek_video presentation_sample_number rap_number rap_pos error_ignorance)
  let flags : Nat :=
    if hp.video_seek_base &&& SEEK_FILE_OFFSET_BASED ≠ 0 then AVSEEK_FLAG_BYTE
    else if hp.video_seek_base = 0 then AVSEEK_FLAG_FRAME else 0
  let s := L.av_seek_frame w hp.video_index rap_pos (flags ||| AVSEEK_FLAG_BACKWARD)
  let w := { w with cursor := s.cursor, priv := s.priv,
                    trace := w.trace ++ [Event.av_seek_frame rap_pos (flags ||| AVSEEK_FLAG_BACKWARD)] }
  if s.ret < 0 then { ret := 0, picture := picture, hp := hp, w := w }
  else
    let w := flush_buffers L w
    let hp := { hp with delay_count := 0, decode_status := decode_status_t.DECODE_REQUIRE_INITIAL }
    let w := if rap_number + DECODER_DELAY w < presentation_sample_number
             then { w with skip_frame := AVDISCARD_NONREF } else w
    let r := seek_video_loop L presentation_sample_number error_ignorance
               (w.packets.length - w.cursor + 1) rap_number picture hp w
    if r.aborted then { ret := 0, picture := r.picture, hp := r.hp, w := r.w }
    else
      let w := { r.w with skip_frame := AVDISCARD_DEFAULT }
      let hp := { r.hp with delay_count := DECODER_DELAY w }
      { ret := r.i, picture := r.picture, hp := hp, w := w }

/-- State at the end of a loop of `get_picture`; `aborted` marks `return -1`. -/
structure PictureLoopResult (σ : Type) where
  aborted : Bool
  current : Nat
  got_picture : Int
  picture : AVFrame
  hp : libav_handler_t
  w : VideoWorld σ

/-- The first `do ... while( current <= goal )` loop of `get_picture`.  A pass
that goes round again has `current <= goal`, so `fuel = goal - current + 1` is
never used up. -/
def get_picture_loop {σ : Type} (L : Libav σ) (goal : Nat) :
    Nat → Nat → Int → AVFrame → libav_handler_t → VideoWorld σ → PictureLoopResult σ
  | 0, current, got_picture, picture, hp, w =>
    { aborted := false, current := current, got_picture := got_picture, picture := picture,
      hp := hp, w := w }
  | fuel + 1, current, got_picture, picture, hp, w =>
    let r := decode_video_sample L hp w picture got_picture current
    if r.ret = -1 then
      { aborted := true, current := current, got_picture := r.got_picture,
        picture := r.picture, hp := r.hp, w := r.w }
    else if r.ret = 1 then
      { aborted := false, current := current, got_picture := r.got_picture,
        picture := r.picture, hp := r.hp, w := r.w }
    else
      let current := current + 1
      let hp := if r.got_picture = 0 then { r.hp with delay_count := r.hp.delay_count + 1 }
                else r.hp
      if hp.delay_count > DECODER_DELAY r.w ∧
          hp.decode_status = decode_status_t.DECODE_INITIALIZED then
        { aborted := false, current := current, got_picture := r.got_picture,
          picture := r.picture, hp := hp, w := r.w }
      else if current ≤ goal then
        get_picture_loop L goal fuel current r.got_picture r.picture hp r.w
      else
        { aborted := false, current := current, got_picture := r.got_picture,
          picture := r.picture, hp := hp, w := r.w }

/-- The flushing `do ... while( current <= goal )` loop of `get_picture`. -/
def get_picture_flush {σ : Type} (L : Libav σ) (goal : Nat) :
    Nat → Nat → Int → AVFrame → libav_handler_t → VideoWorld σ → PictureLoopResult σ
  | 0, current, got_picture, picture, hp, w =>
    { aborted := false, current := current, got_picture := got_picture, picture := picture,
      hp := hp, w := w }
  | fuel + 1, current, _, _, hp, w =>
    let d := L.avcodec_decode_video2 w none
    let w := { w with has_b_frames := d.has_b_frames, priv := d.priv,
                      trace := w.trace ++ [Event.avcodec_decode_video2 false] }
    if d.ret < 0 then
      { aborted := true, current := current, got_picture := d.got_picture,
        picture := d.picture, hp := hp, w := w }
    else
      let current := current + 1
      let hp := if d.got_picture = 0 then { hp with delay_count := hp.delay_count + 1 } else hp
      if current ≤ goal then get_picture_flush L goal fuel current d.got_picture d.picture hp w
      else
        { aborted := false, current := current, got_picture := d.got_picture,
          picture := d.picture, hp := hp, w := w }

/-- Result of `get_picture`: return value (0 or -1), `*picture`, updated state. -/
structure GetPictureResult (σ : Type) where
  ret : Int
  picture : AVFrame
  hp : libav_handler_t
  w : VideoWorld σ

/-- Translation of `get_picture`. -/
def get_picture {σ : Type} (L : Libav σ) (hp : libav_handler_t) (w : VideoWorld σ)
    (picture : AVFrame) (current goal video_sample_count : Nat) : GetPictureResult σ :=
  let hp :=
    if hp.decode_status = decode_status_t.DECODE_INITIALIZING then
      (if hp.delay_count > DECODER_DELAY w then { hp with delay_count := hp.delay_count - 1 }
       else { hp with decode_status := decode_status_t.DECODE_INITIALIZED })
    else hp
  let r := get_picture_loop L goal (goal - current + 1) current 0 picture hp w
  if r.aborted then { ret := -1, picture := r.picture, hp := r.hp, w := r.w }
  else
    let r :=
      if r.current > video_sample_count ∧ r.got_picture = 0 ∧ DECODER_DELAY r.w ≠ 0 then
        get_picture_flush L goal (goal - r.current + 1) r.current r.got_picture r.picture r.hp r.w
      else r
    if r.aborted then { ret := -1, picture := r.picture, hp := r.hp, w := r.w }
    else
      let hp :=
        if r.hp.decode_status = decode_status_t.DECODE_REQUIRE_INITIAL
        then { r.hp with decode_status := decode_status_t.DECODE_INITIALIZING } else r.hp
      { ret := if r.got_picture ≠ 0 then 0 else -1, picture := r.picture, hp := hp, w := r.w }

/-- The constant `MAX_ERROR_COUNT` of `read_video`. -/
def MAX_ERROR_COUNT : Nat := 3

/-- State on leaving the `while` loop of `read_video`; `failed` marks the jump to
`video_fail`. -/
structure RetryResult (σ : Type) where
  failed : Bool
  picture : AVFrame
  hp : libav_handler_t
  w : VideoWorld σ

/-- The loop `while( start_number == 0 || get_picture( ... ) )` of `read_video`
with its retry body.  Each pass either leaves the loop, raises `error_count`
towards `MAX_ERROR_COUNT`, or switches `seek_mode` to aggressive, so six units of
`fuel` are never used up. -/
def read_video_retry {σ : Type} (L : Libav σ) (h : lsmash_handler_t) (sample_number : Nat) :
    Nat → Nat → Nat → Nat → Int → Nat → AVFrame → libav_handler_t → VideoWorld σ →
    RetryResult σ
  | 0, _, _, _, _, _, picture, hp, w => { failed := true, picture := picture, hp := hp, w := w }
  | fuel + 1, seek_mode, error_count, rap_number, rap_pos, start_number, picture, hp, w =>
    let g : GetPictureResult σ :=
      if start_number = 0 then { ret := -1, picture := picture, hp := hp, w := w }
      else get_picture L hp w picture start_number (sample_number + hp.delay_count)
             h.video_sample_count
    if start_number = 0 ∨ g.ret ≠ 0 then
      if seek_mode = SEEK_MODE_AGGRESSIVE then
        { failed := true, picture := g.picture, hp := g.hp, w := g.w }
      else
        let error_count := error_count + 1
        if error_count > MAX_ERROR_COUNT ∨ rap_number ≤ 1 then
          if seek_mode = SEEK_MODE_UNSAFE then
            { failed := true, picture := g.picture, hp := g.hp, w := g.w }
          else
            let seek_mode := SEEK_MODE_AGGRESSIVE
            let s := seek_video L g.hp g.w g.picture sample_number rap_number rap_pos
                       (decide (seek_mode ≠ SEEK_MODE_NORMAL))
            read_video_retry L h sample_number fuel seek_mode error_count rap_number rap_pos
              s.ret s.picture s.hp s.w
        else
          let f := find_random_accessible_point h g.hp sample_number (rap_number - 1)
          let s := seek_video L f.2.2 g.w g.picture sample_number f.2.1 f.1
                     (decide (seek_mode ≠ SEEK_MODE_NORMAL))
          read_video_retry L h sample_number fuel seek_mode error_count f.2.1 f.1
            s.ret s.picture s.hp s.w
    else { failed := false, picture := g.picture, hp := g.hp, w := g.w }

/-- Result of `read_video`: the returned byte count, the bytes stored in `buf`,
the updated state, and whether the call left through `video_fail`. -/
structure ReadVideoResult (σ : Type) where
  ret : Int
  buf : List Nat
  failed : Bool
  hp : libav_handler_t
  w : VideoWorld σ

/-- The part of `read_video` from the test `sample_number == hp->last_video_frame_number + 1`
to the end of the `while` loop; `sample_number` is already 1-origin. -/
def read_video_decode {σ : Type} (L : Libav σ) (h : lsmash_handler_t) (hp : libav_handler_t)
    (w : VideoWorld σ) (sample_number : Nat) : RetryResult σ :=
  let seek_mode := hp.seek_mode
  if sample_number = hp.last_video_frame_number + 1 then
    read_video_retry L h sample_number 6 seek_mode 0 hp.last_rap_number INT64_MIN
      (sample_number + hp.delay_count) [] hp w
  else
    let f := find_random_accessible_point h hp sample_number 0
    let s := seek_video L f.2.2 w [] sample_number f.2.1 f.1
               (decide (seek_mode ≠ SEEK_MODE_NORMAL))
    read_video_retry L h sample_number 6 seek_mode 0 f.2.1 f.1 s.ret s.picture s.hp s.w

/-- The end of `read_video`: the statements after the `while` loop, or the label
`video_fail`. -/
def read_video_finish {σ : Type} (L : Libav σ) (sample_number : Nat) (r : RetryResult σ) :
    ReadVideoResult σ :=
  if r.failed then { ret := 0, buf := [], failed := true, hp := r.hp, w := r.w }
  else
    { ret := (L.convert_colorspace r.w r.picture).1, buf := (L.convert_colorspace r.w r.picture).2,
      failed := false, hp := { r.hp with last_video_frame_number := sample_number }, w := r.w }

/-- Translation of `read_video`; `sample_number` is the host's 0-origin number. -/
def read_video {σ : Type} (L : Libav σ) (h : lsmash_handler_t) (hp : libav_handler_t)
    (w : VideoWorld σ) (sample_number : Nat) : ReadVideoResult σ :=
  let sample_number := sample_number + 1
  if sample_number < hp.first_valid_video_frame_number then
    { ret := hp.first_valid_video_frame_size,
      buf := hp.first_valid_video_frame_data.take hp.first_valid_video_frame_size,
      failed := false,
      hp := { hp with last_video_frame_number := h.video_sample_count + 1 }, w := w }
  else read_video_finish L sample_number (read_video_decode L h hp w sample_number)

/-! ## The libav boundary for audio and `read_audio` -/

/-- Calls the audio sequencer makes, in order. -/
inductive AudioEvent where
  | av_seek_frame (timestamp : Int) (flags : Nat)
  | flush_buffers
  | get_sample
  | avcodec_decode_audio3
deriving DecidableEq, Repr

/-- State behind `hp->audio_format` and `hp->audio_ctx`. -/
structure AudioWorld (σ : Type) where
  packets : List AVPacket
  cursor : Nat
  priv : σ
  trace : List AudioEvent

/-- Outcome of `avcodec_decode_audio3`: the returned `wasted_data_length` and the
bytes stored at the head of the output buffer (`output_buffer_size` of them). -/
structure AudioDecodeResult (σ : Type) where
  wasted_data_length : Int
  output : List Nat
  priv : σ

/-- The demux and decode primitives the audio sequencer calls. -/
structure LibavAudio (σ : Type) where
  av_seek_frame : AudioWorld σ → Int → Int → Nat → SeekResult σ
  avcodec_decode_audio3 : AudioWorld σ → AVPacket → AudioDecodeResult σ
  avcodec_reopen : AudioWorld σ → σ

/-- The `min` macro applied to an unsigned left operand and an `int` right
operand: the comparison is unsigned. -/
def umin (a : Nat) (b : Int) (width : Nat) : Nat :=
  let b := (b % (2 ^ width : Int)).toNat
  if a < b then a else b

/-- Store `bytes` at the head of a buffer. -/
def store_head (buffer bytes : List Nat) : List Nat :=
  bytes ++ buffer.drop bytes.length

/-- Frame search `do { ... } while( frame_number <= hp->audio_frame_count )` of
`read_audio`: final `frame_number`, `frame_length` and `next_frame_pos`. -/
def audio_find_frame (list : List audio_frame_info_t) (audio_frame_count : Nat) (start : Int) :
    Nat → Nat → Nat → Nat × Nat × Nat
  | 0, frame_number, next_frame_pos => (frame_number, 0, next_frame_pos)
  | fuel + 1, frame_number, next_frame_pos =>
    let frame_length : Nat := ((ainfo list frame_number).length % 4294967296).toNat
    let next_frame_pos := next_frame_pos + frame_length
    if start < (next_frame_pos : Int) then (frame_number, frame_length, next_frame_pos)
    else
      let frame_number := frame_number + 1
      if frame_number ≤ audio_frame_count then
        match fuel with
        | 0 => (frame_number, frame_length, next_frame_pos)
        | _ + 1 => audio_find_frame list audio_frame_count start fuel frame_number next_frame_pos
      else (frame_number, frame_length, next_frame_pos)

/-- Loop `while( hp->audio_frame_list[rap_number].file_offset == -1 ) --rap_number;`.
Element 0 is the zero record, whose offset is 0, so the walk ends there at the
latest. -/
def audio_rap_back (list : List audio_frame_info_t) : Nat → Nat
  | 0 => 0
  | rap_number + 1 =>
    if (ainfo list (rap_number + 1)).file_offset = -1 then audio_rap_back list rap_number
    else rap_number + 1

/-- One call of `get_sample` on the audio demuxer. -/
def audio_get_sample {σ : Type} (hp : libav_handler_t) (w : AudioWorld σ) :
    Option AVPacket × AudioWorld σ :=
  let r := get_sample hp.audio_index (w.packets.drop w.cursor) 0
  (r.1, { w with cursor := w.cursor + r.2, trace := w.trace ++ [AudioEvent.get_sample] })

/-- Loop `while( rap_number < frame_number ) { if( get_sample( ... ) ) break; ++rap_number; }`. -/
def audio_skip {σ : Type} (hp : libav_handler_t) : Nat → AudioWorld σ → AudioWorld σ
  | 0, w => w
  | n + 1, w =>
    let r := audio_get_sample hp w
    match r.1 with
    | none => r.2
    | some _ => audio_skip hp n r.2

/-- Locals and state of `read_audio` on reaching `audio_out`. -/
structure AudioLoopResult (σ : Type) where
  copy_size : Nat
  output_length : Int
  frame_number : Nat
  buf : List Nat
  hp : libav_handler_t
  w : AudioWorld σ

/-- The loops `do { ... while( pkt.size > 0 ) { ... } ++frame_number; } while( 1 )`
of `read_audio`.  `pkt = none` stands at the head of the outer loop, `some pkt` inside
the inner one.  `none` as result: `fuel` passes did not reach `audio_out`. -/
def audio_decode_loop {σ : Type} (A : LibavAudio σ) (block_align : Nat) :
    Nat → Option AVPacket → Nat → Nat → Int → Int → Nat → List Nat → libav_handler_t →
    AudioWorld σ → Option (AudioLoopResult σ)
  | 0, _, _, _, _, _, _, _, _, _ => none
  | fuel + 1, none, _, data_offset, wanted_length, output_length, frame_number, buf, hp, w =>
    let r := audio_get_sample hp w
    match r.1 with
    | none =>
      some { copy_size := 0, output_length := output_length, frame_number := frame_number,
             buf := buf, hp := hp, w := r.2 }
    | some pkt =>
      audio_decode_loop A block_align fuel (some pkt) 0 data_offset wanted_length output_length
        frame_number buf hp r.2
  | fuel + 1, some pkt, copy_size, data_offset, wanted_length, output_length, frame_number,
      buf, hp, w =>
    if pkt.size > 0 then
      let d := A.avcodec_decode_audio3 w pkt
      let output_buffer_size := d.output.length
      let hp := { hp with audio_output_buffer := store_head hp.audio_output_buffer d.output }
      let w := { w with priv := d.priv, trace := w.trace ++ [AudioEvent.avcodec_decode_audio3] }
      if d.wasted_data_length < 0 then
        some { copy_size := copy_size, output_length := output_length,
               frame_number := frame_number, buf := buf, hp := hp, w := w }
      else
        let pkt := { pkt with size := pkt.size - d.wasted_data_length,
                              data := pkt.data.drop d.wasted_data_length.toNat }
        if output_buffer_size > data_offset then
          let copy_size := umin (output_buffer_size - data_offset) (wanted_length * block_align) 64
          let buf := buf ++ (hp.audio_output_buffer.drop data_offset).take copy_size
          let copied_length : Int := (copy_size / block_align : Nat)
          let output_length := output_length + copied_length
          let wanted_length := wanted_length - copied_length
          if wanted_length ≤ 0 then
            some { copy_size := copy_size, output_length := output_length,
                   frame_number := frame_number, buf := buf,
                   hp := { hp with last_remainder_size := output_buffer_size - copy_size },
                   w := w }
          else
            audio_decode_loop A block_align fuel (some pkt) copy_size 0 wanted_length
              output_length frame_number buf hp w
        else
          let copy_size := 0
          let data_offset := data_offset - output_buffer_size
          if wanted_length ≤ 0 then
            some { copy_size := copy_size, output_length := output_length,
                   frame_number := frame_number, buf := buf,
                   hp := { hp with last_remainder_size := output_buffer_size - copy_size },
                   w := w }
          else
            audio_decode_loop A block_align fuel (some pkt) copy_size data_offset wanted_length
              output_length frame_number buf hp w
    else
      audio_decode_loop A block_align fuel none copy_size data_offset wanted_length
        output_length (frame_number + 1) buf hp w

/-- Result of `read_audio`: returned sample count, bytes stored in `buf`, state. -/
structure ReadAudioResult (σ : Type) where
  ret : Int
  buf : List Nat
  hp : libav_handler_t
  w : AudioWorld σ

/-- The code from the label `audio_out` to the end of `read_audio`. -/
def audio_out {σ : Type} (start : Int) (r : AudioLoopResult σ) : ReadAudioResult σ :=
  let hp := r.hp
  let hp :=
    if hp.last_remainder_size ≠ 0 ∧ r.copy_size ≠ 0 then
      let moved := (hp.audio_output_buffer.drop r.copy_size).take hp.last_remainder_size
      { hp with audio_output_buffer := store_head hp.audio_output_buffer moved }
    else hp
  let hp := { hp with next_audio_pcm_sample_number := (start + r.output_length).toNat,
                      last_audio_frame_number := r.frame_number }
  { ret := r.output_length, buf := r.buf, hp := hp, w := r.w }

/-- Translation of `read_audio`.  `fuel` bounds the passes of the decode loops;
`none` means they did not finish within it. -/
def read_audio {σ : Type} (A : LibavAudio σ) (fuel : Nat) (h : lsmash_handler_t)
    (hp : libav_handler_t) (w : AudioWorld σ) (start wanted_length : Int) :
    Option (ReadAudioResult σ) :=
  if start < hp.av_gap ∧ start + wanted_length < hp.av_gap then
    some { ret := 0, buf := [],
           hp := { hp with last_remainder_size := 0, last_audio_frame_number := 0,
                           next_audio_pcm_sample_number := h.audio_pcm_sample_count + 1 },
           w := w }
  else
    let start : Int := if start < hp.av_gap then hp.av_gap - start else start - hp.av_gap
    let block_align := h.nBlockAlign
    if start = (hp.next_audio_pcm_sample_number : Int) then
      let frame_number := hp.last_audio_frame_number
      if hp.last_remainder_size ≠ 0 then
        let copy_size := umin hp.last_remainder_size (wanted_length * block_align) 32
        let buf := hp.audio_output_buffer.take copy_size
        let hp := { hp with last_remainder_size := hp.last_remainder_size - copy_size }
        let copied_length : Int := (copy_size / block_align : Nat)
        let output_length : Int := copied_length
        let wanted_length := wanted_length - copied_length
        if wanted_length ≤ 0 then
          some (audio_out start
            { copy_size := copy_size, output_length := output_length,
              frame_number := frame_number, buf := buf, hp := hp, w := w })
        else
          (audio_decode_loop A block_align fuel none copy_size 0 wanted_length output_length
            (frame_number + 1) buf hp w).map (audio_out start)
      else
        (audio_decode_loop A block_align fuel none 0 0 wanted_length 0
          (frame_number + 1) [] hp w).map (audio_out start)
    else
      let hp := { hp with last_remainder_size := 0, next_audio_pcm_sample_number := 0,
                          last_audio_frame_number := 0 }
      let found := audio_find_frame hp.audio_frame_list hp.audio_frame_count start
                     (hp.audio_frame_count + 1) 1 0
      let frame_number := found.1
      let frame_length := found.2.1
      let next_frame_pos := found.2.2
      let data_offset : Nat :=
        ((start + (frame_length : Int) - (next_frame_pos : Int)) * (block_align : Int)).toNat
      let rap_number : Nat :=
        if hp.audio_seek_base &&& SEEK_FILE_OFFSET_BASED ≠ 0
        then audio_rap_back hp.audio_frame_list frame_number else frame_number
      let rap_pos : Int :=
        if hp.audio_seek_base &&& SEEK_FILE_OFFSET_BASED ≠ 0
        then (ainfo hp.audio_frame_list rap_number).file_offset
        else if hp.audio_seek_base &&& SEEK_PTS_BASED ≠ 0
        then (ainfo hp.audio_frame_list rap_number).pts
        else if hp.audio_seek_base &&& SEEK_DTS_BASED ≠ 0
        then (ainfo hp.audio_frame_list rap_number).dts
        else ((ainfo hp.audio_frame_list rap_number).sample_number : Int)
      let flags : Nat :=
        if hp.audio_seek_base &&& SEEK_FILE_OFFSET_BASED ≠ 0 then AVSEEK_FLAG_BYTE
        else if hp.audio_seek_base = 0 then AVSEEK_FLAG_FRAME else 0
      let s := A.av_seek_frame w hp.audio_index rap_pos (flags ||| AVSEEK_FLAG_BACKWARD)
      let w := { w with cursor := s.cursor, priv := s.priv,
                        trace := w.trace ++
                          [AudioEvent.av_seek_frame rap_pos (flags ||| AVSEEK_FLAG_BACKWARD)] }
      let w :=
        if s.ret < 0 then
          let s := A.av_seek_frame w hp.audio_index rap_pos
                     (flags ||| AVSEEK_FLAG_BACKWARD ||| AVSEEK_FLAG_ANY)
          { w with cursor := s.cursor, priv := s.priv,
                   trace := w.trace ++
                     [AudioEvent.av_seek_frame rap_pos
                        (flags ||| AVSEEK_FLAG_BACKWARD ||| AVSEEK_FLAG_ANY)] }
        else w
      let w := { w with priv := A.avcodec_reopen w,
                        trace := w.trace ++ [AudioEvent.flush_buffers] }
      let w := audio_skip hp (frame_number - rap_number) w
      (audio_decode_loop A block_align fuel none 0 data_offset wanted_length 0
        frame_number [] hp w).map (audio_out start)

/-! ## Measures used in the statements -/

/-- Whether a recorded call is an entry into `seek_video`. -/
def is_seek_video : Event → Bool
  | Event.seek_video _ _ _ _ => true
  | _ => false

/-- Number of `seek_video` attempts in a record of calls. -/
def seek_count (t : List Event) : Nat := t.countP is_seek_video

/-- Largest number of `seek_video` attempts one `read_video` call may make under
a seek policy. -/
def seek_budget (seek_mode : Nat) : Nat :=
  if seek_mode = SEEK_MODE_AGGRESSIVE then 1
  else if seek_mode = SEEK_MODE_UNSAFE then MAX_ERROR_COUNT + 1
  else MAX_ERROR_COUNT + 2

/-- Number of packets of `stream_index` among `packets`. -/
def unit_count (stream_index : Int) (packets : List AVPacket) : Nat :=
  packets.countP (fun p => decide (p.stream_index = stream_index))

/-- The 1-origin decode-order number of the next video unit the demuxer will
deliver: one more than the video packets before its read position. -/
def next_unit {σ : Type} (hp : libav_handler_t) (w : VideoWorld σ) : Nat :=
  unit_count hp.video_index (w.packets.take w.cursor) + 1

/-- `K` is the nearest keyframe at or before decode-order position `d`. -/
def nearest_keyframe (keyframe_list : List Nat) (d K : Nat) : Prop :=
  1 ≤ K ∧ K ≤ d ∧ kflag keyframe_list K ≠ 0 ∧ ∀ j, K < j → j ≤ d → kflag keyframe_list j = 0

/-! ## Synthetic streams

A small demuxer and decoder used to run the sequencers on concrete input.  The
demuxer seeks to the first packet whose `pts` is the requested timestamp.  The
decoder holds back `latency` pictures before it starts to emit them, reports an
error on a packet without payload, and hands out what it still holds when fed
the empty flush packet. -/

def synth_seek {σ : Type} (packets : List AVPacket) (cursor : Nat) (priv : σ)
    (timestamp : Int) : SeekResult σ :=
  match packets.findIdx? (fun p => decide (p.pts = timestamp)) with
  | some k => { ret := 0, cursor := k, priv := priv }
  | none => { ret := -1, cursor := cursor, priv := priv }

def synth_decode (latency : Nat) (w : VideoWorld (List AVFrame)) :
    Option AVPacket → DecodeResult (List AVFrame)
  | some pkt =>
    if pkt.data = [] then
      { ret := -1, got_picture := 0, picture := [], has_b_frames := w.has_b_frames,
        priv := w.priv }
    else if (w.priv ++ [pkt.data]).length > latency then
      { ret := pkt.size, got_picture := 1, picture := (w.priv ++ [pkt.data]).headD [],
        has_b_frames := w.has_b_frames, priv := (w.priv ++ [pkt.data]).tail }
    else
      { ret := pkt.size, got_picture := 0, picture := [], has_b_frames := w.has_b_frames,
        priv := w.priv ++ [pkt.data] }
  | none =>
    match w.priv with
    | [] => { ret := 0, got_picture := 0, picture := [], has_b_frames := w.has_b_frames,
              priv := [] }
    | f :: q => { ret := 0, got_picture := 1, picture := f, has_b_frames := w.has_b_frames,
                  priv := q }

def synth (latency : Nat) : Libav (List AVFrame) :=
  { av_seek_frame := fun w _ timestamp _ => synth_seek w.packets w.cursor w.priv timestamp,
    avcodec_decode_video2 := synth_decode latency,
    avcodec_reopen := fun w =>
      { has_b_frames := w.has_b_frames, active_thread_type := w.active_thread_type, priv := [] },
    convert_colorspace := fun _ picture => ((picture.length : Int), picture) }

/-- Video packet number `n` of stream 0 with `pts = dts = pos = n`. -/
def vpkt (n : Nat) (flags : Nat) (data : List Nat) : AVPacket :=
  { stream_index := 0, pts := n, dts := n, pos := n, flags := flags, duration := 1,
    size := data.length, data := data }

/-- Video packet of stream 0 with the given `pts`, numbered `n` in decode order. -/
def vpkt_pts (n : Nat) (pts : Int) (flags : Nat) : AVPacket :=
  { stream_index := 0, pts := pts, dts := n, pos := n, flags := flags, duration := 1,
    size := 1, data := [n] }

/-- A freshly opened video world on `packets` whose decoder declares `has_b_frames`. -/
def synth_world (packets : List AVPacket) (has_b_frames : Nat) : VideoWorld (List AVFrame) :=
  { packets := packets, cursor := 0, has_b_frames := has_b_frames, active_thread_type := 0,
    thread_count := 1, skip_frame := AVDISCARD_DEFAULT, priv := [], trace := [] }

/-- The handles after `open_file`, `get_first_video_track( h, seek_mode )` and
`prepare_video_decoding` on an mp4 container holding `packets`, with the first
valid frame at sample 1. -/
def synth_handle (packets : List AVPacket) (seek_mode : Nat) :
    lsmash_handler_t × libav_handler_t :=
  let hp := create_index_video "mp4" 0 packets libav_handler_zero
  ({ framerate_num := 0, framerate_den := 0, video_sample_count := hp.video_frame_count,
     audio_pcm_sample_count := 0, nBlockAlign := 1 },
   { hp with seek_mode := seek_mode, first_valid_video_frame_number := 1,
             last_video_frame_number := hp.video_frame_count + 1 })

/-- `read_video` on a synthetic stream right after it was opened. -/
def synth_read (latency has_b_frames : Nat) (packets : List AVPacket) (seek_mode : Nat)
    (sample_number : Nat) : ReadVideoResult (List AVFrame) :=
  read_video (synth latency) (synth_handle packets seek_mode).1
    (synth_handle packets seek_mode).2 (synth_world packets has_b_frames) sample_number

/-- Audio decoder and demuxer of the synthetic streams: a packet decodes in one
call to its payload, taken as PCM bytes. -/
def synth_audio : LibavAudio Unit :=
  { av_seek_frame := fun w _ timestamp _ => synth_seek w.packets w.cursor () timestamp,
    avcodec_decode_audio3 := fun _ pkt =>
      { wasted_data_length := pkt.size, output := pkt.data, priv := () },
    avcodec_reopen := fun _ => () }

/-- Audio packet of stream 1 whose payload is its PCM data. -/
def apkt (pts : Int) (data : List Nat) : AVPacket :=
  { stream_index := 1, pts := pts, dts := pts, pos := pts, flags := 1,
    duration := data.length, size := data.length, data := data }

/-- Two audio frames of four one-byte samples each. -/
def audio_packets : List AVPacket := [apkt 0 [10, 11, 12, 13], apkt 4 [14, 15, 16, 17]]

def audio_world : AudioWorld Unit :=
  { packets := audio_packets, cursor := 0, priv := (), trace := [] }

/-- Host handle for `audio_packets`: 8 PCM samples, one byte per sample. -/
def audio_h : lsmash_handler_t :=
  { framerate_num := 0, framerate_den := 0, video_sample_count := 0,
    audio_pcm_sample_count := 8, nBlockAlign := 1 }

/-- Handler for `audio_packets` after index construction and
`prepare_audio_decoding`, with sync offset `av_gap`. -/
def audio_hp (av_gap : Int) : libav_handler_t :=
  { libav_handler_zero with
    audio_index := 1, audio_frame_count := 2, audio_frame_length := 4,
    audio_frame_list :=
      [audio_zero, { length := 4, sample_number := 0, pts := 0, dts := 0, file_offset := 0 },
       { length := 4, sample_number := 0, pts := 4, dts := 4, file_offset := 4 }],
    audio_seek_base := SEEK_DTS_BASED ||| SEEK_PTS_BASED, next_audio_pcm_sample_number := 9,
    audio_output_buffer := List.replicate AVCODEC_MAX_AUDIO_FRAME_SIZE 0, av_gap := av_gap }

/-- Two `read_audio` calls in a row on `audio_packets`, `[s, s + a)` then
`[s + a, s + a + b)`: the bytes of both, and the calls the second one made. -/
def audio_read_twice (s a b : Int) : Option (List Nat × List AudioEvent) :=
  match read_audio synth_audio 20 audio_h (audio_hp 0) audio_world s a with
  | none => none
  | some r1 =>
    match read_audio synth_audio 20 audio_h r1.hp r1.w (s + a) b with
    | none => none
    | some r2 => some (r1.buf ++ r2.buf, r2.w.trace.drop r1.w.trace.length)

/-- One `read_audio` call on `audio_packets`: the bytes stored. -/
def audio_read_once (s n : Int) : Option (List Nat) :=
  (read_audio synth_audio 20 audio_h (audio_hp 0) audio_world s n).map (fun r => r.buf)

/-- Decode order I, P, B (presentation times 0, 2, 1): the last two units are
shown in the reverse of their decode order. -/
def ipb_packets : List AVPacket := [vpkt_pts 1 0 1, vpkt_pts 2 2 0, vpkt_pts 3 1 0]

/-- A keyframe, a unit shown before it, and a later unit. -/
def leading_packets : List AVPacket := [vpkt_pts 1 10 1, vpkt_pts 2 5 0, vpkt_pts 3 20 0]

/-- Decode order K(10), P(40), K(30), P(50): the second keyframe is shown before
the unit decoded ahead of it. -/
def crossing_packets : List AVPacket :=
  [vpkt_pts 1 10 1, vpkt_pts 2 40 0, vpkt_pts 3 30 1, vpkt_pts 4 50 0]

/-- Decode order K(10), K(50), L(40), P(60): the third unit is shown before the
keyframe decoded just ahead of it. -/
def open_gop_packets : List AVPacket :=
  [vpkt_pts 1 10 1, vpkt_pts 2 50 1, vpkt_pts 3 40 0, vpkt_pts 4 60 0]

/-- The record `t2` continues `t1` by calls none of which enters `seek_video`. -/
def no_seek_ext (t1 t2 : List Event) : Prop :=
  ∃ u, t2 = t1 ++ u ∧ seek_count u = 0

/-- The record `t2` continues `t1` by calls of which at most `n` enter `seek_video`. -/
def seek_ext (n : Nat) (t1 t2 : List Event) : Prop :=
  ∃ u, t2 = t1 ++ u ∧ seek_count u ≤ n

/-- Number of further `seek_video` attempts the retry loop of `read_video` may
still make, given the policy in force and the errors counted so far. -/
def retry_budget (seek_mode error_count : Nat) : Nat :=
  if seek_mode = SEEK_MODE_AGGRESSIVE then 0
  else if seek_mode = SEEK_MODE_UNSAFE then MAX_ERROR_COUNT - error_count
  else MAX_ERROR_COUNT - error_count + 1

/-- The first attempt of `read_video` on its seek path: the locator's answer
followed by `seek_video`. -/
def first_seek {σ : Type} (L : Libav σ) (h : lsmash_handler_t) (hp : libav_handler_t)
    (w : VideoWorld σ) (sample_number : Nat) : SeekVideoResult σ :=
  seek_video L (find_random_accessible_point h hp sample_number 0).2.2 w [] sample_number
    (find_random_accessible_point h hp sample_number 0).2.1
    (find_random_accessible_point h hp sample_number 0).1
    (decide (hp.seek_mode ≠ SEEK_MODE_NORMAL))

/-- The first attempt fails to yield the requested picture: `seek_video` returned 0
or the `get_picture` that follows it returned non-zero. -/
def first_attempt_fails {σ : Type} (L : Libav σ) (h : lsmash_handler_t) (hp : libav_handler_t)
    (w : VideoWorld σ) (sample_number : Nat) : Prop :=
  (first_seek L h hp w sample_number).ret = 0 ∨
  (get_picture L (first_seek L h hp w sample_number).hp (first_seek L h hp w sample_number).w
      (first_seek L h hp w sample_number).picture (first_seek L h hp w sample_number).ret
      (sample_number + (first_seek L h hp w sample_number).hp.delay_count)
      h.video_sample_count).ret ≠ 0

/-- Five units, all keyframes, none of which decodes. -/
def broken_packets : List AVPacket :=
  [vpkt 1 1 [], vpkt 2 1 [], vpkt 3 1 [], vpkt 4 1 [], vpkt 5 1 []]

/-- Keyframes at units 1 and 3; unit 4 does not decode. -/
def late_error_packets : List AVPacket :=
  [vpkt 1 1 [11], vpkt 2 0 [12], vpkt 3 1 [13], vpkt 4 0 []]

/-- The decoder keeps the context fields behind `DECODER_DELAY` as they are:
decoding a packet leaves `has_b_frames`, and reopening the codec leaves
`has_b_frames` and `active_thread_type`. -/
def const_delay {σ : Type} (L : Libav σ) : Prop :=
  (∀ (w : VideoWorld σ) (pkt : Option AVPacket),
    (L.avcodec_decode_video2 w pkt).has_b_frames = w.has_b_frames) ∧
  (∀ w : VideoWorld σ, (L.avcodec_reopen w).has_b_frames = w.has_b_frames ∧
    (L.avcodec_reopen w).active_thread_type = w.active_thread_type)

/-- The demuxer honours seek keys exactly on the container `packets`: whenever
`av_seek_frame` succeeds for the key the locator derives from decode-order number
`rap_number`, the next unit it delivers is unit `rap_number`. -/
def exact_seek {σ : Type} (L : Libav σ) (h : lsmash_handler_t) (hp : libav_handler_t)
    (packets : List AVPacket) : Prop :=
  ∀ (w : VideoWorld σ) (rap_number flags : Nat), w.packets = packets →
    0 ≤ (L.av_seek_frame w hp.video_index
          (rap_pos_of h.video_sample_count hp.video_frame_list hp.video_seek_base rap_number)
          flags).ret →
    unit_count hp.video_index
      (packets.take (L.av_seek_frame w hp.video_index
          (rap_pos_of h.video_sample_count hp.video_frame_list hp.video_seek_base rap_number)
          flags).cursor) + 1 = rap_number

/-- The index fields of the handler are those of `hp`. -/
def same_index (hp hp2 : libav_handler_t) : Prop :=
  hp2.video_index = hp.video_index ∧ hp2.video_frame_list = hp.video_frame_list ∧
  hp2.keyframe_list = hp.keyframe_list ∧ hp2.video_seek_base = hp.video_seek_base

/-- The world reads the same container with the same decoder delay as `w`. -/
def same_stream {σ : Type} (w w2 : VideoWorld σ) : Prop :=
  w2.packets = w.packets ∧ DECODER_DELAY w2 = DECODER_DELAY w

/-- Two units; the decoder declares one picture of delay and holds back two. -/
def short_packets : List AVPacket := [vpkt 1 1 [11], vpkt 2 0 [12]]

/-- Three units, the first a keyframe. -/
def plain_packets : List AVPacket := [vpkt 1 1 [11], vpkt 2 0 [12], vpkt 3 0 [13]]

/-- Reading sample 0 of `plain_packets` right after opening, with a decoder of one
picture of delay that declares it. -/
def plain_first : ReadVideoResult (List AVFrame) := synth_read 1 1 plain_packets 0 0

/-- Reading sample 0 of `short_packets` right after opening, with a decoder that
declares one picture of delay and holds back two. -/
def short_first : ReadVideoResult (List AVFrame) := synth_read 2 1 short_packets 0 0

/-- The packet that is unit `c` (1-origin, decode order) of stream `stream_index`. -/
def unit_packet (stream_index : Int) (packets : List AVPacket) (c : Nat) : Option AVPacket :=
  (packets.filter (fun p => decide (p.stream_index = stream_index)))[c - 1]?

/-- The demuxer accepts every seek to the key of one of the units `1..limit`. -/
def seek_succeeds {σ : Type} (L : Libav σ) (h : lsmash_handler_t) (hp : libav_handler_t)
    (packets : List AVPacket) (limit : Nat) : Prop :=
  ∀ (w : VideoWorld σ) (rap_number flags : Nat), w.packets = packets →
    1 ≤ rap_number → rap_number ≤ limit →
    0 ≤ (L.av_seek_frame w hp.video_index
          (rap_pos_of h.video_sample_count hp.video_frame_list hp.video_seek_base rap_number)
          flags).ret

/-- Unit `c` decodes without error and yields a picture, whatever the decoder holds. -/
def unit_yields_picture {σ : Type} (L : Libav σ) (stream_index : Int) (packets : List AVPacket)
    (c : Nat) : Prop :=
  ∀ (w : VideoWorld σ) (pkt : AVPacket), unit_packet stream_index packets c = some pkt →
    0 ≤ (L.avcodec_decode_video2 w (some pkt)).ret ∧
    (L.avcodec_decode_video2 w (some pkt)).got_picture ≠ 0

/-- Unit `c` is poisoned: the decoder reports an error on it, whatever it holds. -/
def unit_fails {σ : Type} (L : Libav σ) (stream_index : Int) (packets : List AVPacket)
    (c : Nat) : Prop :=
  ∀ (w : VideoWorld σ) (pkt : AVPacket), unit_packet stream_index packets c = some pkt →
    (L.avcodec_decode_video2 w (some pkt)).ret < 0

/-- Three units; the keyframe at unit 1 does not decode. -/
def poisoned_packets : List AVPacket := [vpkt 1 1 [], vpkt 2 0 [12], vpkt 3 0 [13]]

/-- Stream with an unknown presentation time: a keyframe without `pts` followed
by a unit with `pts = 2`; both have their `dts`. -/
def nopts_packets : List AVPacket :=
  [{ stream_index := 0, pts := AV_NOPTS_VALUE, dts := 1, pos := 1, flags := 1, duration := 1,
     size := 1, data := [1] },
   { stream_index := 0, pts := 2, dts := 2, pos := 2, flags := 0, duration := 1,
     size := 1, data := [2] }]

/-! ## Index builder (audio part of `create_index`) and addressing mode -/

/-- Value of `INT32_MAX`. -/
def INT32_MAX : Nat := 2147483647

/-- What the scan of `create_index` asks of the audio codec context and parser
while it measures a frame.  `parser_set` says whether `hp->audio_parser` is set
(`av_parser_init` is tried when `frame_size` is 0 before the scan);
`sample_bytes` is `av_get_bytes_per_sample( sample_fmt ) * channels`. -/
structure AudioProbe (σ : Type) where
  frame_size : σ → Int
  parser_set : Bool
  av_parser_parse2 : σ → AVPacket → σ
  parser_duration : σ → Int
  avcodec_decode_audio3 : σ → AVPacket → Int × Int × σ
  sample_bytes : σ → Int

/-- The measuring loop `while( temp.size > 0 ) { ... }` of `create_index`: decodes
the packet piece by piece and adds up the decoded lengths.  A pass that goes on
has taken at least one byte, so `fuel = pkt.size` is never used up. -/
def measure_frame_length {σ : Type} (P : AudioProbe σ) :
    Nat → AVPacket → Int → σ → Int × σ
  | 0, _, frame_length, s => (frame_length, s)
  | fuel + 1, temp, frame_length, s =>
    if temp.size > 0 then
      let d := P.avcodec_decode_audio3 s temp
      let wasted_data_length := d.1
      let output_buffer_size := d.2.1
      let s := d.2.2
      if wasted_data_length ≤ 0 then (frame_length, s)
      else
        let temp := { temp with size := temp.size - wasted_data_length,
                                data := temp.data.drop wasted_data_length.toNat }
        let frame_length :=
          if output_buffer_size > 0
          then frame_length + Int.tdiv output_buffer_size (P.sample_bytes s)
          else frame_length
        measure_frame_length P fuel temp frame_length s
    else (frame_length, s)

/-- The statements under `/* Get frame_length. */` in `create_index`. -/
def get_frame_length {σ : Type} (P : AudioProbe σ) (s : σ) (pkt : AVPacket) : Int × σ :=
  let s := if P.parser_set then P.av_parser_parse2 s pkt else s
  let frame_length : Int :=
    if P.frame_size s ≠ 0 then P.frame_size s
    else if P.parser_set ∧ P.parser_duration s ≠ 0 then P.parser_duration s
    else pkt.duration
  if frame_length = 0 then measure_frame_length P pkt.size.toNat pkt frame_length s
  else (frame_length, s)

/-- Locals of `create_index` that the audio branch of the scan updates. -/
structure AudioScan (σ : Type) where
  audio_info : List audio_frame_info_t
  audio_sample_count : Nat
  constant_frame_length : Bool
  frame_length : Int
  audio_duration : Nat
  probe : σ

/-- Audio branch of the scanning loop of `create_index`.  `audio_info` holds the
records written so far after the zero record; `audio_duration` is a `uint64_t`.
The scan never assigns `sample_number`: the field keeps the zero of `malloc_zero`. -/
def scan_audio {σ : Type} (P : AudioProbe σ) (video_index audio_index : Int) :
    List AVPacket → AudioScan σ → AudioScan σ
  | [], st => st
  | pkt :: rest, st =>
    if 0 ≤ video_index ∧ pkt.stream_index = video_index then
      scan_audio P video_index audio_index rest st
    else if 0 ≤ audio_index ∧ pkt.stream_index = audio_index ∧
        st.audio_duration ≤ INT32_MAX then
      let g := get_frame_length P st.probe pkt
      let frame_length := g.1
      let audio_duration := (((st.audio_duration : Int) + frame_length) % 2 ^ 64).toNat
      if audio_duration > INT32_MAX then
        scan_audio P video_index audio_index rest
          { st with frame_length := frame_length, audio_duration := audio_duration,
                    probe := g.2 }
      else
        let r : audio_frame_info_t :=
          { pts := pkt.pts, dts := pkt.dts, file_offset := pkt.pos, length := frame_length,
            sample_number := 0 }
        let constant_frame_length :=
          if st.audio_sample_count + 1 > 1 ∧
              frame_length ≠ (ainfo (audio_zero :: st.audio_info) st.audio_sample_count).length
          then false else st.constant_frame_length
        scan_audio P video_index audio_index rest
          { audio_info := st.audio_info ++ [r],
            audio_sample_count := st.audio_sample_count + 1,
            constant_frame_length := constant_frame_length, frame_length := frame_length,
            audio_duration := audio_duration, probe := g.2 }
    else scan_audio P video_index audio_index rest st

/-- Body of `decide_audio_seek_method`: returns `audio_seek_base` and the resolved
`audio_frame_list`. -/
def decide_audio_seek_method (iformat_name : String) (iformat_flags : Nat)
    (info : List audio_frame_info_t) (sample_count : Nat) :
    Nat × List audio_frame_info_t :=
  let base0 : Nat :=
    if iformat_name = "mpeg" ∨ iformat_name = "mpegts"
    then SEEK_DTS_BASED ||| SEEK_PTS_BASED ||| SEEK_FILE_OFFSET_BASED
    else SEEK_DTS_BASED ||| SEEK_PTS_BASED
  let base1 : Nat :=
    if (List.range' 1 sample_count).any (fun i => decide ((ainfo info i).pts = AV_NOPTS_VALUE))
    then clear_flag base0 SEEK_PTS_BASED else base0
  let base2 : Nat :=
    if (List.range' 1 sample_count).any (fun i => decide ((ainfo info i).dts = AV_NOPTS_VALUE))
    then clear_flag base1 SEEK_DTS_BASED else base1
  let base3 : Nat :=
    if base2 &&& SEEK_FILE_OFFSET_BASED ≠ 0 then
      (if iformat_flags &&& AVFMT_NO_BYTE_SEEK ≠ 0 then clear_flag base2 SEEK_FILE_OFFSET_BASED
       else if (List.range' 1 sample_count).countP
                 (fun i => decide ((ainfo info i).file_offset = -1)) = sample_count
       then clear_flag base2 SEEK_FILE_OFFSET_BASED else base2)
    else base2
  if base3 &&& SEEK_PTS_BASED = 0 ∧ base3 &&& SEEK_DTS_BASED ≠ 0 then
    (base3, info.take 1 ++ ((info.drop 1).take sample_count).map (fun r => { r with pts := r.dts })
              ++ info.drop (1 + sample_count))
  else (base3, info)

/-- Audio part of `create_index` on a container whose `av_read_frame` yields
`packets`: fills `audio_frame_length`, `audio_frame_list`, `audio_frame_count`
and `audio_seek_base` of the handler (no allocation fails).  The sync offset
`av_gap`, computed last from both tracks with `av_rescale_q`, is left as it is. -/
def create_index_audio {σ : Type} (P : AudioProbe σ) (s : σ) (iformat_name : String)
    (iformat_flags : Nat) (packets : List AVPacket) (hp : libav_handler_t) : libav_handler_t :=
  let st := scan_audio P hp.video_index hp.audio_index packets
    { audio_info := [], audio_sample_count := 0, constant_frame_length := true,
      frame_length := 0, audio_duration := 0, probe := s }
  let audio_info := audio_zero :: st.audio_info
  let res := decide_audio_seek_method iformat_name iformat_flags audio_info st.audio_sample_count
  { hp with audio_frame_length :=
              if st.constant_frame_length then (st.frame_length % 2 ^ 32).toNat else 0,
            audio_frame_list := res.2, audio_frame_count := st.audio_sample_count,
            audio_seek_base := res.1 }

/-- Locals and state of `read_audio` after the statements under
`/* Seek audio stream. */`, on entry to the decode loop. -/
structure AudioSeekResult (σ : Type) where
  frame_number : Nat
  data_offset : Nat
  rap_number : Nat
  rap_pos : Int
  hp : libav_handler_t
  w : AudioWorld σ

/-- The seek branch of `read_audio`, from `/* Seek audio stream. */` to the end of
the loop that discards the units before the target frame; `start` is the start
already adjusted by `av_gap`. -/
def read_audio_seek {σ : Type} (A : LibavAudio σ) (block_align : Nat) (hp : libav_handler_t)
    (w : AudioWorld σ) (start : Int) : AudioSeekResult σ :=
  let hp := { hp with last_remainder_size := 0, next_audio_pcm_sample_number := 0,
                      last_audio_frame_number := 0 }
  let found := audio_find_frame hp.audio_frame_list hp.audio_frame_count start
                 (hp.audio_frame_count + 1) 1 0
  let frame_number := found.1
  let frame_length := found.2.1
  let next_frame_pos := found.2.2
  let data_offset : Nat :=
    ((start + (frame_length : Int) - (next_frame_pos : Int)) * (block_align : Int)).toNat
  let rap_number : Nat :=
    if hp.audio_seek_base &&& SEEK_FILE_OFFSET_BASED ≠ 0
    then audio_rap_back hp.audio_frame_list frame_number else frame_number
  let rap_pos : Int :=
    if hp.audio_seek_base &&& SEEK_FILE_OFFSET_BASED ≠ 0
    then (ainfo hp.audio_frame_list rap_number).file_offset
    else if hp.audio_seek_base &&& SEEK_PTS_BASED ≠ 0
    then (ainfo hp.audio_frame_list rap_number).pts
    else if hp.audio_seek_base &&& SEEK_DTS_BASED ≠ 0
    then (ainfo hp.audio_frame_list rap_number).dts
    else ((ainfo hp.audio_frame_list rap_number).sample_number : Int)
  let flags : Nat :=
    if hp.audio_seek_base &&& SEEK_FILE_OFFSET_BASED ≠ 0 then AVSEEK_FLAG_BYTE
    else if hp.audio_seek_base = 0 then AVSEEK_FLAG_FRAME else 0
  let s := A.av_seek_frame w hp.audio_index rap_pos (flags ||| AVSEEK_FLAG_BACKWARD)
  let w := { w with cursor := s.cursor, priv := s.priv,
                    trace := w.trace ++
                      [AudioEvent.av_seek_frame rap_pos (flags ||| AVSEEK_FLAG_BACKWARD)] }
  let w :=
    if s.ret < 0 then
      let s := A.av_seek_frame w hp.audio_index rap_pos
                 (flags ||| AVSEEK_FLAG_BACKWARD ||| AVSEEK_FLAG_ANY)
      { w with cursor := s.cursor, priv := s.priv,
               trace := w.trace ++
                 [AudioEvent.av_seek_frame rap_pos
                    (flags ||| AVSEEK_FLAG_BACKWARD ||| AVSEEK_FLAG_ANY)] }
    else w
  let w := { w with priv := A.avcodec_reopen w,
                    trace := w.trace ++ [AudioEvent.flush_buffers] }
  let w := audio_skip hp (frame_number - rap_number) w
  { frame_number := frame_number, data_offset := data_offset, rap_number := rap_number,
    rap_pos := rap_pos, hp := hp, w := w }

/-- Sum of the indexed lengths of audio frames `1..k`. -/
def audio_length_sum (list : List audio_frame_info_t) : Nat → Int
  | 0 => 0
  | k + 1 => audio_length_sum list k + (ainfo list (k + 1)).length

/-- Probe of the synthetic audio codec: no fixed frame size and no parser, so a
frame lasts `pkt.duration` samples; a packet of duration 0 is measured by decoding
it whole, one byte per sample. -/
def synth_probe : AudioProbe Unit :=
  { frame_size := fun _ => 0, parser_set := false, av_parser_parse2 := fun s _ => s,
    parser_duration := fun _ => 0,
    avcodec_decode_audio3 := fun s pkt => (pkt.size, pkt.size, s),
    sample_bytes := fun _ => 1 }

/-- Audio packet of stream 1 with the given timestamps and byte position; its
payload is its PCM data. -/
def apkt_at (pts dts pos : Int) (data : List Nat) : AVPacket :=
  { stream_index := 1, pts := pts, dts := dts, pos := pos, flags := 1,
    duration := data.length, size := data.length, data := data }

/-- Handler after `create_index` on a synthetic container named `name` holding
`packets`, with the audio track at stream 1 and the output buffer allocated. -/
def synth_audio_index (name : String) (packets : List AVPacket) : libav_handler_t :=
  create_index_audio synth_probe () name 0 packets
    { libav_handler_zero with
      audio_index := 1,
      audio_output_buffer := List.replicate AVCODEC_MAX_AUDIO_FRAME_SIZE 0 }

/-- Two audio frames of two samples whose presentation times run three ticks
ahead of their decode times. -/
def shifted_audio_packets : List AVPacket :=
  [apkt_at 3 0 0 [10, 11], apkt_at 5 2 100 [12, 13]]

/-- Two audio frames of two samples without timestamps. -/
def untimed_audio_packets : List AVPacket :=
  [apkt_at AV_NOPTS_VALUE AV_NOPTS_VALUE 0 [10, 11],
   apkt_at AV_NOPTS_VALUE AV_NOPTS_VALUE 100 [12, 13]]

/-- Two audio frames of two samples in a file of 100-byte packets; the byte
position of the first is unknown. -/
def unplaced_audio_packets : List AVPacket :=
  [apkt_at 0 0 (-1) [10, 11], apkt_at 2 2 100 [12, 13]]

/-- Demuxer of a synthetic file whose packets occupy 100 bytes each: a byte seek
lands on the packet holding the requested offset, any other seek on the first
packet with the requested `pts`.  The decoder is that of `synth_audio`. -/
def synth_audio_file : LibavAudio Unit :=
  { av_seek_frame := fun w _ timestamp flags =>
      if flags &&& AVSEEK_FLAG_BYTE ≠ 0
      then { ret := 0, cursor := (timestamp / 100).toNat, priv := () }
      else synth_seek w.packets w.cursor () timestamp,
    avcodec_decode_audio3 := fun _ pkt =>
      { wasted_data_length := pkt.size, output := pkt.data, priv := () },
    avcodec_reopen := fun _ => () }

/-- A freshly opened audio world on `packets`. -/
def synth_audio_world (packets : List AVPacket) : AudioWorld Unit :=
  { packets := packets, cursor := 0, priv := (), trace := [] }

/-! ## Timing model: `double` arithmetic

A finite `double` is kept as a fraction `num / den` of integers; every operation
forms the exact result and rounds it to the nearest binary64 value, ties to even,
as IEEE 754 arithmetic does.  An operation whose result is not a finite `double`
(overflow, division by zero) yields `none`. -/

/-- A finite `double`: the value `num / den`. -/
structure Dbl where
  num : Int
  den : Nat
deriving DecidableEq, Repr

/-- Loop computing the position of the highest set bit. -/
def log2_loop : Nat → Nat → Nat
  | 0, _ => 0
  | fuel + 1, n => if n < 2 then 0 else log2_loop fuel (n / 2) + 1

/-- Largest `e` with `2 ^ e <= n`, for `n > 0`. -/
def ilog2 (n : Nat) : Nat := log2_loop n n

/-- Nearest integer to `n / d`, ties to the even one. -/
def div_round_even (n d : Nat) : Nat :=
  let q := n / d
  let r := n % d
  if 2 * r < d then q else if d < 2 * r then q + 1 else if q % 2 = 0 then q else q + 1

/-- Round the exact value `n / d` (`d > 0`) to binary64: 53 significant bits in
the exponent range of normal numbers, the fixed quantum `2 ^ -1074` below it, and
`none` where the rounded value passes the largest finite `double`. -/
def fl64 (n : Int) (d : Nat) : Option Dbl :=
  if n = 0 then some ⟨0, 1⟩ else
  let a := n.natAbs
  let e0 : Int := (ilog2 a : Int) - (ilog2 d : Int)
  let e1 : Int := if d * 2 ^ e0.toNat ≤ a * 2 ^ (-e0).toNat then e0 else e0 - 1
  let k : Int := max e1 (-1022) - 52
  let m := div_round_even (a * 2 ^ (-k).toNat) (d * 2 ^ k.toNat)
  if (ilog2 m : Int) + k < 1024 then
    some ⟨n.sign * (m * 2 ^ k.toNat : Nat), 2 ^ (-k).toNat⟩
  else none

/-- Conversion of an unsigned integer to `double`. -/
def Dbl.of_nat (n : Nat) : Option Dbl := fl64 n 1

/-- Product of two `double`s. -/
def Dbl.mul (a b : Dbl) : Option Dbl := fl64 (a.num * b.num) (a.den * b.den)

/-- Quotient of two `double`s; division by zero leaves the finite values. -/
def Dbl.div (a b : Dbl) : Option Dbl :=
  if b.num = 0 then none else fl64 (a.num * b.den * b.num.sign) (a.den * b.num.natAbs)

/-- Sum of two `double`s. -/
def Dbl.add (a b : Dbl) : Option Dbl :=
  fl64 (a.num * b.den + b.num * a.den) (a.den * b.den)

/-- Difference of two `double`s. -/
def Dbl.sub (a b : Dbl) : Option Dbl :=
  fl64 (a.num * b.den - b.num * a.den) (a.den * b.den)

/-- Comparison `a < b` of `double`s. -/
def Dbl.lt (a b : Dbl) : Bool := decide (a.num * b.den < b.num * a.den)

/-- The function `fabs`. -/
def Dbl.fabs (a : Dbl) : Dbl := ⟨a.num.natAbs, a.den⟩

/-- The function `round`: nearest integer, halfway cases away from zero. -/
def Dbl.round (a : Dbl) : Dbl :=
  ⟨a.num.sign * ((2 * a.num.natAbs + a.den) / (2 * a.den) : Nat), 1⟩

/-- Conversion of a `double` to `uint64_t`: truncation, defined only when the
truncated value is in range. -/
def Dbl.to_uint64 (a : Dbl) : Option Nat :=
  let t := Int.tdiv a.num a.den
  if 0 ≤ t ∧ t < 2 ^ 64 then some t.toNat else none

/-- Conversion of a `double` to `int`: truncation, defined only when the truncated
value is in range. -/
def Dbl.to_int (a : Dbl) : Option Int :=
  let t := Int.tdiv a.num a.den
  if -2 ^ 31 ≤ t ∧ t < 2 ^ 31 then some t else none

/-- Conversion of an unsigned value to `int`: the low 32 bits, read as signed. -/
def wrap_int (n : Nat) : Int := ((n : Int) + 2 ^ 31) % 2 ^ 32 - 2 ^ 31

/-- Conversion of an `int64_t` or `int` to `uint64_t`. -/
def to_u64 (x : Int) : Nat := (x % 2 ^ 64).toNat

/-! ## Timing model: `setup_timestamp_info` -/

/-- Value of `UINT32_MAX`. -/
def UINT32_MAX : Nat := 4294967295

/-- The loop `while( 1 )` of `get_gcd`; `b` shrinks at every pass, so `fuel = b`
is never used up. -/
def get_gcd_loop : Nat → Nat → Nat → Nat
  | 0, _, b => b
  | fuel + 1, a, b =>
    let c := a % b
    if c = 0 then b else get_gcd_loop fuel b c

/-- Translation of `get_gcd`. -/
def get_gcd (a b : Nat) : Nat :=
  if b = 0 then a else get_gcd_loop b a b

/-- Translation of `reduce_fraction`: the reduced `*a`, the reduced `*b` and the
returned divisor; `none` when the divisor is 0 (both operands 0). -/
def reduce_fraction (a b : Nat) : Option (Nat × Nat × Nat) :=
  let reduce := get_gcd a b
  if reduce = 0 then none else some (a / reduce, b / reduce, reduce)

/-- First loop of `sigexp10`: `while( value < 1 ) { value *= 10; *exponent /= 10; }`. -/
def sigexp10_up : Nat → Dbl → Dbl → Option (Dbl × Dbl)
  | 0, _, _ => none
  | fuel + 1, value, exponent =>
    if Dbl.lt value ⟨1, 1⟩ then
      match Dbl.mul value ⟨10, 1⟩, Dbl.div exponent ⟨10, 1⟩ with
      | some v, some e => sigexp10_up fuel v e
      | _, _ => none
    else some (value, exponent)

/-- Second loop of `sigexp10`: `while( value >= 10 ) { value /= 10; *exponent *= 10; }`. -/
def sigexp10_down : Nat → Dbl → Dbl → Option (Dbl × Dbl)
  | 0, _, _ => none
  | fuel + 1, value, exponent =>
    if Dbl.lt value ⟨10, 1⟩ then some (value, exponent)
    else
      match Dbl.div value ⟨10, 1⟩, Dbl.mul exponent ⟨10, 1⟩ with
      | some v, some e => sigexp10_down fuel v e
      | _, _ => none

/-- Translation of `sigexp10`: the returned significand and `*exponent`.  `none`:
the loops did not end within `fuel` passes each, or left the finite `double`s. -/
def sigexp10 (fuel : Nat) (value : Dbl) : Option (Dbl × Dbl) :=
  match sigexp10_up fuel value ⟨1, 1⟩ with
  | none => none
  | some r => sigexp10_down fuel r.1 r.2

/-- The constant `DOUBLE_EPSILON`, `5e-5` as a `double`. -/
def DOUBLE_EPSILON : Option Dbl := fl64 5 100000

/-- The assignment `fps_num = round( fps_den * fps_sig ) * exponent;` of
`try_ntsc_framerate`. -/
def ntsc_numerator (fps_sig exponent : Dbl) (fps_den : Nat) : Option Nat :=
  (Dbl.of_nat fps_den).bind fun den =>
  (Dbl.mul den fps_sig).bind fun p =>
  (Dbl.mul (Dbl.round p) exponent).bind fun q =>
  Dbl.to_uint64 q

/-- The test `fabs( ((double)fps_num / fps_den) / exponent - fps_sig ) < DOUBLE_EPSILON`
of `try_ntsc_framerate`. -/
def ntsc_close (fps_sig exponent : Dbl) (fps_num fps_den : Nat) : Option Bool :=
  (Dbl.of_nat fps_num).bind fun num =>
  (Dbl.of_nat fps_den).bind fun den =>
  (Dbl.div num den).bind fun r1 =>
  (Dbl.div r1 exponent).bind fun r2 =>
  (Dbl.sub r2 fps_sig).bind fun r3 =>
  DOUBLE_EPSILON.bind fun eps =>
  some (Dbl.lt (Dbl.fabs r3) eps)

/-- The loop `while( 1 )` of `try_ntsc_framerate` from the value `i`.  Result
`some none`: `return 0`; `some (some (fps_num, fps_den))`: the loop was left by
`break`; `none`: no defined result within `fuel` passes (`i * 1001` is an `int`
product). -/
def try_ntsc_loop (fps_sig exponent : Dbl) : Nat → Nat → Option (Option (Nat × Nat))
  | 0, _ => none
  | fuel + 1, i =>
    if i * 1001 < 2 ^ 31 then
      match ntsc_numerator fps_sig exponent (i * 1001) with
      | none => none
      | some fps_num =>
        if fps_num > UINT32_MAX then some none
        else
          match ntsc_close fps_sig exponent fps_num (i * 1001) with
          | none => none
          | some true => some (some (fps_num, i * 1001))
          | some false => try_ntsc_loop fps_sig exponent fuel (i + 1)
    else none

/-- Translation of `try_ntsc_framerate`: `some none` for `return 0`, and the
values stored in `framerate_num` and `framerate_den` for `return 1`. -/
def try_ntsc_framerate (fuel : Nat) (fps : Dbl) : Option (Option (Nat × Nat)) :=
  if fps.num = 0 then some none
  else
    match sigexp10 fuel fps with
    | none => none
    | some r => try_ntsc_loop r.1 r.2 fuel 1

/-- The type `AVRational`. -/
structure AVRational where
  num : Int
  den : Int
deriving DecidableEq, Repr

/-- Fields of the video `AVStream` that `setup_timestamp_info` reads. -/
structure AVStream where
  r_frame_rate : AVRational
  time_base : AVRational
deriving DecidableEq, Repr

/-- Locals of `setup_timestamp_info` that its `for` loop updates. -/
structure PtsScan where
  presentation_timebase : Nat
  largest_pts : Nat
  second_largest_pts : Nat
deriving DecidableEq, Repr

/-- The loop `for( i = 3; i <= video_sample_count; i++ )` of
`setup_timestamp_info` from the value `i`, `fuel` passes being left.  `Sum.inl i`:
the duplication reported at frame `i`; `Sum.inr`: the locals at loop exit. -/
def pts_loop (info : List video_frame_info_t) : Nat → Nat → PtsScan → Sum Nat PtsScan
  | 0, _, st => Sum.inr st
  | fuel + 1, i, st =>
    if (vinfo info i).pts = (vinfo info (i - 1)).pts then Sum.inl i
    else
      pts_loop info fuel (i + 1)
        { presentation_timebase :=
            get_gcd st.presentation_timebase
              (to_u64 ((vinfo info i).pts - (vinfo info (i - 1)).pts)),
          second_largest_pts := st.largest_pts,
          largest_pts := to_u64 (vinfo info i).pts }

/-- What `setup_timestamp_info` leaves: the host handle, and the frame number of
the message `Detected PTS duplication at frame ...` when it was shown. -/
structure TimestampInfo where
  h : lsmash_handler_t
  duplication : Option Nat
deriving DecidableEq, Repr

/-- The statements of `setup_timestamp_info` from `presentation_timebase *= ...`
to the computation of `presentation_duration`: the reduced `media_timescale`, the
reduced `presentation_timebase`, and `presentation_duration`. -/
def setup_timestamp_reduce (info : List video_frame_info_t) (video_stream : AVStream)
    (st : PtsScan) : Option (Nat × Nat × Nat) :=
  let presentation_timebase :=
    (st.presentation_timebase * to_u64 video_stream.time_base.num) % 2 ^ 64
  let media_timescale := to_u64 video_stream.time_base.den
  match reduce_fraction media_timescale presentation_timebase with
  | none => none
  | some r =>
    some (r.1, r.2.1,
      ((to_u64 ((st.largest_pts : Int) - (vinfo info 1).pts) +
        to_u64 ((st.largest_pts : Int) - (st.second_largest_pts : Int))) % 2 ^ 64) / r.2.2)

/-- The expression
`h->video_sample_count * ((double)media_timescale / presentation_duration)`. -/
def presentation_framerate (video_sample_count media_timescale presentation_duration : Nat) :
    Option Dbl :=
  (Dbl.of_nat media_timescale).bind fun ts =>
  (Dbl.of_nat presentation_duration).bind fun dur =>
  (Dbl.of_nat video_sample_count).bind fun n =>
  (Dbl.div ts dur).bind fun q =>
  Dbl.mul n q

/-- The last two assignments of `setup_timestamp_info`: the values stored in
`framerate_num` and `framerate_den`. -/
def gcd_framerate (presentation_framerate : Dbl) (presentation_timebase : Nat) :
    Option (Int × Int) :=
  (Dbl.of_nat presentation_timebase).bind fun tb =>
  (Dbl.mul presentation_framerate tb).bind fun x =>
  (Dbl.add x ⟨1, 2⟩).bind fun y =>
  (Dbl.to_int y).bind fun num =>
  some (num, wrap_int presentation_timebase)

/-- The statements of `setup_timestamp_info` after its `for` loop. -/
def setup_timestamp_rate (fuel : Nat) (h : lsmash_handler_t) (info : List video_frame_info_t)
    (video_stream : AVStream) (st : PtsScan) : Option TimestampInfo :=
  match setup_timestamp_reduce info video_stream st with
  | none => none
  | some r =>
    match presentation_framerate h.video_sample_count r.1 r.2.2 with
    | none => none
    | some fps =>
      match try_ntsc_framerate fuel fps with
      | none => none
      | some (some f) =>
        some { h := { h with framerate_num := wrap_int f.1, framerate_den := wrap_int f.2 },
               duplication := none }
      | some none =>
        match gcd_framerate fps r.2.1 with
        | none => none
        | some f =>
          some { h := { h with framerate_num := f.1, framerate_den := f.2 },
                 duplication := none }

/-- Translation of `setup_timestamp_info`.  `none`: the call has no defined
result (a loop of `sigexp10` or `try_ntsc_framerate` that does not end within
`fuel` passes, a `double` that is not finite, a division by zero, a conversion
out of range). -/
def setup_timestamp_info (fuel : Nat) (h : lsmash_handler_t) (hp : libav_handler_t)
    (video_stream : AVStream) : Option TimestampInfo :=
  if h.video_sample_count = 1 ∨
      hp.video_seek_base &&& (SEEK_DTS_BASED ||| SEEK_PTS_BASED) = 0 then
    some { h := { h with framerate_num := video_stream.r_frame_rate.num,
                         framerate_den := video_stream.r_frame_rate.den },
           duplication := none }
  else
    let info := hp.video_frame_list
    match pts_loop info (h.video_sample_count - 2) 3
        { largest_pts := to_u64 (vinfo info 2).pts,
          second_largest_pts := to_u64 (vinfo info 1).pts,
          presentation_timebase := to_u64 ((vinfo info 2).pts - (vinfo info 1).pts) } with
    | Sum.inl i => some { h := h, duplication := some i }
    | Sum.inr st => setup_timestamp_rate fuel h info video_stream st

/-- Index of `n` records whose `pts` and `dts` are `0, step, 2 * step, ...`. -/
def steady_index (n : Nat) (step : Int) : List video_frame_info_t :=
  video_zero :: (List.range n).map (fun k =>
    { keyframe := 1, is_leading := 0, sample_number := k + 1, pts := k * step, dts := k * step,
      file_offset := k })

/-- Handler holding the record array `info` with both timestamp flags set. -/
def timing_hp (info : List video_frame_info_t) : libav_handler_t :=
  { libav_handler_zero with
    video_frame_list := info, video_frame_count := info.length - 1,
    video_seek_base := SEEK_DTS_BASED ||| SEEK_PTS_BASED }

/-- Host handle as `prepare_video_decoding` hands it to `setup_timestamp_info`:
`video_sample_count` set, the frame rate not yet written. -/
def timing_h (n : Nat) : lsmash_handler_t :=
  { framerate_num := 0, framerate_den := 0, video_sample_count := n,
    audio_pcm_sample_count := 0, nBlockAlign := 0 }

/-- Record array with the given `pts` values in order. -/
def pts_index (pts : List Int) : List video_frame_info_t :=
  video_zero :: pts.map (fun p =>
    { keyframe := 1, is_leading := 0, sample_number := 0, pts := p, dts := p, file_offset := 0 })

/-- The value of a finite `double` as a rational number. -/
def Dbl.toQ (x : Dbl) : ℚ := (x.num : ℚ) / (x.den : ℚ)

/-- Keyframes at units 1 and 3; unit 3 does not decode, unit 4 does. -/
def stale_packets : List AVPacket :=
  [vpkt 1 1 [11], vpkt 2 0 [12], vpkt 3 1 [], vpkt 4 0 [14]]

/-- Reading sample 0 of `stale_packets` right after opening, Aggressive policy. -/
def stale_first : ReadVideoResult (List AVFrame) :=
  synth_read 0 0 stale_packets SEEK_MODE_AGGRESSIVE 0

/-- The call after `stale_first`: reading sample 2, whose unit does not decode. -/
def stale_second : ReadVideoResult (List AVFrame) :=
  read_video (synth 0) (synth_handle stale_packets SEEK_MODE_AGGRESSIVE).1 stale_first.hp
    stale_first.w 2

/-- The call after `stale_second`: reading sample 1. -/
def stale_third : ReadVideoResult (List AVFrame) :=
  read_video (synth 0) (synth_handle stale_packets SEEK_MODE_AGGRESSIVE).1 stale_second.hp
    stale_second.w 1

/-! ## `prepare_audio_decoding` -/

/-- Fields of `hp->audio_ctx` that `prepare_audio_decoding` reads;
`bytes_per_sample` is `av_get_bytes_per_sample( sample_fmt )`. -/
structure AudioContext where
  channels : Int
  bytes_per_sample : Int
deriving DecidableEq, Repr

/-- The loop `for( i = 1; i <= hp->audio_frame_count; i++ )
h->audio_pcm_sample_count += hp->audio_frame_list[i].length;` from the value `i`,
`fuel` passes being left; the sum is a `uint32_t`. -/
def pcm_sample_count_loop (list : List audio_frame_info_t) : Nat → Nat → Nat → Nat
  | 0, _, count => count
  | fuel + 1, i, count =>
    pcm_sample_count_loop list fuel (i + 1)
      (((count : Int) + (ainfo list i).length) % 2 ^ 32).toNat

/-- Result of `prepare_audio_decoding`: return value and both handles. -/
structure PrepareAudioResult where
  ret : Int
  h : lsmash_handler_t
  hp : libav_handler_t
deriving DecidableEq, Repr

/-- Translation of `prepare_audio_decoding`.  `audio_ctx` is `none` for a null
`hp->audio_ctx`; `audio_index_entries` is `none` for a null pointer and otherwise
holds what `av_add_index_entry` returns for each copied entry.  Of the
`WAVEFORMATEX` fields only `nBlockAlign` is kept. -/
def prepare_audio_decoding (audio_ctx : Option AudioContext)
    (audio_index_entries : Option (List Int)) (h : lsmash_handler_t) (hp : libav_handler_t) :
    PrepareAudioResult :=
  match audio_ctx with
  | none => { ret := 0, h := h, hp := hp }
  | some ctx =>
    let count := pcm_sample_count_loop hp.audio_frame_list hp.audio_frame_count 1
      h.audio_pcm_sample_count
    let h := { h with audio_pcm_sample_count := count }
    if count = 0 then { ret := -1, h := h, hp := hp }
    else if (audio_index_entries.getD []).any (fun r => decide (r < 0)) then
      { ret := -1, h := h, hp := hp }
    else
      let count :=
        if (count * 2) % 2 ^ 32 ≤ (hp.audio_frame_count * hp.audio_frame_length) % 2 ^ 32
        then (count * 2) % 2 ^ 32 else count
      let nChannels := (ctx.channels % 2 ^ 16).toNat
      let wBitsPerSample := ((ctx.bytes_per_sample * 8) % 2 ^ 16).toNat
      { ret := 0,
        h := { h with audio_pcm_sample_count := count,
                      nBlockAlign := ((nChannels * wBitsPerSample) / 8) % 2 ^ 16 },
        hp := { hp with next_audio_pcm_sample_number := (count + 1) % 2 ^ 32 } }

/-- What the locals of the audio branch of the scan say about the records written
so far, as long as no frame was refused: the count is the number of records,
`audio_duration` is the sum of their lengths, `frame_length` is the length of the
last one, and `constant_frame_length` is set only while all lengths agree. -/
def audio_scan_consistent {σ : Type} (st : AudioScan σ) : Prop :=
  st.audio_sample_count = st.audio_info.length ∧
  (st.audio_duration : Int) =
    audio_length_sum (audio_zero :: st.audio_info) st.audio_sample_count ∧
  (1 ≤ st.audio_sample_count →
    (ainfo (audio_zero :: st.audio_info) st.audio_sample_count).length = st.frame_length) ∧
  (st.constant_frame_length = true → ∀ k, 1 ≤ k → k ≤ st.audio_sample_count →
    (ainfo (audio_zero :: st.audio_info) k).length = st.frame_length)

/-- Two audio frames of two and three samples. -/
def uneven_audio_packets : List AVPacket :=
  [apkt_at 0 0 0 [10, 11], apkt_at 2 2 100 [12, 13, 14]]

/-- Passes of the decode loops of `read_audio` that a container can take when
every decoder call on a non-empty packet consumes or fails: one per remaining
byte of a packet, two per packet, and the last one that finds the stream at its
end. -/
def audio_fuel (packets : List AVPacket) : Nat :=
  (packets.map (fun p => p.size.toNat + 2)).sum + 1

/-! ## Storage of `create_index`

The index builder at the level of its storage: which allocation requests it
makes, which record of which array it writes under which capacity, and which
blocks it has handed to `free` when it returns.  The allocator is a parameter, so
that each request can fail. -/

/-- The allocation requests of `create_index`, in source order: the two
`malloc_zero` calls, `av_mallocz` of the decode buffer, the two `realloc` calls of
the scan, `malloc` of the keyframe map and `av_malloc` of the copied index
entries. -/
inductive AllocSite where
  | video_info
  | audio_info
  | audio_output_buffer
  | video_info_realloc
  | audio_info_realloc
  | keyframe_list
  | audio_index_entries
deriving DecidableEq, Repr

/-- The blocks of storage `create_index` works with.  A successful `realloc`
yields the same block, grown. -/
inductive Block where
  | video_info
  | audio_info
  | audio_output_buffer
  | keyframe_list
  | audio_index_entries
deriving DecidableEq, Repr

/-- A record write `array[index] = ...` of the scan, with the number of records
the array holds at that moment. -/
structure RecordWrite where
  array : Block
  index : Nat
  capacity : Nat
deriving DecidableEq, Repr

/-- Locals of `create_index` during the scan: the two capacities, the video
count, the locals of the audio branch, and the record writes made so far. -/
structure IndexScan (σ : Type) where
  video_info_count : Nat
  audio_info_count : Nat
  video_sample_count : Nat
  audio : AudioScan σ
  writes : List RecordWrite

/-- The loop `while( av_read_frame( format_ctx, &pkt ) >= 0 )` of `create_index`
with its record writes and growth steps.  `alloc site n` tells whether the request
of `site` for `n` records succeeds.  The Boolean of the result is `false` when the
loop was left by the `return` that follows a failed `realloc`.  The audio branch
is `scan_audio` on the one packet; it has written a record when its count has
changed. -/
def scan_storage {σ : Type} (alloc : AllocSite → Nat → Bool) (P : AudioProbe σ)
    (video_index audio_index : Int) : List AVPacket → IndexScan σ → Bool × IndexScan σ
  | [], st => (true, st)
  | pkt :: rest, st =>
    if 0 ≤ video_index ∧ pkt.stream_index = video_index then
      let video_sample_count := st.video_sample_count + 1
      let w : RecordWrite := ⟨Block.video_info, video_sample_count, st.video_info_count⟩
      let st := { st with video_sample_count := video_sample_count, writes := st.writes ++ [w] }
      if video_sample_count = st.video_info_count then
        let video_info_count := (st.video_info_count * 2) % 2 ^ 32
        if alloc AllocSite.video_info_realloc video_info_count then
          scan_storage alloc P video_index audio_index rest
            { st with video_info_count := video_info_count }
        else (false, { st with video_info_count := video_info_count })
      else scan_storage alloc P video_index audio_index rest st
    else
      let audio := scan_audio P video_index audio_index [pkt] st.audio
      if audio.audio_sample_count = st.audio.audio_sample_count then
        scan_storage alloc P video_index audio_index rest { st with audio := audio }
      else
        let w : RecordWrite := ⟨Block.audio_info, audio.audio_sample_count, st.audio_info_count⟩
        let st := { st with audio := audio, writes := st.writes ++ [w] }
        if audio.audio_sample_count = st.audio_info_count then
          let audio_info_count := (st.audio_info_count * 2) % 2 ^ 32
          if alloc AllocSite.audio_info_realloc audio_info_count then
            scan_storage alloc P video_index audio_index rest
              { st with audio_info_count := audio_info_count }
          else (false, { st with audio_info_count := audio_info_count })
        else scan_storage alloc P video_index audio_index rest st

/-- The fields of `libav_handler_t` that hold storage or count records.  A pointer
is `none` when null; `released` lists the blocks handed to `free` so far. -/
structure IndexStorage where
  video_index : Int
  audio_index : Int
  video_frame_count : Nat
  audio_frame_count : Nat
  video_frame_list : Option Block
  keyframe_list : Option Block
  audio_frame_list : Option Block
  audio_output_buffer : Option Block
  audio_index_entries : Option Block
  released : List Block
deriving DecidableEq, Repr

/-- The storage fields after `malloc_zero( sizeof(libav_handler_t) )` and the
choice of the tracks in `open_file`. -/
def storage_zero (video_index audio_index : Int) : IndexStorage :=
  { video_index := video_index, audio_index := audio_index, video_frame_count := 0,
    audio_frame_count := 0, video_frame_list := none, keyframe_list := none,
    audio_frame_list := none, audio_output_buffer := none, audio_index_entries := none,
    released := [] }

/-- The statements `if( video_info ) free( video_info ); if( audio_info ) free( audio_info );`
on the locals of `create_index`. -/
def free_info (video_info audio_info : Option Block) (hp : IndexStorage) : IndexStorage :=
  { hp with released := hp.released ++ video_info.toList ++ audio_info.toList }

/-- What `create_index` leaves: whether it ran to its end (`false`: it returned at
an allocation that failed), the storage fields of the handler, and the record
writes of the scan. -/
structure CreateIndexResult where
  completed : Bool
  hp : IndexStorage
  writes : List RecordWrite
deriving DecidableEq, Repr

/-- Translation of `create_index` at the level of storage.  `nb_index_entries`
and `index_entries_allocated_size` are the fields of the audio `AVStream`. -/
def create_index {σ : Type} (alloc : AllocSite → Nat → Bool) (P : AudioProbe σ) (s : σ)
    (nb_index_entries : Int) (index_entries_allocated_size : Nat) (packets : List AVPacket)
    (hp : IndexStorage) : CreateIndexResult :=
  let read_video : Bool := decide (0 ≤ hp.video_index)
  let read_audio : Bool := decide (0 ≤ hp.audio_index)
  if read_video = true ∧ alloc AllocSite.video_info 65536 = false then ⟨false, hp, []⟩
  else
    let video_info : Option Block := if read_video then some Block.video_info else none
    if read_audio = true ∧ alloc AllocSite.audio_info 65536 = false then
      ⟨false, free_info video_info none hp, []⟩
    else
      let audio_info : Option Block := if read_audio then some Block.audio_info else none
      if read_audio = true ∧
          alloc AllocSite.audio_output_buffer AVCODEC_MAX_AUDIO_FRAME_SIZE = false then
        ⟨false, free_info video_info audio_info { hp with audio_output_buffer := none }, []⟩
      else
        let hp := if read_audio then { hp with audio_output_buffer := some Block.audio_output_buffer }
                  else hp
        let sc := scan_storage alloc P hp.video_index hp.audio_index packets
                    ⟨65536, 65536, 0, ⟨[], 0, true, 0, 0, s⟩, []⟩
        if sc.1 = false then ⟨false, free_info video_info audio_info hp, sc.2.writes⟩
        else if read_video = true ∧
            alloc AllocSite.keyframe_list (sc.2.video_sample_count + 1) = false then
          ⟨false, free_info video_info audio_info { hp with keyframe_list := none }, sc.2.writes⟩
        else
          let hp := if read_video then
                      { hp with keyframe_list := some Block.keyframe_list, video_frame_list := video_info, video_frame_count := sc.2.video_sample_count }
                    else hp
          if read_audio then
            let hp := { hp with audio_frame_list := audio_info, audio_frame_count := sc.2.audio.audio_sample_count }
            if nb_index_entries > 0 then
              if alloc AllocSite.audio_index_entries index_entries_allocated_size then
                ⟨true, { hp with audio_index_entries := some Block.audio_index_entries }, sc.2.writes⟩
              else
                ⟨false, free_info video_info audio_info { hp with audio_index_entries := none }, sc.2.writes⟩
            else ⟨true, hp, sc.2.writes⟩
          else ⟨true, hp, sc.2.writes⟩

/-- Translation of `get_first_video_track` on the storage fields.  `reopened`
tells whether `lavf_open_file` and `get_first_track_of_type` succeed; they are
called only when index and count pass the two tests before them. -/
def get_first_video_track (reopened : Bool) (hp : IndexStorage) : Int × IndexStorage :=
  if hp.video_index < 0 ∨ hp.video_frame_count = 0 ∨ reopened = false then
    (-1, { hp with released := hp.released ++ hp.video_frame_list.toList ++ hp.keyframe_list.toList,
                   video_frame_list := none, keyframe_list := none })
  else (0, hp)

/-- Translation of `get_first_audio_track` on the storage fields. -/
def get_first_audio_track (reopened : Bool) (hp : IndexStorage) : Int × IndexStorage :=
  if hp.audio_index < 0 ∨ hp.audio_frame_count = 0 ∨ reopened = false then
    (-1, { hp with released := hp.released ++ hp.audio_index_entries.toList ++ hp.audio_output_buffer.toList ++ hp.audio_frame_list.toList,
                   audio_index_entries := none, audio_output_buffer := none, audio_frame_list := none })
  else (0, hp)

/-- An allocator that refuses the requests of one site and grants all others. -/
def alloc_all_but (site : AllocSite) : AllocSite → Nat → Bool :=
  fun s _ => decide (s ≠ site)

/-- One video unit and one audio frame of two samples. -/
def av_pair_packets : List AVPacket := [vpkt 1 1 [11], apkt 0 [10, 11]]

/-- The failed `create_index` whose last allocation, the copy of the audio index
entries, is refused; the container holds one video unit and one audio frame and
its audio stream has one index entry. -/
def entries_refused : CreateIndexResult :=
  create_index (alloc_all_but AllocSite.audio_index_entries) synth_probe () 1 24 av_pair_packets
    (storage_zero 0 1)

/-! # Theorems -/

/-! ## The backward walk of the locator -/

theorem rap_walk_le (kl : List Nat) (d l : Nat) : rap_walk kl d l ≤ d := by
  induction d generalizing l with
  | zero => simp [rap_walk]
  | succ d ih =>
    unfold rap_walk
    split_ifs
    · exact le_refl _
    · exact Nat.le_succ_of_le (ih 0)
    · exact Nat.le_succ_of_le (ih l)

theorem rap_walk_key (kl : List Nat) (d l : Nat) (hk : kflag kl (d + 1) ≠ 0) :
    rap_walk kl (d + 1) l = if l = 0 then d + 1 else rap_walk kl d 0 := by
  rw [rap_walk, if_pos hk]

theorem rap_walk_nonkey (kl : List Nat) (d l : Nat) (hk : kflag kl (d + 1) = 0) :
    rap_walk kl (d + 1) l = rap_walk kl d l := by
  rw [rap_walk, if_neg (not_not.mpr hk)]

theorem rap_walk_leading_le (kl : List Nat) (d l : Nat) :
    rap_walk kl d l ≤ rap_walk kl d 0 := by
  induction d generalizing l with
  | zero => simp [rap_walk]
  | succ d ih =>
    by_cases hk : kflag kl (d + 1) = 0
    · rw [rap_walk_nonkey kl d l hk, rap_walk_nonkey kl d 0 hk]
      exact ih l
    · rw [rap_walk_key kl d l hk, rap_walk_key kl d 0 hk, if_pos rfl]
      split_ifs
      · exact le_refl _
      · exact Nat.le_succ_of_le (rap_walk_le kl d 0)

theorem rap_walk_mono (kl : List Nat) (l : Nat) {d₁ d₂ : Nat} (h : d₁ ≤ d₂) :
    rap_walk kl d₁ l ≤ rap_walk kl d₂ l := by
  induction h with
  | refl => exact le_refl _
  | @step m _ ih =>
    refine le_trans ih ?_
    by_cases hk : kflag kl (m + 1) = 0
    · rw [rap_walk_nonkey kl m l hk]
    · rw [rap_walk_key kl m l hk]
      split_ifs
      · exact Nat.le_succ_of_le (rap_walk_le kl m l)
      · exact rap_walk_leading_le kl m l

/-- Without the leading flag the walk stops at the last keyframe at or before
`d`, or reaches 0 when positions `1..d` hold none. -/
theorem rap_walk_zero_spec (kl : List Nat) (d : Nat) :
    (rap_walk kl d 0 = 0 ∧ ∀ j, 1 ≤ j → j ≤ d → kflag kl j = 0) ∨
    (1 ≤ rap_walk kl d 0 ∧ kflag kl (rap_walk kl d 0) ≠ 0 ∧
      ∀ j, rap_walk kl d 0 < j → j ≤ d → kflag kl j = 0) := by
  induction d with
  | zero => left; exact ⟨rfl, fun j h1 h2 => by omega⟩
  | succ d ih =>
    by_cases hk : kflag kl (d + 1) = 0
    · rw [rap_walk_nonkey kl d 0 hk]
      rcases ih with ⟨h0, hall⟩ | ⟨h1, h2, h3⟩
      · left
        refine ⟨h0, ?_⟩
        intro j hj1 hj2
        rcases Nat.lt_or_ge j (d + 1) with hlt | hge
        · exact hall j hj1 (by omega)
        · have : j = d + 1 := by omega
          rw [this]; exact hk
      · right
        refine ⟨h1, h2, ?_⟩
        intro j hj1 hj2
        rcases Nat.lt_or_ge j (d + 1) with hlt | hge
        · exact h3 j hj1 (by omega)
        · have : j = d + 1 := by omega
          rw [this]; exact hk
    · right
      rw [rap_walk_key kl d 0 hk, if_pos rfl]
      refine ⟨by omega, hk, ?_⟩
      intro j h1 h2; omega

/-- With the leading flag set the walk passes the nearest keyframe `K` and goes
on from `K - 1` without the flag. -/
theorem rap_walk_leading_spec (kl : List Nat) (d l K : Nat) (hl : l ≠ 0)
    (hK : nearest_keyframe kl d K) :
    rap_walk kl d l = rap_walk kl (K - 1) 0 := by
  obtain ⟨hK1, hKd, hKk, hmax⟩ := hK
  induction d with
  | zero => omega
  | succ d ih =>
    rcases Nat.lt_or_ge K (d + 1) with hlt | hge
    · have hk0 : kflag kl (d + 1) = 0 := hmax (d + 1) hlt (le_refl _)
      rw [rap_walk_nonkey kl d l hk0]
      exact ih (by omega) (fun j h1 h2 => hmax j h1 (by omega))
    · have hKe : K = d + 1 := by omega
      subst hKe
      rw [rap_walk_key kl d l hKk, if_neg hl, Nat.add_sub_cancel]

/-- The random-access number `find_random_accessible_point` stores, in terms of
the walk. -/
theorem find_rap_number (h : lsmash_handler_t) (hp : libav_handler_t) (p dsn : Nat) :
    (find_random_accessible_point h hp p dsn).2.1 =
      (if rap_walk hp.keyframe_list
            (if dsn = 0 then (vinfo hp.video_frame_list p).sample_number else dsn)
            (vinfo hp.video_frame_list p).is_leading = 0 then 1
       else rap_walk hp.keyframe_list
            (if dsn = 0 then (vinfo hp.video_frame_list p).sample_number else dsn)
            (vinfo hp.video_frame_list p).is_leading) := rfl

theorem find_rap_last (h : lsmash_handler_t) (hp : libav_handler_t) (p dsn : Nat) :
    (find_random_accessible_point h hp p dsn).2.2.last_rap_number =
      (find_random_accessible_point h hp p dsn).2.1 := rfl



/-! ## Index order and the locator (C2 to C5) -/

/-- C2 (the code departs from the claim): on the stream I, P, B with presentation
times 0, 2, 1 the resolved addressing mode keeps the presentation-timestamp flag,
`check_frame_reordering` misses the last pair of records, the index is left
unsorted, and record 3 carries a smaller `pts` than record 2. -/
theorem C2_last_pair_left_unsorted :
    (create_index_video "mp4" 0 ipb_packets libav_handler_zero).video_seek_base
        &&& SEEK_PTS_BASED ≠ 0 ∧
    (create_index_video "mp4" 0 ipb_packets libav_handler_zero).video_frame_count = 3 ∧
    (vinfo (create_index_video "mp4" 0 ipb_packets libav_handler_zero).video_frame_list 3).pts <
      (vinfo (create_index_video "mp4" 0 ipb_packets libav_handler_zero).video_frame_list 2).pts := by
  decide

/-- In the index of `leading_packets` the nearest keyframe of presentation
sample 1 (decode position 2) is unit 1. -/
theorem leading_packets_nearest :
    nearest_keyframe (synth_handle leading_packets 0).2.keyframe_list
      (vinfo (synth_handle leading_packets 0).2.video_frame_list 1).sample_number 1 := by
  refine ⟨by decide, by decide, by decide, ?_⟩
  intro j h1 h2
  have e : (vinfo (synth_handle leading_packets 0).2.video_frame_list 1).sample_number = 2 := by
    decide
  rw [e] at h2
  have : j = 2 := by omega
  subst this
  decide

/-- In the index of `open_gop_packets` the nearest keyframe of presentation
sample 2 (decode position 3) is unit 2. -/
theorem open_gop_packets_nearest :
    nearest_keyframe (synth_handle open_gop_packets 0).2.keyframe_list
      (vinfo (synth_handle open_gop_packets 0).2.video_frame_list 2).sample_number 2 := by
  refine ⟨by decide, by decide, by decide, ?_⟩
  intro j h1 h2
  have e : (vinfo (synth_handle open_gop_packets 0).2.video_frame_list 2).sample_number = 3 := by
    decide
  rw [e] at h2
  have : j = 3 := by omega
  subst this
  decide

/-- C3 (as stated, refuted): in the index built from a keyframe followed by a
unit shown before it, presentation sample 1 is marked leading, its nearest
keyframe is `K = 1`, and the locator returns 1, which is not below `K`. -/
theorem C3_counterexample :
    (vinfo (synth_handle leading_packets 0).2.video_frame_list 1).is_leading = 1 ∧
    nearest_keyframe (synth_handle leading_packets 0).2.keyframe_list
      (vinfo (synth_handle leading_packets 0).2.video_frame_list 1).sample_number 1 ∧
    ¬ (find_random_accessible_point (synth_handle leading_packets 0).1
        (synth_handle leading_packets 0).2 1 0).2.1 < 1 :=
  ⟨by decide, leading_packets_nearest, by decide⟩

/-- C3 (amended): for a sample marked leading whose nearest keyframe at or before
its decode-order position is `K`, the locator returns a random-access number that
is at least 1, strictly below `K` whenever `K > 1`, and 1 when `K = 1`. -/
theorem C3_leading_before_keyframe (h : lsmash_handler_t) (hp : libav_handler_t) (S K : Nat)
    (hlead : (vinfo hp.video_frame_list S).is_leading ≠ 0)
    (hK : nearest_keyframe hp.keyframe_list (vinfo hp.video_frame_list S).sample_number K) :
    1 ≤ (find_random_accessible_point h hp S 0).2.1 ∧
    (1 < K → (find_random_accessible_point h hp S 0).2.1 < K) ∧
    (K = 1 → (find_random_accessible_point h hp S 0).2.1 = 1) := by
  rw [find_rap_number, if_pos rfl, rap_walk_leading_spec _ _ _ K hlead hK]
  have hle := rap_walk_le hp.keyframe_list (K - 1) 0
  have hK1 := hK.1
  refine ⟨?_, ?_, ?_⟩
  · split_ifs <;> omega
  · intro h1; split_ifs <;> omega
  · intro h1; split_ifs <;> omega

/-- C3 witness: presentation sample 2 of `open_gop_packets` is leading, its
nearest keyframe is unit 2, and the locator answers below 2. -/
theorem C3_leading_before_keyframe_witness :
    (vinfo (synth_handle open_gop_packets 0).2.video_frame_list 2).is_leading ≠ 0 ∧
    (find_random_accessible_point (synth_handle open_gop_packets 0).1
        (synth_handle open_gop_packets 0).2 2 0).2.1 < 2 :=
  ⟨by decide,
   (C3_leading_before_keyframe (synth_handle open_gop_packets 0).1
      (synth_handle open_gop_packets 0).2 2 2 (by decide) open_gop_packets_nearest).2.1
      (by decide)⟩

/-- C4: for a record `p` not marked leading whose decode-order number `d` is at
least 1, `find_random_accessible_point( h, p, 0, &rap_number )` stores the largest
`r <= d` with `keyframe_list[r] != 0` when positions `1..d` hold a keyframe and 1
when they hold none; in both cases `1 <= rap_number <= d` and `last_rap_number`
receives the same value. -/
theorem C4_nonleading_rap (h : lsmash_handler_t) (hp : libav_handler_t) (p : Nat)
    (hlead : (vinfo hp.video_frame_list p).is_leading = 0)
    (hd : 1 ≤ (vinfo hp.video_frame_list p).sample_number) :
    ((∃ r, 1 ≤ r ∧ r ≤ (vinfo hp.video_frame_list p).sample_number ∧
          kflag hp.keyframe_list r ≠ 0) →
      kflag hp.keyframe_list (find_random_accessible_point h hp p 0).2.1 ≠ 0 ∧
      ∀ r, (find_random_accessible_point h hp p 0).2.1 < r →
        r ≤ (vinfo hp.video_frame_list p).sample_number → kflag hp.keyframe_list r = 0) ∧
    ((¬ ∃ r, 1 ≤ r ∧ r ≤ (vinfo hp.video_frame_list p).sample_number ∧
          kflag hp.keyframe_list r ≠ 0) →
      (find_random_accessible_point h hp p 0).2.1 = 1) ∧
    1 ≤ (find_random_accessible_point h hp p 0).2.1 ∧
    (find_random_accessible_point h hp p 0).2.1 ≤ (vinfo hp.video_frame_list p).sample_number ∧
    (find_random_accessible_point h hp p 0).2.2.last_rap_number =
      (find_random_accessible_point h hp p 0).2.1 := by
  rw [find_rap_last, find_rap_number, if_pos rfl, hlead]
  have hle := rap_walk_le hp.keyframe_list (vinfo hp.video_frame_list p).sample_number 0
  rcases rap_walk_zero_spec hp.keyframe_list (vinfo hp.video_frame_list p).sample_number with
    ⟨h0, hall⟩ | ⟨h1, h2, h3⟩
  · rw [h0, if_pos rfl]
    refine ⟨?_, ?_, le_refl _, hd, rfl⟩
    · rintro ⟨r, hr1, hr2, hr3⟩
      exact absurd (hall r hr1 hr2) hr3
    · intro _; rfl
  · have hne : rap_walk hp.keyframe_list (vinfo hp.video_frame_list p).sample_number 0 ≠ 0 := by
      omega
    rw [if_neg hne]
    refine ⟨fun _ => ⟨h2, h3⟩, ?_, h1, hle, rfl⟩
    intro hno
    exact absurd ⟨_, h1, hle, h2⟩ hno

/-- C4 witness: presentation sample 4 of `crossing_packets` (decode position 4,
not leading) resolves to the keyframe at unit 3. -/
theorem C4_nonleading_rap_witness :
    (find_random_accessible_point (synth_handle crossing_packets 0).1
        (synth_handle crossing_packets 0).2 4 0).2.1 = 3 ∧
    (find_random_accessible_point (synth_handle crossing_packets 0).1
        (synth_handle crossing_packets 0).2 4 0).2.1 ≤
      (vinfo (synth_handle crossing_packets 0).2.video_frame_list 4).sample_number :=
  ⟨by decide,
   (C4_nonleading_rap (synth_handle crossing_packets 0).1 (synth_handle crossing_packets 0).2 4
      (by decide) (by decide)).2.2.2.1⟩

/-- C5 (as stated, refuted): in the re-sorted index of `crossing_packets`,
presentation samples 2 < 3 resolve to random-access numbers 3 > 1. -/
theorem C5_counterexample :
    check_frame_reordering (video_zero :: scan_video 0 crossing_packets 0 INT64_MIN) 4 = true ∧
    (find_random_accessible_point (synth_handle crossing_packets 0).1
        (synth_handle crossing_packets 0).2 2 0).2.1 = 3 ∧
    (find_random_accessible_point (synth_handle crossing_packets 0).1
        (synth_handle crossing_packets 0).2 3 0).2.1 = 1 := by
  decide

/-- C5 (amended): for two presentation samples whose decode-order numbers satisfy
`d(A) <= d(B)`, unless `A` is not leading while `B` is, the random-access number
located for `A` is at most the one located for `B`. -/
theorem C5_rap_monotone_in_decode_order (h : lsmash_handler_t) (hp : libav_handler_t)
    (A B : Nat)
    (hd : (vinfo hp.video_frame_list A).sample_number ≤ (vinfo hp.video_frame_list B).sample_number)
    (hl : (vinfo hp.video_frame_list A).is_leading ≠ 0 ∨
          (vinfo hp.video_frame_list B).is_leading = 0) :
    (find_random_accessible_point h hp A 0).2.1 ≤ (find_random_accessible_point h hp B 0).2.1 := by
  rw [find_rap_number, find_rap_number, if_pos rfl, if_pos rfl]
  have key : rap_walk hp.keyframe_list (vinfo hp.video_frame_list A).sample_number
        (vinfo hp.video_frame_list A).is_leading ≤
      rap_walk hp.keyframe_list (vinfo hp.video_frame_list B).sample_number
        (vinfo hp.video_frame_list B).is_leading := by
    rcases hl with hA | hB
    · by_cases hB : (vinfo hp.video_frame_list B).is_leading = 0
      · rw [hB]
        exact le_trans (rap_walk_leading_le _ _ _) (rap_walk_mono _ 0 hd)
      · have e : ∀ d l, l ≠ 0 → rap_walk hp.keyframe_list d l = rap_walk hp.keyframe_list d 1 := by
          intro d
          induction d with
          | zero => intro l _; rfl
          | succ d ih =>
            intro l hl
            by_cases hk : kflag hp.keyframe_list (d + 1) = 0
            · rw [rap_walk_nonkey _ _ _ hk, rap_walk_nonkey _ _ _ hk]; exact ih l hl
            · rw [rap_walk_key _ _ _ hk, rap_walk_key _ _ _ hk, if_neg hl, if_neg (by decide)]
        rw [e _ _ hA, e _ _ hB]
        exact rap_walk_mono _ 1 hd
    · rw [hB]
      exact le_trans (rap_walk_leading_le _ _ _) (rap_walk_mono _ 0 hd)
  split_ifs <;> omega

/-- C5 witness: in the index of `open_gop_packets`, presentation samples 2
(leading, decode position 3) and 4 (decode position 4). -/
theorem C5_rap_monotone_in_decode_order_witness :
    (find_random_accessible_point (synth_handle open_gop_packets 0).1
        (synth_handle open_gop_packets 0).2 2 0).2.1 ≤
    (find_random_accessible_point (synth_handle open_gop_packets 0).1
        (synth_handle open_gop_packets 0).2 4 0).2.1 :=
  C5_rap_monotone_in_decode_order (synth_handle open_gop_packets 0).1
    (synth_handle open_gop_packets 0).2 2 4 (by decide) (Or.inl (by decide))

/-! ## The record of calls -/

section Video
variable {σ : Type}

theorem seek_count_append (a b : List Event) : seek_count (a ++ b) = seek_count a + seek_count b := by
  unfold seek_count; exact List.countP_append _ _ _

theorem no_seek_ext_refl (t : List Event) : no_seek_ext t t := ⟨[], by simp, rfl⟩

theorem no_seek_ext_trans {a b c : List Event} (h1 : no_seek_ext a b) (h2 : no_seek_ext b c) :
    no_seek_ext a c := by
  obtain ⟨u, hu, cu⟩ := h1
  obtain ⟨v, hv, cv⟩ := h2
  refine ⟨u ++ v, by rw [hv, hu, List.append_assoc], ?_⟩
  rw [seek_count_append, cu, cv]

theorem no_seek_ext_snoc (t : List Event) (e : Event) (he : is_seek_video e = false) :
    no_seek_ext t (t ++ [e]) := by
  refine ⟨[e], rfl, ?_⟩
  simp [seek_count, List.countP_cons, he]

theorem decode_video_sample_trace (L : Libav σ) (hp : libav_handler_t) (w : VideoWorld σ)
    (pic : AVFrame) (got : Int) (n : Nat) :
    no_seek_ext w.trace (decode_video_sample L hp w pic got n).w.trace := by
  unfold decode_video_sample
  simp only [VideoWorld.log]
  split
  · refine no_seek_ext_snoc _ _ ?_; rfl
  · refine no_seek_ext_trans (no_seek_ext_snoc _ (Event.decode_video_sample n) rfl) ?_
    refine no_seek_ext_snoc _ _ ?_; rfl

theorem seek_video_loop_trace (L : Libav σ) (psn : Nat) (ei : Bool) (fuel : Nat) :
    ∀ (i : Nat) (pic : AVFrame) (hp : libav_handler_t) (w : VideoWorld σ),
      no_seek_ext w.trace (seek_video_loop L psn ei fuel i pic hp w).w.trace := by
  induction fuel with
  | zero => intro i pic hp w; exact no_seek_ext_refl _
  | succ fuel ih =>
    intro i pic hp w
    simp only [seek_video_loop]
    split_ifs
    all_goals first
      | exact no_seek_ext_refl _
      | exact decode_video_sample_trace L hp w pic 0 i
      | exact decode_video_sample_trace L hp { w with skip_frame := AVDISCARD_DEFAULT } pic 0 i
      | exact no_seek_ext_trans (decode_video_sample_trace L hp w pic 0 i) (ih _ _ _ _)
      | exact no_seek_ext_trans
          (decode_video_sample_trace L hp { w with skip_frame := AVDISCARD_DEFAULT } pic 0 i)
          (ih _ _ _ _)

theorem get_picture_loop_trace (L : Libav σ) (goal : Nat) (fuel : Nat) :
    ∀ (current : Nat) (got : Int) (pic : AVFrame) (hp : libav_handler_t) (w : VideoWorld σ),
      no_seek_ext w.trace (get_picture_loop L goal fuel current got pic hp w).w.trace := by
  induction fuel with
  | zero => intro c g pic hp w; exact no_seek_ext_refl _
  | succ fuel ih =>
    intro c g pic hp w
    simp only [get_picture_loop]
    split_ifs
    all_goals first
      | exact decode_video_sample_trace L hp w pic g c
      | exact no_seek_ext_trans (decode_video_sample_trace L hp w pic g c) (ih _ _ _ _ _)

theorem get_picture_flush_trace (L : Libav σ) (goal : Nat) (fuel : Nat) :
    ∀ (current : Nat) (got : Int) (pic : AVFrame) (hp : libav_handler_t) (w : VideoWorld σ),
      no_seek_ext w.trace (get_picture_flush L goal fuel current got pic hp w).w.trace := by
  induction fuel with
  | zero => intro c g pic hp w; exact no_seek_ext_refl _
  | succ fuel ih =>
    intro c g pic hp w
    simp only [get_picture_flush]
    split_ifs
    all_goals first
      | exact no_seek_ext_snoc _ _ rfl
      | exact no_seek_ext_trans (no_seek_ext_snoc _ (Event.avcodec_decode_video2 false) rfl) (ih _ _ _ _ _)

theorem get_picture_trace (L : Libav σ) (hp : libav_handler_t) (w : VideoWorld σ)
    (pic : AVFrame) (current goal n : Nat) :
    no_seek_ext w.trace (get_picture L hp w pic current goal n).w.trace := by
  simp only [get_picture]
  split_ifs
  all_goals first
    | exact get_picture_loop_trace L goal _ _ _ _ _ w
    | exact no_seek_ext_trans (get_picture_loop_trace L goal _ _ _ _ _ w)
        (get_picture_flush_trace L goal _ _ _ _ _ _)

/-- `seek_video` records its own entry and, after it, no further entry. -/
theorem seek_video_trace (L : Libav σ) (hp : libav_handler_t) (w : VideoWorld σ)
    (pic : AVFrame) (psn rap : Nat) (pos : Int) (ei : Bool) :
    no_seek_ext (w.trace ++ [Event.seek_video psn rap pos ei])
      (seek_video L hp w pic psn rap pos ei).w.trace := by
  simp only [seek_video, VideoWorld.log, flush_buffers]
  split_ifs
  all_goals first
    | exact no_seek_ext_snoc _ _ rfl
    | exact no_seek_ext_trans (no_seek_ext_snoc _ (Event.av_seek_frame _ _) rfl)
        (no_seek_ext_trans (no_seek_ext_snoc _ Event.flush_buffers rfl)
          (seek_video_loop_trace L psn ei _ _ _ _ _))

/-! ## Retry budget of `read_video` (C10) -/

theorem seek_ext_of_no_seek {a b : List Event} (n : Nat) (h : no_seek_ext a b) : seek_ext n a b := by
  obtain ⟨u, hu, cu⟩ := h
  exact ⟨u, hu, by omega⟩

theorem seek_ext_trans {a b c : List Event} {m n k : Nat} (h1 : seek_ext m a b)
    (h2 : seek_ext n b c) (hk : m + n ≤ k) : seek_ext k a c := by
  obtain ⟨u, hu, cu⟩ := h1
  obtain ⟨v, hv, cv⟩ := h2
  refine ⟨u ++ v, by rw [hv, hu, List.append_assoc], ?_⟩
  rw [seek_count_append]; omega

/-- One `seek_video` call adds exactly its own entry to the count. -/
theorem seek_video_ext (L : Libav σ) (hp : libav_handler_t) (w : VideoWorld σ)
    (pic : AVFrame) (psn rap : Nat) (pos : Int) (ei : Bool) :
    seek_ext 1 w.trace (seek_video L hp w pic psn rap pos ei).w.trace := by
  obtain ⟨u, hu, cu⟩ := seek_video_trace L hp w pic psn rap pos ei
  refine ⟨[Event.seek_video psn rap pos ei] ++ u, by rw [hu, List.append_assoc], ?_⟩
  rw [seek_count_append, cu]
  simp [seek_count, is_seek_video]

theorem retry_budget_escalate (mode ec : Nat) (h2 : ¬ mode = SEEK_MODE_AGGRESSIVE)
    (h4 : ¬ mode = SEEK_MODE_UNSAFE) :
    0 + (1 + retry_budget SEEK_MODE_AGGRESSIVE (ec + 1)) ≤ retry_budget mode ec := by
  have e : retry_budget SEEK_MODE_AGGRESSIVE (ec + 1) = 0 := by
    unfold retry_budget; rw [if_pos rfl]
  rw [e]
  unfold retry_budget
  rw [if_neg h2, if_neg h4]
  omega

theorem retry_budget_retry (mode ec rap : Nat) (h2 : ¬ mode = SEEK_MODE_AGGRESSIVE)
    (h3 : ¬ (ec + 1 > MAX_ERROR_COUNT ∨ rap ≤ 1)) :
    0 + (1 + retry_budget mode (ec + 1)) ≤ retry_budget mode ec := by
  unfold retry_budget
  rw [if_neg h2, if_neg h2]
  unfold MAX_ERROR_COUNT at h3 ⊢
  split_ifs <;> omega

/-- One step of the retry loop, with the outcome of the loop condition named. -/
theorem read_video_retry_succ (L : Libav σ) (h : lsmash_handler_t) (sn fuel mode ec rap : Nat)
    (pos : Int) (start : Nat) (pic : AVFrame) (hp : libav_handler_t) (w : VideoWorld σ)
    (g : GetPictureResult σ)
    (hg : g = if start = 0 then { ret := -1, picture := pic, hp := hp, w := w }
              else get_picture L hp w pic start (sn + hp.delay_count) h.video_sample_count) :
    read_video_retry L h sn (fuel + 1) mode ec rap pos start pic hp w =
      if start = 0 ∨ g.ret ≠ 0 then
        if mode = SEEK_MODE_AGGRESSIVE then
          { failed := true, picture := g.picture, hp := g.hp, w := g.w }
        else if ec + 1 > MAX_ERROR_COUNT ∨ rap ≤ 1 then
          if mode = SEEK_MODE_UNSAFE then
            { failed := true, picture := g.picture, hp := g.hp, w := g.w }
          else
            read_video_retry L h sn fuel SEEK_MODE_AGGRESSIVE (ec + 1) rap pos
              (seek_video L g.hp g.w g.picture sn rap pos
                (decide (SEEK_MODE_AGGRESSIVE ≠ SEEK_MODE_NORMAL))).ret
              (seek_video L g.hp g.w g.picture sn rap pos
                (decide (SEEK_MODE_AGGRESSIVE ≠ SEEK_MODE_NORMAL))).picture
              (seek_video L g.hp g.w g.picture sn rap pos
                (decide (SEEK_MODE_AGGRESSIVE ≠ SEEK_MODE_NORMAL))).hp
              (seek_video L g.hp g.w g.picture sn rap pos
                (decide (SEEK_MODE_AGGRESSIVE ≠ SEEK_MODE_NORMAL))).w
        else
          read_video_retry L h sn fuel mode (ec + 1)
            (find_random_accessible_point h g.hp sn (rap - 1)).2.1
            (find_random_accessible_point h g.hp sn (rap - 1)).1
            (seek_video L (find_random_accessible_point h g.hp sn (rap - 1)).2.2 g.w g.picture sn
              (find_random_accessible_point h g.hp sn (rap - 1)).2.1
              (find_random_accessible_point h g.hp sn (rap - 1)).1
              (decide (mode ≠ SEEK_MODE_NORMAL))).ret
            (seek_video L (find_random_accessible_point h g.hp sn (rap - 1)).2.2 g.w g.picture sn
              (find_random_accessible_point h g.hp sn (rap - 1)).2.1
              (find_random_accessible_point h g.hp sn (rap - 1)).1
              (decide (mode ≠ SEEK_MODE_NORMAL))).picture
            (seek_video L (find_random_accessible_point h g.hp sn (rap - 1)).2.2 g.w g.picture sn
              (find_random_accessible_point h g.hp sn (rap - 1)).2.1
              (find_random_accessible_point h g.hp sn (rap - 1)).1
              (decide (mode ≠ SEEK_MODE_NORMAL))).hp
            (seek_video L (find_random_accessible_point h g.hp sn (rap - 1)).2.2 g.w g.picture sn
              (find_random_accessible_point h g.hp sn (rap - 1)).2.1
              (find_random_accessible_point h g.hp sn (rap - 1)).1
              (decide (mode ≠ SEEK_MODE_NORMAL))).w
      else { failed := false, picture := g.picture, hp := g.hp, w := g.w } := by
  subst hg
  rfl

/-- The condition of the retry loop adds no `seek_video` entry. -/
theorem retry_condition_trace (L : Libav σ) (h : lsmash_handler_t) (sn start : Nat)
    (pic : AVFrame) (hp : libav_handler_t) (w : VideoWorld σ) :
    no_seek_ext w.trace
      (if start = 0 then ({ ret := -1, picture := pic, hp := hp, w := w } : GetPictureResult σ)
       else get_picture L hp w pic start (sn + hp.delay_count) h.video_sample_count).w.trace := by
  split_ifs
  · exact no_seek_ext_refl _
  · exact get_picture_trace L hp w pic start _ _

theorem read_video_retry_ext (L : Libav σ) (h : lsmash_handler_t) (sn : Nat) (fuel : Nat) :
    ∀ (mode ec rap : Nat) (pos : Int) (start : Nat) (pic : AVFrame) (hp : libav_handler_t)
      (w : VideoWorld σ),
      seek_ext (retry_budget mode ec) w.trace
        (read_video_retry L h sn fuel mode ec rap pos start pic hp w).w.trace := by
  induction fuel with
  | zero => intro mode ec rap pos start pic hp w; exact ⟨[], by simp [read_video_retry], by simp [seek_count]⟩
  | succ fuel ih =>
    intro mode ec rap pos start pic hp w
    have hg := retry_condition_trace L h sn start pic hp w
    rw [read_video_retry_succ L h sn fuel mode ec rap pos start pic hp w _ rfl]
    generalize (if start = 0 then ({ ret := -1, picture := pic, hp := hp, w := w } : GetPictureResult σ)
       else get_picture L hp w pic start (sn + hp.delay_count) h.video_sample_count) = g at hg ⊢
    split_ifs with h1 h2 h3 h4
    · exact seek_ext_of_no_seek _ hg
    · exact seek_ext_of_no_seek _ hg
    · exact seek_ext_trans (seek_ext_of_no_seek 0 hg)
        (seek_ext_trans (seek_video_ext L _ _ _ _ _ _ _) (ih _ _ _ _ _ _ _ _) (le_refl _))
        (retry_budget_escalate mode ec h2 h4)
    · exact seek_ext_trans (seek_ext_of_no_seek 0 hg)
        (seek_ext_trans (seek_video_ext L _ _ _ _ _ _ _) (ih _ _ _ _ _ _ _ _) (le_refl _))
        (retry_budget_retry mode ec rap h2 h3)
    · exact seek_ext_of_no_seek _ hg

theorem seek_ext_drop {n : Nat} {a b : List Event} (h : seek_ext n a b) :
    a <+: b ∧ seek_count (b.drop a.length) ≤ n := by
  obtain ⟨u, hu, cu⟩ := h
  subst hu
  exact ⟨List.prefix_append _ _, by simpa using cu⟩

theorem read_video_decode_ext (L : Libav σ) (h : lsmash_handler_t) (hp : libav_handler_t)
    (w : VideoWorld σ) (sn : Nat) :
    seek_ext (seek_budget hp.seek_mode) w.trace (read_video_decode L h hp w sn).w.trace := by
  have hb : 1 + retry_budget hp.seek_mode 0 ≤ seek_budget hp.seek_mode := by
    simp only [retry_budget, seek_budget, MAX_ERROR_COUNT]
    split_ifs <;> omega
  simp only [read_video_decode]
  split_ifs with h2
  · exact seek_ext_trans (seek_ext_of_no_seek 0 (no_seek_ext_refl _))
      (read_video_retry_ext L h sn 6 hp.seek_mode 0 _ _ _ _ _ _) (by omega)
  · exact seek_ext_trans (seek_video_ext L _ _ _ _ _ _ _)
      (read_video_retry_ext L h sn 6 hp.seek_mode 0 _ _ _ _ _ _) hb

theorem read_video_finish_trace (L : Libav σ) (sn : Nat) (r : RetryResult σ) :
    (read_video_finish L sn r).w.trace = r.w.trace := by
  unfold read_video_finish
  split_ifs <;> rfl

theorem read_video_ext (L : Libav σ) (h : lsmash_handler_t) (hp : libav_handler_t)
    (w : VideoWorld σ) (n : Nat) :
    seek_ext (seek_budget hp.seek_mode) w.trace (read_video L h hp w n).w.trace := by
  simp only [read_video]
  split_ifs with h1
  · exact ⟨[], by simp, by simp [seek_count]⟩
  · rw [read_video_finish_trace]
    exact read_video_decode_ext L h hp w (n + 1)

theorem read_video_failed_ret (L : Libav σ) (h : lsmash_handler_t) (hp : libav_handler_t)
    (w : VideoWorld σ) (n : Nat) (hf : (read_video L h hp w n).failed = true) :
    (read_video L h hp w n).ret = 0 := by
  simp only [read_video, read_video_finish] at hf ⊢
  split_ifs at hf ⊢
  simp_all

/-- C10: whatever the demux and decode primitives do, one `read_video` call makes
at most 5 `seek_video` attempts under the Normal policy, at most 4 under Unsafe
and at most 1 under Aggressive; the record of calls only grows; and a call that
leaves through `video_fail` returns 0. -/
theorem C10_read_video_bounded (L : Libav σ) (h : lsmash_handler_t) (hp : libav_handler_t)
    (w : VideoWorld σ) (n : Nat) :
    w.trace <+: (read_video L h hp w n).w.trace ∧
    (hp.seek_mode = SEEK_MODE_NORMAL →
      seek_count ((read_video L h hp w n).w.trace.drop w.trace.length) ≤ 5) ∧
    (hp.seek_mode = SEEK_MODE_UNSAFE →
      seek_count ((read_video L h hp w n).w.trace.drop w.trace.length) ≤ 4) ∧
    (hp.seek_mode = SEEK_MODE_AGGRESSIVE →
      seek_count ((read_video L h hp w n).w.trace.drop w.trace.length) ≤ 1) ∧
    ((read_video L h hp w n).failed = true → (read_video L h hp w n).ret = 0) := by
  have hx := seek_ext_drop (read_video_ext L h hp w n)
  refine ⟨hx.1, ?_, ?_, ?_, read_video_failed_ret L h hp w n⟩
  · intro hm; have := hx.2; rw [hm] at this; exact this
  · intro hm; have := hx.2; rw [hm] at this; exact this
  · intro hm; have := hx.2; rw [hm] at this; exact this


/-! ## Retrying from earlier random-access points (C9) -/

theorem find_rap_retry_lt (h : lsmash_handler_t) (hp : libav_handler_t) (p rap : Nat)
    (hrap : 1 < rap) : (find_random_accessible_point h hp p (rap - 1)).2.1 < rap := by
  have h0 : ¬ (rap - 1 = 0) := by omega
  rw [find_rap_number, if_neg h0]
  have := rap_walk_le hp.keyframe_list (rap - 1) (vinfo hp.video_frame_list p).is_leading
  split_ifs <;> omega

theorem read_video_seek_path (L : Libav σ) (h : lsmash_handler_t) (hp : libav_handler_t)
    (w : VideoWorld σ) (n : Nat)
    (hvalid : ¬ n + 1 < hp.first_valid_video_frame_number)
    (hseek : n + 1 ≠ hp.last_video_frame_number + 1) :
    read_video L h hp w n =
      read_video_finish L (n + 1)
        (read_video_retry L h (n + 1) 6 hp.seek_mode 0
          (find_random_accessible_point h hp (n + 1) 0).2.1
          (find_random_accessible_point h hp (n + 1) 0).1
          (first_seek L h hp w (n + 1)).ret (first_seek L h hp w (n + 1)).picture
          (first_seek L h hp w (n + 1)).hp (first_seek L h hp w (n + 1)).w) := by
  simp only [read_video, read_video_decode, first_seek, if_neg hvalid, if_neg hseek]

/-- The loop condition after the first attempt, as `read_video_retry` evaluates it. -/
theorem first_attempt_fails_iff (L : Libav σ) (h : lsmash_handler_t) (hp : libav_handler_t)
    (w : VideoWorld σ) (sn : Nat) :
    first_attempt_fails L h hp w sn ↔
      ((first_seek L h hp w sn).ret = 0 ∨
       (if (first_seek L h hp w sn).ret = 0 then
          ({ ret := -1, picture := (first_seek L h hp w sn).picture,
             hp := (first_seek L h hp w sn).hp, w := (first_seek L h hp w sn).w } :
            GetPictureResult σ)
        else get_picture L (first_seek L h hp w sn).hp (first_seek L h hp w sn).w
          (first_seek L h hp w sn).picture (first_seek L h hp w sn).ret
          (sn + (first_seek L h hp w sn).hp.delay_count) h.video_sample_count).ret ≠ 0) := by
  unfold first_attempt_fails
  by_cases h0 : (first_seek L h hp w sn).ret = 0
  · simp [h0]
  · simp [h0]

/-- C9 (amended): on the seek path, when the first attempt fails to yield the
requested picture and its random-access number is above 1, `read_video` under the
Unsafe policy (and under Normal) enters `seek_video` again with a strictly smaller
random-access number; under the Aggressive policy it makes no further attempt and
returns 0 after that single `seek_video`. -/
theorem C9_retry_policy (L : Libav σ) (h : lsmash_handler_t) (hp : libav_handler_t)
    (w : VideoWorld σ) (n : Nat)
    (hvalid : ¬ n + 1 < hp.first_valid_video_frame_number)
    (hseek : n + 1 ≠ hp.last_video_frame_number + 1)
    (hrap : 1 < (find_random_accessible_point h hp (n + 1) 0).2.1)
    (hfail : first_attempt_fails L h hp w (n + 1)) :
    (hp.seek_mode = SEEK_MODE_UNSAFE ∨ hp.seek_mode = SEEK_MODE_NORMAL →
      ∃ rap pos ei, rap < (find_random_accessible_point h hp (n + 1) 0).2.1 ∧
        Event.seek_video (n + 1) rap pos ei ∈
          (read_video L h hp w n).w.trace.drop w.trace.length) ∧
    (hp.seek_mode = SEEK_MODE_AGGRESSIVE →
      (read_video L h hp w n).failed = true ∧ (read_video L h hp w n).ret = 0 ∧
      seek_count ((read_video L h hp w n).w.trace.drop w.trace.length) = 1) := by
  rw [read_video_seek_path L h hp w n hvalid hseek]
  have hcond := (first_attempt_fails_iff L h hp w (n + 1)).mp hfail
  have hs : no_seek_ext (w.trace ++ [Event.seek_video (n + 1)
      (find_random_accessible_point h hp (n + 1) 0).2.1
      (find_random_accessible_point h hp (n + 1) 0).1 (decide (hp.seek_mode ≠ SEEK_MODE_NORMAL))])
      (first_seek L h hp w (n + 1)).w.trace := seek_video_trace L _ w [] _ _ _ _
  have hg := retry_condition_trace L h (n + 1) (first_seek L h hp w (n + 1)).ret
    (first_seek L h hp w (n + 1)).picture (first_seek L h hp w (n + 1)).hp
    (first_seek L h hp w (n + 1)).w
  rw [read_video_retry_succ L h (n + 1) 5 hp.seek_mode 0 _ _ _ _ _ _ _ rfl, if_pos hcond]
  generalize (if (first_seek L h hp w (n + 1)).ret = 0 then
      ({ ret := -1, picture := (first_seek L h hp w (n + 1)).picture,
         hp := (first_seek L h hp w (n + 1)).hp, w := (first_seek L h hp w (n + 1)).w } :
        GetPictureResult σ)
    else get_picture L (first_seek L h hp w (n + 1)).hp (first_seek L h hp w (n + 1)).w
      (first_seek L h hp w (n + 1)).picture (first_seek L h hp w (n + 1)).ret
      (n + 1 + (first_seek L h hp w (n + 1)).hp.delay_count) h.video_sample_count) = g at hg hcond ⊢
  obtain ⟨u1, hu1, cu1⟩ := hs
  obtain ⟨u2, hu2, cu2⟩ := hg
  constructor
  · intro hmode
    have hna : ¬ hp.seek_mode = SEEK_MODE_AGGRESSIVE := by
      rcases hmode with hm | hm <;> rw [hm] <;> decide
    have hbud : ¬ (0 + 1 > MAX_ERROR_COUNT ∨
        (find_random_accessible_point h hp (n + 1) 0).2.1 ≤ 1) := by
      unfold MAX_ERROR_COUNT; omega
    rw [if_neg hna, if_neg hbud, read_video_finish_trace]
    have hlt := find_rap_retry_lt h g.hp (n + 1) _ hrap
    generalize find_random_accessible_point h g.hp (n + 1)
      ((find_random_accessible_point h hp (n + 1) 0).2.1 - 1) = f at hlt ⊢
    refine ⟨f.2.1, f.1, decide (hp.seek_mode ≠ SEEK_MODE_NORMAL), hlt, ?_⟩
    obtain ⟨u4, hu4, _⟩ := seek_video_trace L f.2.2 g.w g.picture (n + 1) f.2.1 f.1
      (decide (hp.seek_mode ≠ SEEK_MODE_NORMAL))
    generalize seek_video L f.2.2 g.w g.picture (n + 1) f.2.1 f.1
      (decide (hp.seek_mode ≠ SEEK_MODE_NORMAL)) = s at hu4 ⊢
    obtain ⟨u3, hu3, _⟩ := read_video_retry_ext L h (n + 1) 5 hp.seek_mode (0 + 1)
      f.2.1 f.1 s.ret s.picture s.hp s.w
    rw [hu3, hu4, hu2, hu1]
    simp
  · intro hmode
    rw [if_pos hmode]
    refine ⟨rfl, rfl, ?_⟩
    show seek_count (List.drop w.trace.length g.w.trace) = 1
    rw [hu2, hu1]
    simp only [List.append_assoc, List.drop_left, seek_count_append, cu1, cu2]
    rfl


/-- C9 (as stated, refuted): under the Aggressive policy, with the nearest
random-access point at unit 3 and a decode error at the requested unit 4,
`read_video` returns 0 after a single `seek_video`, from unit 3; it never tries
unit 1. -/
theorem C9_counterexample :
    1 < (find_random_accessible_point (synth_handle late_error_packets SEEK_MODE_AGGRESSIVE).1
          (synth_handle late_error_packets SEEK_MODE_AGGRESSIVE).2 4 0).2.1 ∧
    first_attempt_fails (synth 0) (synth_handle late_error_packets SEEK_MODE_AGGRESSIVE).1
      (synth_handle late_error_packets SEEK_MODE_AGGRESSIVE).2
      (synth_world late_error_packets 0) 4 ∧
    (synth_read 0 0 late_error_packets SEEK_MODE_AGGRESSIVE 3).ret = 0 ∧
    (synth_read 0 0 late_error_packets SEEK_MODE_AGGRESSIVE 3).w.trace.filter is_seek_video =
      [Event.seek_video 4 3 3 true] := by
  refine ⟨by decide, ?_, by decide, by decide⟩
  unfold first_attempt_fails
  decide

/-- C9 witness: the same request under the Unsafe policy enters `seek_video` a
second time with a random-access number below 3. -/
theorem C9_retry_policy_witness :
    ∃ rap pos ei, rap < 3 ∧ Event.seek_video 4 rap pos ei ∈
      (synth_read 0 0 late_error_packets SEEK_MODE_UNSAFE 3).w.trace :=
  (C9_retry_policy (synth 0) (synth_handle late_error_packets SEEK_MODE_UNSAFE).1
    (synth_handle late_error_packets SEEK_MODE_UNSAFE).2 (synth_world late_error_packets 0) 3
    (by decide) (by decide) (by decide) (by unfold first_attempt_fails; decide)).1 (Or.inl rfl)

/-- The bounds of C10 are reached: on a stream none of whose units decodes, a
request for the last sample makes 5, 4 and 1 attempts under the three policies. -/
theorem read_video_budget_attained :
    (synth_read 0 0 broken_packets SEEK_MODE_NORMAL 4).ret = 0 ∧
    seek_count (synth_read 0 0 broken_packets SEEK_MODE_NORMAL 4).w.trace = 5 ∧
    seek_count (synth_read 0 0 broken_packets SEEK_MODE_UNSAFE 4).w.trace = 4 ∧
    seek_count (synth_read 0 0 broken_packets SEEK_MODE_AGGRESSIVE 4).w.trace = 1 := by
  decide

end Video

/-! ## Audio: sync offset and carry-over (C6, C7) -/

section Audio
variable {σ : Type}

/-- C6 (the code departs from the claim): on two frames of four one-byte samples,
`read_audio( 1, 1 )` followed by `read_audio( 2, 1 )` stores the bytes 11, 11,
the second call taking the continuation path without any library call, while a
single `read_audio( 1, 2 )` stores 11, 12.  The first call started inside frame 1
(`data_offset = 1`), and `last_remainder_size = output_buffer_size - copy_size`
with the `memmove` from `audio_output_buffer + copy_size` leaves that offset out. -/
theorem C6_carry_over_after_mid_frame_seek :
    audio_read_twice 1 1 1 = some ([11, 11], []) ∧ audio_read_once 1 2 = some [11, 12] := by
  decide

/-- C7 (as stated, refuted): with `av_gap = 2`, the request `[1, 2)` ends exactly
at the offset, fails the test `start + wanted_length < hp->av_gap`, is served from
`start = av_gap - start = 1` and returns one decoded sample; the empty request at
`start = 2` returns 0 but only after seeking and decoding a frame. -/
theorem C7_counterexample :
    (read_audio synth_audio 20 audio_h (audio_hp 2) audio_world 1 1).map
        (fun r => (r.ret, r.buf, r.w.trace)) =
      some (1, [11], [AudioEvent.av_seek_frame 0 1, AudioEvent.flush_buffers,
        AudioEvent.get_sample, AudioEvent.avcodec_decode_audio3]) ∧
    (read_audio synth_audio 20 audio_h (audio_hp 2) audio_world 2 0).map
        (fun r => (r.ret, r.buf, r.w.trace)) =
      some (0, [], [AudioEvent.av_seek_frame 0 1, AudioEvent.flush_buffers,
        AudioEvent.get_sample, AudioEvent.avcodec_decode_audio3]) := by
  decide

/-- C7 (amended): a request with `wanted_length >= 0` that ends strictly before
the sync offset, `start + wanted_length < av_gap`, returns 0 at once: nothing is
stored in `buf`, no library call is made and the decode buffer is untouched. -/
theorem C7_before_gap (A : LibavAudio σ) (fuel : Nat) (h : lsmash_handler_t)
    (hp : libav_handler_t) (w : AudioWorld σ) (start wanted_length : Int)
    (hwanted : 0 ≤ wanted_length) (hbefore : start + wanted_length < hp.av_gap) :
    ∃ r, read_audio A fuel h hp w start wanted_length = some r ∧
      r.ret = 0 ∧ r.buf = [] ∧ r.w = w ∧ r.hp.audio_output_buffer = hp.audio_output_buffer := by
  have h1 : start < hp.av_gap ∧ start + wanted_length < hp.av_gap := ⟨by omega, hbefore⟩
  unfold read_audio
  rw [if_pos h1]
  exact ⟨_, rfl, rfl, rfl, rfl, rfl⟩

/-- C7 witness: with `av_gap = 2` the request `[0, 1)`. -/
theorem C7_before_gap_witness :
    ∃ r, read_audio synth_audio 20 audio_h (audio_hp 2) audio_world 0 1 = some r ∧
      r.ret = 0 ∧ r.buf = [] ∧ r.w = audio_world ∧
      r.hp.audio_output_buffer = (audio_hp 2).audio_output_buffer :=
  C7_before_gap synth_audio 20 audio_h (audio_hp 2) audio_world 0 1 (by decide) (by decide)

end Audio

/-! ## Demuxer position during replay (support for C1 and C8) -/

section Replay
variable {σ : Type}

theorem unit_count_append (idx : Int) (a b : List AVPacket) :
    unit_count idx (a ++ b) = unit_count idx a + unit_count idx b := by
  unfold unit_count; exact List.countP_append _ _ _

theorem unit_count_take_add (idx : Int) (l : List AVPacket) (m n : Nat) :
    unit_count idx (l.take (m + n)) =
      unit_count idx (l.take m) + unit_count idx ((l.drop m).take n) := by
  rw [List.take_add, unit_count_append]

theorem unit_count_split (idx : Int) (l : List AVPacket) (m : Nat) :
    unit_count idx l = unit_count idx (l.take m) + unit_count idx (l.drop m) := by
  conv_lhs => rw [← List.take_append_drop m l]
  exact unit_count_append idx _ _

/-- What `get_sample` finds: either the first packet of the stream, having read
exactly the packets up to and including it, or no packet of the stream at all. -/
theorem get_sample_spec (idx : Int) : ∀ (l : List AVPacket) (k : Nat),
    (∃ pkt, (get_sample idx l k).1 = some pkt ∧ k < (get_sample idx l k).2 ∧
      (get_sample idx l k).2 - k ≤ l.length ∧
      unit_count idx (l.take ((get_sample idx l k).2 - k)) = 1) ∨
    ((get_sample idx l k).1 = none ∧ unit_count idx l = 0) := by
  intro l
  induction l with
  | nil => intro k; right; exact ⟨rfl, rfl⟩
  | cons p l ih =>
    intro k
    by_cases hp : p.stream_index ≠ idx
    · have e : get_sample idx (p :: l) k = get_sample idx l (k + 1) := by
        rw [get_sample, if_pos hp]
      rw [e]
      have hp0 : unit_count idx [p] = 0 := by
        simp [unit_count, List.countP_cons, hp]
      rcases ih (k + 1) with ⟨pkt, h1, h2, h3, h4⟩ | ⟨h1, h2⟩
      · left
        refine ⟨pkt, h1, by omega, by simp only [List.length_cons]; omega, ?_⟩
        have e2 : (get_sample idx l (k + 1)).2 - k = 1 + ((get_sample idx l (k + 1)).2 - (k + 1)) := by
          omega
        rw [e2, unit_count_take_add]
        simp only [List.take_succ_cons, List.take_zero, List.drop_succ_cons, List.drop_zero]
        rw [hp0, h4]
      · right
        refine ⟨h1, ?_⟩
        have : p :: l = [p] ++ l := rfl
        rw [this, unit_count_append, hp0, h2]
    · have e : get_sample idx (p :: l) k = (some p, k + 1) := by
        rw [get_sample, if_neg hp]
      rw [e]
      left
      refine ⟨p, rfl, by simp, by simp, ?_⟩
      have hp1 : p.stream_index = idx := not_not.mp hp
      simp [unit_count, List.countP_cons, hp1]

theorem same_index_refl (hp : libav_handler_t) : same_index hp hp := ⟨rfl, rfl, rfl, rfl⟩

theorem same_index_trans {a b c : libav_handler_t} (h1 : same_index a b) (h2 : same_index b c) :
    same_index a c :=
  ⟨h2.1.trans h1.1, h2.2.1.trans h1.2.1, h2.2.2.1.trans h1.2.2.1, h2.2.2.2.trans h1.2.2.2⟩

theorem same_stream_refl (w : VideoWorld σ) : same_stream w w := ⟨rfl, rfl⟩

theorem same_stream_trans {a b c : VideoWorld σ} (h1 : same_stream a b) (h2 : same_stream b c) :
    same_stream a c := ⟨h2.1.trans h1.1, h2.2.trans h1.2⟩

/-- What one `decode_video_sample` call changes and what it leaves alone. -/
theorem decode_video_sample_spec (L : Libav σ) (hc : const_delay L) (hp : libav_handler_t)
    (w : VideoWorld σ) (pic : AVFrame) (got : Int) (n : Nat) :
    same_index hp (decode_video_sample L hp w pic got n).hp ∧
    same_stream w (decode_video_sample L hp w pic got n).w ∧
    (decode_video_sample L hp w pic got n).hp.delay_count = hp.delay_count ∧
    (decode_video_sample L hp w pic got n).hp.decode_status = hp.decode_status ∧
    ((decode_video_sample L hp w pic got n).ret ≠ 1 →
      next_unit (decode_video_sample L hp w pic got n).hp (decode_video_sample L hp w pic got n).w =
        next_unit hp w + 1 ∧
      w.cursor < (decode_video_sample L hp w pic got n).w.cursor ∧
      (decode_video_sample L hp w pic got n).w.cursor ≤ w.packets.length) ∧
    (next_unit hp w ≤ unit_count hp.video_index w.packets →
      (decode_video_sample L hp w pic got n).ret ≠ 1) := by
  have hs := get_sample_spec hp.video_index (w.packets.drop w.cursor) 0
  unfold decode_video_sample
  simp only [VideoWorld.log]
  split
  · rename_i consumed heq
    rw [heq] at hs
    rcases hs with ⟨pkt, h1, _⟩ | ⟨_, h2⟩
    · simp at h1
    · refine ⟨same_index_refl _, ⟨rfl, rfl⟩, rfl, rfl, fun h => absurd rfl h, ?_⟩
      intro hle
      have := unit_count_split hp.video_index w.packets w.cursor
      unfold next_unit at hle
      omega
  · rename_i pkt consumed heq
    rw [heq] at hs
    rcases hs with ⟨pkt', h1, h2, h3, h4⟩ | ⟨h1, _⟩
    · simp only [Nat.sub_zero] at h3 h4
      simp only [List.length_drop] at h3
      refine ⟨?_, ⟨rfl, ?_⟩, ?_, ?_, ?_, ?_⟩
      · split_ifs <;> exact ⟨rfl, rfl, rfl, rfl⟩
      · simp only [DECODER_DELAY, hc.1]
      · split_ifs <;> rfl
      · split_ifs <;> rfl
      · intro _
        refine ⟨?_, by simpa using h2, by simp only; omega⟩
        have hidx : (if pkt.flags = AV_PKT_FLAG_KEY then { hp with last_rap_number := n } else hp).video_index
            = hp.video_index := by split_ifs <;> rfl
        simp only [next_unit, hidx, unit_count_take_add, h4]
      · intro _
        split_ifs <;> simp
    · simp at h1


/-- One pass of the replay loop of `seek_video`, with the decoded unit named. -/
theorem seek_video_loop_succ (L : Libav σ) (psn : Nat) (ei : Bool) (fuel i : Nat) (pic : AVFrame)
    (hp : libav_handler_t) (w w1 : VideoWorld σ) (r : DecodeSampleResult σ)
    (hw1 : w1 = if i + DECODER_DELAY w = psn then { w with skip_frame := AVDISCARD_DEFAULT } else w)
    (hr : r = decode_video_sample L hp w1 pic 0 i) :
    seek_video_loop L psn ei (fuel + 1) i pic hp w =
      if i < psn + DECODER_DELAY w then
        (if r.ret = -1 ∧ ei = false then
          { aborted := true, i := i, picture := r.picture, hp := r.hp, w := r.w }
         else if r.ret = 1 then
          { aborted := false, i := i, picture := r.picture, hp := r.hp, w := r.w }
         else seek_video_loop L psn ei fuel (i + 1) r.picture r.hp r.w)
      else { aborted := false, i := i, picture := pic, hp := hp, w := w } := by
  subst hw1 hr
  rfl

/-- The replay loop of `seek_video` keeps the demuxer position and the loop
counter in step as long as the units exist. -/
theorem seek_video_loop_aligned (L : Libav σ) (hc : const_delay L) (psn : Nat) (ei : Bool) :
    ∀ (fuel i : Nat) (pic : AVFrame) (hp : libav_handler_t) (w : VideoWorld σ),
      w.packets.length - w.cursor < fuel →
      next_unit hp w = i →
      psn + DECODER_DELAY w ≤ unit_count hp.video_index w.packets + 1 →
      same_index hp (seek_video_loop L psn ei fuel i pic hp w).hp ∧
      same_stream w (seek_video_loop L psn ei fuel i pic hp w).w ∧
      (seek_video_loop L psn ei fuel i pic hp w).hp.delay_count = hp.delay_count ∧
      (seek_video_loop L psn ei fuel i pic hp w).hp.decode_status = hp.decode_status ∧
      ((seek_video_loop L psn ei fuel i pic hp w).aborted = false →
        next_unit (seek_video_loop L psn ei fuel i pic hp w).hp
          (seek_video_loop L psn ei fuel i pic hp w).w = (seek_video_loop L psn ei fuel i pic hp w).i ∧
        (i ≤ psn + DECODER_DELAY w →
          (seek_video_loop L psn ei fuel i pic hp w).i = psn + DECODER_DELAY w)) := by
  intro fuel
  induction fuel with
  | zero => intro i pic hp w hf; omega
  | succ fuel ih =>
    intro i pic hp w hf hn hex
    have hw1 : ∀ w1 : VideoWorld σ,
        w1 = (if i + DECODER_DELAY w = psn then { w with skip_frame := AVDISCARD_DEFAULT } else w) →
        w1.packets = w.packets ∧ w1.cursor = w.cursor ∧ DECODER_DELAY w1 = DECODER_DELAY w := by
      intro w1 e; subst e; split_ifs <;> exact ⟨rfl, rfl, rfl⟩
    rw [seek_video_loop_succ L psn ei fuel i pic hp w _ _ rfl rfl]
    generalize (if i + DECODER_DELAY w = psn then { w with skip_frame := AVDISCARD_DEFAULT } else w)
      = w1 at hw1 ⊢
    obtain ⟨hp1, hc1, hd1⟩ := hw1 w1 rfl
    have hn1 : next_unit hp w1 = i := by
      rw [← hn]; simp only [next_unit, hp1, hc1]
    obtain ⟨d1, d2, d3, d4, d5, d6⟩ := decode_video_sample_spec L hc hp w1 pic 0 i
    generalize decode_video_sample L hp w1 pic 0 i = r at d1 d2 d3 d4 d5 d6 ⊢
    have hss : same_stream w r.w := ⟨d2.1.trans hp1, d2.2.trans hd1⟩
    by_cases hlt : i < psn + DECODER_DELAY w
    · rw [if_pos hlt]
      have hne1 : r.ret ≠ 1 := by
        apply d6
        rw [hn1, hp1]; omega
      by_cases hab : r.ret = -1 ∧ ei = false
      · rw [if_pos hab]
        exact ⟨d1, hss, d3, d4, fun h => by simp at h⟩
      · rw [if_neg hab, if_neg hne1]
        obtain ⟨e1, e2, e3⟩ := d5 hne1
        have hf' : r.w.packets.length - r.w.cursor < fuel := by
          rw [d2.1]; rw [hp1, hc1] at *; omega
        have hex' : psn + DECODER_DELAY r.w ≤ unit_count r.hp.video_index r.w.packets + 1 := by
          rw [hss.2, hss.1, d1.1]; exact hex
        obtain ⟨i1, i2, i3, i4, i5⟩ := ih (i + 1) r.picture r.hp r.w hf' (by rw [e1, hn1]) hex'
        refine ⟨same_index_trans d1 i1, same_stream_trans hss i2, i3.trans d3, i4.trans d4, ?_⟩
        intro hna
        obtain ⟨j1, j2⟩ := i5 hna
        refine ⟨j1, fun _ => ?_⟩
        rw [j2 (by rw [hss.2]; omega), hss.2]
    · rw [if_neg hlt]
      refine ⟨same_index_refl _, same_stream_refl _, rfl, rfl, fun _ => ⟨hn, fun hle => ?_⟩⟩
      show i = _
      omega


/-- The flag word `seek_video` hands to `av_seek_frame`. -/
theorem seek_video_eq (L : Libav σ) (hp : libav_handler_t) (w : VideoWorld σ) (pic : AVFrame)
    (psn rap : Nat) (pos : Int) (ei : Bool) (flags : Nat) (s : SeekResult σ)
    (w1 w2 w3 : VideoWorld σ) (r : SeekLoopResult σ)
    (hflags : flags = (if hp.video_seek_base &&& SEEK_FILE_OFFSET_BASED ≠ 0 then AVSEEK_FLAG_BYTE
      else if hp.video_seek_base = 0 then AVSEEK_FLAG_FRAME else 0) ||| AVSEEK_FLAG_BACKWARD)
    (hs : s = L.av_seek_frame (w.log (Event.seek_video psn rap pos ei)) hp.video_index pos flags)
    (hw1 : w1 = { (w.log (Event.seek_video psn rap pos ei)) with
      cursor := s.cursor, priv := s.priv,
      trace := (w.log (Event.seek_video psn rap pos ei)).trace ++ [Event.av_seek_frame pos flags] })
    (hw2 : w2 = flush_buffers L w1)
    (hw3 : w3 = if rap + DECODER_DELAY w2 < psn then { w2 with skip_frame := AVDISCARD_NONREF }
      else w2)
    (hr : r = seek_video_loop L psn ei (w3.packets.length - w3.cursor + 1) rap pic
      { hp with delay_count := 0, decode_status := decode_status_t.DECODE_REQUIRE_INITIAL } w3) :
    seek_video L hp w pic psn rap pos ei =
      if s.ret < 0 then { ret := 0, picture := pic, hp := hp, w := w1 }
      else if r.aborted then { ret := 0, picture := r.picture, hp := r.hp, w := r.w }
      else
        let w4 : VideoWorld σ := { r.w with skip_frame := AVDISCARD_DEFAULT }
        { ret := r.i, picture := r.picture, hp := { r.hp with delay_count := DECODER_DELAY w4 },
          w := w4 } := by
  subst hflags hs hw1 hw2 hw3 hr
  rfl

/-- After a successful `seek_video` the demuxer stands at the returned sample
number, provided the seek was exact and the units to replay exist. -/
theorem seek_video_aligned (L : Libav σ) (hc : const_delay L) (h : lsmash_handler_t)
    (hp0 : libav_handler_t) (P : List AVPacket) (hex : exact_seek L h hp0 P)
    (hp : libav_handler_t) (w : VideoWorld σ) (pic : AVFrame) (psn rap : Nat) (ei : Bool)
    (hidx : same_index hp0 hp) (hP : w.packets = P)
    (hunits : psn + DECODER_DELAY w ≤ unit_count hp0.video_index P + 1) :
    same_index hp (seek_video L hp w pic psn rap
      (rap_pos_of h.video_sample_count hp0.video_frame_list hp0.video_seek_base rap) ei).hp ∧
    same_stream w (seek_video L hp w pic psn rap
      (rap_pos_of h.video_sample_count hp0.video_frame_list hp0.video_seek_base rap) ei).w ∧
    ((seek_video L hp w pic psn rap
      (rap_pos_of h.video_sample_count hp0.video_frame_list hp0.video_seek_base rap) ei).ret ≠ 0 →
      next_unit (seek_video L hp w pic psn rap
          (rap_pos_of h.video_sample_count hp0.video_frame_list hp0.video_seek_base rap) ei).hp
        (seek_video L hp w pic psn rap
          (rap_pos_of h.video_sample_count hp0.video_frame_list hp0.video_seek_base rap) ei).w =
        (seek_video L hp w pic psn rap
          (rap_pos_of h.video_sample_count hp0.video_frame_list hp0.video_seek_base rap) ei).ret ∧
      (seek_video L hp w pic psn rap
        (rap_pos_of h.video_sample_count hp0.video_frame_list hp0.video_seek_base rap)
        ei).hp.delay_count = DECODER_DELAY w ∧
      (seek_video L hp w pic psn rap
        (rap_pos_of h.video_sample_count hp0.video_frame_list hp0.video_seek_base rap)
        ei).hp.decode_status = decode_status_t.DECODE_REQUIRE_INITIAL ∧
      (rap ≤ psn + DECODER_DELAY w →
        (seek_video L hp w pic psn rap
          (rap_pos_of h.video_sample_count hp0.video_frame_list hp0.video_seek_base rap) ei).ret =
          psn + DECODER_DELAY w)) := by
  generalize hpos : rap_pos_of h.video_sample_count hp0.video_frame_list hp0.video_seek_base rap
    = pos
  obtain ⟨flags, hflags⟩ : ∃ flags, flags =
      (if hp.video_seek_base &&& SEEK_FILE_OFFSET_BASED ≠ 0 then AVSEEK_FLAG_BYTE
       else if hp.video_seek_base = 0 then AVSEEK_FLAG_FRAME else 0) ||| AVSEEK_FLAG_BACKWARD :=
    ⟨_, rfl⟩
  obtain ⟨s, hs⟩ : ∃ s, s = L.av_seek_frame (w.log (Event.seek_video psn rap pos ei))
      hp.video_index pos flags := ⟨_, rfl⟩
  obtain ⟨w1, hw1⟩ : ∃ w1 : VideoWorld σ, w1 = { (w.log (Event.seek_video psn rap pos ei)) with
      cursor := s.cursor, priv := s.priv,
      trace := (w.log (Event.seek_video psn rap pos ei)).trace ++
        [Event.av_seek_frame pos flags] } := ⟨_, rfl⟩
  obtain ⟨w2, hw2⟩ : ∃ w2, w2 = flush_buffers L w1 := ⟨_, rfl⟩
  obtain ⟨w3, hw3⟩ : ∃ w3 : VideoWorld σ, w3 =
      if rap + DECODER_DELAY w2 < psn then { w2 with skip_frame := AVDISCARD_NONREF } else w2 :=
    ⟨_, rfl⟩
  obtain ⟨r, hr⟩ : ∃ r, r = seek_video_loop L psn ei (w3.packets.length - w3.cursor + 1) rap pic
      { hp with delay_count := 0, decode_status := decode_status_t.DECODE_REQUIRE_INITIAL } w3 :=
    ⟨_, rfl⟩
  rw [seek_video_eq L hp w pic psn rap pos ei flags s w1 w2 w3 r hflags hs hw1 hw2 hw3 hr]
  have a1 : w1.packets = w.packets ∧ w1.cursor = s.cursor ∧ DECODER_DELAY w1 = DECODER_DELAY w := by
    rw [hw1]; exact ⟨rfl, rfl, rfl⟩
  have a2 : w2.packets = w1.packets ∧ w2.cursor = w1.cursor ∧ DECODER_DELAY w2 = DECODER_DELAY w1 := by
    rw [hw2]
    refine ⟨rfl, rfl, ?_⟩
    simp only [DECODER_DELAY, flush_buffers, (hc.2 w1).1, (hc.2 w1).2]
  have a3 : w3.packets = w2.packets ∧ w3.cursor = w2.cursor ∧ DECODER_DELAY w3 = DECODER_DELAY w2 := by
    rw [hw3]; split_ifs <;> exact ⟨rfl, rfl, rfl⟩
  have hp3 : w3.packets = w.packets := a3.1.trans (a2.1.trans a1.1)
  have hc3 : w3.cursor = s.cursor := a3.2.1.trans (a2.2.1.trans a1.2.1)
  have hd3 : DECODER_DELAY w3 = DECODER_DELAY w := a3.2.2.trans (a2.2.2.trans a1.2.2)
  by_cases hret : s.ret < 0
  · rw [if_pos hret]
    exact ⟨same_index_refl _, ⟨a1.1, a1.2.2⟩, fun hne => absurd rfl hne⟩
  · rw [if_neg hret]
    have hcur : unit_count hp.video_index (P.take s.cursor) + 1 = rap := by
      have := hex (w.log (Event.seek_video psn rap pos ei)) rap flags hP
      rw [hpos, ← hidx.1, ← hs] at this
      exact this (by omega)
    have hloop := seek_video_loop_aligned L hc psn ei (w3.packets.length - w3.cursor + 1) rap pic
      { hp with delay_count := 0, decode_status := decode_status_t.DECODE_REQUIRE_INITIAL } w3
      (by omega)
      (by simp only [next_unit, hp3, hc3, hP]; exact hcur)
      (by rw [hd3, hp3, hP]; show psn + DECODER_DELAY w ≤ unit_count hp.video_index P + 1
          rw [hidx.1]; exact hunits)
    rw [← hr] at hloop
    obtain ⟨l1, l2, l3, l4, l5⟩ := hloop
    have hss : same_stream w r.w := ⟨l2.1.trans hp3, l2.2.trans hd3⟩
    by_cases hab : r.aborted = true
    · rw [if_pos hab]
      exact ⟨l1, hss, fun hne => absurd rfl hne⟩
    · rw [if_neg hab]
      have hab' : r.aborted = false := by simpa using hab
      obtain ⟨m1, m2⟩ := l5 hab'
      refine ⟨l1, hss, fun _ => ⟨m1, hss.2, l4, fun hle => ?_⟩⟩
      show r.i = _
      rw [m2 (by rw [hd3]; exact hle), hd3]


/-- One pass of the first loop of `get_picture`, with the decoded unit named. -/
theorem get_picture_loop_succ (L : Libav σ) (goal fuel current : Nat) (got : Int) (pic : AVFrame)
    (hp : libav_handler_t) (w : VideoWorld σ) (r : DecodeSampleResult σ) (hp1 : libav_handler_t)
    (hr : r = decode_video_sample L hp w pic got current)
    (hhp1 : hp1 = if r.got_picture = 0 then { r.hp with delay_count := r.hp.delay_count + 1 }
      else r.hp) :
    get_picture_loop L goal (fuel + 1) current got pic hp w =
      if r.ret = -1 then
        { aborted := true, current := current, got_picture := r.got_picture,
          picture := r.picture, hp := r.hp, w := r.w }
      else if r.ret = 1 then
        { aborted := false, current := current, got_picture := r.got_picture,
          picture := r.picture, hp := r.hp, w := r.w }
      else if hp1.delay_count > DECODER_DELAY r.w ∧
          hp1.decode_status = decode_status_t.DECODE_INITIALIZED then
        { aborted := false, current := current + 1, got_picture := r.got_picture,
          picture := r.picture, hp := hp1, w := r.w }
      else if current + 1 ≤ goal then
        get_picture_loop L goal fuel (current + 1) r.got_picture r.picture hp1 r.w
      else
        { aborted := false, current := current + 1, got_picture := r.got_picture,
          picture := r.picture, hp := hp1, w := r.w } := by
  subst hr hhp1
  rfl

theorem get_picture_loop_frame (L : Libav σ) (hc : const_delay L) (goal : Nat) :
    ∀ (fuel current : Nat) (got : Int) (pic : AVFrame) (hp : libav_handler_t) (w : VideoWorld σ),
      same_index hp (get_picture_loop L goal fuel current got pic hp w).hp ∧
      same_stream w (get_picture_loop L goal fuel current got pic hp w).w := by
  intro fuel
  induction fuel with
  | zero => intro c g pic hp w; exact ⟨same_index_refl _, same_stream_refl _⟩
  | succ fuel ih =>
    intro c g pic hp w
    obtain ⟨r, hr⟩ : ∃ r, r = decode_video_sample L hp w pic g c := ⟨_, rfl⟩
    obtain ⟨hp1, hhp1⟩ : ∃ hp1 : libav_handler_t, hp1 =
        if r.got_picture = 0 then { r.hp with delay_count := r.hp.delay_count + 1 } else r.hp :=
      ⟨_, rfl⟩
    rw [get_picture_loop_succ L goal fuel c g pic hp w r hp1 hr hhp1]
    obtain ⟨d1, d2, -⟩ := decode_video_sample_spec L hc hp w pic g c
    rw [← hr] at d1 d2
    have d1' : same_index hp hp1 := by
      rw [hhp1]; split_ifs
      · exact ⟨d1.1, d1.2.1, d1.2.2.1, d1.2.2.2⟩
      · exact d1
    split_ifs
    · exact ⟨d1, d2⟩
    · exact ⟨d1, d2⟩
    · exact ⟨d1', d2⟩
    · obtain ⟨i1, i2⟩ := ih (c + 1) r.got_picture r.picture hp1 r.w
      exact ⟨same_index_trans d1' i1, same_stream_trans d2 i2⟩
    · exact ⟨d1', d2⟩

/-- One pass of the flushing loop of `get_picture`, with the decoder's answer named. -/
theorem get_picture_flush_succ (L : Libav σ) (goal fuel current : Nat) (got : Int) (pic : AVFrame)
    (hp : libav_handler_t) (w : VideoWorld σ) (d : DecodeResult σ) (w1 : VideoWorld σ)
    (hp1 : libav_handler_t)
    (hd : d = L.avcodec_decode_video2 w none)
    (hw1 : w1 = { w with has_b_frames := d.has_b_frames, priv := d.priv,
                         trace := w.trace ++ [Event.avcodec_decode_video2 false] })
    (hhp1 : hp1 = if d.got_picture = 0 then { hp with delay_count := hp.delay_count + 1 } else hp) :
    get_picture_flush L goal (fuel + 1) current got pic hp w =
      if d.ret < 0 then
        { aborted := true, current := current, got_picture := d.got_picture,
          picture := d.picture, hp := hp, w := w1 }
      else if current + 1 ≤ goal then
        get_picture_flush L goal fuel (current + 1) d.got_picture d.picture hp1 w1
      else
        { aborted := false, current := current + 1, got_picture := d.got_picture,
          picture := d.picture, hp := hp1, w := w1 } := by
  subst hd hw1 hhp1
  rfl

theorem get_picture_flush_frame (L : Libav σ) (hc : const_delay L) (goal : Nat) :
    ∀ (fuel current : Nat) (got : Int) (pic : AVFrame) (hp : libav_handler_t) (w : VideoWorld σ),
      same_index hp (get_picture_flush L goal fuel current got pic hp w).hp ∧
      same_stream w (get_picture_flush L goal fuel current got pic hp w).w ∧
      hp.delay_count ≤ (get_picture_flush L goal fuel current got pic hp w).hp.delay_count := by
  intro fuel
  induction fuel with
  | zero => intro c g pic hp w; exact ⟨same_index_refl _, same_stream_refl _, le_refl _⟩
  | succ fuel ih =>
    intro c g pic hp w
    obtain ⟨d, hd⟩ : ∃ d, d = L.avcodec_decode_video2 w none := ⟨_, rfl⟩
    obtain ⟨w1, hw1⟩ : ∃ w1 : VideoWorld σ, w1 =
        { w with has_b_frames := d.has_b_frames, priv := d.priv,
                 trace := w.trace ++ [Event.avcodec_decode_video2 false] } := ⟨_, rfl⟩
    obtain ⟨hp1, hhp1⟩ : ∃ hp1 : libav_handler_t, hp1 =
        if d.got_picture = 0 then { hp with delay_count := hp.delay_count + 1 } else hp :=
      ⟨_, rfl⟩
    rw [get_picture_flush_succ L goal fuel c g pic hp w d w1 hp1 hd hw1 hhp1]
    have e1 : same_stream w w1 := by
      rw [hw1]
      refine ⟨rfl, ?_⟩
      simp only [DECODER_DELAY, hd, hc.1]
    have e2 : same_index hp hp1 ∧ hp.delay_count ≤ hp1.delay_count := by
      rw [hhp1]; split_ifs
      · exact ⟨⟨rfl, rfl, rfl, rfl⟩, Nat.le_succ _⟩
      · exact ⟨same_index_refl _, le_refl _⟩
    split_ifs
    · exact ⟨same_index_refl _, e1, le_refl _⟩
    · obtain ⟨i1, i2, i3⟩ := ih (c + 1) d.got_picture d.picture hp1 w1
      exact ⟨same_index_trans e2.1 i1, same_stream_trans e1 i2, le_trans e2.2 i3⟩
    · exact ⟨e2.1, e1, e2.2⟩

/-- `get_picture` with its three stages named. -/
theorem get_picture_eq (L : Libav σ) (hp : libav_handler_t) (w : VideoWorld σ) (pic : AVFrame)
    (current goal N : Nat) (hp1 : libav_handler_t) (r r2 : PictureLoopResult σ)
    (hhp1 : hp1 = if hp.decode_status = decode_status_t.DECODE_INITIALIZING then
        (if hp.delay_count > DECODER_DELAY w then { hp with delay_count := hp.delay_count - 1 }
         else { hp with decode_status := decode_status_t.DECODE_INITIALIZED })
      else hp)
    (hr : r = get_picture_loop L goal (goal - current + 1) current 0 pic hp1 w)
    (hr2 : r2 = if r.current > N ∧ r.got_picture = 0 ∧ DECODER_DELAY r.w ≠ 0 then
        get_picture_flush L goal (goal - r.current + 1) r.current r.got_picture r.picture r.hp r.w
      else r) :
    get_picture L hp w pic current goal N =
      if r.aborted then { ret := -1, picture := r.picture, hp := r.hp, w := r.w }
      else if r2.aborted then { ret := -1, picture := r2.picture, hp := r2.hp, w := r2.w }
      else
        { ret := if r2.got_picture ≠ 0 then 0 else -1, picture := r2.picture,
          hp := if r2.hp.decode_status = decode_status_t.DECODE_REQUIRE_INITIAL
                then { r2.hp with decode_status := decode_status_t.DECODE_INITIALIZING }
                else r2.hp,
          w := r2.w } := by
  subst hhp1 hr hr2
  rfl

theorem get_picture_frame (L : Libav σ) (hc : const_delay L) (hp : libav_handler_t)
    (w : VideoWorld σ) (pic : AVFrame) (current goal N : Nat) :
    same_index hp (get_picture L hp w pic current goal N).hp ∧
    same_stream w (get_picture L hp w pic current goal N).w := by
  obtain ⟨hp1, hhp1⟩ : ∃ hp1 : libav_handler_t, hp1 =
      if hp.decode_status = decode_status_t.DECODE_INITIALIZING then
        (if hp.delay_count > DECODER_DELAY w then { hp with delay_count := hp.delay_count - 1 }
         else { hp with decode_status := decode_status_t.DECODE_INITIALIZED })
      else hp := ⟨_, rfl⟩
  obtain ⟨r, hr⟩ : ∃ r, r = get_picture_loop L goal (goal - current + 1) current 0 pic hp1 w :=
    ⟨_, rfl⟩
  obtain ⟨r2, hr2⟩ : ∃ r2, r2 =
      if r.current > N ∧ r.got_picture = 0 ∧ DECODER_DELAY r.w ≠ 0 then
        get_picture_flush L goal (goal - r.current + 1) r.current r.got_picture r.picture r.hp r.w
      else r := ⟨_, rfl⟩
  rw [get_picture_eq L hp w pic current goal N hp1 r r2 hhp1 hr hr2]
  have a1 : same_index hp hp1 := by
    rw [hhp1]; split_ifs <;> exact ⟨rfl, rfl, rfl, rfl⟩
  obtain ⟨b1, b2⟩ := get_picture_loop_frame L hc goal (goal - current + 1) current 0 pic hp1 w
  rw [← hr] at b1 b2
  have c12 : same_index r.hp r2.hp ∧ same_stream r.w r2.w := by
    rw [hr2]; split_ifs
    · obtain ⟨f1, f2, _⟩ := get_picture_flush_frame L hc goal (goal - r.current + 1) r.current
        r.got_picture r.picture r.hp r.w
      exact ⟨f1, f2⟩
    · exact ⟨same_index_refl _, same_stream_refl _⟩
  by_cases h1 : r.aborted = true
  · rw [if_pos h1]
    exact ⟨same_index_trans a1 b1, b2⟩
  · rw [if_neg h1]
    by_cases h2 : r2.aborted = true
    · rw [if_pos h2]
      exact ⟨same_index_trans a1 (same_index_trans b1 c12.1), same_stream_trans b2 c12.2⟩
    · rw [if_neg h2]
      have e : same_index r2.hp
          (if r2.hp.decode_status = decode_status_t.DECODE_REQUIRE_INITIAL
           then { r2.hp with decode_status := decode_status_t.DECODE_INITIALIZING }
           else r2.hp) := by
        split_ifs <;> exact ⟨rfl, rfl, rfl, rfl⟩
      exact ⟨same_index_trans a1 (same_index_trans b1 (same_index_trans c12.1 e)),
        same_stream_trans b2 c12.2⟩


/-- A `get_picture` call for one unit, made right after `seek_video` with the
demuxer standing at that unit, that succeeds without raising the delay counter
has taken exactly that unit from the demuxer. -/
theorem get_picture_aligned (L : Libav σ) (hc : const_delay L) (hp : libav_handler_t)
    (w : VideoWorld σ) (pic : AVFrame) (c N : Nat)
    (hst : hp.decode_status = decode_status_t.DECODE_REQUIRE_INITIAL)
    (hn : next_unit hp w = c)
    (hex : c ≤ unit_count hp.video_index w.packets)
    (hret : (get_picture L hp w pic c c N).ret = 0)
    (hdc : (get_picture L hp w pic c c N).hp.delay_count = hp.delay_count) :
    next_unit (get_picture L hp w pic c c N).hp (get_picture L hp w pic c c N).w = c + 1 := by
  obtain ⟨d, hd⟩ : ∃ d, d = decode_video_sample L hp w pic 0 c := ⟨_, rfl⟩
  obtain ⟨hpx, hhpx⟩ : ∃ hpx : libav_handler_t, hpx =
      if d.got_picture = 0 then { d.hp with delay_count := d.hp.delay_count + 1 } else d.hp :=
    ⟨_, rfl⟩
  obtain ⟨r, hr⟩ : ∃ r, r = get_picture_loop L c (c - c + 1) c 0 pic hp w := ⟨_, rfl⟩
  obtain ⟨r2, hr2⟩ : ∃ r2, r2 =
      if r.current > N ∧ r.got_picture = 0 ∧ DECODER_DELAY r.w ≠ 0 then
        get_picture_flush L c (c - r.current + 1) r.current r.got_picture r.picture r.hp r.w
      else r := ⟨_, rfl⟩
  have hhp1 : hp = if hp.decode_status = decode_status_t.DECODE_INITIALIZING then
        (if hp.delay_count > DECODER_DELAY w then { hp with delay_count := hp.delay_count - 1 }
         else { hp with decode_status := decode_status_t.DECODE_INITIALIZED })
      else hp := by
    rw [if_neg (by rw [hst]; decide)]
  rw [get_picture_eq L hp w pic c c N hp r r2 hhp1 hr hr2] at hret hdc ⊢
  obtain ⟨d1, d2, d3, d4, d5, d6⟩ := decode_video_sample_spec L hc hp w pic 0 c
  rw [← hd] at d1 d2 d3 d4 d5 d6
  have hne1 : d.ret ≠ 1 := d6 (by rw [hn]; exact hex)
  obtain ⟨e1, -, -⟩ := d5 hne1
  have hxs : hpx.decode_status = decode_status_t.DECODE_REQUIRE_INITIAL := by
    rw [hhpx]; split_ifs
    · exact d4.trans hst
    · exact d4.trans hst
  have hxi : hpx.video_index = d.hp.video_index := by
    rw [hhpx]; split_ifs <;> rfl
  have hloop : r = if d.ret = -1 then
        { aborted := true, current := c, got_picture := d.got_picture,
          picture := d.picture, hp := d.hp, w := d.w }
      else { aborted := false, current := c + 1, got_picture := d.got_picture,
             picture := d.picture, hp := hpx, w := d.w } := by
    rw [hr, Nat.sub_self, get_picture_loop_succ L c 0 c 0 pic hp w d hpx hd hhpx]
    rw [if_neg hne1]
    have h3 : ¬ (hpx.delay_count > DECODER_DELAY d.w ∧
        hpx.decode_status = decode_status_t.DECODE_INITIALIZED) := by
      rw [hxs]; intro h; exact absurd h.2 (by decide)
    rw [if_neg h3, if_neg (by omega : ¬ c + 1 ≤ c)]
  by_cases hab : d.ret = -1
  · rw [if_pos hab] at hloop
    rw [hloop] at hret
    simp at hret
  · rw [if_neg hab] at hloop
    have hra : r.aborted = false := by rw [hloop]
    rw [hra] at hret hdc ⊢
    simp only [Bool.false_eq_true, if_false] at hret hdc ⊢
    by_cases hg : d.got_picture = 0
    · -- no picture: either the call fails or flushing raises the delay counter
      exfalso
      have hx1 : hpx.delay_count = hp.delay_count + 1 := by
        rw [hhpx, if_pos hg]; show d.hp.delay_count + 1 = _; rw [d3]
      by_cases hfl : r.current > N ∧ r.got_picture = 0 ∧ DECODER_DELAY r.w ≠ 0
      · rw [if_pos hfl] at hr2
        obtain ⟨-, -, f3⟩ := get_picture_flush_frame L hc c (c - r.current + 1) r.current
          r.got_picture r.picture r.hp r.w
        rw [← hr2] at f3
        have hrhp : r.hp = hpx := by rw [hloop]
        rw [hrhp, hx1] at f3
        by_cases h2 : r2.aborted = true
        · rw [if_pos h2] at hret; simp at hret
        · rw [if_neg h2] at hdc
          have : (if r2.hp.decode_status = decode_status_t.DECODE_REQUIRE_INITIAL
              then { r2.hp with decode_status := decode_status_t.DECODE_INITIALIZING }
              else r2.hp).delay_count = r2.hp.delay_count := by split_ifs <;> rfl
          simp only at hdc
          rw [this] at hdc
          omega
      · rw [if_neg hfl] at hr2
        rw [hr2, hloop] at hret
        simp [hg] at hret
    · have hfl : ¬ (r.current > N ∧ r.got_picture = 0 ∧ DECODER_DELAY r.w ≠ 0) := by
        rw [hloop]; intro h; exact hg h.2.1
      rw [if_neg hfl] at hr2
      rw [hr2, hloop]
      simp only [Bool.false_eq_true, if_false]
      have hidx : (if hpx.decode_status = decode_status_t.DECODE_REQUIRE_INITIAL
          then { hpx with decode_status := decode_status_t.DECODE_INITIALIZING }
          else hpx).video_index = d.hp.video_index := by
        split_ifs
        exact hxi
      have e1' : next_unit d.hp d.w = c + 1 := by rw [e1, hn]
      simp only [next_unit] at e1' ⊢
      rw [hidx]
      exact e1'


theorem find_rap_frame (h : lsmash_handler_t) (hp : libav_handler_t) (p dsn : Nat) :
    same_index hp (find_random_accessible_point h hp p dsn).2.2 ∧
    (find_random_accessible_point h hp p dsn).1 =
      rap_pos_of h.video_sample_count hp.video_frame_list hp.video_seek_base
        (find_random_accessible_point h hp p dsn).2.1 :=
  ⟨⟨rfl, rfl, rfl, rfl⟩, rfl⟩

theorem retry_condition_frame (L : Libav σ) (hc : const_delay L) (h : lsmash_handler_t)
    (sn start : Nat) (pic : AVFrame) (hp : libav_handler_t) (w : VideoWorld σ) :
    same_index hp
      (if start = 0 then ({ ret := -1, picture := pic, hp := hp, w := w } : GetPictureResult σ)
       else get_picture L hp w pic start (sn + hp.delay_count) h.video_sample_count).hp ∧
    same_stream w
      (if start = 0 then ({ ret := -1, picture := pic, hp := hp, w := w } : GetPictureResult σ)
       else get_picture L hp w pic start (sn + hp.delay_count) h.video_sample_count).w := by
  split_ifs
  · exact ⟨same_index_refl _, same_stream_refl _⟩
  · exact get_picture_frame L hc hp w pic start _ _

/-- Invariant of the retry loop on the seek path: whenever it is left with the
picture found and the delay counter at the decoder's delay, the demuxer stands
one unit past `sample_number + delay_count`. -/
theorem read_video_retry_aligned (L : Libav σ) (hc : const_delay L) (h : lsmash_handler_t)
    (hp0 : libav_handler_t) (P : List AVPacket) (hex : exact_seek L h hp0 P) (psn D : Nat)
    (hunits : psn + D ≤ unit_count hp0.video_index P) :
    ∀ (fuel mode ec rap start : Nat) (pic : AVFrame) (hp : libav_handler_t) (w : VideoWorld σ),
      same_index hp0 hp → w.packets = P → DECODER_DELAY w = D → rap ≤ psn + D →
      (start ≠ 0 → next_unit hp w = start ∧ hp.delay_count = D ∧
        hp.decode_status = decode_status_t.DECODE_REQUIRE_INITIAL ∧ start = psn + D) →
      (read_video_retry L h psn fuel mode ec rap
        (rap_pos_of h.video_sample_count hp0.video_frame_list hp0.video_seek_base rap)
        start pic hp w).failed = false →
      (read_video_retry L h psn fuel mode ec rap
        (rap_pos_of h.video_sample_count hp0.video_frame_list hp0.video_seek_base rap)
        start pic hp w).hp.delay_count = D →
      psn + 1 + D =
        next_unit (read_video_retry L h psn fuel mode ec rap
            (rap_pos_of h.video_sample_count hp0.video_frame_list hp0.video_seek_base rap)
            start pic hp w).hp
          (read_video_retry L h psn fuel mode ec rap
            (rap_pos_of h.video_sample_count hp0.video_frame_list hp0.video_seek_base rap)
            start pic hp w).w := by
  intro fuel
  induction fuel with
  | zero =>
    intro mode ec rap start pic hp w _ _ _ _ _ hf
    simp [read_video_retry] at hf
  | succ fuel ih =>
    intro mode ec rap start pic hp w hidx hP hD hrap hstart
    obtain ⟨g, hg⟩ : ∃ g : GetPictureResult σ, g =
        if start = 0 then { ret := -1, picture := pic, hp := hp, w := w }
        else get_picture L hp w pic start (psn + hp.delay_count) h.video_sample_count := ⟨_, rfl⟩
    rw [read_video_retry_succ L h psn fuel mode ec rap _ start pic hp w g hg]
    obtain ⟨g1, g2⟩ := retry_condition_frame L hc h psn start pic hp w
    rw [← hg] at g1 g2
    have gidx : same_index hp0 g.hp := same_index_trans hidx g1
    have gP : g.w.packets = P := g2.1.trans hP
    have gD : DECODER_DELAY g.w = D := g2.2.trans hD
    -- what a further `seek_video` establishes
    have hsv : ∀ (hpa : libav_handler_t) (rap' : Nat) (ei : Bool), same_index hp0 hpa →
        rap' ≤ psn + D →
        ∀ s : SeekVideoResult σ, s = seek_video L hpa g.w g.picture psn rap'
          (rap_pos_of h.video_sample_count hp0.video_frame_list hp0.video_seek_base rap') ei →
        same_index hp0 s.hp ∧ s.w.packets = P ∧ DECODER_DELAY s.w = D ∧
        (s.ret ≠ 0 → next_unit s.hp s.w = s.ret ∧ s.hp.delay_count = D ∧
          s.hp.decode_status = decode_status_t.DECODE_REQUIRE_INITIAL ∧ s.ret = psn + D) := by
      intro hpa rap' ei ha hr' s hs
      obtain ⟨s1, s2, s3⟩ := seek_video_aligned L hc h hp0 P hex hpa g.w g.picture psn rap' ei ha gP
        (by rw [gD]; omega)
      rw [← hs] at s1 s2 s3
      refine ⟨same_index_trans ha s1, s2.1.trans gP, s2.2.trans gD, fun hne => ?_⟩
      obtain ⟨t1, t2, t3, t4⟩ := s3 hne
      exact ⟨t1, t2.trans gD, t3, by rw [t4 (by rw [gD]; exact hr'), gD]⟩
    by_cases hcond : start = 0 ∨ g.ret ≠ 0
    · rw [if_pos hcond]
      by_cases hagg : mode = SEEK_MODE_AGGRESSIVE
      · rw [if_pos hagg]; intro hf; simp at hf
      · rw [if_neg hagg]
        by_cases hbud : ec + 1 > MAX_ERROR_COUNT ∨ rap ≤ 1
        · rw [if_pos hbud]
          by_cases huns : mode = SEEK_MODE_UNSAFE
          · rw [if_pos huns]; intro hf; simp at hf
          · rw [if_neg huns]
            obtain ⟨s, hs⟩ : ∃ s, s = seek_video L g.hp g.w g.picture psn rap
              (rap_pos_of h.video_sample_count hp0.video_frame_list hp0.video_seek_base rap)
              (decide (SEEK_MODE_AGGRESSIVE ≠ SEEK_MODE_NORMAL)) := ⟨_, rfl⟩
            obtain ⟨u1, u2, u3, u4⟩ := hsv g.hp rap _ gidx hrap s hs
            rw [← hs]
            exact ih SEEK_MODE_AGGRESSIVE (ec + 1) rap s.ret s.picture s.hp s.w u1 u2 u3 hrap u4
        · rw [if_neg hbud]
          have hrap1 : 1 < rap := by
            by_contra hc'; exact hbud (Or.inr (by omega))
          obtain ⟨f1, f2⟩ := find_rap_frame h g.hp psn (rap - 1)
          have hlt := find_rap_retry_lt h g.hp psn rap hrap1
          have f2' : (find_random_accessible_point h g.hp psn (rap - 1)).1 =
              rap_pos_of h.video_sample_count hp0.video_frame_list hp0.video_seek_base
                (find_random_accessible_point h g.hp psn (rap - 1)).2.1 := by
            rw [f2, gidx.2.1, gidx.2.2.2]
          generalize find_random_accessible_point h g.hp psn (rap - 1) = f at f1 f2' hlt ⊢
          rw [f2']
          obtain ⟨s, hs⟩ : ∃ s, s = seek_video L f.2.2 g.w g.picture psn f.2.1
              (rap_pos_of h.video_sample_count hp0.video_frame_list hp0.video_seek_base f.2.1)
              (decide (mode ≠ SEEK_MODE_NORMAL)) := ⟨_, rfl⟩
          obtain ⟨u1, u2, u3, u4⟩ := hsv f.2.2 f.2.1 _ (same_index_trans gidx f1) (by omega) s hs
          rw [← hs]
          exact ih mode (ec + 1) f.2.1 s.ret s.picture s.hp s.w u1 u2 u3 (by omega) u4
    · rw [if_neg hcond]
      intro _ hdc
      have hs0 : start ≠ 0 := fun e => hcond (Or.inl e)
      have hret : g.ret = 0 := by
        by_contra e; exact hcond (Or.inr e)
      obtain ⟨a1, a2, a3, a4⟩ := hstart hs0
      have hg' : g = get_picture L hp w pic start start h.video_sample_count := by
        rw [hg, if_neg hs0, a2, ← a4]
      show psn + 1 + D = next_unit g.hp g.w
      have hdc' : g.hp.delay_count = D := hdc
      rw [hg'] at hret hdc' ⊢
      rw [get_picture_aligned L hc hp w pic start h.video_sample_count a3 a1
        (by rw [hidx.1, hP, a4]; exact hunits) hret (by rw [hdc', a2])]
      omega

/-! ## Sequential reads (C1) -/


theorem decode_video_sample_first (L : Libav σ) (hp : libav_handler_t) (w : VideoWorld σ)
    (pic : AVFrame) (got : Int) (n : Nat) :
    ∃ u, (decode_video_sample L hp w pic got n).w.trace =
      w.trace ++ Event.decode_video_sample n :: u := by
  unfold decode_video_sample
  simp only [VideoWorld.log]
  split
  · exact ⟨[], rfl⟩
  · exact ⟨[Event.avcodec_decode_video2 true], by simp⟩

theorem get_picture_loop_first (L : Libav σ) (goal fuel current : Nat) (got : Int)
    (pic : AVFrame) (hp : libav_handler_t) (w : VideoWorld σ) :
    ∃ u, (get_picture_loop L goal (fuel + 1) current got pic hp w).w.trace =
      w.trace ++ Event.decode_video_sample current :: u := by
  obtain ⟨r, hr⟩ : ∃ r, r = decode_video_sample L hp w pic got current := ⟨_, rfl⟩
  obtain ⟨hp1, hhp1⟩ : ∃ hp1 : libav_handler_t, hp1 =
      if r.got_picture = 0 then { r.hp with delay_count := r.hp.delay_count + 1 } else r.hp :=
    ⟨_, rfl⟩
  obtain ⟨u, hu⟩ := decode_video_sample_first L hp w pic got current
  rw [← hr] at hu
  rw [get_picture_loop_succ L goal fuel current got pic hp w r hp1 hr hhp1]
  split_ifs
  · exact ⟨u, hu⟩
  · exact ⟨u, hu⟩
  · exact ⟨u, hu⟩
  · obtain ⟨v, hv, _⟩ := get_picture_loop_trace L goal fuel (current + 1) r.got_picture
      r.picture hp1 r.w
    exact ⟨u ++ v, by rw [hv, hu]; simp⟩
  · exact ⟨u, hu⟩

/-- The first call `get_picture` records is the decode attempt at `current`. -/
theorem get_picture_first (L : Libav σ) (hp : libav_handler_t) (w : VideoWorld σ)
    (pic : AVFrame) (current goal N : Nat) :
    ∃ u, (get_picture L hp w pic current goal N).w.trace =
      w.trace ++ Event.decode_video_sample current :: u := by
  obtain ⟨hp1, hhp1⟩ : ∃ hp1 : libav_handler_t, hp1 =
      if hp.decode_status = decode_status_t.DECODE_INITIALIZING then
        (if hp.delay_count > DECODER_DELAY w then { hp with delay_count := hp.delay_count - 1 }
         else { hp with decode_status := decode_status_t.DECODE_INITIALIZED })
      else hp := ⟨_, rfl⟩
  obtain ⟨r, hr⟩ : ∃ r, r = get_picture_loop L goal (goal - current + 1) current 0 pic hp1 w :=
    ⟨_, rfl⟩
  obtain ⟨r2, hr2⟩ : ∃ r2, r2 =
      if r.current > N ∧ r.got_picture = 0 ∧ DECODER_DELAY r.w ≠ 0 then
        get_picture_flush L goal (goal - r.current + 1) r.current r.got_picture r.picture r.hp r.w
      else r := ⟨_, rfl⟩
  rw [get_picture_eq L hp w pic current goal N hp1 r r2 hhp1 hr hr2]
  obtain ⟨u, hu⟩ := get_picture_loop_first L goal (goal - current) current 0 pic hp1 w
  rw [← hr] at hu
  have h2 : ∃ v, r2.w.trace = r.w.trace ++ v := by
    rw [hr2]; split_ifs
    · obtain ⟨v, hv, _⟩ := get_picture_flush_trace L goal (goal - r.current + 1) r.current
        r.got_picture r.picture r.hp r.w
      exact ⟨v, hv⟩
    · exact ⟨[], by simp⟩
  obtain ⟨v, hv⟩ := h2
  by_cases h1 : r.aborted = true
  · rw [if_pos h1]; exact ⟨u, hu⟩
  · rw [if_neg h1]
    by_cases h3 : r2.aborted = true
    · rw [if_pos h3]; exact ⟨u ++ v, by rw [hv, hu]; simp⟩
    · rw [if_neg h3]; exact ⟨u ++ v, by show r2.w.trace = _; rw [hv, hu]; simp⟩

theorem read_video_sequential_path (L : Libav σ) (h : lsmash_handler_t) (hp : libav_handler_t)
    (w : VideoWorld σ) (n : Nat)
    (hvalid : ¬ n + 1 < hp.first_valid_video_frame_number)
    (hseq : n + 1 = hp.last_video_frame_number + 1) :
    read_video L h hp w n =
      read_video_finish L (n + 1)
        (read_video_retry L h (n + 1) 6 hp.seek_mode 0 hp.last_rap_number INT64_MIN
          (n + 1 + hp.delay_count) [] hp w) := by
  simp only [read_video, read_video_decode, if_neg hvalid, if_pos hseq]

/-- C1, first part: a sequential request enters the loop of `read_video` with the
handler and the decoder untouched and `start_number = sample_number + delay_count`;
the first call it records is the decode attempt at that unit, and when that first
`get_picture` succeeds its outcome is the outcome of the read. -/
theorem read_video_sequential (L : Libav σ) (h : lsmash_handler_t) (hp : libav_handler_t)
    (w : VideoWorld σ) (n : Nat)
    (hvalid : ¬ n + 1 < hp.first_valid_video_frame_number)
    (hseq : n + 1 = hp.last_video_frame_number + 1) :
    read_video L h hp w n =
      read_video_finish L (n + 1)
        (read_video_retry L h (n + 1) 6 hp.seek_mode 0 hp.last_rap_number INT64_MIN
          (n + 1 + hp.delay_count) [] hp w) ∧
    (∃ u, (read_video L h hp w n).w.trace =
      w.trace ++ Event.decode_video_sample (n + 1 + hp.delay_count) :: u) ∧
    ((get_picture L hp w [] (n + 1 + hp.delay_count) (n + 1 + hp.delay_count)
        h.video_sample_count).ret = 0 →
      (read_video L h hp w n).failed = false ∧
      (read_video L h hp w n).w =
        (get_picture L hp w [] (n + 1 + hp.delay_count) (n + 1 + hp.delay_count)
          h.video_sample_count).w ∧
      (read_video L h hp w n).hp =
        { (get_picture L hp w [] (n + 1 + hp.delay_count) (n + 1 + hp.delay_count)
            h.video_sample_count).hp with last_video_frame_number := n + 1 }) := by
  have hpath := read_video_sequential_path L h hp w n hvalid hseq
  refine ⟨hpath, ?_, ?_⟩
  · rw [hpath, read_video_finish_trace]
    have hs0 : ¬ n + 1 + hp.delay_count = 0 := by omega
    obtain ⟨u, hu⟩ := get_picture_first L hp w [] (n + 1 + hp.delay_count)
      (n + 1 + hp.delay_count) h.video_sample_count
    obtain ⟨g, hg⟩ : ∃ g : GetPictureResult σ, g =
        if n + 1 + hp.delay_count = 0 then { ret := -1, picture := [], hp := hp, w := w }
        else get_picture L hp w [] (n + 1 + hp.delay_count) (n + 1 + hp.delay_count)
          h.video_sample_count := ⟨_, rfl⟩
    have hgt : g.w.trace = w.trace ++ Event.decode_video_sample (n + 1 + hp.delay_count) :: u := by
      rw [hg, if_neg hs0]; exact hu
    rw [read_video_retry_succ L h (n + 1) 5 hp.seek_mode 0 _ _ _ _ hp w g hg]
    have hsv : ∀ (hpa : libav_handler_t) (rap : Nat) (pos : Int) (ei : Bool) (m ec : Nat),
        ∃ v, (read_video_retry L h (n + 1) 5 m ec rap pos
          (seek_video L hpa g.w g.picture (n + 1) rap pos ei).ret
          (seek_video L hpa g.w g.picture (n + 1) rap pos ei).picture
          (seek_video L hpa g.w g.picture (n + 1) rap pos ei).hp
          (seek_video L hpa g.w g.picture (n + 1) rap pos ei).w).w.trace = g.w.trace ++ v := by
      intro hpa rap pos ei m ec
      obtain ⟨v1, hv1, _⟩ := seek_video_ext L hpa g.w g.picture (n + 1) rap pos ei
      obtain ⟨v2, hv2, _⟩ := read_video_retry_ext L h (n + 1) 5 m ec rap pos
        (seek_video L hpa g.w g.picture (n + 1) rap pos ei).ret
        (seek_video L hpa g.w g.picture (n + 1) rap pos ei).picture
        (seek_video L hpa g.w g.picture (n + 1) rap pos ei).hp
        (seek_video L hpa g.w g.picture (n + 1) rap pos ei).w
      exact ⟨v1 ++ v2, by rw [hv2, hv1]; simp⟩
    split_ifs
    · exact ⟨u, hgt⟩
    · exact ⟨u, hgt⟩
    · obtain ⟨v, hv⟩ := hsv g.hp hp.last_rap_number INT64_MIN
        (decide (SEEK_MODE_AGGRESSIVE ≠ SEEK_MODE_NORMAL)) SEEK_MODE_AGGRESSIVE (0 + 1)
      exact ⟨u ++ v, by rw [hv, hgt]; simp⟩
    · obtain ⟨v, hv⟩ := hsv (find_random_accessible_point h g.hp (n + 1)
          (hp.last_rap_number - 1)).2.2
        (find_random_accessible_point h g.hp (n + 1) (hp.last_rap_number - 1)).2.1
        (find_random_accessible_point h g.hp (n + 1) (hp.last_rap_number - 1)).1
        (decide (hp.seek_mode ≠ SEEK_MODE_NORMAL)) hp.seek_mode (0 + 1)
      exact ⟨u ++ v, by rw [hv, hgt]; simp⟩
    · exact ⟨u, hgt⟩
  · intro hret
    have hs0 : ¬ n + 1 + hp.delay_count = 0 := by omega
    rw [hpath]
    rw [read_video_retry_succ L h (n + 1) 5 hp.seek_mode 0 _ _ _ _ hp w _ rfl]
    rw [if_neg hs0]
    rw [if_neg (by rw [hret]; simp)]
    exact ⟨rfl, rfl, rfl⟩


/-- C1, second part as amended: after a read on the seek path that found its
picture with the delay counter left at the decoder's delay, on an exactly seeking
demuxer holding the units up to `sample_number + DECODER_DELAY`, the start unit of
the next sample is the next unit the demuxer delivers. -/
theorem read_video_seek_then_aligned (L : Libav σ) (h : lsmash_handler_t)
    (hp : libav_handler_t) (w : VideoWorld σ) (n : Nat)
    (hvalid : ¬ n + 1 < hp.first_valid_video_frame_number)
    (hseek : n + 1 ≠ hp.last_video_frame_number + 1)
    (hc : const_delay L) (hex : exact_seek L h hp w.packets)
    (hd : (vinfo hp.video_frame_list (n + 1)).sample_number ≤ n + 1 + DECODER_DELAY w)
    (hunits : n + 1 + DECODER_DELAY w ≤ unit_count hp.video_index w.packets)
    (hok : (read_video L h hp w n).failed = false)
    (hdc : (read_video L h hp w n).hp.delay_count = DECODER_DELAY w) :
    n + 1 + 1 + (read_video L h hp w n).hp.delay_count =
      next_unit (read_video L h hp w n).hp (read_video L h hp w n).w := by
  rw [read_video_seek_path L h hp w n hvalid hseek] at hok hdc ⊢
  obtain ⟨f1, f2⟩ := find_rap_frame h hp (n + 1) 0
  have hrap : (find_random_accessible_point h hp (n + 1) 0).2.1 ≤ n + 1 + DECODER_DELAY w := by
    rw [find_rap_number, if_pos rfl]
    have := rap_walk_le hp.keyframe_list (vinfo hp.video_frame_list (n + 1)).sample_number
      (vinfo hp.video_frame_list (n + 1)).is_leading
    split_ifs <;> omega
  obtain ⟨s, hs⟩ : ∃ s, s = first_seek L h hp w (n + 1) := ⟨_, rfl⟩
  have hs' : s = seek_video L (find_random_accessible_point h hp (n + 1) 0).2.2 w [] (n + 1)
      (find_random_accessible_point h hp (n + 1) 0).2.1
      (rap_pos_of h.video_sample_count hp.video_frame_list hp.video_seek_base
        (find_random_accessible_point h hp (n + 1) 0).2.1)
      (decide (hp.seek_mode ≠ SEEK_MODE_NORMAL)) := by
    rw [hs, first_seek, f2]
  obtain ⟨s1, s2, s3⟩ := seek_video_aligned L hc h hp w.packets hex
    (find_random_accessible_point h hp (n + 1) 0).2.2 w [] (n + 1)
    (find_random_accessible_point h hp (n + 1) 0).2.1 (decide (hp.seek_mode ≠ SEEK_MODE_NORMAL))
    f1 rfl (by omega)
  rw [← hs'] at s1 s2 s3
  rw [← hs, f2] at hok hdc ⊢
  have key := read_video_retry_aligned L hc h hp w.packets hex (n + 1) (DECODER_DELAY w) hunits
    6 hp.seek_mode 0 (find_random_accessible_point h hp (n + 1) 0).2.1 s.ret s.picture s.hp s.w
    (same_index_trans f1 s1) s2.1 s2.2 hrap
    (fun hne => by
      obtain ⟨t1, t2, t3, t4⟩ := s3 hne
      exact ⟨t1, t2, t3, t4 hrap⟩)
  generalize read_video_retry L h (n + 1) 6 hp.seek_mode 0
    (find_random_accessible_point h hp (n + 1) 0).2.1
    (rap_pos_of h.video_sample_count hp.video_frame_list hp.video_seek_base
      (find_random_accessible_point h hp (n + 1) 0).2.1) s.ret s.picture s.hp s.w = r
    at hok hdc key ⊢
  unfold read_video_finish at hok hdc ⊢
  by_cases hf : r.failed = true
  · rw [if_pos hf] at hok; simp at hok
  · rw [if_neg hf] at hdc ⊢
    have hf' : r.failed = false := by simpa using hf
    have hdc' : r.hp.delay_count = DECODER_DELAY w := hdc
    have := key hf' hdc'
    show n + 1 + 1 + r.hp.delay_count = next_unit _ r.w
    rw [hdc', this]
    rfl


theorem synth_const_delay (latency : Nat) : const_delay (synth latency) := by
  refine ⟨?_, fun w => ⟨rfl, rfl⟩⟩
  intro w pkt
  show (synth_decode latency w pkt).has_b_frames = _
  cases pkt with
  | none =>
    simp only [synth_decode]
    split <;> rfl
  | some p =>
    simp only [synth_decode]
    split_ifs <;> rfl

theorem plain_rap_pos (rap : Nat) :
    rap_pos_of (synth_handle plain_packets 0).1.video_sample_count
      (synth_handle plain_packets 0).2.video_frame_list
      (synth_handle plain_packets 0).2.video_seek_base rap =
    if rap = 1 then 1 else if rap = 2 then 2 else if rap = 3 then 3 else INT64_MIN := by
  have e1 : (synth_handle plain_packets 0).1.video_sample_count = 3 := by decide
  have e2 : (synth_handle plain_packets 0).2.video_frame_list =
      [video_zero,
       { keyframe := 1, is_leading := 0, sample_number := 1, pts := 1, dts := 1, file_offset := 1 },
       { keyframe := 0, is_leading := 0, sample_number := 2, pts := 2, dts := 2, file_offset := 2 },
       { keyframe := 0, is_leading := 0, sample_number := 3, pts := 3, dts := 3, file_offset := 3 }] := by
    decide
  have e3 : (synth_handle plain_packets 0).2.video_seek_base = 3 := by decide
  rw [e1, e2, e3]
  unfold rap_pos_of
  simp only [List.range', List.find?, vinfo, List.getD_cons_succ, List.getD_cons_zero]
  by_cases h1 : rap = 1
  · subst h1; decide
  · by_cases h2 : rap = 2
    · subst h2; decide
    · by_cases h3 : rap = 3
      · subst h3; decide
      · simp [h1, h2, h3]

theorem plain_exact_seek (latency : Nat) :
    exact_seek (synth latency) (synth_handle plain_packets 0).1 (synth_handle plain_packets 0).2
      plain_packets := by
  intro w rap flags hP
  rw [plain_rap_pos]
  show 0 ≤ (synth_seek w.packets w.cursor w.priv _).ret →
    unit_count _ (List.take (synth_seek w.packets w.cursor w.priv _).cursor plain_packets) + 1 = rap
  rw [hP]
  have k1 : (synth_seek plain_packets w.cursor w.priv 1).cursor = 0 := rfl
  have k2 : (synth_seek plain_packets w.cursor w.priv 2).cursor = 1 := rfl
  have k3 : (synth_seek plain_packets w.cursor w.priv 3).cursor = 2 := rfl
  have k4 : (synth_seek plain_packets w.cursor w.priv INT64_MIN).ret = -1 := rfl
  by_cases h1 : rap = 1
  · subst h1; intro _; rw [if_pos rfl, k1]; decide
  · by_cases h2 : rap = 2
    · subst h2; intro _; rw [if_neg (by decide), if_pos rfl, k2]; decide
    · by_cases h3 : rap = 3
      · subst h3; intro _; rw [if_neg (by decide), if_neg (by decide), if_pos rfl, k3]; decide
      · rw [if_neg h1, if_neg h2, if_neg h3, k4]
        intro hret
        exact absurd hret (by decide)


/-- C1 (amended): a request for the sample after the last one delivered enters the
loop of `read_video` with handler and decoder untouched (no seek, `decode_status`
and `delay_count` as they were) and `start_number = sample_number + delay_count`,
the first call recorded being the decode attempt at that unit.  After a read on
the seek path that found its picture with the delay counter left at the decoder's
delay, on an exactly seeking demuxer holding the units up to
`sample_number + DECODER_DELAY`, that start unit for the next sample is the next
unit the demuxer delivers. -/
theorem C1_sequential_read (L : Libav σ) (h : lsmash_handler_t) (hp : libav_handler_t)
    (w : VideoWorld σ) (n : Nat)
    (hvalid : ¬ n + 1 < hp.first_valid_video_frame_number) :
    (n + 1 = hp.last_video_frame_number + 1 →
      read_video L h hp w n =
        read_video_finish L (n + 1)
          (read_video_retry L h (n + 1) 6 hp.seek_mode 0 hp.last_rap_number INT64_MIN
            (n + 1 + hp.delay_count) [] hp w) ∧
      (∃ u, (read_video L h hp w n).w.trace =
        w.trace ++ Event.decode_video_sample (n + 1 + hp.delay_count) :: u) ∧
      ((get_picture L hp w [] (n + 1 + hp.delay_count) (n + 1 + hp.delay_count)
          h.video_sample_count).ret = 0 →
        (read_video L h hp w n).failed = false ∧
        (read_video L h hp w n).w =
          (get_picture L hp w [] (n + 1 + hp.delay_count) (n + 1 + hp.delay_count)
            h.video_sample_count).w ∧
        (read_video L h hp w n).hp =
          { (get_picture L hp w [] (n + 1 + hp.delay_count) (n + 1 + hp.delay_count)
              h.video_sample_count).hp with last_video_frame_number := n + 1 })) ∧
    (n + 1 ≠ hp.last_video_frame_number + 1 →
      const_delay L → exact_seek L h hp w.packets →
      (vinfo hp.video_frame_list (n + 1)).sample_number ≤ n + 1 + DECODER_DELAY w →
      n + 1 + DECODER_DELAY w ≤ unit_count hp.video_index w.packets →
      (read_video L h hp w n).failed = false →
      (read_video L h hp w n).hp.delay_count = DECODER_DELAY w →
      n + 1 + 1 + (read_video L h hp w n).hp.delay_count =
        next_unit (read_video L h hp w n).hp (read_video L h hp w n).w) :=
  ⟨fun hseq => read_video_sequential L h hp w n hvalid hseq,
   fun hseek hc hex hd hunits hok hdc =>
     read_video_seek_then_aligned L h hp w n hvalid hseek hc hex hd hunits hok hdc⟩

/-- C1 witness: sample 0 of `plain_packets` is read on the seek path and leaves
the demuxer at unit 3; the request for sample 1 that follows starts by decoding
that unit. -/
theorem C1_sequential_read_witness :
    (∃ u, (read_video (synth 1) (synth_handle plain_packets 0).1 plain_first.hp plain_first.w
        1).w.trace =
      plain_first.w.trace ++ Event.decode_video_sample (1 + 1 + plain_first.hp.delay_count) :: u) ∧
    0 + 1 + 1 + plain_first.hp.delay_count = next_unit plain_first.hp plain_first.w ∧
    next_unit plain_first.hp plain_first.w = 3 :=
  ⟨((C1_sequential_read (synth 1) (synth_handle plain_packets 0).1 plain_first.hp plain_first.w 1
      (by decide)).1 (by decide)).2.1,
   (C1_sequential_read (synth 1) (synth_handle plain_packets 0).1 (synth_handle plain_packets 0).2
      (synth_world plain_packets 1) 0 (by decide)).2 (by decide) (synth_const_delay 1)
      (plain_exact_seek 1) (by decide) (by decide) (by decide) (by decide),
   by decide⟩

/-- C1 (as stated, refuted): sample 0 of `short_packets` is read on the seek path
with both units replayed and the picture obtained from the flush; the delay
counter has grown to 2, so the start unit for sample 1 is `2 + 2 = 4` while the
next unit of the demuxer is unit 3. -/
theorem C1_counterexample :
    0 + 1 ≠ (synth_handle short_packets 0).2.last_video_frame_number + 1 ∧
    short_first.failed = false ∧ short_first.ret = 1 ∧
    short_first.w.trace =
      [Event.seek_video 1 1 1 false, Event.av_seek_frame 1 1, Event.flush_buffers,
       Event.decode_video_sample 1, Event.avcodec_decode_video2 true,
       Event.decode_video_sample 2, Event.avcodec_decode_video2 true,
       Event.avcodec_decode_video2 false] ∧
    short_first.hp.last_video_frame_number = 1 ∧
    1 + 1 + short_first.hp.delay_count = 4 ∧
    next_unit short_first.hp short_first.w = 3 := by
  decide

/-! ## Decode errors and the seek policies (C8) -/


/-- A packet found by `get_sample` is the first packet of the stream among those
not yet read. -/
theorem get_sample_head (idx : Int) : ∀ (l : List AVPacket) (k : Nat) (pkt : AVPacket),
    (get_sample idx l k).1 = some pkt →
    (l.filter (fun p => decide (p.stream_index = idx)))[0]? = some pkt := by
  intro l
  induction l with
  | nil => intro k pkt h; simp [get_sample] at h
  | cons p l ih =>
    intro k pkt h
    by_cases hp : p.stream_index ≠ idx
    · rw [get_sample, if_pos hp] at h
      have : decide (p.stream_index = idx) = false := by simpa using hp
      rw [List.filter_cons_of_neg (by simpa using hp)]
      exact ih (k + 1) pkt h
    · rw [get_sample, if_neg hp] at h
      have hp1 : p.stream_index = idx := not_not.mp hp
      rw [List.filter_cons_of_pos (by simpa using hp1)]
      simpa using h

theorem unit_packet_next (idx : Int) (P : List AVPacket) (cursor : Nat) (pkt : AVPacket)
    (h : ((P.drop cursor).filter (fun p => decide (p.stream_index = idx)))[0]? = some pkt) :
    unit_packet idx P (unit_count idx (P.take cursor) + 1) = some pkt := by
  unfold unit_packet unit_count
  have e : P.filter (fun p => decide (p.stream_index = idx)) =
      (P.take cursor).filter (fun p => decide (p.stream_index = idx)) ++
      (P.drop cursor).filter (fun p => decide (p.stream_index = idx)) := by
    rw [← List.filter_append, List.take_append_drop]
  rw [e, Nat.add_sub_cancel, List.countP_eq_length_filter]
  rw [List.getElem?_append_right (le_refl _), Nat.sub_self]
  exact h

/-- With the demuxer standing at an existing unit, `decode_video_sample` hands
exactly that unit to the decoder and reports the decoder's answer. -/
theorem decode_video_sample_unit (L : Libav σ) (hp : libav_handler_t) (w : VideoWorld σ)
    (pic : AVFrame) (got : Int) (n : Nat)
    (hex : next_unit hp w ≤ unit_count hp.video_index w.packets) :
    ∃ (pkt : AVPacket) (w1 : VideoWorld σ),
      unit_packet hp.video_index w.packets (next_unit hp w) = some pkt ∧
      (decode_video_sample L hp w pic got n).ret =
        (if (L.avcodec_decode_video2 w1 (some pkt)).ret < 0 then -1 else 0) ∧
      (decode_video_sample L hp w pic got n).got_picture =
        (L.avcodec_decode_video2 w1 (some pkt)).got_picture := by
  have hs := get_sample_spec hp.video_index (w.packets.drop w.cursor) 0
  have hh := get_sample_head hp.video_index (w.packets.drop w.cursor) 0
  unfold decode_video_sample
  simp only [VideoWorld.log]
  split
  · rename_i consumed heq
    rw [heq] at hs
    rcases hs with ⟨pkt, h1, _⟩ | ⟨_, h2⟩
    · simp at h1
    · exfalso
      have := unit_count_split hp.video_index w.packets w.cursor
      unfold next_unit at hex
      omega
  · rename_i pkt consumed heq
    rw [heq] at hh
    exact ⟨pkt, _, unit_packet_next hp.video_index w.packets w.cursor pkt (hh pkt rfl), rfl, rfl⟩

/-- With error ignorance the replay loop of `seek_video` never takes its `return 0`. -/
theorem seek_video_loop_ignoring (L : Libav σ) (psn : Nat) :
    ∀ (fuel i : Nat) (pic : AVFrame) (hp : libav_handler_t) (w : VideoWorld σ),
      (seek_video_loop L psn true fuel i pic hp w).aborted = false := by
  intro fuel
  induction fuel with
  | zero => intro i pic hp w; rfl
  | succ fuel ih =>
    intro i pic hp w
    obtain ⟨w1, hw1⟩ : ∃ w1 : VideoWorld σ, w1 =
        if i + DECODER_DELAY w = psn then { w with skip_frame := AVDISCARD_DEFAULT } else w :=
      ⟨_, rfl⟩
    obtain ⟨r, hr⟩ : ∃ r, r = decode_video_sample L hp w1 pic 0 i := ⟨_, rfl⟩
    rw [seek_video_loop_succ L psn true fuel i pic hp w w1 r hw1 hr]
    by_cases h1 : i < psn + DECODER_DELAY w
    · rw [if_pos h1, if_neg (fun h => absurd h.2 (by decide))]
      by_cases h3 : r.ret = 1
      · rw [if_pos h3]
      · rw [if_neg h3]; exact ih _ _ _ _
    · rw [if_neg h1]


/-- The return value of `seek_video` in terms of the seek and of the replay loop,
on an exactly seeking demuxer. -/
theorem seek_video_ret (L : Libav σ) (hc : const_delay L) (h : lsmash_handler_t)
    (hp0 : libav_handler_t) (P : List AVPacket) (hex : exact_seek L h hp0 P)
    (hp : libav_handler_t) (w : VideoWorld σ) (pic : AVFrame) (psn rap : Nat) (ei : Bool)
    (hidx : same_index hp0 hp) (hP : w.packets = P) :
    ∃ (s : SeekResult σ) (w0 w3 : VideoWorld σ) (flags : Nat),
      w0.packets = P ∧
      s = L.av_seek_frame w0 hp0.video_index
        (rap_pos_of h.video_sample_count hp0.video_frame_list hp0.video_seek_base rap) flags ∧
      w3.packets = P ∧ DECODER_DELAY w3 = DECODER_DELAY w ∧
      (0 ≤ s.ret → next_unit hp w3 = rap) ∧
      (seek_video L hp w pic psn rap
        (rap_pos_of h.video_sample_count hp0.video_frame_list hp0.video_seek_base rap) ei).ret =
        (if s.ret < 0 then 0
         else if (seek_video_loop L psn ei (w3.packets.length - w3.cursor + 1) rap pic
            { hp with delay_count := 0,
                      decode_status := decode_status_t.DECODE_REQUIRE_INITIAL } w3).aborted
         then 0
         else (seek_video_loop L psn ei (w3.packets.length - w3.cursor + 1) rap pic
            { hp with delay_count := 0,
                      decode_status := decode_status_t.DECODE_REQUIRE_INITIAL } w3).i) := by
  generalize hpos : rap_pos_of h.video_sample_count hp0.video_frame_list hp0.video_seek_base rap
    = pos
  obtain ⟨flags, hflags⟩ : ∃ flags, flags =
      (if hp.video_seek_base &&& SEEK_FILE_OFFSET_BASED ≠ 0 then AVSEEK_FLAG_BYTE
       else if hp.video_seek_base = 0 then AVSEEK_FLAG_FRAME else 0) ||| AVSEEK_FLAG_BACKWARD :=
    ⟨_, rfl⟩
  obtain ⟨s, hs⟩ : ∃ s, s = L.av_seek_frame (w.log (Event.seek_video psn rap pos ei))
      hp.video_index pos flags := ⟨_, rfl⟩
  obtain ⟨w1, hw1⟩ : ∃ w1 : VideoWorld σ, w1 = { (w.log (Event.seek_video psn rap pos ei)) with
      cursor := s.cursor, priv := s.priv,
      trace := (w.log (Event.seek_video psn rap pos ei)).trace ++
        [Event.av_seek_frame pos flags] } := ⟨_, rfl⟩
  obtain ⟨w2, hw2⟩ : ∃ w2, w2 = flush_buffers L w1 := ⟨_, rfl⟩
  obtain ⟨w3, hw3⟩ : ∃ w3 : VideoWorld σ, w3 =
      if rap + DECODER_DELAY w2 < psn then { w2 with skip_frame := AVDISCARD_NONREF } else w2 :=
    ⟨_, rfl⟩
  obtain ⟨r, hr⟩ : ∃ r, r = seek_video_loop L psn ei (w3.packets.length - w3.cursor + 1) rap pic
      { hp with delay_count := 0, decode_status := decode_status_t.DECODE_REQUIRE_INITIAL } w3 :=
    ⟨_, rfl⟩
  rw [seek_video_eq L hp w pic psn rap pos ei flags s w1 w2 w3 r hflags hs hw1 hw2 hw3 hr]
  have a1 : w1.packets = w.packets ∧ w1.cursor = s.cursor ∧ DECODER_DELAY w1 = DECODER_DELAY w := by
    rw [hw1]; exact ⟨rfl, rfl, rfl⟩
  have a2 : w2.packets = w1.packets ∧ w2.cursor = w1.cursor ∧ DECODER_DELAY w2 = DECODER_DELAY w1 := by
    rw [hw2]
    refine ⟨rfl, rfl, ?_⟩
    simp only [DECODER_DELAY, flush_buffers, (hc.2 w1).1, (hc.2 w1).2]
  have a3 : w3.packets = w2.packets ∧ w3.cursor = w2.cursor ∧ DECODER_DELAY w3 = DECODER_DELAY w2 := by
    rw [hw3]; split_ifs <;> exact ⟨rfl, rfl, rfl⟩
  have hp3 : w3.packets = w.packets := a3.1.trans (a2.1.trans a1.1)
  have hc3 : w3.cursor = s.cursor := a3.2.1.trans (a2.2.1.trans a1.2.1)
  have hd3 : DECODER_DELAY w3 = DECODER_DELAY w := a3.2.2.trans (a2.2.2.trans a1.2.2)
  refine ⟨s, w.log (Event.seek_video psn rap pos ei), w3, flags, hP, by rw [hs, hidx.1],
    hp3.trans hP, hd3, ?_, ?_⟩
  · intro hret
    have := hex (w.log (Event.seek_video psn rap pos ei)) rap flags hP
    rw [hpos, ← hidx.1, ← hs] at this
    simp only [next_unit, hp3, hc3, hP]
    exact this hret
  · rw [← hr]
    split_ifs <;> rfl

/-- A replay with error ignorance on an accepting, exactly seeking demuxer that
holds the units returns `presentation_sample_number + DECODER_DELAY`. -/
theorem seek_video_ignoring (L : Libav σ) (hc : const_delay L) (h : lsmash_handler_t)
    (hp0 : libav_handler_t) (P : List AVPacket) (hex : exact_seek L h hp0 P)
    (hp : libav_handler_t) (w : VideoWorld σ) (pic : AVFrame) (psn rap : Nat)
    (hidx : same_index hp0 hp) (hP : w.packets = P)
    (hunits : psn + DECODER_DELAY w ≤ unit_count hp0.video_index P + 1)
    (hsucc : seek_succeeds L h hp0 P (psn + DECODER_DELAY w))
    (hrap1 : 1 ≤ rap) (hrap : rap ≤ psn + DECODER_DELAY w) (hpsn : 1 ≤ psn) :
    (seek_video L hp w pic psn rap
      (rap_pos_of h.video_sample_count hp0.video_frame_list hp0.video_seek_base rap) true).ret ≠ 0 := by
  obtain ⟨s, w0, w3, flags, b0, b1, b2, b3, b4, b5⟩ :=
    seek_video_ret L hc h hp0 P hex hp w pic psn rap true hidx hP
  rw [b5]
  have hs : 0 ≤ s.ret := by rw [b1]; exact hsucc w0 rap flags b0 hrap1 hrap
  rw [if_neg (by omega), seek_video_loop_ignoring]
  simp only [Bool.false_eq_true, if_false]
  obtain ⟨-, -, -, -, l5⟩ := seek_video_loop_aligned L hc psn true
    (w3.packets.length - w3.cursor + 1) rap pic
    { hp with delay_count := 0, decode_status := decode_status_t.DECODE_REQUIRE_INITIAL } w3
    (by omega) (b4 hs)
    (by rw [b3, b2]; show psn + DECODER_DELAY w ≤ unit_count hp.video_index P + 1
        rw [hidx.1]; exact hunits)
  obtain ⟨-, m2⟩ := l5 (seek_video_loop_ignoring L psn _ _ _ _ _)
  rw [m2 (by rw [b3]; exact hrap), b3]
  omega

/-- A replay without error ignorance that starts at a poisoned unit returns 0. -/
theorem seek_video_poisoned (L : Libav σ) (hc : const_delay L) (h : lsmash_handler_t)
    (hp0 : libav_handler_t) (P : List AVPacket) (hex : exact_seek L h hp0 P)
    (hp : libav_handler_t) (w : VideoWorld σ) (pic : AVFrame) (psn rap : Nat)
    (hidx : same_index hp0 hp) (hP : w.packets = P)
    (hrap : rap < psn + DECODER_DELAY w) (hunit : rap ≤ unit_count hp0.video_index P)
    (hbad : unit_fails L hp0.video_index P rap) :
    (seek_video L hp w pic psn rap
      (rap_pos_of h.video_sample_count hp0.video_frame_list hp0.video_seek_base rap) false).ret = 0 := by
  obtain ⟨s, w0, w3, flags, b0, b1, b2, b3, b4, b5⟩ :=
    seek_video_ret L hc h hp0 P hex hp w pic psn rap false hidx hP
  rw [b5]
  by_cases hs : s.ret < 0
  · rw [if_pos hs]
  · rw [if_neg hs]
    have hn := b4 (by omega)
    obtain ⟨hpr, hhpr⟩ : ∃ hpr : libav_handler_t, hpr =
        { hp with delay_count := 0, decode_status := decode_status_t.DECODE_REQUIRE_INITIAL } :=
      ⟨_, rfl⟩
    have hri : hpr.video_index = hp.video_index := by rw [hhpr]
    rw [← hhpr]
    have hab : (seek_video_loop L psn false (w3.packets.length - w3.cursor + 1) rap pic hpr
        w3).aborted = true := by
      obtain ⟨w4, hw4⟩ : ∃ w4 : VideoWorld σ, w4 =
          if rap + DECODER_DELAY w3 = psn then { w3 with skip_frame := AVDISCARD_DEFAULT }
          else w3 := ⟨_, rfl⟩
      have a4 : w4.packets = w3.packets ∧ w4.cursor = w3.cursor := by
        rw [hw4]; split_ifs <;> exact ⟨rfl, rfl⟩
      obtain ⟨r, hr⟩ : ∃ r, r = decode_video_sample L hpr w4 pic 0 rap := ⟨_, rfl⟩
      rw [seek_video_loop_succ L psn false _ rap pic _ w3 w4 r hw4 hr]
      rw [if_pos (by rw [b3]; exact hrap)]
      have hn4 : next_unit hpr w4 = rap := by
        rw [← hn]; simp only [next_unit, a4.1, a4.2, hri]
      obtain ⟨pkt, w5, u1, u2, -⟩ := decode_video_sample_unit L hpr w4 pic 0 rap (by
          rw [hn4, a4.1, b2, hri, hidx.1]; exact hunit)
      rw [← hr] at u2
      rw [hn4, a4.1, b2, hri, hidx.1] at u1
      have hneg := hbad w5 pkt u1
      rw [if_pos hneg] at u2
      rw [if_pos ⟨u2, rfl⟩]
    rw [hab]
    rfl


/-- Right after `seek_video`, with the demuxer standing at a unit that decodes and
yields a picture, `get_picture` for that unit returns 0. -/
theorem get_picture_succeeds (L : Libav σ) (hp : libav_handler_t)
    (w : VideoWorld σ) (pic : AVFrame) (c N : Nat)
    (hst : hp.decode_status = decode_status_t.DECODE_REQUIRE_INITIAL)
    (hex : next_unit hp w ≤ unit_count hp.video_index w.packets)
    (hpic : unit_yields_picture L hp.video_index w.packets (next_unit hp w)) :
    (get_picture L hp w pic c c N).ret = 0 := by
  obtain ⟨d, hd⟩ : ∃ d, d = decode_video_sample L hp w pic 0 c := ⟨_, rfl⟩
  obtain ⟨hpx, hhpx⟩ : ∃ hpx : libav_handler_t, hpx =
      if d.got_picture = 0 then { d.hp with delay_count := d.hp.delay_count + 1 } else d.hp :=
    ⟨_, rfl⟩
  obtain ⟨r, hr⟩ : ∃ r, r = get_picture_loop L c (c - c + 1) c 0 pic hp w := ⟨_, rfl⟩
  obtain ⟨r2, hr2⟩ : ∃ r2, r2 =
      if r.current > N ∧ r.got_picture = 0 ∧ DECODER_DELAY r.w ≠ 0 then
        get_picture_flush L c (c - r.current + 1) r.current r.got_picture r.picture r.hp r.w
      else r := ⟨_, rfl⟩
  have hhp1 : hp = if hp.decode_status = decode_status_t.DECODE_INITIALIZING then
        (if hp.delay_count > DECODER_DELAY w then { hp with delay_count := hp.delay_count - 1 }
         else { hp with decode_status := decode_status_t.DECODE_INITIALIZED })
      else hp := by
    rw [if_neg (by rw [hst]; decide)]
  rw [get_picture_eq L hp w pic c c N hp r r2 hhp1 hr hr2]
  obtain ⟨pkt, w1, u1, u2, u3⟩ := decode_video_sample_unit L hp w pic 0 c hex
  rw [← hd] at u2 u3
  obtain ⟨p1, p2⟩ := hpic w1 pkt u1
  rw [if_neg (by omega)] at u2
  rw [← u3] at p2
  have hd4 : d.hp.decode_status = hp.decode_status := by
    rw [hd]; unfold decode_video_sample; simp only [VideoWorld.log]
    split
    · rfl
    · simp only; split_ifs <;> rfl
  have hxs : hpx.decode_status = decode_status_t.DECODE_REQUIRE_INITIAL := by
    rw [hhpx, if_neg p2]; exact hd4.trans hst
  have hloop : r = (⟨false, c + 1, d.got_picture, d.picture, hpx, d.w⟩ : PictureLoopResult σ) := by
    rw [hr, Nat.sub_self, get_picture_loop_succ L c 0 c 0 pic hp w d hpx hd hhpx]
    rw [if_neg (by rw [u2]; decide), if_neg (by rw [u2]; decide)]
    have h3 : ¬ (hpx.delay_count > DECODER_DELAY d.w ∧
        hpx.decode_status = decode_status_t.DECODE_INITIALIZED) := by
      rw [hxs]; intro h; exact absurd h.2 (by decide)
    rw [if_neg h3, if_neg (by omega : ¬ c + 1 ≤ c)]
  have hfl : ¬ (r.current > N ∧ r.got_picture = 0 ∧ DECODER_DELAY r.w ≠ 0) := by
    rw [hloop]; intro h; exact p2 h.2.1
  rw [if_neg hfl] at hr2
  rw [hr2, hloop]
  simp only [Bool.false_eq_true, if_false]
  rw [if_pos p2]

theorem find_rap_pos_one (h : lsmash_handler_t) (hp : libav_handler_t) (p dsn : Nat) :
    1 ≤ (find_random_accessible_point h hp p dsn).2.1 := by
  rw [find_rap_number]
  split_ifs <;> omega

/-- On a stream whose unit `sample_number + DECODER_DELAY` decodes and yields a
picture, the retry loop is never left through `video_fail`: an attempt that follows
a replay with error ignorance finds that unit, and the Normal policy reaches such a
replay within its budget. -/
theorem read_video_retry_recovers (L : Libav σ) (hc : const_delay L) (h : lsmash_handler_t)
    (hp0 : libav_handler_t) (P : List AVPacket) (hex : exact_seek L h hp0 P) (psn D : Nat)
    (hpsn : 1 ≤ psn)
    (hunits : psn + D ≤ unit_count hp0.video_index P)
    (hsucc : seek_succeeds L h hp0 P (psn + D))
    (hpic : unit_yields_picture L hp0.video_index P (psn + D)) :
    ∀ (fuel mode ec rap start : Nat) (pic : AVFrame) (hp : libav_handler_t) (w : VideoWorld σ),
      same_index hp0 hp → w.packets = P → DECODER_DELAY w = D → 1 ≤ rap → rap ≤ psn + D →
      (mode ≠ SEEK_MODE_NORMAL → 1 ≤ fuel ∧ start ≠ 0 ∧ next_unit hp w = start ∧
        hp.delay_count = D ∧ hp.decode_status = decode_status_t.DECODE_REQUIRE_INITIAL ∧
        start = psn + D) →
      (mode = SEEK_MODE_NORMAL → MAX_ERROR_COUNT - ec + 2 ≤ fuel) →
      (read_video_retry L h psn fuel mode ec rap
        (rap_pos_of h.video_sample_count hp0.video_frame_list hp0.video_seek_base rap)
        start pic hp w).failed = false := by
  intro fuel
  induction fuel with
  | zero =>
    intro mode ec rap start pic hp w _ _ _ _ _ hagg hnorm
    by_cases hm : mode = SEEK_MODE_NORMAL
    · have := hnorm hm; omega
    · have := (hagg hm).1; omega
  | succ fuel ih =>
    intro mode ec rap start pic hp w hidx hP hD hrap1 hrap hagg hnorm
    obtain ⟨g, hg⟩ : ∃ g : GetPictureResult σ, g =
        if start = 0 then { ret := -1, picture := pic, hp := hp, w := w }
        else get_picture L hp w pic start (psn + hp.delay_count) h.video_sample_count := ⟨_, rfl⟩
    rw [read_video_retry_succ L h psn fuel mode ec rap _ start pic hp w g hg]
    obtain ⟨g1, g2⟩ := retry_condition_frame L hc h psn start pic hp w
    rw [← hg] at g1 g2
    have gidx : same_index hp0 g.hp := same_index_trans hidx g1
    have gP : g.w.packets = P := g2.1.trans hP
    have gD : DECODER_DELAY g.w = D := g2.2.trans hD
    by_cases hcond : start = 0 ∨ g.ret ≠ 0
    · rw [if_pos hcond]
      by_cases hmn : mode = SEEK_MODE_NORMAL
      · have hm : ¬ mode = SEEK_MODE_AGGRESSIVE := by rw [hmn]; decide
        rw [if_neg hm]
        have hfuel := hnorm hmn
        by_cases hbud : ec + 1 > MAX_ERROR_COUNT ∨ rap ≤ 1
        · rw [if_pos hbud, if_neg (by rw [hmn]; decide)]
          obtain ⟨s, hs⟩ : ∃ s, s = seek_video L g.hp g.w g.picture psn rap
              (rap_pos_of h.video_sample_count hp0.video_frame_list hp0.video_seek_base rap)
              (decide (SEEK_MODE_AGGRESSIVE ≠ SEEK_MODE_NORMAL)) := ⟨_, rfl⟩
          have hne : s.ret ≠ 0 := by
            rw [hs]
            exact seek_video_ignoring L hc h hp0 P hex g.hp g.w g.picture psn rap gidx gP
              (by rw [gD]; omega) (by rw [gD]; exact hsucc) hrap1 (by rw [gD]; exact hrap) hpsn
          obtain ⟨s1, s2, s3⟩ := seek_video_aligned L hc h hp0 P hex g.hp g.w g.picture psn rap
            (decide (SEEK_MODE_AGGRESSIVE ≠ SEEK_MODE_NORMAL)) gidx gP (by rw [gD]; omega)
          rw [← hs] at s1 s2 s3
          obtain ⟨t1, t2, t3, t4⟩ := s3 hne
          rw [← hs]
          refine ih SEEK_MODE_AGGRESSIVE (ec + 1) rap s.ret s.picture s.hp s.w
            (same_index_trans gidx s1) (s2.1.trans gP) (s2.2.trans gD) hrap1 hrap
            (fun _ => ⟨by unfold MAX_ERROR_COUNT at hfuel; omega, hne, t1, t2.trans gD, t3,
              by rw [t4 (by rw [gD]; exact hrap), gD]⟩)
            (fun hx => absurd hx (by decide))
        · rw [if_neg hbud]
          have hrapgt : 1 < rap := by
            by_contra hc2; exact hbud (Or.inr (by omega))
          obtain ⟨f1, f2⟩ := find_rap_frame h g.hp psn (rap - 1)
          have hlt := find_rap_retry_lt h g.hp psn rap hrapgt
          have hge := find_rap_pos_one h g.hp psn (rap - 1)
          have f2b : (find_random_accessible_point h g.hp psn (rap - 1)).1 =
              rap_pos_of h.video_sample_count hp0.video_frame_list hp0.video_seek_base
                (find_random_accessible_point h g.hp psn (rap - 1)).2.1 := by
            rw [f2, gidx.2.1, gidx.2.2.2]
          generalize find_random_accessible_point h g.hp psn (rap - 1) = f at f1 f2b hlt hge ⊢
          rw [f2b]
          obtain ⟨s, hs⟩ : ∃ s, s = seek_video L f.2.2 g.w g.picture psn f.2.1
              (rap_pos_of h.video_sample_count hp0.video_frame_list hp0.video_seek_base f.2.1)
              (decide (mode ≠ SEEK_MODE_NORMAL)) := ⟨_, rfl⟩
          obtain ⟨s1, s2, -⟩ := seek_video_aligned L hc h hp0 P hex f.2.2 g.w g.picture psn f.2.1
            (decide (mode ≠ SEEK_MODE_NORMAL)) (same_index_trans gidx f1) gP (by rw [gD]; omega)
          rw [← hs] at s1 s2
          rw [← hs]
          refine ih mode (ec + 1) f.2.1 s.ret s.picture s.hp s.w
            (same_index_trans (same_index_trans gidx f1) s1) (s2.1.trans gP) (s2.2.trans gD)
            hge (by omega) (fun hx => absurd hmn hx) (fun _ => ?_)
          unfold MAX_ERROR_COUNT at hfuel hbud ⊢
          omega
      · -- an attempt after a replay with error ignorance cannot fail here
        exfalso
        obtain ⟨-, a0, a1, a2, a3, a4⟩ := hagg hmn
        have hgr : g.ret = 0 := by
          rw [hg, if_neg a0, a2, ← a4]
          exact get_picture_succeeds L hp w pic start h.video_sample_count a3
            (by rw [a1, a4, hidx.1, hP]; exact hunits)
            (by rw [a1, a4, hidx.1, hP]; exact hpic)
        rcases hcond with h0 | h0
        · exact a0 h0
        · exact h0 hgr
    · rw [if_neg hcond]

/-- Reading on the seek path a sample whose unit `sample_number + DECODER_DELAY`
decodes and yields a picture never ends in `video_fail`, whatever the policy and
whatever the units replayed before it return. -/
theorem read_video_recovers (L : Libav σ) (h : lsmash_handler_t) (hp : libav_handler_t)
    (w : VideoWorld σ) (n : Nat)
    (hvalid : ¬ n + 1 < hp.first_valid_video_frame_number)
    (hseek : n + 1 ≠ hp.last_video_frame_number + 1)
    (hc : const_delay L) (hex : exact_seek L h hp w.packets)
    (hsucc : seek_succeeds L h hp w.packets (n + 1 + DECODER_DELAY w))
    (hunits : n + 1 + DECODER_DELAY w ≤ unit_count hp.video_index w.packets)
    (hpic : unit_yields_picture L hp.video_index w.packets (n + 1 + DECODER_DELAY w))
    (hrap : (find_random_accessible_point h hp (n + 1) 0).2.1 ≤ n + 1 + DECODER_DELAY w) :
    (read_video L h hp w n).failed = false ∧
    ∃ (w1 : VideoWorld σ) (pic : AVFrame),
      (read_video L h hp w n).ret = (L.convert_colorspace w1 pic).1 := by
  rw [read_video_seek_path L h hp w n hvalid hseek]
  obtain ⟨f1, f2⟩ := find_rap_frame h hp (n + 1) 0
  have hge := find_rap_pos_one h hp (n + 1) 0
  obtain ⟨s, hs⟩ : ∃ s, s = first_seek L h hp w (n + 1) := ⟨_, rfl⟩
  have hs2 : s = seek_video L (find_random_accessible_point h hp (n + 1) 0).2.2 w [] (n + 1)
      (find_random_accessible_point h hp (n + 1) 0).2.1
      (rap_pos_of h.video_sample_count hp.video_frame_list hp.video_seek_base
        (find_random_accessible_point h hp (n + 1) 0).2.1)
      (decide (hp.seek_mode ≠ SEEK_MODE_NORMAL)) := by
    rw [hs, first_seek, f2]
  obtain ⟨s1, s2, s3⟩ := seek_video_aligned L hc h hp w.packets hex
    (find_random_accessible_point h hp (n + 1) 0).2.2 w [] (n + 1)
    (find_random_accessible_point h hp (n + 1) 0).2.1 (decide (hp.seek_mode ≠ SEEK_MODE_NORMAL))
    f1 rfl (by omega)
  rw [← hs2] at s1 s2 s3
  rw [← hs, f2]
  have key := read_video_retry_recovers L hc h hp w.packets hex (n + 1) (DECODER_DELAY w)
    (by omega) hunits hsucc hpic
    6 hp.seek_mode 0 (find_random_accessible_point h hp (n + 1) 0).2.1 s.ret s.picture s.hp s.w
    (same_index_trans f1 s1) s2.1 s2.2 hge hrap
    (fun hm => by
      have hei : decide (hp.seek_mode ≠ SEEK_MODE_NORMAL) = true := decide_eq_true hm
      have hne : s.ret ≠ 0 := by
        rw [hs2, hei]
        exact seek_video_ignoring L hc h hp w.packets hex _ w [] (n + 1) _ f1 rfl
          (by omega) hsucc hge hrap (by omega)
      obtain ⟨t1, t2, t3, t4⟩ := s3 hne
      exact ⟨by omega, hne, t1, t2, t3, t4 hrap⟩)
    (fun _ => by decide)
  generalize read_video_retry L h (n + 1) 6 hp.seek_mode 0
    (find_random_accessible_point h hp (n + 1) 0).2.1
    (rap_pos_of h.video_sample_count hp.video_frame_list hp.video_seek_base
      (find_random_accessible_point h hp (n + 1) 0).2.1) s.ret s.picture s.hp s.w = r at key ⊢
  unfold read_video_finish
  rw [key]
  exact ⟨rfl, r.w, r.picture, rfl⟩

theorem poisoned_rap_pos (mode rap : Nat) :
    rap_pos_of (synth_handle poisoned_packets mode).1.video_sample_count
      (synth_handle poisoned_packets mode).2.video_frame_list
      (synth_handle poisoned_packets mode).2.video_seek_base rap =
    if rap = 1 then 1 else if rap = 2 then 2 else if rap = 3 then 3 else INT64_MIN := by
  have e1 : (synth_handle poisoned_packets mode).1.video_sample_count = 3 := by
    show (synth_handle poisoned_packets 0).1.video_sample_count = 3
    decide
  have e2 : (synth_handle poisoned_packets mode).2.video_frame_list =
      [video_zero,
       { keyframe := 1, is_leading := 0, sample_number := 1, pts := 1, dts := 1, file_offset := 1 },
       { keyframe := 0, is_leading := 0, sample_number := 2, pts := 2, dts := 2, file_offset := 2 },
       { keyframe := 0, is_leading := 0, sample_number := 3, pts := 3, dts := 3, file_offset := 3 }] := by
    show (synth_handle poisoned_packets 0).2.video_frame_list = _
    decide
  have e3 : (synth_handle poisoned_packets mode).2.video_seek_base = 3 := by
    show (synth_handle poisoned_packets 0).2.video_seek_base = 3
    decide
  rw [e1, e2, e3]
  unfold rap_pos_of
  simp only [List.range', List.find?, vinfo, List.getD_cons_succ, List.getD_cons_zero]
  by_cases h1 : rap = 1
  · subst h1; decide
  · by_cases h2 : rap = 2
    · subst h2; decide
    · by_cases h3 : rap = 3
      · subst h3; decide
      · simp [h1, h2, h3]

theorem poisoned_exact_seek (latency mode : Nat) :
    exact_seek (synth latency) (synth_handle poisoned_packets mode).1
      (synth_handle poisoned_packets mode).2 poisoned_packets := by
  intro w rap flags hP
  rw [poisoned_rap_pos]
  show 0 ≤ (synth_seek w.packets w.cursor w.priv _).ret →
    unit_count _ (List.take (synth_seek w.packets w.cursor w.priv _).cursor poisoned_packets) + 1
      = rap
  rw [hP]
  have k1 : (synth_seek poisoned_packets w.cursor w.priv 1).cursor = 0 := rfl
  have k2 : (synth_seek poisoned_packets w.cursor w.priv 2).cursor = 1 := rfl
  have k3 : (synth_seek poisoned_packets w.cursor w.priv 3).cursor = 2 := rfl
  have k4 : (synth_seek poisoned_packets w.cursor w.priv INT64_MIN).ret = -1 := rfl
  have hi : (synth_handle poisoned_packets mode).2.video_index = 0 := rfl
  rw [hi]
  by_cases h1 : rap = 1
  · subst h1; intro _; rw [if_pos rfl, k1]; decide
  · by_cases h2 : rap = 2
    · subst h2; intro _; rw [if_neg (by decide), if_pos rfl, k2]; decide
    · by_cases h3 : rap = 3
      · subst h3; intro _; rw [if_neg (by decide), if_neg (by decide), if_pos rfl, k3]; decide
      · rw [if_neg h1, if_neg h2, if_neg h3, k4]
        intro hret
        exact absurd hret (by decide)

theorem poisoned_seek_succeeds (latency mode : Nat) :
    seek_succeeds (synth latency) (synth_handle poisoned_packets mode).1
      (synth_handle poisoned_packets mode).2 poisoned_packets 3 := by
  intro w rap flags hP h1 h3
  rw [poisoned_rap_pos]
  show 0 ≤ (synth_seek w.packets w.cursor w.priv _).ret
  rw [hP]
  have k1 : (synth_seek poisoned_packets w.cursor w.priv 1).ret = 0 := rfl
  have k2 : (synth_seek poisoned_packets w.cursor w.priv 2).ret = 0 := rfl
  have k3 : (synth_seek poisoned_packets w.cursor w.priv 3).ret = 0 := rfl
  by_cases e1 : rap = 1
  · rw [if_pos e1, k1]
  · by_cases e2 : rap = 2
    · rw [if_neg e1, if_pos e2, k2]
    · have e3 : rap = 3 := by omega
      rw [if_neg e1, if_neg e2, if_pos e3, k3]

/-- Unit 1 of `poisoned_packets` is poisoned for the synthetic decoder. -/
theorem poisoned_unit_fails (latency : Nat) :
    unit_fails (synth latency) 0 poisoned_packets 1 := by
  intro w pkt hpkt
  have e : unit_packet 0 poisoned_packets 1 = some (vpkt 1 1 []) := by decide
  rw [e] at hpkt
  cases hpkt
  show (synth_decode latency w (some (vpkt 1 1 []))).ret < 0
  have : (synth_decode latency w (some (vpkt 1 1 []))).ret = -1 := rfl
  rw [this]; decide

/-- Units 2 and 3 of `poisoned_packets` decode and yield a picture at once when the
synthetic decoder holds nothing back. -/
theorem poisoned_unit_yields (c : Nat) (h2 : 2 ≤ c) :
    unit_yields_picture (synth 0) 0 poisoned_packets c := by
  intro w pkt hpkt
  show 0 ≤ (synth_decode 0 w (some pkt)).ret ∧ (synth_decode 0 w (some pkt)).got_picture ≠ 0
  by_cases e2 : c = 2
  · subst e2
    have e : unit_packet 0 poisoned_packets 2 = some (vpkt 2 0 [12]) := by decide
    rw [e] at hpkt
    cases hpkt
    simp [synth_decode, vpkt]
  · by_cases e3 : c = 3
    · subst e3
      have e : unit_packet 0 poisoned_packets 3 = some (vpkt 3 0 [13]) := by decide
      rw [e] at hpkt
      cases hpkt
      simp [synth_decode, vpkt]
    · exfalso
      have e : unit_packet 0 poisoned_packets c = none := by
        unfold unit_packet
        have : (poisoned_packets.filter (fun p => decide (p.stream_index = 0))).length = 3 := by
          decide
        rw [List.getElem?_eq_none]
        omega
      rw [e] at hpkt
      cases hpkt


/-- C8 (amended): on the seek path, when the random-access unit the locator picks
for the requested sample is poisoned and lies before unit
`sample_number + DECODER_DELAY`, which decodes and yields a picture, on an exactly
seeking, accepting demuxer: under the Normal policy the first `seek_video` returns
0, and under every policy `read_video` does not end in `video_fail` but returns
what the colour converter returns for the picture found. -/
theorem C8_poisoned_rap (L : Libav σ) (h : lsmash_handler_t) (hp : libav_handler_t)
    (w : VideoWorld σ) (n : Nat)
    (hvalid : ¬ n + 1 < hp.first_valid_video_frame_number)
    (hseek : n + 1 ≠ hp.last_video_frame_number + 1)
    (hc : const_delay L) (hex : exact_seek L h hp w.packets)
    (hsucc : seek_succeeds L h hp w.packets (n + 1 + DECODER_DELAY w))
    (hunits : n + 1 + DECODER_DELAY w ≤ unit_count hp.video_index w.packets)
    (hpic : unit_yields_picture L hp.video_index w.packets (n + 1 + DECODER_DELAY w))
    (hrap : (find_random_accessible_point h hp (n + 1) 0).2.1 < n + 1 + DECODER_DELAY w)
    (hbad : unit_fails L hp.video_index w.packets
      (find_random_accessible_point h hp (n + 1) 0).2.1) :
    (hp.seek_mode = SEEK_MODE_NORMAL → (first_seek L h hp w (n + 1)).ret = 0) ∧
    (read_video L h hp w n).failed = false ∧
    ∃ (w1 : VideoWorld σ) (pic : AVFrame),
      (read_video L h hp w n).ret = (L.convert_colorspace w1 pic).1 := by
  refine ⟨fun hm => ?_, read_video_recovers L h hp w n hvalid hseek hc hex hsucc hunits hpic
    (le_of_lt hrap)⟩
  obtain ⟨f1, f2⟩ := find_rap_frame h hp (n + 1) 0
  have hei : decide (hp.seek_mode ≠ SEEK_MODE_NORMAL) = false := by
    rw [hm]; decide
  rw [first_seek, f2, hei]
  exact seek_video_poisoned L hc h hp w.packets hex _ w [] (n + 1) _ f1 rfl hrap
    (by omega) hbad

/-- C8 witness: sample 1 of `poisoned_packets` under the Normal policy. -/
theorem C8_poisoned_rap_witness :
    ((synth_handle poisoned_packets SEEK_MODE_NORMAL).2.seek_mode = SEEK_MODE_NORMAL →
      (first_seek (synth 0) (synth_handle poisoned_packets SEEK_MODE_NORMAL).1
        (synth_handle poisoned_packets SEEK_MODE_NORMAL).2 (synth_world poisoned_packets 0)
        (1 + 1)).ret = 0) ∧
    (synth_read 0 0 poisoned_packets SEEK_MODE_NORMAL 1).failed = false ∧
    ∃ (w1 : VideoWorld (List AVFrame)) (pic : AVFrame),
      (synth_read 0 0 poisoned_packets SEEK_MODE_NORMAL 1).ret =
        ((synth 0).convert_colorspace w1 pic).1 :=
  C8_poisoned_rap (synth 0) (synth_handle poisoned_packets SEEK_MODE_NORMAL).1
    (synth_handle poisoned_packets SEEK_MODE_NORMAL).2 (synth_world poisoned_packets 0) 1
    (by decide) (by decide) (synth_const_delay 0) (poisoned_exact_seek 0 SEEK_MODE_NORMAL)
    (fun w rap flags hP h1 h2 =>
      poisoned_seek_succeeds 0 SEEK_MODE_NORMAL w rap flags hP h1 (le_trans h2 (by decide)))
    (by decide) (poisoned_unit_yields 2 (le_refl 2)) (by decide) (poisoned_unit_fails 0)

/-- C8 (as stated, refuted): in `poisoned_packets` the random-access unit for
sample 1 is unit 1, on which the decoder reports an error, and units 2 and 3
decode and yield a picture.  Under the Normal policy `read_video` returns 1, the
byte count it returns under the Aggressive policy: the first replay stops at
unit 1, the loop turns to error ignorance since `rap_number <= 1`, and the second
replay reaches unit 2. -/
theorem C8_counterexample :
    (find_random_accessible_point (synth_handle poisoned_packets SEEK_MODE_NORMAL).1
      (synth_handle poisoned_packets SEEK_MODE_NORMAL).2 (1 + 1) 0).2.1 = 1 ∧
    unit_fails (synth 0) 0 poisoned_packets 1 ∧
    unit_yields_picture (synth 0) 0 poisoned_packets 2 ∧
    unit_yields_picture (synth 0) 0 poisoned_packets 3 ∧
    (synth_read 0 0 poisoned_packets SEEK_MODE_NORMAL 1).failed = false ∧
    (synth_read 0 0 poisoned_packets SEEK_MODE_NORMAL 1).ret = 1 ∧
    (synth_read 0 0 poisoned_packets SEEK_MODE_NORMAL 1).buf = [12] ∧
    (synth_read 0 0 poisoned_packets SEEK_MODE_AGGRESSIVE 1).ret = 1 ∧
    (synth_read 0 0 poisoned_packets SEEK_MODE_NORMAL 1).w.trace =
      [Event.seek_video 2 1 1 false, Event.av_seek_frame 1 1, Event.flush_buffers,
       Event.decode_video_sample 1, Event.avcodec_decode_video2 true,
       Event.seek_video 2 1 1 true, Event.av_seek_frame 1 1, Event.flush_buffers,
       Event.decode_video_sample 1, Event.avcodec_decode_video2 true,
       Event.decode_video_sample 2, Event.avcodec_decode_video2 true] :=
  ⟨by decide, poisoned_unit_fails 0, poisoned_unit_yields 2 (le_refl 2),
   poisoned_unit_yields 3 (by decide), by decide, by decide, by decide, by decide, by decide⟩


/-! ## Fuel of the loops

The loops of `seek_video`, `get_picture` and `read_video` are given the fuel named
below; none of them runs out of it, as more fuel never changes a result. -/

/-- A `decode_video_sample` call that found a unit has moved the demuxer forward,
within the container. -/
theorem decode_video_sample_cursor (L : Libav σ) (hp : libav_handler_t)
    (w : VideoWorld σ) (pic : AVFrame) (got : Int) (n : Nat) :
    (decode_video_sample L hp w pic got n).w.packets = w.packets ∧
    ((decode_video_sample L hp w pic got n).ret ≠ 1 →
      w.cursor < (decode_video_sample L hp w pic got n).w.cursor ∧
      (decode_video_sample L hp w pic got n).w.cursor ≤ w.packets.length) := by
  have hs := get_sample_spec hp.video_index (w.packets.drop w.cursor) 0
  unfold decode_video_sample
  simp only [VideoWorld.log]
  split
  · exact ⟨rfl, fun h => absurd rfl h⟩
  · rename_i pkt consumed heq
    rw [heq] at hs
    rcases hs with ⟨pkt2, h1, h2, h3, h4⟩ | ⟨h1, _⟩
    · simp only [Nat.sub_zero] at h3 h4
      simp only [List.length_drop] at h3
      refine ⟨rfl, fun _ => ⟨by simpa using h2, by simp only; omega⟩⟩
    · simp at h1

/-- The replay loop of `seek_video` does not run out of the fuel `seek_video` gives
it: with fuel above the number of unread packets, more fuel gives the same result. -/
theorem seek_video_loop_fuel (L : Libav σ) (psn : Nat) (ei : Bool) (k : Nat) :
    ∀ (fuel i : Nat) (pic : AVFrame) (hp : libav_handler_t) (w : VideoWorld σ),
      w.packets.length - w.cursor < fuel →
      seek_video_loop L psn ei (fuel + k) i pic hp w = seek_video_loop L psn ei fuel i pic hp w := by
  intro fuel
  induction fuel with
  | zero => intro i pic hp w hf; omega
  | succ fuel ih =>
    intro i pic hp w hf
    have hw1 : ∀ w1 : VideoWorld σ,
        w1 = (if i + DECODER_DELAY w = psn then { w with skip_frame := AVDISCARD_DEFAULT } else w) →
        w1.packets = w.packets ∧ w1.cursor = w.cursor := by
      intro w1 e; subst e; split_ifs <;> exact ⟨rfl, rfl⟩
    have e : fuel + 1 + k = (fuel + k) + 1 := by omega
    rw [e, seek_video_loop_succ L psn ei (fuel + k) i pic hp w _ _ rfl rfl,
      seek_video_loop_succ L psn ei fuel i pic hp w _ _ rfl rfl]
    generalize (if i + DECODER_DELAY w = psn then { w with skip_frame := AVDISCARD_DEFAULT } else w)
      = w1 at hw1 ⊢
    obtain ⟨hp1, hc1⟩ := hw1 w1 rfl
    obtain ⟨d1, d2⟩ := decode_video_sample_cursor L hp w1 pic 0 i
    generalize decode_video_sample L hp w1 pic 0 i = r at d1 d2 ⊢
    by_cases hlt : i < psn + DECODER_DELAY w
    · rw [if_pos hlt, if_pos hlt]
      by_cases hab : r.ret = -1 ∧ ei = false
      · rw [if_pos hab, if_pos hab]
      · rw [if_neg hab, if_neg hab]
        by_cases h1 : r.ret = 1
        · rw [if_pos h1, if_pos h1]
        · rw [if_neg h1, if_neg h1]
          obtain ⟨e2, e3⟩ := d2 h1
          exact ih (i + 1) r.picture r.hp r.w (by rw [d1, hp1]; rw [hp1, hc1] at *; omega)
    · rw [if_neg hlt, if_neg hlt]

/-- The first loop of `get_picture` does not run out of the fuel
`goal - current + 1`. -/
theorem get_picture_loop_fuel (L : Libav σ) (goal k : Nat) :
    ∀ (fuel current : Nat) (got : Int) (pic : AVFrame) (hp : libav_handler_t) (w : VideoWorld σ),
      goal - current < fuel →
      get_picture_loop L goal (fuel + k) current got pic hp w =
        get_picture_loop L goal fuel current got pic hp w := by
  intro fuel
  induction fuel with
  | zero => intro c got pic hp w hf; omega
  | succ fuel ih =>
    intro c got pic hp w hf
    have e : fuel + 1 + k = (fuel + k) + 1 := by omega
    rw [e, get_picture_loop_succ L goal (fuel + k) c got pic hp w _ _ rfl rfl,
      get_picture_loop_succ L goal fuel c got pic hp w _ _ rfl rfl]
    generalize decode_video_sample L hp w pic got c = r
    by_cases h1 : r.ret = -1
    · rw [if_pos h1, if_pos h1]
    · rw [if_neg h1, if_neg h1]
      by_cases h2 : r.ret = 1
      · rw [if_pos h2, if_pos h2]
      · rw [if_neg h2, if_neg h2]
        generalize (if r.got_picture = 0 then { r.hp with delay_count := r.hp.delay_count + 1 }
          else r.hp) = hp1
        by_cases h3 : hp1.delay_count > DECODER_DELAY r.w ∧
            hp1.decode_status = decode_status_t.DECODE_INITIALIZED
        · rw [if_pos h3, if_pos h3]
        · rw [if_neg h3, if_neg h3]
          by_cases h4 : c + 1 ≤ goal
          · rw [if_pos h4, if_pos h4]
            exact ih (c + 1) _ _ _ _ (by omega)
          · rw [if_neg h4, if_neg h4]

/-- The flushing loop of `get_picture` does not run out of the fuel
`goal - current + 1`. -/
theorem get_picture_flush_fuel (L : Libav σ) (goal k : Nat) :
    ∀ (fuel current : Nat) (got : Int) (pic : AVFrame) (hp : libav_handler_t) (w : VideoWorld σ),
      goal - current < fuel →
      get_picture_flush L goal (fuel + k) current got pic hp w =
        get_picture_flush L goal fuel current got pic hp w := by
  intro fuel
  induction fuel with
  | zero => intro c got pic hp w hf; omega
  | succ fuel ih =>
    intro c got pic hp w hf
    have e : fuel + 1 + k = (fuel + k) + 1 := by omega
    rw [e, get_picture_flush_succ L goal (fuel + k) c got pic hp w _ _ _ rfl rfl rfl,
      get_picture_flush_succ L goal fuel c got pic hp w _ _ _ rfl rfl rfl]
    by_cases h1 : (L.avcodec_decode_video2 w none).ret < 0
    · rw [if_pos h1, if_pos h1]
    · rw [if_neg h1, if_neg h1]
      by_cases h2 : c + 1 ≤ goal
      · rw [if_pos h2, if_pos h2]
        exact ih (c + 1) _ _ _ _ (by omega)
      · rw [if_neg h2, if_neg h2]

/-- The retry loop of `read_video` does not run out of fuel above its budget of
seeks; `read_video` gives it 6, the budget being at most 4. -/
theorem read_video_retry_fuel (L : Libav σ) (h : lsmash_handler_t) (sn k : Nat) :
    ∀ (fuel mode ec rap : Nat) (pos : Int) (start : Nat) (pic : AVFrame) (hp : libav_handler_t)
      (w : VideoWorld σ),
      retry_budget mode ec < fuel →
      read_video_retry L h sn (fuel + k) mode ec rap pos start pic hp w =
        read_video_retry L h sn fuel mode ec rap pos start pic hp w := by
  intro fuel
  induction fuel with
  | zero => intro mode ec rap pos start pic hp w hf; omega
  | succ fuel ih =>
    intro mode ec rap pos start pic hp w hf
    have e : fuel + 1 + k = (fuel + k) + 1 := by omega
    rw [e, read_video_retry_succ L h sn (fuel + k) mode ec rap pos start pic hp w _ rfl,
      read_video_retry_succ L h sn fuel mode ec rap pos start pic hp w _ rfl]
    generalize (if start = 0 then ({ ret := -1, picture := pic, hp := hp, w := w } :
        GetPictureResult σ)
      else get_picture L hp w pic start (sn + hp.delay_count) h.video_sample_count) = g
    by_cases hcond : start = 0 ∨ g.ret ≠ 0
    · rw [if_pos hcond, if_pos hcond]
      by_cases hm : mode = SEEK_MODE_AGGRESSIVE
      · rw [if_pos hm, if_pos hm]
      · rw [if_neg hm, if_neg hm]
        by_cases hbud : ec + 1 > MAX_ERROR_COUNT ∨ rap ≤ 1
        · rw [if_pos hbud, if_pos hbud]
          by_cases hu : mode = SEEK_MODE_UNSAFE
          · rw [if_pos hu, if_pos hu]
          · rw [if_neg hu, if_neg hu]
            have := retry_budget_escalate mode ec hm hu
            exact ih _ _ _ _ _ _ _ _ (by omega)
        · rw [if_neg hbud, if_neg hbud]
          have := retry_budget_retry mode ec rap hm hbud
          exact ih _ _ _ _ _ _ _ _ (by omega)
    · rw [if_neg hcond, if_neg hcond]

/-- The budget of the retry loop at its start is below the fuel of `read_video`. -/
theorem retry_budget_lt_fuel (mode : Nat) : retry_budget mode 0 < 6 := by
  unfold retry_budget MAX_ERROR_COUNT
  split_ifs <;> omega

end Replay

/-! ## Addressing mode and order of the video index (C15, C16) -/

/-- The flag word `decide_video_seek_method` ends with, named step by step as the
function computes it. -/
theorem video_seek_base_steps (name : String) (flags : Nat) (info : List video_frame_info_t)
    (n : Nat) (b0 b1 b2 b3 : Nat)
    (h0 : b0 = if name = "mpeg" ∨ name = "mpegts"
      then SEEK_DTS_BASED ||| SEEK_PTS_BASED ||| SEEK_FILE_OFFSET_BASED
      else SEEK_DTS_BASED ||| SEEK_PTS_BASED)
    (h1 : b1 = if (List.range' 1 n).any (fun i => decide ((vinfo info i).pts = AV_NOPTS_VALUE))
      then clear_flag b0 SEEK_PTS_BASED else b0)
    (h2 : b2 = if (List.range' 1 n).any (fun i => decide ((vinfo info i).dts = AV_NOPTS_VALUE))
      then clear_flag b1 SEEK_DTS_BASED else b1)
    (h3 : b3 = if b2 &&& SEEK_FILE_OFFSET_BASED ≠ 0 then
      (if flags &&& AVFMT_NO_BYTE_SEEK ≠ 0 then clear_flag b2 SEEK_FILE_OFFSET_BASED
       else if (List.range' 1 n).any (fun i => decide ((vinfo info i).file_offset = -1))
       then clear_flag b2 SEEK_FILE_OFFSET_BASED else b2)
      else b2) :
    (decide_video_seek_method name flags info n).1 = b3 := by
  unfold decide_video_seek_method
  lift_lets
  intro base0 base1 base2 base3
  have e0 : base0 = b0 := h0.symm
  have e1 : base1 = b1 := by
    show (if _ then clear_flag base0 SEEK_PTS_BASED else base0) = b1
    rw [e0, ← h1]
  have e2 : base2 = b2 := by
    show (if _ then clear_flag base1 SEEK_DTS_BASED else base1) = b2
    rw [e1, ← h2]
  have e3 : base3 = b3 := by
    show (if base2 &&& SEEK_FILE_OFFSET_BASED ≠ 0 then
      (if flags &&& AVFMT_NO_BYTE_SEEK ≠ 0 then clear_flag base2 SEEK_FILE_OFFSET_BASED
       else if _ then clear_flag base2 SEEK_FILE_OFFSET_BASED else base2)
      else base2) = b3
    rw [e2, ← h3]
  clear_value base3
  subst e3
  split_ifs <;> rfl

/-- `any` over the 1-origin positions `1..n` finds nothing exactly when the test
fails at every position. -/
theorem not_any_range_one (n : Nat) (p : Nat → Prop) [DecidablePred p] :
    ¬ (List.range' 1 n).any (fun i => decide (p i)) = true ↔ ∀ i, 1 ≤ i → i ≤ n → ¬ p i := by
  rw [List.any_eq_true]
  constructor
  · intro h i h1 h2 hc
    exact h ⟨i, by rw [List.mem_range'_1]; omega, decide_eq_true hc⟩
  · rintro h ⟨i, hi, hf⟩
    rw [List.mem_range'_1] at hi
    exact h i hi.1 (by omega) (of_decide_eq_true hf)

/-- C16: after `decide_video_seek_method`, the presentation-timestamp flag is set
exactly when no record `1..N` has `pts == AV_NOPTS_VALUE`, the decode-timestamp
flag exactly when no record has `dts == AV_NOPTS_VALUE`, and the byte-offset flag
exactly when the container is named `mpeg` or `mpegts`, its format flags lack
`AVFMT_NO_BYTE_SEEK`, and no record has `file_offset == -1`. -/
theorem C16_video_seek_flags (name : String) (flags : Nat) (info : List video_frame_info_t)
    (n : Nat) :
    ((decide_video_seek_method name flags info n).1 &&& SEEK_PTS_BASED ≠ 0 ↔
      ∀ i, 1 ≤ i → i ≤ n → ¬ (vinfo info i).pts = AV_NOPTS_VALUE) ∧
    ((decide_video_seek_method name flags info n).1 &&& SEEK_DTS_BASED ≠ 0 ↔
      ∀ i, 1 ≤ i → i ≤ n → ¬ (vinfo info i).dts = AV_NOPTS_VALUE) ∧
    ((decide_video_seek_method name flags info n).1 &&& SEEK_FILE_OFFSET_BASED ≠ 0 ↔
      (name = "mpeg" ∨ name = "mpegts") ∧ flags &&& AVFMT_NO_BYTE_SEEK = 0 ∧
      ∀ i, 1 ≤ i → i ≤ n → ¬ (vinfo info i).file_offset = -1) := by
  rw [video_seek_base_steps name flags info n _ _ _ _ rfl rfl rfl rfl,
    ← not_any_range_one n (fun i => (vinfo info i).pts = AV_NOPTS_VALUE),
    ← not_any_range_one n (fun i => (vinfo info i).dts = AV_NOPTS_VALUE),
    ← not_any_range_one n (fun i => (vinfo info i).file_offset = -1)]
  generalize (List.range' 1 n).any (fun i => decide ((vinfo info i).pts = AV_NOPTS_VALUE)) = bp
  generalize (List.range' 1 n).any (fun i => decide ((vinfo info i).dts = AV_NOPTS_VALUE)) = bd
  generalize (List.range' 1 n).any (fun i => decide ((vinfo info i).file_offset = -1)) = bo
  by_cases hm : name = "mpeg" ∨ name = "mpegts" <;>
    by_cases hn : flags &&& AVFMT_NO_BYTE_SEEK = 0 <;>
    cases bp <;> cases bd <;> cases bo <;>
    simp [hm, hn, clear_flag, SEEK_DTS_BASED, SEEK_PTS_BASED, SEEK_FILE_OFFSET_BASED] <;>
    decide

/-- The record array `decide_video_seek_method` ends with, by its final flag word. -/
theorem video_frame_list_cases (name : String) (flags : Nat) (info : List video_frame_info_t)
    (n : Nat) :
    (decide_video_seek_method name flags info n).2 =
      if (decide_video_seek_method name flags info n).1 &&& SEEK_PTS_BASED ≠ 0 then
        (if check_frame_reordering info n then
          info.take 1 ++ sort_presentation_order ((info.drop 1).take n) ++ info.drop (1 + n)
         else info)
      else if (decide_video_seek_method name flags info n).1 &&& SEEK_DTS_BASED ≠ 0 then
        info.take 1 ++ ((info.drop 1).take n).map (fun r => { r with pts := r.dts })
          ++ info.drop (1 + n)
      else info := by
  unfold decide_video_seek_method
  lift_lets
  intro base0 base1 base2 base3
  clear_value base3
  split_ifs <;> rfl

/-- The scan writes one record per unit of the video stream. -/
theorem scan_video_length (idx : Int) : ∀ (packets : List AVPacket) (c : Nat) (l : Int),
    (scan_video idx packets c l).length = unit_count idx packets := by
  intro packets
  induction packets with
  | nil => intro c l; rfl
  | cons p rest ih =>
    intro c l
    unfold scan_video unit_count
    by_cases hp : p.stream_index = idx
    · rw [if_pos hp, List.countP_cons_of_pos _ _ (by simpa using hp)]
      simp only [List.length_cons]
      rw [ih]; rfl
    · rw [if_neg hp, List.countP_cons_of_neg _ _ (by simpa using hp)]
      rw [ih]; rfl

/-- Record `j` (0-origin) of the scan carries the running count as its
`sample_number` and the timestamps, byte offset and key flag of unit `j + 1`. -/
theorem scan_video_get (idx : Int) : ∀ (packets : List AVPacket) (c : Nat) (l : Int) (j : Nat),
    j < unit_count idx packets →
    ∃ pkt, unit_packet idx packets (j + 1) = some pkt ∧
      ((scan_video idx packets c l).getD j video_zero).sample_number = c + j + 1 ∧
      ((scan_video idx packets c l).getD j video_zero).pts = pkt.pts ∧
      ((scan_video idx packets c l).getD j video_zero).dts = pkt.dts ∧
      ((scan_video idx packets c l).getD j video_zero).file_offset = pkt.pos ∧
      ((scan_video idx packets c l).getD j video_zero).keyframe =
        (if pkt.flags &&& AV_PKT_FLAG_KEY ≠ 0 then 1 else 0) := by
  intro packets
  induction packets with
  | nil => intro c l j hj; simp [unit_count] at hj
  | cons p rest ih =>
    intro c l j hj
    by_cases hp : p.stream_index = idx
    · have hf : (p :: rest).filter (fun q => decide (q.stream_index = idx)) =
          p :: rest.filter (fun q => decide (q.stream_index = idx)) :=
        List.filter_cons_of_pos (by simpa using hp)
      have hs : scan_video idx (p :: rest) c l =
          { pts := p.pts, dts := p.dts, file_offset := p.pos, sample_number := c + 1,
            is_leading := if p.pts < l then 1 else 0,
            keyframe := if p.flags &&& AV_PKT_FLAG_KEY ≠ 0 then 1 else 0 } ::
          scan_video idx rest (c + 1)
            (if p.flags &&& AV_PKT_FLAG_KEY ≠ 0 then p.pts else l) := by
        rw [scan_video, if_pos hp]
      rw [hs]
      cases j with
      | zero =>
        refine ⟨p, ?_, rfl, rfl, rfl, rfl, rfl⟩
        unfold unit_packet
        rw [hf]; simp
      | succ j =>
        have hj2 : j < unit_count idx rest := by
          unfold unit_count at hj ⊢
          rw [List.countP_cons_of_pos _ _ (by simpa using hp)] at hj
          omega
        obtain ⟨pkt, h1, h2, h3, h4, h5, h6⟩ := ih (c + 1)
          (if p.flags &&& AV_PKT_FLAG_KEY ≠ 0 then p.pts else l) j hj2
        refine ⟨pkt, ?_, ?_, h3, h4, h5, h6⟩
        · unfold unit_packet at h1 ⊢
          rw [hf]
          simpa using h1
        · rw [List.getD_cons_succ, h2]; omega
    · have hf : (p :: rest).filter (fun q => decide (q.stream_index = idx)) =
          rest.filter (fun q => decide (q.stream_index = idx)) :=
        List.filter_cons_of_neg (by simpa using hp)
      have hs : scan_video idx (p :: rest) c l = scan_video idx rest c l := by
        rw [scan_video, if_neg hp]
      have hj2 : j < unit_count idx rest := by
        unfold unit_count at hj ⊢
        rw [List.countP_cons_of_neg _ _ (by simpa using hp)] at hj
        exact hj
      obtain ⟨pkt, h1, h2⟩ := ih c l j hj2
      refine ⟨pkt, ?_, by rw [hs]; exact h2⟩
      unfold unit_packet at h1 ⊢
      rw [hf]; exact h1

/-- The `sample_number` fields of the scan are `c + 1, c + 2, ...` in order. -/
theorem scan_video_numbers (idx : Int) : ∀ (packets : List AVPacket) (c : Nat) (l : Int),
    (scan_video idx packets c l).map (fun r => r.sample_number) =
      List.range' (c + 1) (unit_count idx packets) := by
  intro packets
  induction packets with
  | nil => intro c l; rfl
  | cons p rest ih =>
    intro c l
    unfold unit_count
    by_cases hp : p.stream_index = idx
    · rw [scan_video, if_pos hp, List.countP_cons_of_pos _ _ (by simpa using hp)]
      simp only [List.map_cons, List.range'_succ]
      rw [ih]; rfl
    · rw [scan_video, if_neg hp, List.countP_cons_of_neg _ _ (by simpa using hp)]
      rw [ih]; rfl

/-- Shape of the resolved record array: the zero record followed by the scanned
records, either as scanned, or sorted by `compare_pts`, or with `pts` overwritten
by `dts`; the last exactly when the presentation-timestamp flag is clear and the
decode-timestamp flag is set. -/
theorem video_frame_list_shape (name : String) (flags : Nat) (S : List video_frame_info_t) :
    ∃ T : List video_frame_info_t,
      (decide_video_seek_method name flags (video_zero :: S) S.length).2 = video_zero :: T ∧
      (((decide_video_seek_method name flags (video_zero :: S) S.length).1 &&& SEEK_PTS_BASED = 0 ∧
          (decide_video_seek_method name flags (video_zero :: S) S.length).1 &&& SEEK_DTS_BASED ≠ 0) ∧
          T = S.map (fun r => { r with pts := r.dts }) ∨
       ¬ ((decide_video_seek_method name flags (video_zero :: S) S.length).1 &&& SEEK_PTS_BASED = 0 ∧
          (decide_video_seek_method name flags (video_zero :: S) S.length).1 &&& SEEK_DTS_BASED ≠ 0) ∧
          List.Perm T S) := by
  rw [video_frame_list_cases]
  have e1 : (video_zero :: S).take 1 = [video_zero] := rfl
  have e2 : ((video_zero :: S).drop 1).take S.length = S := by
    simp
  have e3 : (video_zero :: S).drop (1 + S.length) = [] := by
    simp [Nat.add_comm]
  rw [e1, e2, e3]
  generalize (decide_video_seek_method name flags (video_zero :: S) S.length).1 = base
  by_cases hp : base &&& SEEK_PTS_BASED ≠ 0
  · rw [if_pos hp]
    by_cases hr : check_frame_reordering (video_zero :: S) S.length = true
    · rw [if_pos hr]
      refine ⟨sort_presentation_order S, by simp, Or.inr ⟨fun h => hp h.1, ?_⟩⟩
      exact List.perm_insertionSort _ S
    · rw [if_neg hr]
      exact ⟨S, rfl, Or.inr ⟨fun h => hp h.1, List.Perm.refl S⟩⟩
  · rw [if_neg hp]
    by_cases hd : base &&& SEEK_DTS_BASED ≠ 0
    · rw [if_pos hd]
      exact ⟨S.map (fun r => { r with pts := r.dts }), by simp,
        Or.inl ⟨⟨not_not.mp hp, hd⟩, rfl⟩⟩
    · rw [if_neg hd]
      exact ⟨S, rfl, Or.inr ⟨fun h => hd h.2, List.Perm.refl S⟩⟩

/-- C15 (amended): after `create_index` and `decide_video_seek_method` on a stream
with `N` video units, `video_frame_count` is `N`, the `sample_number` fields of
`video_frame_list[1..N]` are a permutation of `1..N`, and record `p` carries the
`dts`, byte offset and key flag of the unit at its decode-order position and the
leading flag the scan recorded there; it carries that unit's `pts` too, unless the
presentation-timestamp flag was dropped and the decode-timestamp flag kept, in
which case its `pts` is its `dts`. -/
theorem C15_index_permutation (name : String) (flags : Nat) (packets : List AVPacket)
    (hp : libav_handler_t) :
    (create_index_video name flags packets hp).video_frame_count =
      unit_count hp.video_index packets ∧
    List.Perm
      ((((create_index_video name flags packets hp).video_frame_list.drop 1).take
        (unit_count hp.video_index packets)).map (fun r => r.sample_number))
      (List.range' 1 (unit_count hp.video_index packets)) ∧
    ∀ p, 1 ≤ p → p ≤ unit_count hp.video_index packets →
      ∃ pkt, unit_packet hp.video_index packets
          (vinfo (create_index_video name flags packets hp).video_frame_list p).sample_number =
            some pkt ∧
        (vinfo (create_index_video name flags packets hp).video_frame_list p).dts = pkt.dts ∧
        (vinfo (create_index_video name flags packets hp).video_frame_list p).file_offset =
          pkt.pos ∧
        (vinfo (create_index_video name flags packets hp).video_frame_list p).keyframe =
          (if pkt.flags &&& AV_PKT_FLAG_KEY ≠ 0 then 1 else 0) ∧
        (vinfo (create_index_video name flags packets hp).video_frame_list p).is_leading =
          (vinfo (video_zero :: scan_video hp.video_index packets 0 INT64_MIN)
            (vinfo (create_index_video name flags packets hp).video_frame_list p).sample_number
            ).is_leading ∧
        (if (create_index_video name flags packets hp).video_seek_base &&& SEEK_PTS_BASED = 0 ∧
            (create_index_video name flags packets hp).video_seek_base &&& SEEK_DTS_BASED ≠ 0
         then (vinfo (create_index_video name flags packets hp).video_frame_list p).pts =
            (vinfo (create_index_video name flags packets hp).video_frame_list p).dts
         else (vinfo (create_index_video name flags packets hp).video_frame_list p).pts =
            pkt.pts) := by
  obtain ⟨S, hS⟩ : ∃ S, S = scan_video hp.video_index packets 0 INT64_MIN := ⟨_, rfl⟩
  have hlen : S.length = unit_count hp.video_index packets := by
    rw [hS]; exact scan_video_length _ _ _ _
  have hnum : S.map (fun r => r.sample_number) =
      List.range' 1 (unit_count hp.video_index packets) := by
    rw [hS]; exact scan_video_numbers _ _ _ _
  have hcount : (create_index_video name flags packets hp).video_frame_count = S.length := by
    rw [hS]; rfl
  have hlist : (create_index_video name flags packets hp).video_frame_list =
      (decide_video_seek_method name flags (video_zero :: S) S.length).2 := by
    rw [hS]; rfl
  have hbase : (create_index_video name flags packets hp).video_seek_base =
      (decide_video_seek_method name flags (video_zero :: S) S.length).1 := by
    rw [hS]; rfl
  -- what a record of the scan says about its unit
  have hrec : ∀ s ∈ S, ∃ pkt, unit_packet hp.video_index packets s.sample_number = some pkt ∧
      s.dts = pkt.dts ∧ s.file_offset = pkt.pos ∧
      s.keyframe = (if pkt.flags &&& AV_PKT_FLAG_KEY ≠ 0 then 1 else 0) ∧
      s.pts = pkt.pts ∧ vinfo (video_zero :: S) s.sample_number = s := by
    intro s hs
    obtain ⟨j, hj, hjs⟩ := List.getElem_of_mem hs
    have hj2 : j < unit_count hp.video_index packets := by rw [← hlen]; exact hj
    obtain ⟨pkt, g1, g2, g3, g4, g5, g6⟩ :=
      scan_video_get hp.video_index packets 0 INT64_MIN j hj2
    rw [← hS, List.getD_eq_getElem _ _ hj, hjs] at g2 g3 g4 g5 g6
    have e : s.sample_number = j + 1 := by omega
    refine ⟨pkt, by rw [e]; exact g1, g4, g5, g6, g3, ?_⟩
    rw [e]
    show (video_zero :: S).getD (j + 1) video_zero = s
    rw [List.getD_cons_succ, List.getD_eq_getElem _ _ hj, hjs]
  have hnum2 : S.map (fun r => r.sample_number) = List.range' 1 S.length := by
    rw [hnum, hlen]
  rw [hcount, hlist, hbase, ← hlen, ← hS]
  obtain ⟨T, hT, hcase⟩ := video_frame_list_shape name flags S
  rw [hT]
  have hdrop : ((video_zero :: T).drop 1).take S.length = T.take S.length := rfl
  rw [hdrop]
  have hget : ∀ q (hq : q < T.length), vinfo (video_zero :: T) (q + 1) = T[q] := by
    intro q hq
    show (video_zero :: T).getD (q + 1) video_zero = _
    rw [List.getD_cons_succ, List.getD_eq_getElem _ _ hq]
  rcases hcase with ⟨hmode, hTm⟩ | ⟨hmode, hperm⟩
  · -- pts overwritten by dts
    have hTl : T.length = S.length := by rw [hTm, List.length_map]
    have htake : T.take S.length = T := by rw [← hTl]; exact List.take_length _
    refine ⟨rfl, ?_, ?_⟩
    · rw [htake, ← hnum2, hTm, List.map_map]
      exact List.Perm.refl _
    · intro p hp1 hp2
      obtain ⟨q, rfl⟩ : ∃ q, p = q + 1 := ⟨p - 1, by omega⟩
      have hq : q < T.length := by omega
      rw [hget q hq]
      have hmem : T[q] ∈ T := List.getElem_mem _
      generalize T[q] = r at hmem ⊢
      rw [hTm] at hmem
      obtain ⟨s, hs, hst⟩ := List.mem_map.mp hmem
      obtain ⟨pkt, f1, f2, f3, f4, f5, f6⟩ := hrec s hs
      refine ⟨pkt, ?_, ?_, ?_, ?_, ?_, ?_⟩
      · rw [← hst]; exact f1
      · rw [← hst]; exact f2
      · rw [← hst]; exact f3
      · rw [← hst]; exact f4
      · rw [← hst]; show s.is_leading = (vinfo (video_zero :: S) s.sample_number).is_leading
        rw [f6]
      · rw [if_pos hmode, ← hst]
  · have hTl : T.length = S.length := hperm.length_eq
    have htake : T.take S.length = T := by rw [← hTl]; exact List.take_length _
    refine ⟨rfl, ?_, ?_⟩
    · rw [htake, ← hnum2]
      exact hperm.map _
    · intro p hp1 hp2
      obtain ⟨q, rfl⟩ : ∃ q, p = q + 1 := ⟨p - 1, by omega⟩
      have hq : q < T.length := by omega
      rw [hget q hq]
      have hmem : T[q] ∈ S := hperm.mem_iff.mp (List.getElem_mem _)
      generalize T[q] = r at hmem ⊢
      obtain ⟨pkt, f1, f2, f3, f4, f5, f6⟩ := hrec _ hmem
      refine ⟨pkt, f1, f2, f3, f4, by rw [f6], ?_⟩
      rw [if_neg hmode]; exact f5

/-- C15 (as stated, refuted): in `nopts_packets` unit 1 has no `pts`, so the
presentation-timestamp flag is dropped and the decode-timestamp flag kept; record 1
still has `sample_number = 1` but its `pts` is its `dts`, 1, not the `pts` recorded
for unit 1. -/
theorem C15_counterexample :
    unit_packet 0 nopts_packets 1 = nopts_packets[0]? ∧
    (vinfo (video_zero :: scan_video 0 nopts_packets 0 INT64_MIN) 1).pts = AV_NOPTS_VALUE ∧
    (create_index_video "mp4" 0 nopts_packets libav_handler_zero).video_seek_base =
      SEEK_DTS_BASED ∧
    (vinfo (create_index_video "mp4" 0 nopts_packets libav_handler_zero).video_frame_list
      1).sample_number = 1 ∧
    (vinfo (create_index_video "mp4" 0 nopts_packets libav_handler_zero).video_frame_list
      1).pts = 1 := by
  decide

/-! ## Audio index and the seek branch of `read_audio` (C17 to C20) -/

/-- On its seek branch `read_audio` is `read_audio_seek` followed by the decode
loop and the statements at `audio_out`. -/
theorem read_audio_seek_path {σ : Type} (A : LibavAudio σ) (fuel : Nat) (h : lsmash_handler_t)
    (hp : libav_handler_t) (w : AudioWorld σ) (start wanted_length : Int)
    (hgap : ¬ (start < hp.av_gap ∧ start + wanted_length < hp.av_gap))
    (hseek : ¬ (if start < hp.av_gap then hp.av_gap - start else start - hp.av_gap) =
      (hp.next_audio_pcm_sample_number : Int)) :
    read_audio A fuel h hp w start wanted_length =
      (audio_decode_loop A h.nBlockAlign fuel none 0
        (read_audio_seek A h.nBlockAlign hp w
          (if start < hp.av_gap then hp.av_gap - start else start - hp.av_gap)).data_offset
        wanted_length 0
        (read_audio_seek A h.nBlockAlign hp w
          (if start < hp.av_gap then hp.av_gap - start else start - hp.av_gap)).frame_number []
        (read_audio_seek A h.nBlockAlign hp w
          (if start < hp.av_gap then hp.av_gap - start else start - hp.av_gap)).hp
        (read_audio_seek A h.nBlockAlign hp w
          (if start < hp.av_gap then hp.av_gap - start else start - hp.av_gap)).w).map
        (audio_out (if start < hp.av_gap then hp.av_gap - start else start - hp.av_gap)) := by
  unfold read_audio
  rw [if_neg hgap]
  simp only []
  rw [if_neg hseek]
  rfl

theorem audio_length_sum_succ (list : List audio_frame_info_t) (k : Nat) :
    audio_length_sum list (k + 1) = audio_length_sum list k + (ainfo list (k + 1)).length := rfl

/-- With non-negative lengths the running sums do not decrease. -/
theorem audio_length_sum_mono (list : List audio_frame_info_t) (n : Nat)
    (hlen : ∀ k, 1 ≤ k → k ≤ n → 0 ≤ (ainfo list k).length) :
    ∀ a b, a ≤ b → b ≤ n → audio_length_sum list a ≤ audio_length_sum list b := by
  intro a b hab
  induction b with
  | zero => intro _; have : a = 0 := by omega
            subst this; exact le_refl _
  | succ b ih =>
    intro hb
    by_cases h : a = b + 1
    · subst h; exact le_refl _
    · have h1 := ih (by omega) (by omega)
      have h2 := hlen (b + 1) (by omega) hb
      rw [audio_length_sum_succ]
      omega

/-- One pass of the frame search of `read_audio`. -/
theorem audio_find_frame_succ (list : List audio_frame_info_t) (count : Nat) (start : Int)
    (fuel f pos : Nat) :
    audio_find_frame list count start (fuel + 1 + 1) f pos =
      if start < ((pos + ((ainfo list f).length % 4294967296).toNat : Nat) : Int) then
        (f, ((ainfo list f).length % 4294967296).toNat,
          pos + ((ainfo list f).length % 4294967296).toNat)
      else if f + 1 ≤ count then
        audio_find_frame list count start (fuel + 1) (f + 1)
          (pos + ((ainfo list f).length % 4294967296).toNat)
      else (f + 1, ((ainfo list f).length % 4294967296).toNat,
          pos + ((ainfo list f).length % 4294967296).toNat) := by
  rfl

theorem audio_find_frame_one (list : List audio_frame_info_t) (count : Nat) (start : Int)
    (f pos : Nat) :
    audio_find_frame list count start 1 f pos =
      if start < ((pos + ((ainfo list f).length % 4294967296).toNat : Nat) : Int) then
        (f, ((ainfo list f).length % 4294967296).toNat,
          pos + ((ainfo list f).length % 4294967296).toNat)
      else (f + 1, ((ainfo list f).length % 4294967296).toNat,
          pos + ((ainfo list f).length % 4294967296).toNat) := by
  unfold audio_find_frame
  simp only []
  split_ifs <;> rfl

/-- The frame search stops at the frame whose span of samples holds `start`. -/
theorem audio_find_frame_spec (list : List audio_frame_info_t) (count : Nat) (start : Int)
    (hlen : ∀ k, 1 ≤ k → k ≤ count →
      0 ≤ (ainfo list k).length ∧ (ainfo list k).length < 2 ^ 31)
    (hs : start < audio_length_sum list count) :
    ∀ (fuel f pos : Nat), 1 ≤ f → f ≤ count → count - f < fuel →
      (pos : Int) = audio_length_sum list (f - 1) → (pos : Int) ≤ start →
      f ≤ (audio_find_frame list count start fuel f pos).1 ∧
      (audio_find_frame list count start fuel f pos).1 ≤ count ∧
      ((audio_find_frame list count start fuel f pos).2.1 : Int) =
        (ainfo list (audio_find_frame list count start fuel f pos).1).length ∧
      ((audio_find_frame list count start fuel f pos).2.2 : Int) =
        audio_length_sum list (audio_find_frame list count start fuel f pos).1 ∧
      audio_length_sum list ((audio_find_frame list count start fuel f pos).1 - 1) ≤ start ∧
      start < audio_length_sum list (audio_find_frame list count start fuel f pos).1 := by
  intro fuel
  induction fuel with
  | zero => intro f pos _ _ hf; omega
  | succ fuel ih =>
    intro f pos hf1 hf2 hfuel hpos hle
    obtain ⟨l0, l1⟩ := hlen f hf1 hf2
    have hL : (((ainfo list f).length % 4294967296).toNat : Int) = (ainfo list f).length := by
      rw [Int.toNat_of_nonneg (Int.emod_nonneg _ (by decide))]
      exact Int.emod_eq_of_lt l0 (by omega)
    have hnext : ((pos + ((ainfo list f).length % 4294967296).toNat : Nat) : Int) =
        audio_length_sum list f := by
      obtain ⟨g, rfl⟩ : ∃ g, f = g + 1 := ⟨f - 1, by omega⟩
      rw [audio_length_sum_succ, Nat.cast_add, hL, hpos]
      rfl
    cases fuel with
    | zero =>
      rw [audio_find_frame_one, hnext]
      have hfc : f = count := by omega
      have hlt : start < audio_length_sum list f := by rw [hfc]; exact hs
      rw [if_pos hlt]
      exact ⟨le_refl _, hf2, hL, hnext, by rw [← hpos]; exact hle, hlt⟩
    | succ fuel =>
      rw [audio_find_frame_succ, hnext]
      by_cases hlt : start < audio_length_sum list f
      · rw [if_pos hlt]
        exact ⟨le_refl _, hf2, hL, hnext, by rw [← hpos]; exact hle, hlt⟩
      · rw [if_neg hlt]
        have hfc : f + 1 ≤ count := by
          by_contra hc
          have : f = count := by omega
          rw [this] at hlt
          exact hlt hs
        rw [if_pos hfc]
        obtain ⟨i1, i2⟩ := ih (f + 1) (pos + ((ainfo list f).length % 4294967296).toNat)
          (by omega) hfc (by omega) (by rw [hnext]; rfl) (by rw [hnext]; omega)
        exact ⟨by omega, i2⟩

/-- C19: in the seek branch of `read_audio`, for an index with non-negative frame
lengths and an adjusted start `s` with `0 <= s <` the sum of the indexed lengths,
the search ends at the frame `f` with
`sum(length[1..f-1]) <= s < sum(length[1..f])`, the only frame of the index with
that property, and `data_offset = (s - sum(length[1..f-1])) * block_align`. -/
theorem C19_frame_search {σ : Type} (A : LibavAudio σ) (block_align : Nat)
    (hp : libav_handler_t) (w : AudioWorld σ) (s : Int)
    (hlen : ∀ k, 1 ≤ k → k ≤ hp.audio_frame_count →
      0 ≤ (ainfo hp.audio_frame_list k).length ∧ (ainfo hp.audio_frame_list k).length < 2 ^ 31)
    (hs0 : 0 ≤ s)
    (hs1 : s < audio_length_sum hp.audio_frame_list hp.audio_frame_count) :
    1 ≤ (read_audio_seek A block_align hp w s).frame_number ∧
    (read_audio_seek A block_align hp w s).frame_number ≤ hp.audio_frame_count ∧
    audio_length_sum hp.audio_frame_list
      ((read_audio_seek A block_align hp w s).frame_number - 1) ≤ s ∧
    s < audio_length_sum hp.audio_frame_list (read_audio_seek A block_align hp w s).frame_number ∧
    ((read_audio_seek A block_align hp w s).data_offset : Int) =
      (s - audio_length_sum hp.audio_frame_list
        ((read_audio_seek A block_align hp w s).frame_number - 1)) * block_align ∧
    ∀ f, 1 ≤ f → f ≤ hp.audio_frame_count →
      audio_length_sum hp.audio_frame_list (f - 1) ≤ s →
      s < audio_length_sum hp.audio_frame_list f →
      f = (read_audio_seek A block_align hp w s).frame_number := by
  have hcount : 1 ≤ hp.audio_frame_count := by
    by_contra hc
    have : hp.audio_frame_count = 0 := by omega
    rw [this] at hs1
    exact absurd hs1 (by show ¬ s < 0; omega)
  obtain ⟨g1, g2, g3, g4, g5, g6⟩ := audio_find_frame_spec hp.audio_frame_list
    hp.audio_frame_count s hlen hs1 (hp.audio_frame_count + 1) 1 0 (le_refl 1) hcount
    (by omega) rfl hs0
  have hf : (read_audio_seek A block_align hp w s).frame_number =
      (audio_find_frame hp.audio_frame_list hp.audio_frame_count s
        (hp.audio_frame_count + 1) 1 0).1 := rfl
  have hd : (read_audio_seek A block_align hp w s).data_offset =
      ((s + ((audio_find_frame hp.audio_frame_list hp.audio_frame_count s
          (hp.audio_frame_count + 1) 1 0).2.1 : Int) -
        ((audio_find_frame hp.audio_frame_list hp.audio_frame_count s
          (hp.audio_frame_count + 1) 1 0).2.2 : Int)) * (block_align : Int)).toNat := rfl
  rw [hf, hd, g3, g4]
  generalize (audio_find_frame hp.audio_frame_list hp.audio_frame_count s
    (hp.audio_frame_count + 1) 1 0).1 = f at g1 g2 g5 g6 ⊢
  obtain ⟨e, rfl⟩ : ∃ e, f = e + 1 := ⟨f - 1, by omega⟩
  have hmono := audio_length_sum_mono hp.audio_frame_list hp.audio_frame_count
    (fun k h1 h2 => (hlen k h1 h2).1)
  rw [Nat.add_sub_cancel] at g5 ⊢
  refine ⟨g1, g2, g5, g6, ?_, ?_⟩
  · rw [audio_length_sum_succ]
    have e1 : s + (ainfo hp.audio_frame_list (e + 1)).length -
        (audio_length_sum hp.audio_frame_list e + (ainfo hp.audio_frame_list (e + 1)).length) =
        s - audio_length_sum hp.audio_frame_list e := by ring
    rw [e1, Int.toNat_of_nonneg]
    exact Int.mul_nonneg (by omega) (Int.ofNat_nonneg _)
  · intro f2 h1 h2 h3 h4
    by_contra hne
    rcases Nat.lt_or_gt_of_ne hne with hlt | hgt
    · have := hmono f2 e (by omega) (by omega)
      omega
    · have := hmono (e + 1) (f2 - 1) (by omega) (by omega)
      omega

/-- C19 witness: on `audio_packets` (two frames of 4 samples) the adjusted start 5
lies in frame 2, one sample in. -/
theorem C19_frame_search_witness :
    (read_audio_seek synth_audio 1 (audio_hp 0) audio_world 5).frame_number = 2 ∧
    ((read_audio_seek synth_audio 1 (audio_hp 0) audio_world 5).data_offset : Int) =
      (5 - audio_length_sum (audio_hp 0).audio_frame_list
        ((read_audio_seek synth_audio 1 (audio_hp 0) audio_world 5).frame_number - 1)) *
        ((1 : Nat) : Int) :=
  ⟨by decide,
   (C19_frame_search synth_audio 1 (audio_hp 0) audio_world 5
      (by
        intro k h1 h2
        have h3 : k ≤ 2 := h2
        have : k = 1 ∨ k = 2 := by omega
        rcases this with rfl | rfl <;> decide)
      (by decide) (by decide)).2.2.2.2.1⟩

/-- The three segments `decide_audio_seek_method` cuts the record array into make
up the array. -/
theorem audio_segments (info : List audio_frame_info_t) (n : Nat) :
    info.take 1 ++ (info.drop 1).take n ++ info.drop (1 + n) = info := by
  rw [List.append_assoc, ← List.drop_drop, List.take_append_drop, List.take_append_drop]

/-- The flag word `decide_audio_seek_method` ends with, named step by step as the
function computes it. -/
theorem audio_seek_method_steps (name : String) (flags : Nat) (info : List audio_frame_info_t)
    (n : Nat) (b0 b1 b2 b3 : Nat)
    (h0 : b0 = if name = "mpeg" ∨ name = "mpegts"
      then SEEK_DTS_BASED ||| SEEK_PTS_BASED ||| SEEK_FILE_OFFSET_BASED
      else SEEK_DTS_BASED ||| SEEK_PTS_BASED)
    (h1 : b1 = if (List.range' 1 n).any (fun i => decide ((ainfo info i).pts = AV_NOPTS_VALUE))
      then clear_flag b0 SEEK_PTS_BASED else b0)
    (h2 : b2 = if (List.range' 1 n).any (fun i => decide ((ainfo info i).dts = AV_NOPTS_VALUE))
      then clear_flag b1 SEEK_DTS_BASED else b1)
    (h3 : b3 = if b2 &&& SEEK_FILE_OFFSET_BASED ≠ 0 then
      (if flags &&& AVFMT_NO_BYTE_SEEK ≠ 0 then clear_flag b2 SEEK_FILE_OFFSET_BASED
       else if (List.range' 1 n).countP (fun i => decide ((ainfo info i).file_offset = -1)) = n
       then clear_flag b2 SEEK_FILE_OFFSET_BASED else b2)
      else b2) :
    (decide_audio_seek_method name flags info n).1 = b3 := by
  unfold decide_audio_seek_method
  lift_lets
  intro base0 base1 base2 base3
  have e0 : base0 = b0 := h0.symm
  have e1 : base1 = b1 := by
    show (if _ then clear_flag base0 SEEK_PTS_BASED else base0) = b1
    rw [e0, ← h1]
  have e2 : base2 = b2 := by
    show (if _ then clear_flag base1 SEEK_DTS_BASED else base1) = b2
    rw [e1, ← h2]
  have e3 : base3 = b3 := by
    show (if base2 &&& SEEK_FILE_OFFSET_BASED ≠ 0 then
      (if flags &&& AVFMT_NO_BYTE_SEEK ≠ 0 then clear_flag base2 SEEK_FILE_OFFSET_BASED
       else if _ then clear_flag base2 SEEK_FILE_OFFSET_BASED else base2)
      else base2) = b3
    rw [e2, ← h3]
  clear_value base3
  subst e3
  split_ifs <;> rfl

/-- The record array `decide_audio_seek_method` ends with, by its final flag word. -/
theorem audio_frame_list_cases (name : String) (flags : Nat) (info : List audio_frame_info_t)
    (n : Nat) :
    (decide_audio_seek_method name flags info n).2 =
      if (decide_audio_seek_method name flags info n).1 &&& SEEK_PTS_BASED = 0 ∧
          (decide_audio_seek_method name flags info n).1 &&& SEEK_DTS_BASED ≠ 0 then
        info.take 1 ++ ((info.drop 1).take n).map (fun r => { r with pts := r.dts })
          ++ info.drop (1 + n)
      else info := by
  unfold decide_audio_seek_method
  lift_lets
  intro base0 base1 base2 base3
  clear_value base3
  split_ifs <;> rfl

/-- The presentation-timestamp flag of the audio track is kept exactly when no
record `1..n` has an unknown `pts`, the decode-timestamp flag exactly when none has
an unknown `dts`. -/
theorem audio_seek_flags (name : String) (flags : Nat) (info : List audio_frame_info_t)
    (n : Nat) :
    ((decide_audio_seek_method name flags info n).1 &&& SEEK_PTS_BASED ≠ 0 ↔
      ∀ i, 1 ≤ i → i ≤ n → ¬ (ainfo info i).pts = AV_NOPTS_VALUE) ∧
    ((decide_audio_seek_method name flags info n).1 &&& SEEK_DTS_BASED ≠ 0 ↔
      ∀ i, 1 ≤ i → i ≤ n → ¬ (ainfo info i).dts = AV_NOPTS_VALUE) := by
  rw [audio_seek_method_steps name flags info n _ _ _ _ rfl rfl rfl rfl,
    ← not_any_range_one n (fun i => (ainfo info i).pts = AV_NOPTS_VALUE),
    ← not_any_range_one n (fun i => (ainfo info i).dts = AV_NOPTS_VALUE)]
  generalize (List.range' 1 n).any (fun i => decide ((ainfo info i).pts = AV_NOPTS_VALUE)) = bp
  generalize (List.range' 1 n).any (fun i => decide ((ainfo info i).dts = AV_NOPTS_VALUE)) = bd
  generalize decide ((List.range' 1 n).countP
    (fun i => decide ((ainfo info i).file_offset = -1)) = n) = bo
  by_cases hm : name = "mpeg" ∨ name = "mpegts" <;>
    by_cases hn : flags &&& AVFMT_NO_BYTE_SEEK = 0 <;>
    by_cases ho : (List.range' 1 n).countP
      (fun i => decide ((ainfo info i).file_offset = -1)) = n <;>
    cases bp <;> cases bd <;>
    simp [hm, hn, ho, clear_flag, SEEK_DTS_BASED, SEEK_PTS_BASED, SEEK_FILE_OFFSET_BASED] <;>
    decide

/-- `decide_audio_seek_method` leaves every `dts` as it was, and every `pts` too
when it keeps the presentation-timestamp flag. -/
theorem audio_seek_method_records (name : String) (flags : Nat)
    (info : List audio_frame_info_t) (n f : Nat) :
    (ainfo (decide_audio_seek_method name flags info n).2 f).dts = (ainfo info f).dts ∧
    ((decide_audio_seek_method name flags info n).1 &&& SEEK_PTS_BASED ≠ 0 →
      (ainfo (decide_audio_seek_method name flags info n).2 f).pts = (ainfo info f).pts) := by
  rw [audio_frame_list_cases]
  generalize (decide_audio_seek_method name flags info n).1 = base
  constructor
  · split_ifs
    · have key : (info.take 1 ++
          ((info.drop 1).take n).map (fun r : audio_frame_info_t => { r with pts := r.dts })
          ++ info.drop (1 + n)).map (fun r : audio_frame_info_t => r.dts) =
          info.map (fun r : audio_frame_info_t => r.dts) := by
        conv_rhs => rw [← audio_segments info n]
        simp only [List.map_append, List.map_map]
        rfl
      have g : ∀ l : List audio_frame_info_t, (ainfo l f).dts =
          (l.map (fun r : audio_frame_info_t => r.dts)).getD f 0 := by
        intro l
        unfold ainfo
        rw [show (0 : Int) = (fun r : audio_frame_info_t => r.dts) audio_zero from rfl,
          List.getD_map]
      rw [g, key, ← g]
    · rfl
  · intro hp
    rw [if_neg (fun h => hp h.1)]

/-- The loop that discards units only adds `get_sample` calls to the record. -/
theorem audio_skip_trace {σ : Type} (hp : libav_handler_t) :
    ∀ (n : Nat) (w : AudioWorld σ), ∃ u, (audio_skip hp n w).trace = w.trace ++ u := by
  intro n
  induction n with
  | zero => intro w; exact ⟨[], (List.append_nil _).symm⟩
  | succ n ih =>
    intro w
    unfold audio_skip
    simp only []
    split
    · exact ⟨[AudioEvent.get_sample], rfl⟩
    · obtain ⟨u, hu⟩ := ih (audio_get_sample hp w).2
      refine ⟨AudioEvent.get_sample :: u, ?_⟩
      rw [hu]
      show (w.trace ++ [AudioEvent.get_sample]) ++ u = _
      simp

/-- The seek key and the first call of the seek branch of `read_audio`. -/
theorem read_audio_seek_call {σ : Type} (A : LibavAudio σ) (block_align : Nat)
    (hp : libav_handler_t) (w : AudioWorld σ) (s : Int) :
    (read_audio_seek A block_align hp w s).rap_pos =
      (if hp.audio_seek_base &&& SEEK_FILE_OFFSET_BASED ≠ 0
        then (ainfo hp.audio_frame_list (read_audio_seek A block_align hp w s).rap_number).file_offset
        else if hp.audio_seek_base &&& SEEK_PTS_BASED ≠ 0
        then (ainfo hp.audio_frame_list (read_audio_seek A block_align hp w s).rap_number).pts
        else if hp.audio_seek_base &&& SEEK_DTS_BASED ≠ 0
        then (ainfo hp.audio_frame_list (read_audio_seek A block_align hp w s).rap_number).dts
        else ((ainfo hp.audio_frame_list
          (read_audio_seek A block_align hp w s).rap_number).sample_number : Int)) ∧
    (read_audio_seek A block_align hp w s).rap_number =
      (if hp.audio_seek_base &&& SEEK_FILE_OFFSET_BASED ≠ 0
        then audio_rap_back hp.audio_frame_list (read_audio_seek A block_align hp w s).frame_number
        else (read_audio_seek A block_align hp w s).frame_number) ∧
    ∃ u, (read_audio_seek A block_align hp w s).w.trace =
      w.trace ++ AudioEvent.av_seek_frame (read_audio_seek A block_align hp w s).rap_pos
        ((if hp.audio_seek_base &&& SEEK_FILE_OFFSET_BASED ≠ 0 then AVSEEK_FLAG_BYTE
          else if hp.audio_seek_base = 0 then AVSEEK_FLAG_FRAME else 0) |||
          AVSEEK_FLAG_BACKWARD) :: u := by
  refine ⟨rfl, rfl, ?_⟩
  unfold read_audio_seek
  lift_lets
  intro hp1 found frame_number frame_length next_frame_pos data_offset rap_number rap_pos fl
    sk w1 sk2 w2 w3 w4
  obtain ⟨u, hu⟩ := audio_skip_trace hp1 (frame_number - rap_number) w3
  show ∃ u, w4.trace = _
  have h4 : w4 = audio_skip hp1 (frame_number - rap_number) w3 := rfl
  rw [h4, hu]
  have h3 : w3.trace = w2.trace ++ [AudioEvent.flush_buffers] := rfl
  have h1 : w1.trace = w.trace ++ [AudioEvent.av_seek_frame rap_pos (fl ||| AVSEEK_FLAG_BACKWARD)] :=
    rfl
  have h2 : ∃ v, w2.trace = w1.trace ++ v := by
    show ∃ v, (if sk.ret < 0 then _ else w1).trace = w1.trace ++ v
    split_ifs
    · exact ⟨_, rfl⟩
    · exact ⟨[], (List.append_nil _).symm⟩
  obtain ⟨v, hv⟩ := h2
  rw [h3, hv, h1]
  refine ⟨v ++ AudioEvent.flush_buffers :: u, ?_⟩
  simp only [List.append_assoc, List.singleton_append, List.cons_append, List.nil_append]

/-- C17 (amended): for an audio index resolved by `decide_audio_seek_method` with
byte-offset addressing not in effect, the seek key `read_audio` passes to
`av_seek_frame` for the target frame is that frame's `pts` whenever every record
has a known `pts`; it is the frame's `dts` when some record has an unknown `pts`
and every record a known `dts`.  Decode-timestamp addressing is used only if
presentation-timestamp addressing was rejected. -/
theorem C17_audio_seek_key {σ : Type} (A : LibavAudio σ) (block_align : Nat)
    (hp : libav_handler_t) (w : AudioWorld σ) (s : Int) (name : String) (flags : Nat)
    (info : List audio_frame_info_t) (n : Nat)
    (hbase : hp.audio_seek_base = (decide_audio_seek_method name flags info n).1)
    (hlist : hp.audio_frame_list = (decide_audio_seek_method name flags info n).2)
    (hoff : hp.audio_seek_base &&& SEEK_FILE_OFFSET_BASED = 0) :
    ((∀ i, 1 ≤ i → i ≤ n → ¬ (ainfo info i).pts = AV_NOPTS_VALUE) →
      (read_audio_seek A block_align hp w s).rap_pos =
        (ainfo info (read_audio_seek A block_align hp w s).frame_number).pts) ∧
    (¬ (∀ i, 1 ≤ i → i ≤ n → ¬ (ainfo info i).pts = AV_NOPTS_VALUE) →
      (∀ i, 1 ≤ i → i ≤ n → ¬ (ainfo info i).dts = AV_NOPTS_VALUE) →
      (read_audio_seek A block_align hp w s).rap_pos =
        (ainfo info (read_audio_seek A block_align hp w s).frame_number).dts) ∧
    ∃ fl u, (read_audio_seek A block_align hp w s).w.trace =
      w.trace ++ AudioEvent.av_seek_frame (read_audio_seek A block_align hp w s).rap_pos fl :: u := by
  obtain ⟨c1, c2, u, c3⟩ := read_audio_seek_call A block_align hp w s
  obtain ⟨fp, fd⟩ := audio_seek_flags name flags info n
  rw [← hbase] at fp fd
  have hoff2 : ¬ hp.audio_seek_base &&& SEEK_FILE_OFFSET_BASED ≠ 0 := fun h => h hoff
  rw [if_neg hoff2] at c1 c2
  rw [c2] at c1
  obtain ⟨r1, r2⟩ := audio_seek_method_records name flags info n
    (read_audio_seek A block_align hp w s).frame_number
  rw [← hlist] at r1 r2
  rw [← hbase] at r2
  refine ⟨fun hpts => ?_, fun hnp hdts => ?_, _, u, c3⟩
  · have hP := fp.mpr hpts
    rw [c1, if_pos hP]
    exact r2 hP
  · have hP : ¬ hp.audio_seek_base &&& SEEK_PTS_BASED ≠ 0 := fun h => hnp (fp.mp h)
    have hD := fd.mpr hdts
    rw [c1, if_neg hP, if_pos hD]
    exact r1

/-- C17 witness: on `shifted_audio_packets` (pts 3 and 5, dts 0 and 2) the key
passed for frame 2 is its `pts`, 5. -/
theorem C17_audio_seek_key_witness :
    (read_audio_seek synth_audio 1 (synth_audio_index "mp4" shifted_audio_packets)
        (synth_audio_world shifted_audio_packets) 2).frame_number = 2 ∧
    (read_audio_seek synth_audio 1 (synth_audio_index "mp4" shifted_audio_packets)
        (synth_audio_world shifted_audio_packets) 2).rap_pos = 5 ∧
    (read_audio_seek synth_audio 1 (synth_audio_index "mp4" shifted_audio_packets)
        (synth_audio_world shifted_audio_packets) 2).rap_pos =
      (ainfo [audio_zero,
          { length := 2, sample_number := 0, pts := 3, dts := 0, file_offset := 0 },
          { length := 2, sample_number := 0, pts := 5, dts := 2, file_offset := 100 }]
        (read_audio_seek synth_audio 1 (synth_audio_index "mp4" shifted_audio_packets)
          (synth_audio_world shifted_audio_packets) 2).frame_number).pts :=
  ⟨by decide, by decide,
   (C17_audio_seek_key synth_audio 1 (synth_audio_index "mp4" shifted_audio_packets)
      (synth_audio_world shifted_audio_packets) 2 "mp4" 0
      [audio_zero,
        { length := 2, sample_number := 0, pts := 3, dts := 0, file_offset := 0 },
        { length := 2, sample_number := 0, pts := 5, dts := 2, file_offset := 100 }] 2
      (by decide) (by decide) (by decide)).1
      (by
        intro i h1 h2
        have : i = 1 ∨ i = 2 := by omega
        rcases this with rfl | rfl <;> decide)⟩

/-- C17 (as stated, refuted): every record of the index of `shifted_audio_packets`
has a known `pts` and a known `dts`, byte-offset addressing is not in effect, and
for the target frame 2 (`pts = 5`, `dts = 2`) `read_audio` passes 5 to
`av_seek_frame`. -/
theorem C17_counterexample :
    (synth_audio_index "mp4" shifted_audio_packets).audio_frame_list =
      [audio_zero,
        { length := 2, sample_number := 0, pts := 3, dts := 0, file_offset := 0 },
        { length := 2, sample_number := 0, pts := 5, dts := 2, file_offset := 100 }] ∧
    (synth_audio_index "mp4" shifted_audio_packets).audio_seek_base =
      SEEK_DTS_BASED ||| SEEK_PTS_BASED ∧
    (read_audio_seek synth_audio 1 (synth_audio_index "mp4" shifted_audio_packets)
        (synth_audio_world shifted_audio_packets) 2).frame_number = 2 ∧
    (read_audio_seek synth_audio 1 (synth_audio_index "mp4" shifted_audio_packets)
        (synth_audio_world shifted_audio_packets) 2).w.trace =
      [AudioEvent.av_seek_frame 5 AVSEEK_FLAG_BACKWARD, AudioEvent.flush_buffers] ∧
    (read_audio synth_audio 20 audio_h
        { (synth_audio_index "mp4" shifted_audio_packets) with
          next_audio_pcm_sample_number := 5 }
        (synth_audio_world shifted_audio_packets) 2 1).map (fun r => r.w.trace.take 1) =
      some [AudioEvent.av_seek_frame 5 AVSEEK_FLAG_BACKWARD] := by
  decide

/-- The audio branch of the scan leaves `sample_number` at zero in every record. -/
theorem scan_audio_sample_number {σ : Type} (P : AudioProbe σ) (vi ai : Int) :
    ∀ (packets : List AVPacket) (st : AudioScan σ),
      (∀ r ∈ st.audio_info, r.sample_number = 0) →
      ∀ r ∈ (scan_audio P vi ai packets st).audio_info, r.sample_number = 0 := by
  intro packets
  induction packets with
  | nil => intro st h; exact h
  | cons p rest ih =>
    intro st h
    unfold scan_audio
    by_cases h1 : 0 ≤ vi ∧ p.stream_index = vi
    · rw [if_pos h1]; exact ih st h
    · rw [if_neg h1]
      by_cases h2 : 0 ≤ ai ∧ p.stream_index = ai ∧ st.audio_duration ≤ INT32_MAX
      · rw [if_pos h2]
        lift_lets
        intro g frame_length audio_duration r constant_frame_length
        by_cases h3 : audio_duration > INT32_MAX
        · rw [if_pos h3]; exact ih _ h
        · rw [if_neg h3]
          apply ih
          intro q hq
          rcases List.mem_append.mp hq with h4 | h4
          · exact h q h4
          · rw [List.mem_singleton] at h4
            rw [h4]
      · rw [if_neg h2]; exact ih st h

/-- No record of an audio index built by `create_index` carries a sample number:
the field reads 0 at every position. -/
theorem create_index_audio_sample_number {σ : Type} (P : AudioProbe σ) (s : σ)
    (name : String) (flags : Nat) (packets : List AVPacket) (hp : libav_handler_t) (f : Nat) :
    (ainfo (create_index_audio P s name flags packets hp).audio_frame_list f).sample_number =
      0 := by
  obtain ⟨st, hst⟩ : ∃ st, st = scan_audio P hp.video_index hp.audio_index packets
    { audio_info := [], audio_sample_count := 0, constant_frame_length := true,
      frame_length := 0, audio_duration := 0, probe := s } := ⟨_, rfl⟩
  have hz : ∀ r ∈ st.audio_info, r.sample_number = 0 := by
    rw [hst]
    exact scan_audio_sample_number P _ _ packets _ (by intro r hr; cases hr)
  have hlist : (create_index_audio P s name flags packets hp).audio_frame_list =
      (decide_audio_seek_method name flags (audio_zero :: st.audio_info)
        st.audio_sample_count).2 := by
    rw [hst]; rfl
  rw [hlist, audio_frame_list_cases]
  have g : ∀ l : List audio_frame_info_t, (ainfo l f).sample_number =
      (l.map (fun r : audio_frame_info_t => r.sample_number)).getD f 0 := by
    intro l
    unfold ainfo
    rw [show (0 : Nat) = (fun r : audio_frame_info_t => r.sample_number) audio_zero from rfl,
      List.getD_map]
  have hall : ∀ r ∈ audio_zero :: st.audio_info, r.sample_number = 0 := by
    intro r hr
    rcases List.mem_cons.mp hr with h1 | h1
    · rw [h1]; rfl
    · exact hz r h1
  have hinfo : (ainfo (audio_zero :: st.audio_info) f).sample_number = 0 := by
    unfold ainfo
    by_cases hf : f < (audio_zero :: st.audio_info).length
    · rw [List.getD_eq_getElem _ _ hf]
      exact hall _ (List.getElem_mem _)
    · rw [List.getD_eq_default _ _ (by omega)]; rfl
  split_ifs
  · have key : ((audio_zero :: st.audio_info).take 1 ++
        (((audio_zero :: st.audio_info).drop 1).take st.audio_sample_count).map
          (fun r : audio_frame_info_t => { r with pts := r.dts })
        ++ (audio_zero :: st.audio_info).drop (1 + st.audio_sample_count)).map
          (fun r : audio_frame_info_t => r.sample_number) =
        (audio_zero :: st.audio_info).map (fun r : audio_frame_info_t => r.sample_number) := by
      conv_rhs => rw [← audio_segments (audio_zero :: st.audio_info) st.audio_sample_count]
      simp only [List.map_append, List.map_map]
      rfl
    rw [g, key, ← g]
    exact hinfo
  · exact hinfo

/-- C18 (the code departs from the claim): the index of `untimed_audio_packets`
resolves to `audio_seek_base == 0`; for the target frame 2 `read_audio` reads the
`sample_number` field, which the scan never set, and passes 0 to `av_seek_frame`
with `AVSEEK_FLAG_FRAME`, where the claim has 2. -/
theorem C18_sample_number_never_set :
    (synth_audio_index "mp4" untimed_audio_packets).audio_seek_base = 0 ∧
    (synth_audio_index "mp4" untimed_audio_packets).audio_frame_count = 2 ∧
    (ainfo (synth_audio_index "mp4" untimed_audio_packets).audio_frame_list 2).sample_number
      = 0 ∧
    (read_audio_seek synth_audio 1 (synth_audio_index "mp4" untimed_audio_packets)
        (synth_audio_world untimed_audio_packets) 2).frame_number = 2 ∧
    (read_audio_seek synth_audio 1 (synth_audio_index "mp4" untimed_audio_packets)
        (synth_audio_world untimed_audio_packets) 2).rap_pos = 0 ∧
    (read_audio_seek synth_audio 1 (synth_audio_index "mp4" untimed_audio_packets)
        (synth_audio_world untimed_audio_packets) 2).w.trace =
      [AudioEvent.av_seek_frame 0 (AVSEEK_FLAG_FRAME ||| AVSEEK_FLAG_BACKWARD),
       AudioEvent.av_seek_frame 0
         (AVSEEK_FLAG_FRAME ||| AVSEEK_FLAG_BACKWARD ||| AVSEEK_FLAG_ANY),
       AudioEvent.flush_buffers] := by
  decide

/-- Where the backward walk over unknown byte offsets ends: at the nearest frame
at or before `f` whose offset is known, or at position 0, the zero record, when
frames `1..f` all lack one. -/
theorem audio_rap_back_spec (list : List audio_frame_info_t) (f : Nat) :
    audio_rap_back list f ≤ f ∧
    (∀ k, audio_rap_back list f < k → k ≤ f → (ainfo list k).file_offset = -1) ∧
    (audio_rap_back list f ≠ 0 → (ainfo list (audio_rap_back list f)).file_offset ≠ -1) := by
  induction f with
  | zero => exact ⟨le_refl _, fun k h1 h2 => by omega, fun h => absurd rfl h⟩
  | succ f ih =>
    unfold audio_rap_back
    by_cases h : (ainfo list (f + 1)).file_offset = -1
    · rw [if_pos h]
      obtain ⟨i1, i2, i3⟩ := ih
      refine ⟨by omega, fun k h1 h2 => ?_, i3⟩
      by_cases hk : k = f + 1
      · rw [hk]; exact h
      · exact i2 k h1 (by omega)
    · rw [if_neg h]
      exact ⟨le_refl _, fun k h1 h2 => by omega, fun _ => h⟩

/-- C20 (the code departs from the claim): in the index of
`unplaced_audio_packets` byte-offset addressing is in effect and frame 1 lacks a
byte offset.  For the target frame 1 the backward walk ends at position 0, the
zero record; `read_audio` seeks to byte 0, discards one unit and decodes unit 2:
the request for sample 0 is answered with byte 12, the first sample of frame 2. -/
theorem C20_walk_ends_at_zero_record :
    (synth_audio_index "mpeg" unplaced_audio_packets).audio_seek_base
      &&& SEEK_FILE_OFFSET_BASED ≠ 0 ∧
    (ainfo (synth_audio_index "mpeg" unplaced_audio_packets).audio_frame_list 1).file_offset
      = -1 ∧
    (read_audio_seek synth_audio_file 1 (synth_audio_index "mpeg" unplaced_audio_packets)
        (synth_audio_world unplaced_audio_packets) 0).frame_number = 1 ∧
    (read_audio_seek synth_audio_file 1 (synth_audio_index "mpeg" unplaced_audio_packets)
        (synth_audio_world unplaced_audio_packets) 0).rap_number = 0 ∧
    (read_audio_seek synth_audio_file 1 (synth_audio_index "mpeg" unplaced_audio_packets)
        (synth_audio_world unplaced_audio_packets) 0).w.trace =
      [AudioEvent.av_seek_frame 0 (AVSEEK_FLAG_BYTE ||| AVSEEK_FLAG_BACKWARD),
       AudioEvent.flush_buffers, AudioEvent.get_sample] ∧
    unit_count 1 (unplaced_audio_packets.take
      (read_audio_seek synth_audio_file 1 (synth_audio_index "mpeg" unplaced_audio_packets)
        (synth_audio_world unplaced_audio_packets) 0).w.cursor) + 1 = 2 ∧
    (read_audio synth_audio_file 20 audio_h
        { (synth_audio_index "mpeg" unplaced_audio_packets) with
          next_audio_pcm_sample_number := 5 }
        (synth_audio_world unplaced_audio_packets) 0 1).map (fun r => (r.ret, r.buf)) =
      some (1, [12]) := by
  decide

/-! ## Duplicate presentation timestamps (C12, C13) -/

/-- A duplication reported by the loop of `setup_timestamp_info` is one the loop
looked at: a pair `(j - 1, j)` with `j` from the loop's range. -/
theorem pts_loop_reported (info : List video_frame_info_t) :
    ∀ (fuel i : Nat) (st : PtsScan) (j : Nat), pts_loop info fuel i st = Sum.inl j →
      i ≤ j ∧ j < i + fuel ∧ (vinfo info j).pts = (vinfo info (j - 1)).pts := by
  intro fuel
  induction fuel with
  | zero => intro i st j h; simp [pts_loop] at h
  | succ fuel ih =>
    intro i st j h
    unfold pts_loop at h
    by_cases hd : (vinfo info i).pts = (vinfo info (i - 1)).pts
    · rw [if_pos hd] at h
      cases h
      exact ⟨le_refl _, by omega, hd⟩
    · rw [if_neg hd] at h
      obtain ⟨h1, h2, h3⟩ := ih _ _ _ h
      exact ⟨by omega, by omega, h3⟩

/-- The first duplicate pair the loop meets is reported. -/
theorem pts_loop_reports (info : List video_frame_info_t) :
    ∀ (fuel i : Nat) (st : PtsScan) (j : Nat), i ≤ j → j < i + fuel →
      (vinfo info j).pts = (vinfo info (j - 1)).pts →
      (∀ k, i ≤ k → k < j → (vinfo info k).pts ≠ (vinfo info (k - 1)).pts) →
      pts_loop info fuel i st = Sum.inl j := by
  intro fuel
  induction fuel with
  | zero => intro i st j h1 h2; omega
  | succ fuel ih =>
    intro i st j h1 h2 hd hn
    unfold pts_loop
    by_cases hij : i = j
    · subst hij
      rw [if_pos hd]
    · rw [if_neg (hn i (le_refl _) (by omega))]
      exact ih _ _ j (by omega) (by omega) hd (fun k hk1 hk2 => hn k (by omega) hk2)

/-- The statements after the loop show no message. -/
theorem setup_timestamp_rate_silent (fuel : Nat) (h : lsmash_handler_t)
    (info : List video_frame_info_t) (video_stream : AVStream) (st : PtsScan)
    (r : TimestampInfo) (hr : setup_timestamp_rate fuel h info video_stream st = some r) :
    r.duplication = none := by
  unfold setup_timestamp_rate at hr
  cases h1 : setup_timestamp_reduce info video_stream st with
  | none => rw [h1] at hr; cases hr
  | some r1 =>
    rw [h1] at hr
    simp only [] at hr
    cases h2 : presentation_framerate h.video_sample_count r1.1 r1.2.2 with
    | none => rw [h2] at hr; cases hr
    | some fps =>
      rw [h2] at hr
      simp only [] at hr
      cases h3 : try_ntsc_framerate fuel fps with
      | none => rw [h3] at hr; cases hr
      | some t =>
        rw [h3] at hr
        cases t with
        | some f =>
          have e := Option.some.inj hr
          rw [← e]
        | none =>
          simp only [] at hr
          cases h4 : gcd_framerate fps r1.2.1 with
          | none => rw [h4] at hr; cases hr
          | some f =>
            rw [h4] at hr
            have e := Option.some.inj hr
            rw [← e]

/-- When `setup_timestamp_info` shows its message, the frame named is one of
`3..video_sample_count`, its `pts` equals that of the frame before it, and the
host handle is returned as it was passed: neither rate field is written. -/
theorem setup_timestamp_info_reported (fuel : Nat) (h : lsmash_handler_t)
    (hp : libav_handler_t) (video_stream : AVStream) (r : TimestampInfo) (i : Nat)
    (hr : setup_timestamp_info fuel h hp video_stream = some r)
    (hd : r.duplication = some i) :
    r.h = h ∧ 3 ≤ i ∧ i ≤ h.video_sample_count ∧
    (vinfo hp.video_frame_list i).pts = (vinfo hp.video_frame_list (i - 1)).pts := by
  unfold setup_timestamp_info at hr
  split_ifs at hr with h1
  · cases hr; cases hd
  · simp only [] at hr
    split at hr
    · rename_i j hj
      cases hr
      cases hd
      obtain ⟨g1, g2, g3⟩ := pts_loop_reported _ _ _ _ _ hj
      exact ⟨rfl, g1, by omega, g3⟩
    · have := setup_timestamp_rate_silent _ _ _ _ _ _ hr
      rw [this] at hd
      cases hd

set_option maxRecDepth 100000 in

/-- C12 (the code departs from the claim): records 1 and 2 of the index carry
the same `pts` (0, 0, 1 in a 1/25 time base, three samples, timestamp addressing);
`setup_timestamp_info` shows no message and goes on to derive the rate 150150/4004
from the timestamp deltas. -/
theorem C12_first_pair_not_checked :
    (vinfo (timing_hp (pts_index [0, 0, 1])).video_frame_list 2).pts =
      (vinfo (timing_hp (pts_index [0, 0, 1])).video_frame_list 1).pts ∧
    (timing_hp (pts_index [0, 0, 1])).video_seek_base &&&
      (SEEK_DTS_BASED ||| SEEK_PTS_BASED) ≠ 0 ∧
    setup_timestamp_info 8 (timing_h 3) (timing_hp (pts_index [0, 0, 1]))
        { r_frame_rate := ⟨25, 1⟩, time_base := ⟨1, 25⟩ } =
      some { h := { timing_h 3 with framerate_num := 150150, framerate_den := 4004 },
             duplication := none } := by
  decide

/-- C13 (the code departs from the claim): on the index with `pts` 0, 1, 1 the
duplication is reported at frame 3 and the call returns at once; `framerate_num`
and `framerate_den` keep the values they had on entry, 0 and 0, while the stream
declares `r_frame_rate` 25/1. -/
theorem C13_rate_left_unwritten :
    setup_timestamp_info 8 (timing_h 3) (timing_hp (pts_index [0, 1, 1]))
        { r_frame_rate := ⟨25, 1⟩, time_base := ⟨1, 25⟩ } =
      some { h := timing_h 3, duplication := some 3 } ∧
    (timing_h 3).framerate_num = 0 ∧ (timing_h 3).framerate_den = 0 := by
  decide

/-! ## Rounding to binary64 -/

theorem log2_loop_spec : ∀ (fuel n : Nat), 0 < n → n ≤ fuel →
    2 ^ log2_loop fuel n ≤ n ∧ n < 2 ^ (log2_loop fuel n + 1) := by
  intro fuel
  induction fuel with
  | zero => intro n h1 h2; omega
  | succ fuel ih =>
    intro n h1 h2
    unfold log2_loop
    by_cases h : n < 2
    · rw [if_pos h]
      have : n = 1 := by omega
      subst this
      decide
    · rw [if_neg h]
      obtain ⟨i1, i2⟩ := ih (n / 2) (by omega) (by omega)
      have e1 : 2 ^ (log2_loop fuel (n / 2) + 1) = 2 * 2 ^ log2_loop fuel (n / 2) := by
        rw [pow_succ]; ring
      have e2 : 2 ^ (log2_loop fuel (n / 2) + 1 + 1) = 2 * 2 ^ (log2_loop fuel (n / 2) + 1) := by
        rw [pow_succ]; ring
      rw [e2]
      rw [e1] at i2 ⊢
      constructor <;> omega

/-- `ilog2 n` is the position of the highest set bit of `n`. -/
theorem ilog2_spec (n : Nat) (h : 0 < n) : 2 ^ ilog2 n ≤ n ∧ n < 2 ^ (ilog2 n + 1) :=
  log2_loop_spec n n h (le_refl n)

theorem ilog2_le (n j : Nat) (h : n < 2 ^ (j + 1)) : ilog2 n ≤ j := by
  by_cases h0 : n = 0
  · subst h0
    show log2_loop 0 0 ≤ j
    exact Nat.zero_le _
  · have h1 := (ilog2_spec n (by omega)).1
    have h2 : 2 ^ ilog2 n < 2 ^ (j + 1) := lt_of_le_of_lt h1 h
    have := (Nat.pow_lt_pow_iff_right (by decide : 1 < 2)).mp h2
    omega

/-- `div_round_even n d` is within half a unit of `n / d`. -/
theorem div_round_even_near (n d : Nat) (hd : 0 < d) :
    2 * (div_round_even n d * d) ≤ 2 * n + d ∧ 2 * n ≤ 2 * (div_round_even n d * d) + d := by
  have hdm := Nat.div_add_mod n d
  have hr := Nat.mod_lt n hd
  have hq : d * (n / d) = n / d * d := Nat.mul_comm _ _
  unfold div_round_even
  simp only []
  split_ifs
  · constructor <;> omega
  · rw [Nat.add_mul, Nat.one_mul]; constructor <;> omega
  · constructor <;> omega
  · rw [Nat.add_mul, Nat.one_mul]; constructor <;> omega

theorem div_round_even_exact (q d : Nat) (hd : 0 < d) : div_round_even (q * d) d = q := by
  unfold div_round_even
  simp only []
  rw [Nat.mul_mod_left, Nat.mul_div_cancel _ hd, if_pos (by omega)]

/-- A power of two with an integer exponent as a quotient of powers with natural
exponents. -/
theorem zpow_two_split (e : Int) :
    (2 : ℚ) ^ e = (2 : ℚ) ^ e.toNat / (2 : ℚ) ^ (-e).toNat := by
  rcases le_or_lt 0 e with h | h
  · have h1 : (-e).toNat = 0 := by omega
    have h2 : e = (e.toNat : Int) := by omega
    rw [h1, pow_zero, div_one]
    conv_lhs => rw [h2]
    exact zpow_natCast _ _
  · have h1 : e.toNat = 0 := by omega
    have h2 : e = -((-e).toNat : Int) := by omega
    rw [h1, pow_zero]
    conv_lhs => rw [h2]
    rw [zpow_neg, zpow_natCast, one_div]

/-- The binary exponent `fl64` settles on does not exceed the value. -/
theorem fl64_exponent (a d : Nat) (ha : 0 < a) (hd : 0 < d) (e0 e1 : Int)
    (h0 : e0 = (ilog2 a : Int) - (ilog2 d : Int))
    (h1 : e1 = if d * 2 ^ e0.toNat ≤ a * 2 ^ (-e0).toNat then e0 else e0 - 1) :
    (2 : ℚ) ^ e1 ≤ (a : ℚ) / d := by
  have hdq : (0 : ℚ) < d := by exact_mod_cast hd
  by_cases ht : d * 2 ^ e0.toNat ≤ a * 2 ^ (-e0).toNat
  · rw [if_pos ht] at h1
    rw [h1, zpow_two_split, div_le_div_iff₀ (by positivity) hdq]
    have : ((d * 2 ^ e0.toNat : Nat) : ℚ) ≤ ((a * 2 ^ (-e0).toNat : Nat) : ℚ) := by
      exact_mod_cast ht
    push_cast at this
    linarith
  · rw [if_neg ht] at h1
    have e : e1 = (ilog2 a : Int) - ((ilog2 d + 1 : Nat) : Int) := by
      rw [h1, h0]; push_cast; ring
    rw [e, zpow_sub₀ (by norm_num), zpow_natCast, zpow_natCast,
      div_le_div_iff₀ (by positivity) hdq]
    have g1 : ((2 ^ ilog2 a : Nat) : ℚ) ≤ (a : ℚ) := by exact_mod_cast (ilog2_spec a ha).1
    have g2 : (d : ℚ) ≤ ((2 ^ (ilog2 d + 1) : Nat) : ℚ) := by
      exact_mod_cast le_of_lt (ilog2_spec d hd).2
    push_cast at g1 g2
    calc (2 : ℚ) ^ ilog2 a * d ≤ a * d := by
          exact mul_le_mul_of_nonneg_right g1 (le_of_lt hdq)
      _ ≤ a * 2 ^ (ilog2 d + 1) := by
          exact mul_le_mul_of_nonneg_left g2 (by positivity)

/-- One unfolding of `fl64` at a non-zero numerator, with its locals named. -/
theorem fl64_eq (n : Int) (d : Nat) (hn : n ≠ 0) (e0 e1 k : Int) (m : Nat)
    (h0 : e0 = (ilog2 n.natAbs : Int) - (ilog2 d : Int))
    (h1 : e1 = if d * 2 ^ e0.toNat ≤ n.natAbs * 2 ^ (-e0).toNat then e0 else e0 - 1)
    (hk : k = max e1 (-1022) - 52)
    (hm : m = div_round_even (n.natAbs * 2 ^ (-k).toNat) (d * 2 ^ k.toNat)) :
    fl64 n d =
      if (ilog2 m : Int) + k < 1024 then
        some ⟨n.sign * (m * 2 ^ k.toNat : Nat), 2 ^ (-k).toNat⟩
      else none := by
  subst h0 h1 hk hm
  unfold fl64
  rw [if_neg hn]

/-- Rounding error of `fl64`: a value below `2 ^ E` in magnitude, `E` within the
exponent range, rounds to a finite `double` at most `2 ^ (E - 54)` away. -/
theorem fl64_abs (n : Int) (d : Nat) (hd : 0 < d) (E : Int) (hE1 : -1021 ≤ E)
    (hE2 : E ≤ 1023) (hx : |(n : ℚ) / d| < (2 : ℚ) ^ E) :
    ∃ y, fl64 n d = some y ∧ 0 < y.den ∧ |y.toQ - (n : ℚ) / d| ≤ (2 : ℚ) ^ (E - 54) := by
  have hdq : (0 : ℚ) < d := by exact_mod_cast hd
  by_cases hn : n = 0
  · subst hn
    refine ⟨⟨0, 1⟩, by unfold fl64; rw [if_pos rfl], by decide, ?_⟩
    simp only [Dbl.toQ, Int.cast_zero, zero_div, sub_zero, abs_zero]
    positivity
  · obtain ⟨a, ha⟩ : ∃ a, a = n.natAbs := ⟨_, rfl⟩
    have hapos : 0 < a := by rw [ha]; exact Int.natAbs_pos.mpr hn
    have haq : (0 : ℚ) < a := by exact_mod_cast hapos
    obtain ⟨e0, h0⟩ : ∃ e0 : Int, e0 = (ilog2 a : Int) - (ilog2 d : Int) := ⟨_, rfl⟩
    obtain ⟨e1, h1⟩ : ∃ e1 : Int,
        e1 = if d * 2 ^ e0.toNat ≤ a * 2 ^ (-e0).toNat then e0 else e0 - 1 := ⟨_, rfl⟩
    obtain ⟨k, hk⟩ : ∃ k : Int, k = max e1 (-1022) - 52 := ⟨_, rfl⟩
    obtain ⟨m, hm⟩ : ∃ m : Nat,
        m = div_round_even (a * 2 ^ (-k).toNat) (d * 2 ^ k.toNat) := ⟨_, rfl⟩
    rw [ha] at h0 h1 hm
    rw [fl64_eq n d hn e0 e1 k m h0 h1 hk hm]
    rw [← ha] at h0 h1 hm
    -- the magnitude of the value
    have habs : |(n : ℚ) / d| = (a : ℚ) / d := by
      rw [abs_div, abs_of_pos hdq, ha, Nat.cast_natAbs, Int.cast_abs]
    rw [habs] at hx
    have hexp := fl64_exponent a d hapos hd e0 e1 h0 h1
    have he1 : e1 < E := by
      have : (2 : ℚ) ^ e1 < (2 : ℚ) ^ E := lt_of_le_of_lt hexp hx
      exact (zpow_lt_zpow_iff_right₀ (by norm_num : (1 : ℚ) < 2)).mp this
    have hkE : k ≤ E - 53 := by
      rw [hk]
      have : max e1 (-1022) ≤ E - 1 := max_le (by omega) (by omega)
      omega
    -- the rounded significand
    have hD : 0 < d * 2 ^ k.toNat := Nat.mul_pos hd (by positivity)
    obtain ⟨r1, r2⟩ := div_round_even_near (a * 2 ^ (-k).toNat) (d * 2 ^ k.toNat) hD
    rw [← hm] at r1 r2
    have q1 : (2 : ℚ) * (m * (d * 2 ^ k.toNat)) ≤ 2 * (a * 2 ^ (-k).toNat) + d * 2 ^ k.toNat := by
      exact_mod_cast r1
    have q2 : (2 : ℚ) * (a * 2 ^ (-k).toNat) ≤ 2 * (m * (d * 2 ^ k.toNat)) + d * 2 ^ k.toNat := by
      exact_mod_cast r2
    have hP : (0 : ℚ) < 2 ^ k.toNat := by positivity
    have hM : (0 : ℚ) < 2 ^ (-k).toNat := by positivity
    have hk2 : (2 : ℚ) ^ k = 2 ^ k.toNat / 2 ^ (-k).toNat := zpow_two_split k
    -- distance between the rounded value and the value
    have herr : |(m : ℚ) * 2 ^ k - a / d| ≤ 2 ^ k / 2 := by
      rw [hk2]
      generalize (2 : ℚ) ^ k.toNat = p at q1 q2 hP
      generalize (2 : ℚ) ^ (-k).toNat = q at q1 q2 hM
      have hdq2 : (0 : ℚ) < d * q := mul_pos hdq hM
      have id1 : (m : ℚ) * (p / q) - a / d = (m * d * p - a * q) / (d * q) := by
        field_simp
        ring
      have hX : |(m : ℚ) * d * p - a * q| ≤ d * p / 2 := by
        rw [abs_le]
        constructor <;> linarith
      rw [id1, abs_div, abs_of_pos hdq2]
      calc |(m : ℚ) * d * p - a * q| / (d * q) ≤ (d * p / 2) / (d * q) :=
            div_le_div_of_nonneg_right hX (le_of_lt hdq2)
        _ = p / q / 2 := by field_simp; ring
    -- the rounded significand has at most 54 bits
    have hj : 0 ≤ E - k := by omega
    obtain ⟨j, hjE⟩ : ∃ j : Nat, (j : Int) = E - k := ⟨(E - k).toNat, Int.toNat_of_nonneg hj⟩
    have hpow : (2 : ℚ) ^ E = 2 ^ j * 2 ^ k := by
      rw [← zpow_natCast, ← zpow_add₀ (by norm_num), hjE]
      congr 1
      ring
    have hkpos : (0 : ℚ) < 2 ^ k := by positivity
    have hmq : (m : ℚ) < 2 ^ j + 1 := by
      have h3 := (abs_le.mp herr).2
      have h4 : (m : ℚ) * 2 ^ k < (2 ^ j + 1) * 2 ^ k := by
        rw [hpow] at hx
        linarith
      exact lt_of_mul_lt_mul_right h4 (le_of_lt hkpos)
    have hmn : m < 2 ^ (j + 1) := by
      have : m < 2 ^ j + 1 := by exact_mod_cast hmq
      have e : 2 ^ (j + 1) = 2 * 2 ^ j := by rw [pow_succ]; ring
      have : 0 < 2 ^ j := by positivity
      omega
    have hlog := ilog2_le m j hmn
    have hcond : (ilog2 m : Int) + k < 1024 := by omega
    rw [if_pos hcond]
    refine ⟨_, rfl, by positivity, ?_⟩
    -- the value with its sign
    have hsign : (n : ℚ) = (n.sign : ℚ) * a := by
      rw [ha]
      calc (n : ℚ) = ((n.sign * (n.natAbs : Int) : Int) : ℚ) := by rw [Int.sign_mul_natAbs]
        _ = (n.sign : ℚ) * (n.natAbs : ℚ) := by rw [Int.cast_mul, Int.cast_natCast]
    have hs1 : |(n.sign : ℚ)| = 1 := by
      rcases lt_or_gt_of_ne hn with h | h
      · rw [Int.sign_eq_neg_one_of_neg h]; norm_num
      · rw [Int.sign_eq_one_of_pos h]; norm_num
    have hval : (Dbl.toQ ⟨n.sign * (m * 2 ^ k.toNat : Nat), 2 ^ (-k).toNat⟩) - (n : ℚ) / d =
        (n.sign : ℚ) * ((m : ℚ) * 2 ^ k - a / d) := by
      unfold Dbl.toQ
      simp only []
      rw [hsign, hk2]
      push_cast
      field_simp
      ring
    rw [hval, abs_mul, hs1, one_mul]
    refine le_trans herr ?_
    have e : (2 : ℚ) ^ k / 2 = 2 ^ (k - 1) := by
      rw [zpow_sub₀ (by norm_num), zpow_one]
    rw [e]
    exact zpow_le_zpow_right₀ (by norm_num) (by omega)

/-- An integer below `2 ^ 53` in magnitude is a `double`: `fl64` returns it
unchanged. -/
theorem fl64_exact (n : Int) (d : Nat) (hd : 0 < d) (z : Int) (hz : n = z * d)
    (hb : z.natAbs < 2 ^ 53) :
    ∃ y, fl64 n d = some y ∧ 0 < y.den ∧ y.toQ = z := by
  have hdq : (0 : ℚ) < d := by exact_mod_cast hd
  by_cases hz0 : z = 0
  · subst hz0
    rw [zero_mul] at hz
    subst hz
    refine ⟨⟨0, 1⟩, by unfold fl64; rw [if_pos rfl], by decide, ?_⟩
    simp [Dbl.toQ]
  · have hn : n ≠ 0 := by
      rw [hz]
      exact mul_ne_zero hz0 (by exact_mod_cast (ne_of_gt hd))
    obtain ⟨Z, hZ⟩ : ∃ Z, Z = z.natAbs := ⟨_, rfl⟩
    have hZpos : 0 < Z := by rw [hZ]; exact Int.natAbs_pos.mpr hz0
    have ha : n.natAbs = Z * d := by
      rw [hz, Int.natAbs_mul, Int.natAbs_ofNat, hZ]
    obtain ⟨e0, h0⟩ : ∃ e0 : Int, e0 = (ilog2 n.natAbs : Int) - (ilog2 d : Int) := ⟨_, rfl⟩
    obtain ⟨e1, h1⟩ : ∃ e1 : Int,
        e1 = if d * 2 ^ e0.toNat ≤ n.natAbs * 2 ^ (-e0).toNat then e0 else e0 - 1 := ⟨_, rfl⟩
    obtain ⟨k, hk⟩ : ∃ k : Int, k = max e1 (-1022) - 52 := ⟨_, rfl⟩
    obtain ⟨m, hm⟩ : ∃ m : Nat,
        m = div_round_even (n.natAbs * 2 ^ (-k).toNat) (d * 2 ^ k.toNat) := ⟨_, rfl⟩
    rw [fl64_eq n d hn e0 e1 k m h0 h1 hk hm]
    have hexp := fl64_exponent n.natAbs d (Int.natAbs_pos.mpr hn) hd e0 e1 h0 h1
    have hval : ((n.natAbs : Nat) : ℚ) / d = Z := by
      rw [ha]; push_cast; field_simp
    rw [hval] at hexp
    have he1 : e1 < 53 := by
      have h2 : (Z : ℚ) < (2 : ℚ) ^ (53 : Int) := by
        rw [hZ]
        have : ((z.natAbs : Nat) : ℚ) < ((2 ^ 53 : Nat) : ℚ) := by exact_mod_cast hb
        rw [show ((53 : Int)) = ((53 : Nat) : Int) from rfl, zpow_natCast]
        exact_mod_cast this
      have : (2 : ℚ) ^ e1 < (2 : ℚ) ^ (53 : Int) := lt_of_le_of_lt hexp h2
      exact (zpow_lt_zpow_iff_right₀ (by norm_num : (1 : ℚ) < 2)).mp this
    have hk0 : k ≤ 0 := by
      rw [hk]
      have : max e1 (-1022) ≤ 52 := max_le (by omega) (by omega)
      omega
    have hkt : k.toNat = 0 := by omega
    obtain ⟨M, hM⟩ : ∃ M, M = (-k).toNat := ⟨_, rfl⟩
    have hmv : m = Z * 2 ^ M := by
      rw [hm, hkt, pow_zero, Nat.mul_one, ← hM, ha]
      have : Z * d * 2 ^ M = (Z * 2 ^ M) * d := by ring
      rw [this]
      exact div_round_even_exact _ d hd
    have hmlt : m < 2 ^ (52 + M + 1) := by
      rw [hmv]
      have e : 2 ^ (52 + M + 1) = 2 ^ 53 * 2 ^ M := by
        rw [show 52 + M + 1 = 53 + M by omega, pow_add]
      rw [e]
      have hZ53 : Z < 2 ^ 53 := by rw [hZ]; exact hb
      exact Nat.mul_lt_mul_of_pos_right hZ53 (by positivity)
    have hlog := ilog2_le m (52 + M) hmlt
    have hcond : (ilog2 m : Int) + k < 1024 := by omega
    rw [if_pos hcond]
    refine ⟨_, rfl, by positivity, ?_⟩
    have hsz : n.sign = z.sign := by
      rw [hz, Int.sign_mul]
      have : ((d : Nat) : Int).sign = 1 := Int.sign_eq_one_of_pos (by exact_mod_cast hd)
      rw [this, mul_one]
    unfold Dbl.toQ
    simp only []
    rw [hkt, pow_zero, Nat.mul_one, hmv, ← hM, hsz]
    have hzz : (z : ℚ) = (z.sign : ℚ) * Z := by
      rw [hZ]
      calc (z : ℚ) = ((z.sign * (z.natAbs : Int) : Int) : ℚ) := by rw [Int.sign_mul_natAbs]
        _ = (z.sign : ℚ) * (z.natAbs : ℚ) := by rw [Int.cast_mul, Int.cast_natCast]
    rw [hzz]
    push_cast
    field_simp
    ring

/-! ## Operations on `double`s -/

theorem fl64_exact_q (n : Int) (d : Nat) (hd : 0 < d) (z : Int) (hz : (n : ℚ) / d = z)
    (hb : z.natAbs < 2 ^ 53) :
    ∃ y, fl64 n d = some y ∧ 0 < y.den ∧ y.toQ = z := by
  have hdq : (d : ℚ) ≠ 0 := by exact_mod_cast (ne_of_gt hd)
  have h1 : (n : ℚ) = ((z * (d : Int) : Int) : ℚ) := by
    rw [div_eq_iff hdq] at hz
    rw [hz]; push_cast; rfl
  exact fl64_exact n d hd z (by exact_mod_cast h1) hb

theorem Dbl.of_nat_exact (n : Nat) (h : n < 2 ^ 53) :
    ∃ y, Dbl.of_nat n = some y ∧ 0 < y.den ∧ y.toQ = n := by
  obtain ⟨y, h1, h2, h3⟩ := fl64_exact (n : Int) 1 (by decide) (n : Int) (by simp)
    (by rw [Int.natAbs_ofNat]; exact h)
  exact ⟨y, h1, h2, by rw [h3]; simp⟩

theorem Dbl.mul_value (a b : Dbl) (ha : 0 < a.den) (hb : 0 < b.den) :
    ((a.num * b.num : Int) : ℚ) / ((a.den * b.den : Nat) : ℚ) = a.toQ * b.toQ := by
  have h1 : (a.den : ℚ) ≠ 0 := by exact_mod_cast (ne_of_gt ha)
  have h2 : (b.den : ℚ) ≠ 0 := by exact_mod_cast (ne_of_gt hb)
  unfold Dbl.toQ
  push_cast
  field_simp

theorem Dbl.mul_abs (a b : Dbl) (ha : 0 < a.den) (hb : 0 < b.den) (E : Int)
    (hE1 : -1021 ≤ E) (hE2 : E ≤ 1023) (hx : |a.toQ * b.toQ| < (2 : ℚ) ^ E) :
    ∃ y, Dbl.mul a b = some y ∧ 0 < y.den ∧
      |y.toQ - a.toQ * b.toQ| ≤ (2 : ℚ) ^ (E - 54) := by
  have hv := Dbl.mul_value a b ha hb
  obtain ⟨y, h1, h2, h3⟩ := fl64_abs (a.num * b.num) (a.den * b.den) (Nat.mul_pos ha hb) E
    hE1 hE2 (by rw [hv]; exact hx)
  exact ⟨y, h1, h2, by rw [← hv]; exact h3⟩

theorem Dbl.mul_exact (a b : Dbl) (ha : 0 < a.den) (hb : 0 < b.den) (z : Int)
    (hz : a.toQ * b.toQ = z) (hbd : z.natAbs < 2 ^ 53) :
    ∃ y, Dbl.mul a b = some y ∧ 0 < y.den ∧ y.toQ = z := by
  have hv := Dbl.mul_value a b ha hb
  exact fl64_exact_q (a.num * b.num) (a.den * b.den) (Nat.mul_pos ha hb) z
    (by rw [hv]; exact hz) hbd

theorem Dbl.div_value (a b : Dbl) (ha : 0 < a.den) (hb : 0 < b.den) (hb0 : b.num ≠ 0) :
    ((a.num * b.den * b.num.sign : Int) : ℚ) / ((a.den * b.num.natAbs : Nat) : ℚ) =
      a.toQ / b.toQ := by
  have h1 : (a.den : ℚ) ≠ 0 := by exact_mod_cast (ne_of_gt ha)
  have h2 : (b.den : ℚ) ≠ 0 := by exact_mod_cast (ne_of_gt hb)
  have h3 : (b.num : ℚ) ≠ 0 := by exact_mod_cast hb0
  have hs : (b.num : ℚ) = (b.num.sign : ℚ) * (b.num.natAbs : ℚ) := by
    calc (b.num : ℚ) = ((b.num.sign * (b.num.natAbs : Int) : Int) : ℚ) := by
          rw [Int.sign_mul_natAbs]
      _ = (b.num.sign : ℚ) * (b.num.natAbs : ℚ) := by rw [Int.cast_mul, Int.cast_natCast]
  have hs2 : (b.num.sign : ℚ) * (b.num.sign : ℚ) = 1 := by
    rcases lt_or_gt_of_ne hb0 with h | h
    · rw [Int.sign_eq_neg_one_of_neg h]; norm_num
    · rw [Int.sign_eq_one_of_pos h]; norm_num
  have h4 : ((b.num.natAbs : Nat) : ℚ) ≠ 0 := by
    exact_mod_cast (ne_of_gt (Int.natAbs_pos.mpr hb0))
  unfold Dbl.toQ
  push_cast
  rw [hs]
  have h5 : (b.num.sign : ℚ) ≠ 0 := by
    intro h; rw [h, zero_mul] at hs2; exact zero_ne_one hs2
  field_simp
  have : (a.num : ℚ) * b.den * b.num.sign * (a.den * (b.num.sign * b.num.natAbs)) =
      a.num * b.den * (a.den * b.num.natAbs) * (b.num.sign * b.num.sign) := by ring
  rw [this, hs2, mul_one]

theorem Dbl.div_abs (a b : Dbl) (ha : 0 < a.den) (hb : 0 < b.den) (hb0 : b.num ≠ 0) (E : Int)
    (hE1 : -1021 ≤ E) (hE2 : E ≤ 1023) (hx : |a.toQ / b.toQ| < (2 : ℚ) ^ E) :
    ∃ y, Dbl.div a b = some y ∧ 0 < y.den ∧
      |y.toQ - a.toQ / b.toQ| ≤ (2 : ℚ) ^ (E - 54) := by
  have hv := Dbl.div_value a b ha hb hb0
  have hd : 0 < a.den * b.num.natAbs := Nat.mul_pos ha (Int.natAbs_pos.mpr hb0)
  obtain ⟨y, h1, h2, h3⟩ := fl64_abs (a.num * b.den * b.num.sign) (a.den * b.num.natAbs) hd E
    hE1 hE2 (by rw [hv]; exact hx)
  refine ⟨y, ?_, h2, by rw [← hv]; exact h3⟩
  unfold Dbl.div
  rw [if_neg hb0]
  exact h1

theorem Dbl.sub_value (a b : Dbl) (ha : 0 < a.den) (hb : 0 < b.den) :
    ((a.num * b.den - b.num * a.den : Int) : ℚ) / ((a.den * b.den : Nat) : ℚ) =
      a.toQ - b.toQ := by
  have h1 : (a.den : ℚ) ≠ 0 := by exact_mod_cast (ne_of_gt ha)
  have h2 : (b.den : ℚ) ≠ 0 := by exact_mod_cast (ne_of_gt hb)
  unfold Dbl.toQ
  push_cast
  field_simp
  ring

theorem Dbl.sub_abs (a b : Dbl) (ha : 0 < a.den) (hb : 0 < b.den) (E : Int)
    (hE1 : -1021 ≤ E) (hE2 : E ≤ 1023) (hx : |a.toQ - b.toQ| < (2 : ℚ) ^ E) :
    ∃ y, Dbl.sub a b = some y ∧ 0 < y.den ∧
      |y.toQ - (a.toQ - b.toQ)| ≤ (2 : ℚ) ^ (E - 54) := by
  have hv := Dbl.sub_value a b ha hb
  obtain ⟨y, h1, h2, h3⟩ := fl64_abs (a.num * b.den - b.num * a.den) (a.den * b.den)
    (Nat.mul_pos ha hb) E hE1 hE2 (by rw [hv]; exact hx)
  exact ⟨y, h1, h2, by rw [← hv]; exact h3⟩

theorem Dbl.lt_iff (a b : Dbl) (ha : 0 < a.den) (hb : 0 < b.den) :
    Dbl.lt a b = true ↔ a.toQ < b.toQ := by
  have h1 : (0 : ℚ) < a.den := by exact_mod_cast ha
  have h2 : (0 : ℚ) < b.den := by exact_mod_cast hb
  unfold Dbl.lt Dbl.toQ
  rw [decide_eq_true_iff, div_lt_div_iff₀ h1 h2]
  constructor
  · intro h
    have : ((a.num * b.den : Int) : ℚ) < ((b.num * a.den : Int) : ℚ) := by exact_mod_cast h
    push_cast at this
    exact this
  · intro h
    have : ((a.num * b.den : Int) : ℚ) < ((b.num * a.den : Int) : ℚ) := by
      push_cast; exact h
    exact_mod_cast this

theorem Dbl.fabs_value (a : Dbl) : (Dbl.fabs a).toQ = |a.toQ| ∧ (Dbl.fabs a).den = a.den := by
  refine ⟨?_, rfl⟩
  unfold Dbl.fabs Dbl.toQ
  simp only []
  rw [abs_div, Nat.abs_cast, Nat.cast_natAbs]
  push_cast
  rfl

/-- `round` of a positive `double` less than half a unit from the integer `z`. -/
theorem Dbl.round_near (a : Dbl) (ha : 0 < a.den) (z : Nat) (hz : 1 ≤ z)
    (h : |a.toQ - z| < 1 / 2) : Dbl.round a = ⟨z, 1⟩ := by
  have hd : (0 : ℚ) < a.den := by exact_mod_cast ha
  obtain ⟨h1, h2⟩ := abs_lt.mp h
  have hzq : (1 : ℚ) ≤ z := by exact_mod_cast hz
  have hpos : (0 : ℚ) < a.toQ := by linarith
  have hnum : 0 < a.num := by
    unfold Dbl.toQ at hpos
    have : (0 : ℚ) < a.num := by
      by_contra hc
      have : (a.num : ℚ) / a.den ≤ 0 := div_nonpos_of_nonpos_of_nonneg (not_lt.mp hc) (le_of_lt hd)
      linarith
    exact_mod_cast this
  obtain ⟨p, hp⟩ : ∃ p : Nat, a.num = p := ⟨a.num.toNat, by omega⟩
  have hv : a.toQ = (p : ℚ) / a.den := by unfold Dbl.toQ; rw [hp]; simp
  rw [hv] at h1 h2
  have g1 : (2 * a.den * z : ℚ) < 2 * p + a.den := by
    have := (lt_div_iff₀ hd).mp (by linarith : (z : ℚ) - 1 / 2 < p / a.den)
    linarith
  have g2 : (2 * p + a.den : ℚ) < 2 * a.den * (z + 1) := by
    have := (div_lt_iff₀ hd).mp (by linarith : (p : ℚ) / a.den < z + 1 / 2)
    linarith
  have n1 : 2 * a.den * z < 2 * p + a.den := by exact_mod_cast g1
  have n2 : 2 * p + a.den < 2 * a.den * (z + 1) := by exact_mod_cast g2
  have hq : (2 * p + a.den) / (2 * a.den) = z := by
    apply Nat.div_eq_of_lt_le
    · rw [Nat.mul_comm]; exact le_of_lt n1
    · rw [Nat.mul_comm (z + 1)]; exact n2
  unfold Dbl.round
  rw [hp, Int.sign_eq_one_of_pos (by exact_mod_cast (by omega : 0 < p)), Int.natAbs_ofNat, hq,
    one_mul]

/-- Conversion to `uint64_t` of a `double` that holds a natural number. -/
theorem Dbl.to_uint64_exact (a : Dbl) (ha : 0 < a.den) (z : Nat) (hz : a.toQ = z)
    (hb : z < 2 ^ 64) : Dbl.to_uint64 a = some z := by
  have hd : (a.den : ℚ) ≠ 0 := by exact_mod_cast (ne_of_gt ha)
  have hn : a.num = (z : Int) * (a.den : Int) := by
    unfold Dbl.toQ at hz
    rw [div_eq_iff hd] at hz
    exact_mod_cast hz
  unfold Dbl.to_uint64
  simp only []
  rw [hn, Int.mul_tdiv_cancel _ (by exact_mod_cast (ne_of_gt ha))]
  rw [if_pos ⟨by omega, by exact_mod_cast hb⟩]
  simp

theorem Dbl.num_ne_zero (a : Dbl) (h : a.toQ ≠ 0) : a.num ≠ 0 := by
  intro h0
  apply h
  unfold Dbl.toQ
  rw [h0]
  simp

/-- The computed `presentation_framerate` of `N` frames lasting `N * D` units of
`1 / T` seconds is within `2 ^ -16` of `T / D`. -/
theorem presentation_framerate_near (N T D : Nat) (hN1 : 1 ≤ N) (hN : N < 2 ^ 32)
    (hD : 1 ≤ D) (hT : T < 2 ^ 53) (hND : N * D < 2 ^ 53) (hR : (T : ℚ) / D < 32) :
    ∃ fps, presentation_framerate N T (N * D) = some fps ∧ 0 < fps.den ∧
      |fps.toQ - (T : ℚ) / D| ≤ 1 / 2 ^ 16 := by
  obtain ⟨ts, e1, d1, v1⟩ := Dbl.of_nat_exact T hT
  obtain ⟨dur, e2, d2, v2⟩ := Dbl.of_nat_exact (N * D) hND
  obtain ⟨n, e3, d3, v3⟩ := Dbl.of_nat_exact N (lt_trans hN (by norm_num))
  have hNq : (1 : ℚ) ≤ N := by exact_mod_cast hN1
  have hNq2 : (N : ℚ) ≤ 2 ^ 32 := by exact_mod_cast (le_of_lt hN)
  have hDq : (1 : ℚ) ≤ D := by exact_mod_cast hD
  have hTq : (0 : ℚ) ≤ T := by positivity
  have hNpos : (0 : ℚ) < N := by linarith
  have hDpos : (0 : ℚ) < D := by linarith
  rw [Nat.cast_mul] at v2
  have hdur : dur.toQ ≠ 0 := by rw [v2]; positivity
  have hx0 : (0 : ℚ) ≤ T / (N * D) := by positivity
  have hx1 : (T : ℚ) / (N * D) ≤ T / D := by
    apply div_le_div_of_nonneg_left hTq hDpos
    nlinarith
  obtain ⟨q, e4, d4, v4⟩ := Dbl.div_abs ts dur d1 d2 (Dbl.num_ne_zero dur hdur) 5
    (by norm_num) (by norm_num)
    (by rw [v1, v2, abs_of_nonneg hx0]; norm_num; linarith)
  rw [v1, v2] at v4
  have hε : |q.toQ - (T : ℚ) / (N * D)| ≤ 1 / 2 ^ 49 := by
    refine le_trans v4 ?_
    norm_num
  have hmul : (N : ℚ) * q.toQ - T / D = N * (q.toQ - T / (N * D)) := by
    field_simp
    ring
  have hNε : |(N : ℚ) * q.toQ - T / D| ≤ 1 / 2 ^ 17 := by
    rw [hmul, abs_mul, abs_of_nonneg (le_of_lt hNpos)]
    calc (N : ℚ) * |q.toQ - T / (N * D)| ≤ 2 ^ 32 * (1 / 2 ^ 49) :=
          mul_le_mul hNq2 hε (abs_nonneg _) (by norm_num)
      _ = 1 / 2 ^ 17 := by norm_num
  obtain ⟨b1, b2⟩ := abs_le.mp hNε
  have hTD0 : (0 : ℚ) ≤ T / D := by positivity
  obtain ⟨fps, e5, d5, v5⟩ := Dbl.mul_abs n q d3 d4 6 (by norm_num) (by norm_num)
    (by
      rw [v3, abs_lt]
      constructor
      · norm_num at b1 ⊢; linarith
      · norm_num at b2 ⊢; linarith)
  rw [v3] at v5
  have hε2 : |fps.toQ - (N : ℚ) * q.toQ| ≤ 1 / 2 ^ 48 := by
    refine le_trans v5 ?_
    norm_num
  refine ⟨fps, ?_, d5, ?_⟩
  · unfold presentation_framerate
    rw [e1, e2, e3]
    simp only [Option.some_bind, Option.bind_eq_bind]
    rw [e4]
    exact e5
  · obtain ⟨c1, c2⟩ := abs_le.mp hε2
    rw [abs_le]
    constructor
    · norm_num at b1 c1 ⊢; linarith
    · norm_num at b2 c2 ⊢; linarith

theorem Dbl.lt_eq_false (a b : Dbl) (ha : 0 < a.den) (hb : 0 < b.den) (h : b.toQ ≤ a.toQ) :
    Dbl.lt a b = false := by
  cases hc : Dbl.lt a b with
  | false => rfl
  | true => exact absurd ((Dbl.lt_iff a b ha hb).mp hc) (not_lt.mpr h)

theorem Dbl.lt_eq_true (a b : Dbl) (ha : 0 < a.den) (hb : 0 < b.den) (h : a.toQ < b.toQ) :
    Dbl.lt a b = true := (Dbl.lt_iff a b ha hb).mpr h

theorem Dbl.toQ_nat (n : Nat) : Dbl.toQ ⟨(n : Int), 1⟩ = n := by
  unfold Dbl.toQ
  simp

/-- A value from 10 to 64 passes the first loop of `sigexp10` untouched and the
second loop once: the significand is the rounded tenth, the exponent is 10. -/
theorem sigexp10_tens (fuel : Nat) (hf : 2 ≤ fuel) (fps : Dbl) (hd : 0 < fps.den)
    (h1 : 10 ≤ fps.toQ) (h2 : fps.toQ ≤ 64) :
    ∃ v e, sigexp10 fuel fps = some (v, e) ∧ 0 < v.den ∧ 0 < e.den ∧ e.toQ = 10 ∧
      |v.toQ - fps.toQ / 10| ≤ 1 / 2 ^ 50 := by
  obtain ⟨f, rfl⟩ : ∃ f, fuel = f + 2 := ⟨fuel - 2, by omega⟩
  have one : Dbl.toQ ⟨1, 1⟩ = 1 := Dbl.toQ_nat 1
  have ten : Dbl.toQ ⟨10, 1⟩ = 10 := Dbl.toQ_nat 10
  have l1 : Dbl.lt fps ⟨1, 1⟩ = false :=
    Dbl.lt_eq_false fps ⟨1, 1⟩ hd (by decide) (by rw [one]; linarith)
  have l2 : Dbl.lt fps ⟨10, 1⟩ = false :=
    Dbl.lt_eq_false fps ⟨10, 1⟩ hd (by decide) (by rw [ten]; exact h1)
  obtain ⟨v, e1, d1, v1⟩ := Dbl.div_abs fps ⟨10, 1⟩ hd (by decide) (by decide) 4
    (by norm_num) (by norm_num)
    (by rw [ten, abs_of_nonneg (by linarith)]; norm_num; linarith)
  obtain ⟨e, e2, d2, v2⟩ := Dbl.mul_exact ⟨1, 1⟩ ⟨10, 1⟩ (by decide) (by decide) 10
    (by rw [one, ten]; norm_num) (by decide)
  rw [ten] at v1
  have hv : |v.toQ - fps.toQ / 10| ≤ 1 / 2 ^ 50 := by
    refine le_trans v1 ?_
    norm_num
  obtain ⟨b1, b2⟩ := abs_le.mp hv
  have l3 : Dbl.lt v ⟨10, 1⟩ = true :=
    Dbl.lt_eq_true v ⟨10, 1⟩ d1 (by decide) (by rw [ten]; norm_num at b2 ⊢; linarith)
  refine ⟨v, e, ?_, d1, d2, by rw [v2]; norm_num, hv⟩
  unfold sigexp10
  have up : sigexp10_up (f + 2) fps ⟨1, 1⟩ = some (fps, ⟨1, 1⟩) := by
    rw [sigexp10_up, l1]
    rfl
  rw [up]
  simp only []
  rw [sigexp10_down, l2]
  simp only [Bool.false_eq_true, if_false]
  rw [e1, e2]
  simp only []
  rw [sigexp10_down, l3]
  rfl

/-- `round` of a positive `double` in the half-open unit interval around `z`. -/
theorem Dbl.round_half_open (a : Dbl) (ha : 0 < a.den) (z : Nat) (hz : 1 ≤ z)
    (h1 : (z : ℚ) - 1 / 2 ≤ a.toQ) (h2 : a.toQ < z + 1 / 2) : Dbl.round a = ⟨z, 1⟩ := by
  have hd : (0 : ℚ) < a.den := by exact_mod_cast ha
  have hzq : (1 : ℚ) ≤ z := by exact_mod_cast hz
  have hpos : (0 : ℚ) < a.toQ := by linarith
  have hnum : 0 < a.num := by
    unfold Dbl.toQ at hpos
    have : (0 : ℚ) < a.num := by
      by_contra hc
      have : (a.num : ℚ) / a.den ≤ 0 := div_nonpos_of_nonpos_of_nonneg (not_lt.mp hc) (le_of_lt hd)
      linarith
    exact_mod_cast this
  obtain ⟨p, hp⟩ : ∃ p : Nat, a.num = p := ⟨a.num.toNat, by omega⟩
  have hv : a.toQ = (p : ℚ) / a.den := by unfold Dbl.toQ; rw [hp]; simp
  rw [hv] at h1 h2
  have g1 : (2 * a.den * z : ℚ) ≤ 2 * p + a.den := by
    have := (le_div_iff₀ hd).mp h1
    linarith
  have g2 : (2 * p + a.den : ℚ) < 2 * a.den * (z + 1) := by
    have := (div_lt_iff₀ hd).mp h2
    linarith
  have n1 : 2 * a.den * z ≤ 2 * p + a.den := by exact_mod_cast g1
  have n2 : 2 * p + a.den < 2 * a.den * (z + 1) := by exact_mod_cast g2
  have hq : (2 * p + a.den) / (2 * a.den) = z := by
    apply Nat.div_eq_of_lt_le
    · rw [Nat.mul_comm]; exact n1
    · rw [Nat.mul_comm (z + 1)]; exact n2
  unfold Dbl.round
  rw [hp, Int.sign_eq_one_of_pos (by exact_mod_cast (by omega : 0 < p)), Int.natAbs_ofNat, hq,
    one_mul]

/-- The numerator computed by `try_ntsc_framerate` for the denominator `d`, in
terms of the rounded product `p = d * fps_sig`; the exponent is 10. -/
theorem ntsc_numerator_core (v e : Dbl) (dv : 0 < v.den) (de : 0 < e.den) (he : e.toQ = 10)
    (d : Nat) (hd : d < 2 ^ 53) (hb : |(d : ℚ) * v.toQ| < 2 ^ 41) :
    ∃ p, 0 < p.den ∧ |p.toQ - (d : ℚ) * v.toQ| ≤ 1 / 2 ^ 13 ∧
      ∀ w : Nat, w < 2 ^ 40 → Dbl.round p = ⟨w, 1⟩ → ntsc_numerator v e d = some (w * 10) := by
  obtain ⟨den, e1, d1, v1⟩ := Dbl.of_nat_exact d hd
  obtain ⟨p, e2, d2, v2⟩ := Dbl.mul_abs den v d1 dv 41 (by norm_num) (by norm_num)
    (by rw [v1]; exact_mod_cast hb)
  rw [v1] at v2
  refine ⟨p, d2, le_trans v2 (by norm_num), ?_⟩
  intro w hw hr
  obtain ⟨q, e3, d3, v3⟩ := Dbl.mul_exact ⟨w, 1⟩ e Nat.one_pos de ((w * 10 : Nat) : Int)
    (by rw [Dbl.toQ_nat, he]; push_cast; rfl)
    (by rw [Int.natAbs_ofNat]; omega)
  have v4 : q.toQ = ((w * 10 : Nat) : ℚ) := by rw [v3]; simp
  unfold ntsc_numerator
  rw [e1]
  simp only [Option.some_bind, Option.bind_eq_bind]
  rw [e2]
  simp only [Option.some_bind, Option.bind_eq_bind]
  rw [hr, e3]
  simp only [Option.some_bind, Option.bind_eq_bind]
  exact Dbl.to_uint64_exact q d3 (w * 10) v4 (by omega)

/-- The numerator is `10 * z` when `d * fps_sig` is within a quarter of `z`. -/
theorem ntsc_numerator_near (v e : Dbl) (dv : 0 < v.den) (de : 0 < e.den) (he : e.toQ = 10)
    (d z : Nat) (hd : d < 2 ^ 53) (hz1 : 1 ≤ z) (hz2 : z < 2 ^ 40)
    (hlo : (z : ℚ) - 1 / 4 ≤ d * v.toQ) (hhi : (d : ℚ) * v.toQ ≤ z + 1 / 4) :
    ntsc_numerator v e d = some (z * 10) := by
  have hzq : (1 : ℚ) ≤ z := by exact_mod_cast hz1
  have hzq2 : (z : ℚ) < 2 ^ 40 := by exact_mod_cast hz2
  obtain ⟨p, d2, v2, hp⟩ := ntsc_numerator_core v e dv de he d hd
    (by
      have h41 : (2 : ℚ) ^ 41 = 2 * 2 ^ 40 := by norm_num
      rw [h41, abs_lt]
      constructor <;> linarith)
  obtain ⟨b1, b2⟩ := abs_le.mp v2
  exact hp z hz2 (Dbl.round_half_open p d2 z hz1 (by norm_num at b1 ⊢; linarith)
    (by norm_num at b2 ⊢; linarith))

/-- The numerator is `10 * z` or `10 * (z + 1)` when `d * fps_sig` lies well
inside the interval from `z` to `z + 1`. -/
theorem ntsc_numerator_between (v e : Dbl) (dv : 0 < v.den) (de : 0 < e.den) (he : e.toQ = 10)
    (d z : Nat) (hd : d < 2 ^ 53) (hz1 : 1 ≤ z) (hz2 : z + 1 < 2 ^ 40)
    (hlo : (z : ℚ) + 1 / 4 ≤ d * v.toQ) (hhi : (d : ℚ) * v.toQ ≤ z + 3 / 4) :
    ntsc_numerator v e d = some (z * 10) ∨ ntsc_numerator v e d = some ((z + 1) * 10) := by
  have hzq : (1 : ℚ) ≤ z := by exact_mod_cast hz1
  have hzq2 : (z : ℚ) + 1 < 2 ^ 40 := by exact_mod_cast hz2
  obtain ⟨p, d2, v2, hp⟩ := ntsc_numerator_core v e dv de he d hd
    (by
      have h41 : (2 : ℚ) ^ 41 = 2 * 2 ^ 40 := by norm_num
      rw [h41, abs_lt]
      constructor <;> linarith)
  obtain ⟨b1, b2⟩ := abs_le.mp v2
  by_cases hc : p.toQ < z + 1 / 2
  · left
    exact hp z (by omega) (Dbl.round_half_open p d2 z hz1 (by norm_num at b1 ⊢; linarith) hc)
  · right
    refine hp (z + 1) hz2 (Dbl.round_half_open p d2 (z + 1) (by omega) ?_ ?_)
    · push_cast; linarith [not_lt.mp hc]
    · push_cast; norm_num at b2 ⊢; linarith

/-- The constant `DOUBLE_EPSILON` as a `double` is within `2 ^ -60` of `1 / 20000`. -/
theorem double_epsilon_near :
    ∃ eps, DOUBLE_EPSILON = some eps ∧ 0 < eps.den ∧ |eps.toQ - 1 / 20000| ≤ 1 / 2 ^ 60 := by
  obtain ⟨y, h1, h2, h3⟩ := fl64_abs 5 100000 (by decide) (-14) (by norm_num) (by norm_num)
    (by norm_num [abs_of_nonneg])
  refine ⟨y, h1, h2, ?_⟩
  have : ((5 : Int) : ℚ) / ((100000 : Nat) : ℚ) = 1 / 20000 := by norm_num
  rw [this] at h3
  exact le_trans h3 (by norm_num)

/-- The closeness test of `try_ntsc_framerate` compares `DOUBLE_EPSILON` with a
`double` within `2 ^ -40` of `fps_num / fps_den / 10 - fps_sig`; the exponent is 10. -/
theorem ntsc_close_spec (v e : Dbl) (dv : 0 < v.den) (de : 0 < e.den) (he : e.toQ = 10)
    (hv1 : 0 ≤ v.toQ) (hv2 : v.toQ ≤ 16) (num den : Nat) (hn : num < 2 ^ 53) (hd1 : 1 ≤ den)
    (hd : den < 2 ^ 53) (hr : (num : ℚ) / den < 1024) :
    ∃ r3 eps, ntsc_close v e num den = some (Dbl.lt (Dbl.fabs r3) eps) ∧ 0 < r3.den ∧
      0 < eps.den ∧ |r3.toQ - ((num : ℚ) / den / 10 - v.toQ)| ≤ 1 / 2 ^ 40 ∧
      |eps.toQ - 1 / 20000| ≤ 1 / 2 ^ 60 := by
  obtain ⟨n, e1, d1, v1⟩ := Dbl.of_nat_exact num hn
  obtain ⟨dn, e2, d2, v2⟩ := Dbl.of_nat_exact den hd
  have hdq : (1 : ℚ) ≤ den := by exact_mod_cast hd1
  have hr0 : (0 : ℚ) ≤ (num : ℚ) / den := by positivity
  have hdn : dn.toQ ≠ 0 := by rw [v2]; linarith
  obtain ⟨r1, e3, d3, v3⟩ := Dbl.div_abs n dn d1 d2 (Dbl.num_ne_zero dn hdn) 10
    (by norm_num) (by norm_num) (by rw [v1, v2, abs_of_nonneg hr0]; norm_num; exact hr)
  rw [v1, v2] at v3
  have a1 := abs_le.mp (le_trans v3 (by norm_num : (2 : ℚ) ^ ((10 : Int) - 54) ≤ 1 / 2 ^ 44))
  have hen : e.toQ ≠ 0 := by rw [he]; norm_num
  obtain ⟨r2, e4, d4, v4⟩ := Dbl.div_abs r1 e d3 de (Dbl.num_ne_zero e hen) 7
    (by norm_num) (by norm_num)
    (by
      rw [he, abs_lt]
      constructor
      · norm_num at a1 ⊢; linarith [a1.1]
      · norm_num at a1 ⊢; linarith [a1.2])
  rw [he] at v4
  have a2 := abs_le.mp (le_trans v4 (by norm_num : (2 : ℚ) ^ ((7 : Int) - 54) ≤ 1 / 2 ^ 47))
  obtain ⟨r3, e5, d5, v5⟩ := Dbl.sub_abs r2 v d4 dv 8 (by norm_num) (by norm_num)
    (by
      rw [abs_lt]
      constructor
      · norm_num at a1 a2 ⊢; linarith [a1.1, a2.1]
      · norm_num at a1 a2 ⊢; linarith [a1.2, a2.2])
  have a3 := abs_le.mp (le_trans v5 (by norm_num : (2 : ℚ) ^ ((8 : Int) - 54) ≤ 1 / 2 ^ 46))
  obtain ⟨eps, e6, d6, v6⟩ := double_epsilon_near
  refine ⟨r3, eps, ?_, d5, d6, ?_, v6⟩
  · unfold ntsc_close
    rw [e1, e2]
    simp only [Option.some_bind, Option.bind_eq_bind]
    rw [e3]
    simp only [Option.some_bind, Option.bind_eq_bind]
    rw [e4]
    simp only [Option.some_bind, Option.bind_eq_bind]
    rw [e5, e6]
    rfl
  · rw [abs_le]
    constructor
    · norm_num at a1 a2 a3 ⊢; linarith [a1.1, a2.1, a3.1]
    · norm_num at a1 a2 a3 ⊢; linarith [a1.2, a2.2, a3.2]

/-- The closeness test succeeds when the candidate is within `4e-5` of `fps_sig`. -/
theorem ntsc_close_true (v e : Dbl) (dv : 0 < v.den) (de : 0 < e.den) (he : e.toQ = 10)
    (hv1 : 0 ≤ v.toQ) (hv2 : v.toQ ≤ 16) (num den : Nat) (hn : num < 2 ^ 53) (hd1 : 1 ≤ den)
    (hd : den < 2 ^ 53) (hr : (num : ℚ) / den < 1024)
    (hc : |(num : ℚ) / den / 10 - v.toQ| ≤ 1 / 25000) :
    ntsc_close v e num den = some true := by
  obtain ⟨r3, eps, h1, d5, d6, h2, h3⟩ := ntsc_close_spec v e dv de he hv1 hv2 num den hn hd1
    hd hr
  rw [h1]
  congr 1
  apply Dbl.lt_eq_true _ _ (by rw [(Dbl.fabs_value r3).2]; exact d5) d6
  rw [(Dbl.fabs_value r3).1, abs_lt]
  obtain ⟨a1, a2⟩ := abs_le.mp h2
  obtain ⟨b1, b2⟩ := abs_le.mp h3
  obtain ⟨c1, c2⟩ := abs_le.mp hc
  constructor
  · norm_num at a1 b1 c1 ⊢; linarith
  · norm_num at a2 b1 c2 ⊢; linarith

/-- The closeness test fails when the candidate is `6e-5` or more away from
`fps_sig`. -/
theorem ntsc_close_false (v e : Dbl) (dv : 0 < v.den) (de : 0 < e.den) (he : e.toQ = 10)
    (hv1 : 0 ≤ v.toQ) (hv2 : v.toQ ≤ 16) (num den : Nat) (hn : num < 2 ^ 53) (hd1 : 1 ≤ den)
    (hd : den < 2 ^ 53) (hr : (num : ℚ) / den < 1024)
    (hc : 3 / 50000 ≤ |(num : ℚ) / den / 10 - v.toQ|) :
    ntsc_close v e num den = some false := by
  obtain ⟨r3, eps, h1, d5, d6, h2, h3⟩ := ntsc_close_spec v e dv de he hv1 hv2 num den hn hd1
    hd hr
  rw [h1]
  congr 1
  apply Dbl.lt_eq_false _ _ (by rw [(Dbl.fabs_value r3).2]; exact d5) d6
  rw [(Dbl.fabs_value r3).1]
  obtain ⟨a1, a2⟩ := abs_le.mp h2
  obtain ⟨b1, b2⟩ := abs_le.mp h3
  rcases le_abs.mp hc with hc | hc
  · refine le_trans ?_ (le_abs_self _)
    norm_num at a1 b2 hc ⊢; linarith
  · refine le_trans ?_ (neg_le_abs _)
    norm_num at a2 b2 hc ⊢; linarith

theorem try_ntsc_loop_accept (v e : Dbl) (fuel i fps_num : Nat) (hi : i * 1001 < 2 ^ 31)
    (h1 : ntsc_numerator v e (i * 1001) = some fps_num) (h2 : fps_num ≤ UINT32_MAX)
    (h3 : ntsc_close v e fps_num (i * 1001) = some true) :
    try_ntsc_loop v e (fuel + 1) i = some (some (fps_num, i * 1001)) := by
  rw [try_ntsc_loop, if_pos hi, h1]
  simp only []
  rw [if_neg (by omega), h3]

theorem try_ntsc_loop_reject (v e : Dbl) (fuel i fps_num : Nat) (hi : i * 1001 < 2 ^ 31)
    (h1 : ntsc_numerator v e (i * 1001) = some fps_num) (h2 : fps_num ≤ UINT32_MAX)
    (h3 : ntsc_close v e fps_num (i * 1001) = some false) :
    try_ntsc_loop v e (fuel + 1) i = try_ntsc_loop v e fuel (i + 1) := by
  rw [try_ntsc_loop, if_pos hi, h1]
  simp only []
  rw [if_neg (by omega), h3]

/-- A rate within `2 ^ -16` of `30000 / 1001` is snapped to `30000 / 1001` at the
first pass of the loop of `try_ntsc_framerate`. -/
theorem try_ntsc_framerate_ntsc (fuel : Nat) (hf : 2 ≤ fuel) (fps : Dbl) (hd : 0 < fps.den)
    (h : |fps.toQ - 30000 / 1001| ≤ 1 / 2 ^ 16) :
    try_ntsc_framerate fuel fps = some (some (30000, 1001)) := by
  obtain ⟨a1, a2⟩ := abs_le.mp h
  have hpos : fps.toQ ≠ 0 := by
    intro h0; rw [h0] at a1; norm_num at a1
  obtain ⟨v, e, hs, dv, de, he, hv⟩ := sigexp10_tens fuel hf fps hd
    (by norm_num at a1 ⊢; linarith) (by norm_num at a2 ⊢; linarith)
  obtain ⟨b1, b2⟩ := abs_le.mp hv
  obtain ⟨f, rfl⟩ : ∃ f, fuel = f + 1 := ⟨fuel - 1, by omega⟩
  have c1 : (1 * 1001 : Nat) = 1001 := rfl
  have hnum : ntsc_numerator v e (1 * 1001) = some 30000 :=
    ntsc_numerator_near v e dv de he (1 * 1001) 3000 (by norm_num) (by norm_num) (by norm_num)
      (by rw [c1]; norm_num at a1 b1 ⊢; linarith)
      (by rw [c1]; norm_num at a2 b2 ⊢; linarith)
  have hclose : ntsc_close v e 30000 (1 * 1001) = some true :=
    ntsc_close_true v e dv de he (by norm_num at a1 b1 ⊢; linarith)
      (by norm_num at a2 b2 ⊢; linarith) 30000 (1 * 1001) (by norm_num) (by norm_num)
      (by norm_num) (by rw [c1]; norm_num)
      (by
        rw [c1, abs_le]
        constructor
        · norm_num at a2 b2 ⊢; linarith
        · norm_num at a1 b1 ⊢; linarith)
  unfold try_ntsc_framerate
  rw [if_neg (Dbl.num_ne_zero fps hpos), hs]
  exact try_ntsc_loop_accept v e f 1 30000 (by norm_num) hnum (by decide) hclose

/-- A rate within `2 ^ -16` of 25 fails the test against the denominator 1001 and
passes it against 2002: `try_ntsc_framerate` stores `50050 / 2002`. -/
theorem try_ntsc_framerate_pal (fuel : Nat) (hf : 2 ≤ fuel) (fps : Dbl) (hd : 0 < fps.den)
    (h : |fps.toQ - 25| ≤ 1 / 2 ^ 16) :
    try_ntsc_framerate fuel fps = some (some (50050, 2002)) := by
  obtain ⟨a1, a2⟩ := abs_le.mp h
  have hpos : fps.toQ ≠ 0 := by
    intro h0; rw [h0] at a1; norm_num at a1
  obtain ⟨v, e, hs, dv, de, he, hv⟩ := sigexp10_tens fuel hf fps hd
    (by norm_num at a1 ⊢; linarith) (by norm_num at a2 ⊢; linarith)
  obtain ⟨b1, b2⟩ := abs_le.mp hv
  obtain ⟨f, rfl⟩ : ∃ f, fuel = f + 2 := ⟨fuel - 2, by omega⟩
  have c1 : (1 * 1001 : Nat) = 1001 := rfl
  have c2 : (2 * 1001 : Nat) = 2002 := rfl
  have hv1 : 0 ≤ v.toQ := by norm_num at a1 b1 ⊢; linarith
  have hv2 : v.toQ ≤ 16 := by norm_num at a2 b2 ⊢; linarith
  have hnum1 := ntsc_numerator_between v e dv de he (1 * 1001) 2502 (by norm_num)
    (by norm_num) (by norm_num)
    (by rw [c1]; norm_num at a1 b1 ⊢; linarith)
    (by rw [c1]; norm_num at a2 b2 ⊢; linarith)
  have step1 : try_ntsc_loop v e (f + 2) 1 = try_ntsc_loop v e (f + 1) 2 := by
    rcases hnum1 with hn | hn
    · refine try_ntsc_loop_reject v e (f + 1) 1 _ (by norm_num) hn (by decide) ?_
      refine ntsc_close_false v e dv de he hv1 hv2 _ (1 * 1001) (by norm_num) (by norm_num)
        (by norm_num) (by rw [c1]; norm_num) ?_
      refine le_trans ?_ (neg_le_abs _)
      rw [c1]; norm_num at a1 b1 ⊢; linarith
    · refine try_ntsc_loop_reject v e (f + 1) 1 _ (by norm_num) hn (by decide) ?_
      refine ntsc_close_false v e dv de he hv1 hv2 _ (1 * 1001) (by norm_num) (by norm_num)
        (by norm_num) (by rw [c1]; norm_num) ?_
      refine le_trans ?_ (le_abs_self _)
      rw [c1]; norm_num at a2 b2 ⊢; linarith
  have hnum2 : ntsc_numerator v e (2 * 1001) = some 50050 :=
    ntsc_numerator_near v e dv de he (2 * 1001) 5005 (by norm_num) (by norm_num) (by norm_num)
      (by rw [c2]; norm_num at a1 b1 ⊢; linarith)
      (by rw [c2]; norm_num at a2 b2 ⊢; linarith)
  have hclose2 : ntsc_close v e 50050 (2 * 1001) = some true :=
    ntsc_close_true v e dv de he hv1 hv2 50050 (2 * 1001) (by norm_num) (by norm_num)
      (by norm_num) (by rw [c2]; norm_num)
      (by
        rw [c2, abs_le]
        constructor
        · norm_num at a2 b2 ⊢; linarith
        · norm_num at a1 b1 ⊢; linarith)
  unfold try_ntsc_framerate
  rw [if_neg (Dbl.num_ne_zero fps hpos), hs]
  simp only []
  rw [step1]
  exact try_ntsc_loop_accept v e f 2 50050 (by norm_num) hnum2 (by decide) hclose2

/-! ## Constant-rate streams (C11, C14) -/

theorem to_u64_natCast (n : Nat) (h : n < 2 ^ 64) : to_u64 (n : Int) = n := by
  unfold to_u64
  omega

theorem to_u64_sub (a b : Nat) (hab : b ≤ a) (ha : a < 2 ^ 64) :
    to_u64 ((a : Int) - (b : Int)) = a - b := by
  unfold to_u64
  omega

theorem get_gcd_self (s : Nat) (hs : 0 < s) : get_gcd s s = s := by
  unfold get_gcd
  rw [if_neg (by omega)]
  obtain ⟨t, rfl⟩ : ∃ t, s = t + 1 := ⟨s - 1, by omega⟩
  rw [get_gcd_loop]
  simp

/-- On records whose `pts` advance by `step`, the loop of `setup_timestamp_info`
ends without a report, the time base being `step` and the two largest `pts`
those of the last two frames. -/
theorem pts_loop_steady (info : List video_frame_info_t) (step N : Nat) (hs : 0 < step)
    (hb : N * step < 2 ^ 63)
    (hpts : ∀ k, 1 ≤ k → k ≤ N → (vinfo info k).pts = ((k - 1 : Nat) : Int) * step) :
    ∀ fuel i, 3 ≤ i → i + fuel = N + 1 →
      pts_loop info fuel i ⟨step, (i - 2) * step, (i - 3) * step⟩ =
        Sum.inr ⟨step, (N - 1) * step, (N - 2) * step⟩ := by
  intro fuel
  induction fuel with
  | zero =>
    intro i h3 hi
    have : i = N + 1 := by omega
    subst this
    rfl
  | succ fuel ih =>
    intro i h3 hi
    have p1 := hpts i (by omega) (by omega)
    have p2 := hpts (i - 1) (by omega) (by omega)
    have hle : (i - 1) * step ≤ N * step := Nat.mul_le_mul_right _ (by omega)
    have hsub : (vinfo info i).pts - (vinfo info (i - 1)).pts = (step : Int) := by
      rw [p1, p2]
      obtain ⟨j, rfl⟩ : ∃ j, i = j + 2 := ⟨i - 2, by omega⟩
      simp only [Nat.add_sub_cancel, show j + 2 - 1 - 1 = j by omega, show j + 2 - 1 = j + 1 by omega]
      push_cast
      ring
    have hne : (vinfo info i).pts ≠ (vinfo info (i - 1)).pts := by
      intro h
      rw [h, sub_self] at hsub
      omega
    unfold pts_loop
    rw [if_neg hne, hsub, to_u64_natCast step (by nlinarith), get_gcd_self step hs, p1]
    have e1 : to_u64 (((i - 1 : Nat) : Int) * (step : Int)) = (i + 1 - 2) * step := by
      rw [show ((i - 1 : Nat) : Int) * (step : Int) = (((i - 1) * step : Nat) : Int) by
        push_cast; rfl]
      rw [to_u64_natCast _ (by omega), show i + 1 - 2 = i - 1 by omega]
    rw [e1]
    have e2 : (i - 2) * step = (i + 1 - 3) * step := by
      rw [show i + 1 - 3 = i - 2 by omega]
    rw [e2]
    exact ih (i + 1) (by omega) (by omega)

/-- The loop of `setup_timestamp_info` on a constant-rate index of `N >= 2` frames. -/
theorem pts_loop_steady_index (info : List video_frame_info_t) (step N : Nat) (hs : 0 < step)
    (hN : 2 ≤ N) (hb : N * step < 2 ^ 63)
    (hpts : ∀ k, 1 ≤ k → k ≤ N → (vinfo info k).pts = ((k - 1 : Nat) : Int) * step) :
    pts_loop info (N - 2) 3
        { largest_pts := to_u64 (vinfo info 2).pts,
          second_largest_pts := to_u64 (vinfo info 1).pts,
          presentation_timebase := to_u64 ((vinfo info 2).pts - (vinfo info 1).pts) } =
      Sum.inr ⟨step, (N - 1) * step, (N - 2) * step⟩ := by
  have p1 := hpts 1 (by omega) (by omega)
  have p2 := hpts 2 (by omega) hN
  have q1 : (vinfo info 1).pts = 0 := by rw [p1]; simp
  have q2 : (vinfo info 2).pts = (step : Int) := by rw [p2]; simp
  have hst : step < 2 ^ 64 := by nlinarith
  rw [q1, q2, sub_zero, to_u64_natCast step hst]
  have z : to_u64 0 = 0 := rfl
  rw [z]
  have := pts_loop_steady info step N hs hb hpts (N - 2) 3 (le_refl _) (by omega)
  simp only [show 3 - 2 = 1 by rfl, show 3 - 3 = 0 by rfl, one_mul, zero_mul] at this
  exact this

/-- The reduction step of `setup_timestamp_info` after the loop on a constant-rate
index: `g` is the common divisor of the time scale `T` and the time base `step`. -/
theorem setup_timestamp_reduce_steady (info : List video_frame_info_t) (vs : AVStream)
    (step N T g : Nat) (hN : 2 ≤ N) (hb : N * step < 2 ^ 63)
    (h1 : (vinfo info 1).pts = 0) (hn : to_u64 vs.time_base.num = 1)
    (hd : to_u64 vs.time_base.den = T) (hg : get_gcd T step = g) (hg0 : g ≠ 0) :
    setup_timestamp_reduce info vs ⟨step, (N - 1) * step, (N - 2) * step⟩ =
      some (T / g, step / g, N * step / g) := by
  have hle : (N - 1) * step ≤ N * step := Nat.mul_le_mul_right _ (by omega)
  have hle2 : (N - 2) * step ≤ (N - 1) * step := Nat.mul_le_mul_right _ (by omega)
  have hsum : (N - 1) * step - (N - 2) * step = step := by
    obtain ⟨j, rfl⟩ : ∃ j, N = j + 2 := ⟨N - 2, by omega⟩
    simp only [Nat.add_sub_cancel, show j + 2 - 1 = j + 1 by omega]
    rw [Nat.add_mul, one_mul, Nat.add_sub_cancel_left]
  have hsum2 : (N - 1) * step + step = N * step := by
    obtain ⟨j, rfl⟩ : ∃ j, N = j + 1 := ⟨N - 1, by omega⟩
    simp only [Nat.add_sub_cancel]
    rw [Nat.add_mul, one_mul]
  have hst : step ≤ N * step := by nlinarith
  unfold setup_timestamp_reduce reduce_fraction
  simp only []
  rw [hn, hd, h1, sub_zero, mul_one, Nat.mod_eq_of_lt (by omega : step < 2 ^ 64), hg,
    if_neg hg0]
  simp only []
  rw [to_u64_natCast _ (by omega), to_u64_sub _ _ hle2 (by omega), hsum, hsum2,
    Nat.mod_eq_of_lt (by omega : N * step < 2 ^ 64)]

/-- The statements after the loop when `try_ntsc_framerate` returns 1. -/
theorem setup_timestamp_rate_snap (fuel : Nat) (h : lsmash_handler_t)
    (info : List video_frame_info_t) (vs : AVStream) (st : PtsScan) (r : Nat × Nat × Nat)
    (fps : Dbl) (f : Nat × Nat) (h1 : setup_timestamp_reduce info vs st = some r)
    (h2 : presentation_framerate h.video_sample_count r.1 r.2.2 = some fps)
    (h3 : try_ntsc_framerate fuel fps = some (some f)) :
    setup_timestamp_rate fuel h info vs st =
      some { h := { h with framerate_num := wrap_int f.1, framerate_den := wrap_int f.2 },
             duplication := none } := by
  unfold setup_timestamp_rate
  rw [h1]
  simp only []
  rw [h2]
  simp only []
  rw [h3]

/-- The translation of `setup_timestamp_info` on an index without reported
duplication, more than one sample and timestamp-based addressing. -/
theorem setup_timestamp_info_rate (fuel : Nat) (h : lsmash_handler_t) (hp : libav_handler_t)
    (vs : AVStream) (st : PtsScan) (hc : h.video_sample_count ≠ 1)
    (hbase : hp.video_seek_base &&& (SEEK_DTS_BASED ||| SEEK_PTS_BASED) ≠ 0)
    (hl : pts_loop hp.video_frame_list (h.video_sample_count - 2) 3
        { largest_pts := to_u64 (vinfo hp.video_frame_list 2).pts,
          second_largest_pts := to_u64 (vinfo hp.video_frame_list 1).pts,
          presentation_timebase :=
            to_u64 ((vinfo hp.video_frame_list 2).pts - (vinfo hp.video_frame_list 1).pts) } =
      Sum.inr st) :
    setup_timestamp_info fuel h hp vs = setup_timestamp_rate fuel h hp.video_frame_list vs st := by
  unfold setup_timestamp_info
  rw [if_neg (by rintro (h1 | h1); exact hc h1; exact hbase h1)]
  simp only []
  rw [hl]

theorem wrap_int_small (n : Nat) (h : n < 2 ^ 31) : wrap_int n = n := by
  unfold wrap_int
  omega

/-- A constant-rate index of `N` frames, `N * D` units of `1 / T` seconds long
once reduced: `setup_timestamp_info` stores the rate `f` that `try_ntsc_framerate`
finds for every `double` within `2 ^ -16` of `T / D`. -/
theorem setup_timestamp_info_steady (fuel : Nat) (h : lsmash_handler_t) (hp : libav_handler_t)
    (vs : AVStream) (N step T0 g T D : Nat) (f : Nat × Nat)
    (hN : 2 ≤ N) (hN2 : N < 2 ^ 32) (hcount : h.video_sample_count = N)
    (hbase : hp.video_seek_base &&& (SEEK_DTS_BASED ||| SEEK_PTS_BASED) ≠ 0)
    (hs : 0 < step) (hs2 : step < 2 ^ 20)
    (hpts : ∀ k, 1 ≤ k → k ≤ N →
      (vinfo hp.video_frame_list k).pts = ((k - 1 : Nat) : Int) * step)
    (hn : to_u64 vs.time_base.num = 1) (hd : to_u64 vs.time_base.den = T0)
    (hg : get_gcd T0 step = g) (hg0 : g ≠ 0) (hT : T0 / g = T) (hD : N * step / g = N * D)
    (hD1 : 1 ≤ D) (hD2 : D < 2 ^ 20) (hT2 : T < 2 ^ 53) (hR : (T : ℚ) / D < 32)
    (hf1 : f.1 < 2 ^ 31) (hf2 : f.2 < 2 ^ 31)
    (htry : ∀ fps : Dbl, 0 < fps.den → |fps.toQ - (T : ℚ) / D| ≤ 1 / 2 ^ 16 →
      try_ntsc_framerate fuel fps = some (some f)) :
    setup_timestamp_info fuel h hp vs =
      some { h := { h with framerate_num := f.1, framerate_den := f.2 },
             duplication := none } := by
  have hb : N * step < 2 ^ 63 := by
    calc N * step < 2 ^ 32 * 2 ^ 20 := Nat.mul_lt_mul'' hN2 hs2
      _ < 2 ^ 63 := by norm_num
  have hND : N * D < 2 ^ 53 := by
    calc N * D < 2 ^ 32 * 2 ^ 20 := Nat.mul_lt_mul'' hN2 hD2
      _ < 2 ^ 53 := by norm_num
  have hl := pts_loop_steady_index hp.video_frame_list step N hs hN hb hpts
  have p1 : (vinfo hp.video_frame_list 1).pts = 0 := by
    rw [hpts 1 (le_refl _) (by omega)]; simp
  have hred := setup_timestamp_reduce_steady hp.video_frame_list vs step N T0 g hN hb p1 hn hd
    hg hg0
  rw [hT, hD] at hred
  obtain ⟨fps, e1, d1, v1⟩ := presentation_framerate_near N T D (by omega) hN2 hD1 hT2 hND hR
  rw [setup_timestamp_info_rate fuel h hp vs ⟨step, (N - 1) * step, (N - 2) * step⟩ (by omega)
      hbase (by rw [hcount]; exact hl),
    setup_timestamp_rate_snap fuel h hp.video_frame_list vs _ _ fps f hred
      (by rw [hcount]; exact e1) (htry fps d1 v1),
    wrap_int_small f.1 hf1, wrap_int_small f.2 hf2]

/-- C11: for every `N >= 2`, on an index with timestamp-based addressing whose
presentation timestamps are `k * 1001` (`k = 0 .. N - 1`) in a 1/30000 time base,
or `k * 3003` in a 1/90000 time base, `setup_timestamp_info` returns with
`framerate_num = 30000` and `framerate_den = 1001`, as soon as the loops of
`sigexp10` and `try_ntsc_framerate` are given two passes. -/
theorem C11_ntsc_snap (fuel : Nat) (h : lsmash_handler_t) (hp : libav_handler_t)
    (vs : AVStream) (N step : Nat) (hN : 2 ≤ N) (hN2 : N < 2 ^ 32)
    (hcount : h.video_sample_count = N)
    (hbase : hp.video_seek_base &&& (SEEK_DTS_BASED ||| SEEK_PTS_BASED) ≠ 0)
    (htb : (step = 1001 ∧ vs.time_base = ⟨1, 30000⟩) ∨
      (step = 3003 ∧ vs.time_base = ⟨1, 90000⟩))
    (hpts : ∀ k, 1 ≤ k → k ≤ N →
      (vinfo hp.video_frame_list k).pts = ((k - 1 : Nat) : Int) * step)
    (hfuel : 2 ≤ fuel) :
    setup_timestamp_info fuel h hp vs =
      some { h := { h with framerate_num := 30000, framerate_den := 1001 },
             duplication := none } := by
  have htry : ∀ fps : Dbl, 0 < fps.den →
      |fps.toQ - ((30000 : Nat) : ℚ) / ((1001 : Nat) : ℚ)| ≤ 1 / 2 ^ 16 →
      try_ntsc_framerate fuel fps = some (some (30000, 1001)) := by
    intro fps d hv
    refine try_ntsc_framerate_ntsc fuel hfuel fps d ?_
    push_cast at hv
    exact hv
  rcases htb with ⟨rfl, htb⟩ | ⟨rfl, htb⟩
  · exact setup_timestamp_info_steady fuel h hp vs N 1001 30000 1 30000 1001 (30000, 1001)
      hN hN2 hcount hbase (by norm_num) (by norm_num) hpts (by rw [htb]; rfl)
      (by rw [htb]; rfl) (by decide) (by decide) (by norm_num) (by rw [Nat.div_one])
      (by norm_num) (by norm_num) (by norm_num) (by norm_num) (by norm_num) (by norm_num) htry
  · exact setup_timestamp_info_steady fuel h hp vs N 3003 90000 3 30000 1001 (30000, 1001)
      hN hN2 hcount hbase (by norm_num) (by norm_num) hpts (by rw [htb]; rfl)
      (by rw [htb]; rfl) (by decide) (by decide) (by norm_num) (by omega)
      (by norm_num) (by norm_num) (by norm_num) (by norm_num) (by norm_num) (by norm_num) htry

/-- C11 (witness): three frames at `pts` 0, 1001, 2002 in a 1/30000 time base,
and three frames at `pts` 0, 3003, 6006 in a 1/90000 time base. -/
theorem C11_ntsc_snap_witness :
    setup_timestamp_info 2 (timing_h 3) (timing_hp (steady_index 3 1001))
        { r_frame_rate := ⟨30, 1⟩, time_base := ⟨1, 30000⟩ } =
      some { h := { timing_h 3 with framerate_num := 30000, framerate_den := 1001 },
             duplication := none } ∧
    setup_timestamp_info 2 (timing_h 3) (timing_hp (steady_index 3 3003))
        { r_frame_rate := ⟨30, 1⟩, time_base := ⟨1, 90000⟩ } =
      some { h := { timing_h 3 with framerate_num := 30000, framerate_den := 1001 },
             duplication := none } :=
  ⟨C11_ntsc_snap 2 (timing_h 3) (timing_hp (steady_index 3 1001)) _ 3 1001 (by decide)
      (by decide) rfl (by decide) (Or.inl ⟨rfl, rfl⟩)
      (by intro k h1 h2; interval_cases k <;> rfl) (le_refl _),
    C11_ntsc_snap 2 (timing_h 3) (timing_hp (steady_index 3 3003)) _ 3 3003 (by decide)
      (by decide) rfl (by decide) (Or.inr ⟨rfl, rfl⟩)
      (by intro k h1 h2; interval_cases k <;> rfl) (le_refl _)⟩

set_option maxRecDepth 100000 in

/-- C14 (counterexample): three frames at `pts` 0, 1, 2 in a 1/25 time base,
exactly 25 frames per second.  `setup_timestamp_info` stores 50050/2002, a
fraction whose denominator is twice 1001, and not 25/1. -/
theorem C14_counterexample :
    setup_timestamp_info 2 (timing_h 3) (timing_hp (steady_index 3 1))
        { r_frame_rate := ⟨25, 1⟩, time_base := ⟨1, 25⟩ } =
      some { h := { timing_h 3 with framerate_num := 50050, framerate_den := 2002 },
             duplication := none } := by
  decide

/-- C14 (amended): for every `N >= 2`, on an index with timestamp-based addressing
whose presentation timestamps are `0, 1, .., N - 1` in a 1/25 time base,
`setup_timestamp_info` returns with `framerate_num = 50050` and
`framerate_den = 2002`: the loop of `try_ntsc_framerate` rejects the denominator
1001 and accepts 2002, so the rational derived from the time base, 25/1, is not
stored. -/
theorem C14_pal_snap (fuel : Nat) (h : lsmash_handler_t) (hp : libav_handler_t)
    (vs : AVStream) (N : Nat) (hN : 2 ≤ N) (hN2 : N < 2 ^ 32)
    (hcount : h.video_sample_count = N)
    (hbase : hp.video_seek_base &&& (SEEK_DTS_BASED ||| SEEK_PTS_BASED) ≠ 0)
    (htb : vs.time_base = ⟨1, 25⟩)
    (hpts : ∀ k, 1 ≤ k → k ≤ N → (vinfo hp.video_frame_list k).pts = ((k - 1 : Nat) : Int))
    (hfuel : 2 ≤ fuel) :
    setup_timestamp_info fuel h hp vs =
      some { h := { h with framerate_num := 50050, framerate_den := 2002 },
             duplication := none } := by
  have htry : ∀ fps : Dbl, 0 < fps.den →
      |fps.toQ - ((25 : Nat) : ℚ) / ((1 : Nat) : ℚ)| ≤ 1 / 2 ^ 16 →
      try_ntsc_framerate fuel fps = some (some (50050, 2002)) := by
    intro fps d hv
    refine try_ntsc_framerate_pal fuel hfuel fps d ?_
    push_cast at hv
    rw [div_one] at hv
    exact hv
  exact setup_timestamp_info_steady fuel h hp vs N 1 25 1 25 1 (50050, 2002)
    hN hN2 hcount hbase (by norm_num) (by norm_num)
    (by intro k h1 h2; rw [hpts k h1 h2]; simp) (by rw [htb]; rfl)
    (by rw [htb]; rfl) (by decide) (by decide) (by norm_num) (by rw [Nat.div_one])
    (by norm_num) (by norm_num) (by norm_num) (by norm_num) (by norm_num) (by norm_num) htry

/-- C14 (witness): four frames at `pts` 0, 1, 2, 3 in a 1/25 time base. -/
theorem C14_pal_snap_witness :
    setup_timestamp_info 2 (timing_h 4) (timing_hp (steady_index 4 1))
        { r_frame_rate := ⟨25, 1⟩, time_base := ⟨1, 25⟩ } =
      some { h := { timing_h 4 with framerate_num := 50050, framerate_den := 2002 },
             duplication := none } :=
  C14_pal_snap 2 (timing_h 4) (timing_hp (steady_index 4 1)) _ 4 (by decide)
    (by decide) rfl (by decide) rfl
    (by intro k h1 h2; interval_cases k <;> rfl) (le_refl _)

/-! ## State left by failed calls (C24, C25) -/

/-- On every return of `seek_video` other than the `return 0` on a decode error,
`skip_frame` is `AVDISCARD_DEFAULT` if it was on entry: the failed seek leaves it
untouched and the regular end of the function resets it. -/
theorem seek_video_skip_frame {σ : Type} (L : Libav σ) (hp : libav_handler_t)
    (w : VideoWorld σ) (pic : AVFrame) (psn rap : Nat) (pos : Int) (ei : Bool)
    (hw : w.skip_frame = AVDISCARD_DEFAULT)
    (h : ei = true ∨ (seek_video L hp w pic psn rap pos ei).ret ≠ 0) :
    (seek_video L hp w pic psn rap pos ei).w.skip_frame = AVDISCARD_DEFAULT := by
  obtain ⟨flags, hflags⟩ : ∃ flags, flags =
      (if hp.video_seek_base &&& SEEK_FILE_OFFSET_BASED ≠ 0 then AVSEEK_FLAG_BYTE
        else if hp.video_seek_base = 0 then AVSEEK_FLAG_FRAME else 0) ||| AVSEEK_FLAG_BACKWARD :=
    ⟨_, rfl⟩
  obtain ⟨s, hs⟩ : ∃ s, s =
      L.av_seek_frame (w.log (Event.seek_video psn rap pos ei)) hp.video_index pos flags :=
    ⟨_, rfl⟩
  obtain ⟨w1, hw1⟩ : ∃ w1 : VideoWorld σ, w1 = { (w.log (Event.seek_video psn rap pos ei)) with
      cursor := s.cursor, priv := s.priv,
      trace := (w.log (Event.seek_video psn rap pos ei)).trace ++ [Event.av_seek_frame pos flags] } :=
    ⟨_, rfl⟩
  obtain ⟨w2, hw2⟩ : ∃ w2, w2 = flush_buffers L w1 := ⟨_, rfl⟩
  obtain ⟨w3, hw3⟩ : ∃ w3 : VideoWorld σ, w3 =
      if rap + DECODER_DELAY w2 < psn then { w2 with skip_frame := AVDISCARD_NONREF } else w2 :=
    ⟨_, rfl⟩
  obtain ⟨r, hr⟩ : ∃ r, r = seek_video_loop L psn ei (w3.packets.length - w3.cursor + 1) rap pic
      { hp with delay_count := 0, decode_status := decode_status_t.DECODE_REQUIRE_INITIAL } w3 :=
    ⟨_, rfl⟩
  rw [seek_video_eq L hp w pic psn rap pos ei flags s w1 w2 w3 r hflags hs hw1 hw2 hw3 hr] at h ⊢
  by_cases h1 : s.ret < 0
  · rw [if_pos h1]
    rw [hw1]
    exact hw
  · rw [if_neg h1] at h ⊢
    by_cases h2 : r.aborted = true
    · rw [if_pos h2] at h
      rcases h with h | h
      · subst h
        rw [hr, seek_video_loop_ignoring] at h2
        cases h2
      · exact absurd rfl h
    · rw [if_neg h2]

/-- C25 (the code departs from the claim): on `poisoned_packets`, whose unit 1
does not decode, `seek_video` is entered for sample 3 from unit 1 without error
ignorance while `skip_frame` is `AVDISCARD_DEFAULT`.  The seek succeeds, the
replay is two units long, so `skip_frame` is set to `AVDISCARD_NONREF`; the decode
error at unit 1 takes the `return 0` inside the loop, and `skip_frame` is still
`AVDISCARD_NONREF` when the function returns. -/
theorem C25_skip_frame_left_nonref :
    (synth_world poisoned_packets 0).skip_frame = AVDISCARD_DEFAULT ∧
    (seek_video (synth 0) (synth_handle poisoned_packets SEEK_MODE_NORMAL).2
      (synth_world poisoned_packets 0) [] 3 1 1 false).ret = 0 ∧
    (seek_video (synth 0) (synth_handle poisoned_packets SEEK_MODE_NORMAL).2
      (synth_world poisoned_packets 0) [] 3 1 1 false).w.skip_frame = AVDISCARD_NONREF ∧
    (seek_video (synth 0) (synth_handle poisoned_packets SEEK_MODE_NORMAL).2
      (synth_world poisoned_packets 0) [] 3 1 1 false).w.trace =
      [Event.seek_video 3 1 1 false, Event.av_seek_frame 1 1, Event.flush_buffers,
       Event.decode_video_sample 1, Event.avcodec_decode_video2 true] := by
  decide

/-- C24 (the code departs from the claim): on `stale_packets` under the Aggressive
policy, sample 0 is read (frame 1), then sample 2: that call seeks to unit 3,
fails to decode it and returns 0 through `video_fail`, which leaves
`last_video_frame_number` at 1.  The next call asks for sample 1 (frame 2): it
finds `sample_number == last_video_frame_number + 1`, enters no `seek_video`,
decodes the unit the demuxer stands at, unit 4, and returns its picture. -/
theorem C24_no_seek_after_failed_call :
    stale_first.hp.last_video_frame_number = 1 ∧
    stale_second.failed = true ∧ stale_second.ret = 0 ∧
    stale_second.w.trace.drop stale_first.w.trace.length =
      [Event.seek_video 3 3 3 true, Event.av_seek_frame 3 1, Event.flush_buffers,
       Event.decode_video_sample 3, Event.avcodec_decode_video2 true] ∧
    stale_second.hp.last_video_frame_number = 1 ∧
    seek_count (stale_third.w.trace.drop stale_second.w.trace.length) = 0 ∧
    stale_third.w.trace.drop stale_second.w.trace.length =
      [Event.decode_video_sample 2, Event.avcodec_decode_video2 true] ∧
    stale_third.failed = false ∧ stale_third.buf = [14] := by
  decide

/-! ## Sample count reported by `prepare_audio_decoding` (C26) -/

/-- `decide_audio_seek_method` leaves every `length` as it was. -/
theorem audio_seek_method_length (name : String) (flags : Nat)
    (info : List audio_frame_info_t) (n f : Nat) :
    (ainfo (decide_audio_seek_method name flags info n).2 f).length = (ainfo info f).length := by
  rw [audio_frame_list_cases]
  generalize (decide_audio_seek_method name flags info n).1 = base
  split_ifs
  · have key : (info.take 1 ++
        ((info.drop 1).take n).map (fun r : audio_frame_info_t => { r with pts := r.dts })
        ++ info.drop (1 + n)).map (fun r : audio_frame_info_t => r.length) =
        info.map (fun r : audio_frame_info_t => r.length) := by
      conv_rhs => rw [← audio_segments info n]
      simp only [List.map_append, List.map_map]
      rfl
    have g : ∀ l : List audio_frame_info_t, (ainfo l f).length =
        (l.map (fun r : audio_frame_info_t => r.length)).getD f 0 := by
      intro l
      unfold ainfo
      rw [show (0 : Int) = (fun r : audio_frame_info_t => r.length) audio_zero from rfl,
        List.getD_map]
    rw [g, key, ← g]
  · rfl

/-- The sum of the first `n` lengths depends on the first `n` records only. -/
theorem audio_length_sum_congr (l1 l2 : List audio_frame_info_t) :
    ∀ n, (∀ k, 1 ≤ k → k ≤ n → (ainfo l1 k).length = (ainfo l2 k).length) →
      audio_length_sum l1 n = audio_length_sum l2 n := by
  intro n
  induction n with
  | zero => intro _; rfl
  | succ n ih =>
    intro h
    rw [audio_length_sum_succ, audio_length_sum_succ, ih (fun k h1 h2 => h k h1 (by omega)),
      h (n + 1) (by omega) (le_refl _)]

theorem ainfo_cons_append_left (info t : List audio_frame_info_t) (k : Nat)
    (hk : k ≤ info.length) :
    ainfo (audio_zero :: (info ++ t)) k = ainfo (audio_zero :: info) k := by
  unfold ainfo
  rw [← List.cons_append, List.getD_append _ _ _ _ (by simp; omega)]

theorem ainfo_cons_append_last (info t : List audio_frame_info_t) (r : audio_frame_info_t) :
    ainfo (audio_zero :: (info ++ r :: t)) (info.length + 1) = r := by
  unfold ainfo
  rw [List.getD_cons_succ, List.getD_append_right _ _ _ _ (le_refl _)]
  simp

/-- Once `audio_duration` has passed the ceiling the scan changes nothing more. -/
theorem scan_audio_stuck {σ : Type} (P : AudioProbe σ) (vi ai : Int) :
    ∀ (packets : List AVPacket) (st : AudioScan σ), st.audio_duration > INT32_MAX →
      scan_audio P vi ai packets st = st := by
  intro packets
  induction packets with
  | nil => intro st _; rfl
  | cons p rest ih =>
    intro st h
    unfold scan_audio
    by_cases h1 : 0 ≤ vi ∧ p.stream_index = vi
    · rw [if_pos h1]; exact ih st h
    · rw [if_neg h1, if_neg (fun h2 => absurd h2.2.2 (by omega))]
      exact ih st h

/-- The scan only appends records. -/
theorem scan_audio_prefix {σ : Type} (P : AudioProbe σ) (vi ai : Int) :
    ∀ (packets : List AVPacket) (st : AudioScan σ),
      ∃ t, (scan_audio P vi ai packets st).audio_info = st.audio_info ++ t := by
  intro packets
  induction packets with
  | nil => intro st; exact ⟨[], (List.append_nil _).symm⟩
  | cons p rest ih =>
    intro st
    unfold scan_audio
    by_cases h1 : 0 ≤ vi ∧ p.stream_index = vi
    · rw [if_pos h1]; exact ih st
    · rw [if_neg h1]
      by_cases h2 : 0 ≤ ai ∧ p.stream_index = ai ∧ st.audio_duration ≤ INT32_MAX
      · rw [if_pos h2]
        lift_lets
        intro g frame_length audio_duration r constant_frame_length
        by_cases h3 : audio_duration > INT32_MAX
        · rw [if_pos h3]; exact ih _
        · rw [if_neg h3]
          obtain ⟨t, ht⟩ := ih ⟨st.audio_info ++ [r], st.audio_sample_count + 1,
            constant_frame_length, frame_length, audio_duration, g.2⟩
          exact ⟨r :: t, by rw [ht]; simp⟩
      · rw [if_neg h2]; exact ih st

/-- The locals of the audio branch stay consistent with the records over a scan
that refuses no frame, all recorded lengths being non-negative `int` values. -/
theorem scan_audio_consistent {σ : Type} (P : AudioProbe σ) (vi ai : Int) :
    ∀ (packets : List AVPacket) (st : AudioScan σ), audio_scan_consistent st →
      (scan_audio P vi ai packets st).audio_duration ≤ INT32_MAX →
      (∀ r ∈ (scan_audio P vi ai packets st).audio_info, 0 ≤ r.length ∧ r.length < 2 ^ 31) →
      audio_scan_consistent (scan_audio P vi ai packets st) := by
  intro packets
  induction packets with
  | nil => intro st h _ _; exact h
  | cons p rest ih =>
    intro st hst
    unfold scan_audio
    by_cases h1 : 0 ≤ vi ∧ p.stream_index = vi
    · rw [if_pos h1]; exact ih st hst
    · rw [if_neg h1]
      by_cases h2 : 0 ≤ ai ∧ p.stream_index = ai ∧ st.audio_duration ≤ INT32_MAX
      · rw [if_pos h2]
        lift_lets
        intro g frame_length audio_duration r constant_frame_length
        by_cases h3 : audio_duration > INT32_MAX
        · rw [if_pos h3]
          intro hd
          rw [scan_audio_stuck P vi ai rest _ h3] at hd
          exact absurd hd (not_le.mpr h3)
        · rw [if_neg h3]
          intro hd hlen
          obtain ⟨t, ht⟩ := scan_audio_prefix P vi ai rest ⟨st.audio_info ++ [r],
            st.audio_sample_count + 1, constant_frame_length, frame_length, audio_duration, g.2⟩
          have hr := hlen r (by rw [ht]; simp)
          have hrl : r.length = frame_length := rfl
          rw [hrl] at hr
          obtain ⟨a, b, c, d⟩ := hst
          have hmax : st.audio_duration ≤ INT32_MAX := h2.2.2
          have hdur : (audio_duration : Int) = (st.audio_duration : Int) + frame_length := by
            show ((((st.audio_duration : Int) + frame_length) % 2 ^ 64).toNat : Int) = _
            have : INT32_MAX = 2147483647 := rfl
            omega
          have hlast : ainfo (audio_zero :: (st.audio_info ++ [r])) (st.audio_sample_count + 1) = r := by
            rw [a]; exact ainfo_cons_append_last st.audio_info [] r
          have hkeep : ∀ k, k ≤ st.audio_sample_count →
              ainfo (audio_zero :: (st.audio_info ++ [r])) k = ainfo (audio_zero :: st.audio_info) k :=
            fun k hk => ainfo_cons_append_left st.audio_info [r] k (by omega)
          refine ih _ ⟨?_, ?_, ?_, ?_⟩ hd hlen
          · show st.audio_sample_count + 1 = (st.audio_info ++ [r]).length
            rw [List.length_append, a]; rfl
          · show (audio_duration : Int) =
              audio_length_sum (audio_zero :: (st.audio_info ++ [r])) (st.audio_sample_count + 1)
            rw [audio_length_sum_succ, hlast, hrl, hdur, b,
              audio_length_sum_congr (audio_zero :: (st.audio_info ++ [r])) (audio_zero :: st.audio_info)
                st.audio_sample_count
                (fun k _ hk => by rw [hkeep k hk])]
          · intro _
            show (ainfo (audio_zero :: (st.audio_info ++ [r])) (st.audio_sample_count + 1)).length =
              frame_length
            rw [hlast]
          · intro hconst k hk1 hk2
            show (ainfo (audio_zero :: (st.audio_info ++ [r])) k).length = frame_length
            have hk2 : k ≤ st.audio_sample_count + 1 := hk2
            have hconst : constant_frame_length = true := hconst
            by_cases hk : k = st.audio_sample_count + 1
            · rw [hk, hlast]
            · have hcount : 1 ≤ st.audio_sample_count := by omega
              by_cases hcond : st.audio_sample_count + 1 > 1 ∧
                  frame_length ≠ (ainfo (audio_zero :: st.audio_info) st.audio_sample_count).length
              · have : constant_frame_length = false := if_pos hcond
                rw [this] at hconst
                cases hconst
              · have hc2 : constant_frame_length = st.constant_frame_length := if_neg hcond
                rw [hc2] at hconst
                have hfl : frame_length = st.frame_length := by
                  by_contra hne
                  apply hcond
                  refine ⟨by omega, ?_⟩
                  rw [c hcount]
                  exact hne
                rw [hkeep k (by omega), d hconst k hk1 (by omega), hfl]
      · rw [if_neg h2]; exact ih st hst

/-- The scan counts the records it writes. -/
theorem scan_audio_count {σ : Type} (P : AudioProbe σ) (vi ai : Int) :
    ∀ (packets : List AVPacket) (st : AudioScan σ),
      st.audio_sample_count = st.audio_info.length →
      (scan_audio P vi ai packets st).audio_sample_count =
        (scan_audio P vi ai packets st).audio_info.length := by
  intro packets
  induction packets with
  | nil => intro st h; exact h
  | cons p rest ih =>
    intro st h
    unfold scan_audio
    by_cases h1 : 0 ≤ vi ∧ p.stream_index = vi
    · rw [if_pos h1]; exact ih st h
    · rw [if_neg h1]
      by_cases h2 : 0 ≤ ai ∧ p.stream_index = ai ∧ st.audio_duration ≤ INT32_MAX
      · rw [if_pos h2]
        lift_lets
        intro g frame_length audio_duration r constant_frame_length
        by_cases h3 : audio_duration > INT32_MAX
        · rw [if_pos h3]; exact ih _ h
        · rw [if_neg h3]
          apply ih
          show st.audio_sample_count + 1 = (st.audio_info ++ [r]).length
          rw [List.length_append, h]; rfl
      · rw [if_neg h2]; exact ih st h

/-- The summing loop of `prepare_audio_decoding` yields the sum of the lengths as
long as that sum fits the `uint32_t` counter. -/
theorem pcm_sample_count_loop_sum (list : List audio_frame_info_t) :
    ∀ (fuel i count : Nat), 1 ≤ i →
      (count : Int) = audio_length_sum list (i - 1) →
      (∀ k, 1 ≤ k → k ≤ i - 1 + fuel → 0 ≤ (ainfo list k).length) →
      audio_length_sum list (i - 1 + fuel) < 2 ^ 32 →
      (pcm_sample_count_loop list fuel i count : Int) = audio_length_sum list (i - 1 + fuel) := by
  intro fuel
  induction fuel with
  | zero => intro i count _ hc _ _; exact hc
  | succ fuel ih =>
    intro i count hi hc hlen hmax
    unfold pcm_sample_count_loop
    have e1 : i - 1 + (fuel + 1) = (i + 1 - 1) + fuel := by omega
    have hs : audio_length_sum list (i + 1 - 1) =
        audio_length_sum list (i - 1) + (ainfo list i).length := by
      rw [show i + 1 - 1 = (i - 1) + 1 by omega, audio_length_sum_succ,
        show i - 1 + 1 = i by omega]
    have hm := audio_length_sum_mono list (i - 1 + (fuel + 1)) hlen (i + 1 - 1)
      (i - 1 + (fuel + 1)) (by omega) (le_refl _)
    have h0 := audio_length_sum_mono list (i - 1 + (fuel + 1)) hlen 0 (i + 1 - 1)
      (by omega) (by omega)
    have hz : audio_length_sum list 0 = 0 := rfl
    rw [e1]
    apply ih (i + 1) _ (by omega)
    · rw [hs, hc]
      omega
    · intro k hk1 hk2
      exact hlen k hk1 (by omega)
    · rw [← e1]; exact hmax

/-- The sum of `n` equal lengths. -/
theorem audio_length_sum_const (list : List audio_frame_info_t) (L : Int) :
    ∀ n, (∀ k, 1 ≤ k → k ≤ n → (ainfo list k).length = L) →
      audio_length_sum list n = n * L := by
  intro n
  induction n with
  | zero => intro _; simp [audio_length_sum]
  | succ n ih =>
    intro h
    rw [audio_length_sum_succ, ih (fun k h1 h2 => h k h1 (by omega)), h (n + 1) (by omega) (le_refl _)]
    push_cast
    ring

/-- The sample count `prepare_audio_decoding` leaves in the host handle, in terms
of the sum `count` formed by its first loop. -/
theorem prepare_audio_decoding_count (ctx : AudioContext) (entries : Option (List Int))
    (h : lsmash_handler_t) (hp : libav_handler_t) (count : Nat)
    (hc : count = pcm_sample_count_loop hp.audio_frame_list hp.audio_frame_count 1
      h.audio_pcm_sample_count) :
    (prepare_audio_decoding (some ctx) entries h hp).h.audio_pcm_sample_count =
      if count = 0 then count
      else if (entries.getD []).any (fun r => decide (r < 0)) then count
      else if (count * 2) % 2 ^ 32 ≤ (hp.audio_frame_count * hp.audio_frame_length) % 2 ^ 32
        then (count * 2) % 2 ^ 32 else count := by
  subst hc
  unfold prepare_audio_decoding
  simp only []
  split_ifs <;> rfl

/-- C26: take the audio index `create_index` builds from any container and any
codec probe, such that the scan ended with `audio_duration <= INT32_MAX` (the
test that refuses a frame never fired: once it fires, `audio_duration` stays above
the ceiling), every indexed length is a non-negative `int`, and the lengths add up
to a positive total.  Then `prepare_audio_decoding`, entered with
`audio_pcm_sample_count = 0` and a codec context, leaves `audio_pcm_sample_count`
equal to the sum of the indexed lengths, whatever `av_add_index_entry` returns:
the doubling test fails, with a constant frame length or without. -/
theorem C26_pcm_sample_count {σ : Type} (P : AudioProbe σ) (s : σ) (name : String)
    (flags : Nat) (packets : List AVPacket) (hp0 : libav_handler_t) (h : lsmash_handler_t)
    (ctx : AudioContext) (entries : Option (List Int))
    (hh : h.audio_pcm_sample_count = 0)
    (hd : (scan_audio P hp0.video_index hp0.audio_index packets
      ⟨[], 0, true, 0, 0, s⟩).audio_duration ≤ INT32_MAX)
    (hlen : ∀ k, 1 ≤ k → k ≤ (create_index_audio P s name flags packets hp0).audio_frame_count →
      0 ≤ (ainfo (create_index_audio P s name flags packets hp0).audio_frame_list k).length ∧
      (ainfo (create_index_audio P s name flags packets hp0).audio_frame_list k).length < 2 ^ 31)
    (hpos : 0 < audio_length_sum (create_index_audio P s name flags packets hp0).audio_frame_list
      (create_index_audio P s name flags packets hp0).audio_frame_count) :
    ((prepare_audio_decoding (some ctx) entries h
        (create_index_audio P s name flags packets hp0)).h.audio_pcm_sample_count : Int) =
      audio_length_sum (create_index_audio P s name flags packets hp0).audio_frame_list
        (create_index_audio P s name flags packets hp0).audio_frame_count := by
  obtain ⟨st, hst⟩ : ∃ st, st = scan_audio P hp0.video_index hp0.audio_index packets
    ⟨[], 0, true, 0, 0, s⟩ := ⟨_, rfl⟩
  obtain ⟨hp, hhp⟩ : ∃ hp, hp = create_index_audio P s name flags packets hp0 := ⟨_, rfl⟩
  have hlist : hp.audio_frame_list =
      (decide_audio_seek_method name flags (audio_zero :: st.audio_info)
        st.audio_sample_count).2 := by
    rw [hhp, hst]; rfl
  have hcount : hp.audio_frame_count = st.audio_sample_count := by rw [hhp, hst]; rfl
  have hfl : hp.audio_frame_length =
      if st.constant_frame_length then (st.frame_length % 2 ^ 32).toNat else 0 := by
    rw [hhp, hst]; rfl
  rw [← hhp] at hlen hpos ⊢
  rw [← hst] at hd
  have hlen2 : ∀ k, (ainfo hp.audio_frame_list k).length =
      (ainfo (audio_zero :: st.audio_info) k).length := by
    intro k; rw [hlist]; exact audio_seek_method_length name flags _ _ k
  have hcl : st.audio_sample_count = st.audio_info.length := by
    rw [hst]; exact scan_audio_count P _ _ packets _ rfl
  have hmem : ∀ r ∈ st.audio_info, 0 ≤ r.length ∧ r.length < 2 ^ 31 := by
    intro r hr
    obtain ⟨i, hi, hir⟩ := List.getElem_of_mem hr
    have e : ainfo (audio_zero :: st.audio_info) (i + 1) = r := by
      unfold ainfo
      rw [List.getD_cons_succ, List.getD_eq_getElem _ _ hi, hir]
    have := hlen (i + 1) (by omega) (by rw [hcount, hcl]; omega)
    rw [hlen2, e] at this
    exact this
  have hcons : audio_scan_consistent st := by
    rw [hst] at hd hmem ⊢
    exact scan_audio_consistent P _ _ packets _
      ⟨rfl, rfl, fun h => absurd h (Nat.not_succ_le_zero 0),
        fun _ k h1 h2 => absurd (le_trans h1 h2) (Nat.not_succ_le_zero 0)⟩
      hd hmem
  obtain ⟨-, b, c, d⟩ := hcons
  have hsum : audio_length_sum hp.audio_frame_list hp.audio_frame_count =
      audio_length_sum (audio_zero :: st.audio_info) st.audio_sample_count := by
    rw [hcount]
    exact audio_length_sum_congr _ _ _ (fun k _ _ => hlen2 k)
  have hT : audio_length_sum hp.audio_frame_list hp.audio_frame_count = (st.audio_duration : Int) := by
    rw [hsum, b]
  have hmax : INT32_MAX = 2147483647 := rfl
  obtain ⟨count, hc⟩ : ∃ count, count = pcm_sample_count_loop hp.audio_frame_list
    hp.audio_frame_count 1 h.audio_pcm_sample_count := ⟨_, rfl⟩
  have hcv : (count : Int) = audio_length_sum hp.audio_frame_list hp.audio_frame_count := by
    rw [hc, hh]
    have := pcm_sample_count_loop_sum hp.audio_frame_list hp.audio_frame_count 1 0 (le_refl _)
      rfl (fun k h1 h2 => (hlen k h1 (by omega)).1) (by
        rw [show 1 - 1 + hp.audio_frame_count = hp.audio_frame_count by omega, hT]; omega)
    rw [show 1 - 1 + hp.audio_frame_count = hp.audio_frame_count by omega] at this
    exact this
  rw [prepare_audio_decoding_count ctx entries h hp count hc]
  have hcd : count = st.audio_duration := by
    have := hcv.trans hT
    exact_mod_cast this
  have hcpos : 0 < count := by
    have : (0 : Int) < count := by rw [hcv]; exact hpos
    exact_mod_cast this
  have hN : 1 ≤ st.audio_sample_count := by
    by_contra hn
    have h0 : st.audio_sample_count = 0 := by omega
    rw [hsum, h0] at hpos
    exact absurd hpos (lt_irrefl (0 : Int))
  have htest : ¬ (count * 2) % 2 ^ 32 ≤ (hp.audio_frame_count * hp.audio_frame_length) % 2 ^ 32 := by
    rw [hfl, hcount]
    by_cases hk : st.constant_frame_length = true
    · rw [if_pos hk]
      have hL := c hN
      have hLb := hlen st.audio_sample_count hN (by rw [hcount])
      rw [hlen2, hL] at hLb
      have hprod := audio_length_sum_const (audio_zero :: st.audio_info) st.frame_length
        st.audio_sample_count (d hk)
      rw [← b] at hprod
      obtain ⟨L, hLn⟩ : ∃ L : Nat, st.frame_length = L := ⟨st.frame_length.toNat, by omega⟩
      rw [hLn] at hprod hLb ⊢
      have hp2 : st.audio_duration = st.audio_sample_count * L := by exact_mod_cast hprod
      have e1 : (((L : Int) % 2 ^ 32).toNat) = L := by omega
      rw [e1, ← hp2, ← hcd]
      omega
    · rw [if_neg hk]
      omega
  rw [if_neg (by omega), if_neg htest]
  by_cases hany : (entries.getD []).any (fun r => decide (r < 0)) = true
  · rw [if_pos hany]; exact hcv
  · rw [if_neg hany]; exact hcv

/-- A scan that ends with `audio_duration <= INT32_MAX` has written one record
for every packet of the audio stream. -/
theorem scan_audio_records_all {σ : Type} (P : AudioProbe σ) (vi ai : Int) (hai : 0 ≤ ai)
    (hne : vi ≠ ai) :
    ∀ (packets : List AVPacket) (st : AudioScan σ),
      (scan_audio P vi ai packets st).audio_duration ≤ INT32_MAX →
      (scan_audio P vi ai packets st).audio_sample_count =
        st.audio_sample_count + unit_count ai packets := by
  intro packets
  induction packets with
  | nil => intro st _; rfl
  | cons p rest ih =>
    intro st
    unfold scan_audio
    by_cases h1 : 0 ≤ vi ∧ p.stream_index = vi
    · rw [if_pos h1]
      intro hd
      rw [ih st hd]
      have : ¬ p.stream_index = ai := by rw [h1.2]; exact hne
      simp [unit_count, List.countP_cons, this]
    · rw [if_neg h1]
      by_cases h2 : 0 ≤ ai ∧ p.stream_index = ai ∧ st.audio_duration ≤ INT32_MAX
      · rw [if_pos h2]
        lift_lets
        intro g frame_length audio_duration r constant_frame_length
        by_cases h3 : audio_duration > INT32_MAX
        · rw [if_pos h3]
          intro hd
          rw [scan_audio_stuck P vi ai rest _ h3] at hd
          exact absurd hd (not_le.mpr h3)
        · rw [if_neg h3]
          intro hd
          rw [ih _ hd]
          show st.audio_sample_count + 1 + unit_count ai rest = _
          simp [unit_count, List.countP_cons, h2.2.1]
          omega
      · rw [if_neg h2]
        intro hd
        rw [ih st hd]
        by_cases h4 : st.audio_duration ≤ INT32_MAX
        · have : ¬ p.stream_index = ai := fun h => h2 ⟨hai, h, h4⟩
          simp [unit_count, List.countP_cons, this]
        · rw [scan_audio_stuck P vi ai rest st (by omega)] at hd
          exact absurd hd h4

/-- C26 (witness): two frames of two samples each (constant length, 4 samples),
and two frames of two and three samples (5 samples). -/
theorem C26_pcm_sample_count_witness :
    ((prepare_audio_decoding (some ⟨2, 2⟩) none { audio_h with audio_pcm_sample_count := 0 }
        (create_index_audio synth_probe () "mp4" 0 shifted_audio_packets
          { libav_handler_zero with audio_index := 1 })).h.audio_pcm_sample_count : Int) =
      audio_length_sum (create_index_audio synth_probe () "mp4" 0 shifted_audio_packets
          { libav_handler_zero with audio_index := 1 }).audio_frame_list
        (create_index_audio synth_probe () "mp4" 0 shifted_audio_packets
          { libav_handler_zero with audio_index := 1 }).audio_frame_count ∧
    ((prepare_audio_decoding (some ⟨2, 2⟩) none { audio_h with audio_pcm_sample_count := 0 }
        (create_index_audio synth_probe () "mp4" 0 uneven_audio_packets
          { libav_handler_zero with audio_index := 1 })).h.audio_pcm_sample_count : Int) =
      audio_length_sum (create_index_audio synth_probe () "mp4" 0 uneven_audio_packets
          { libav_handler_zero with audio_index := 1 }).audio_frame_list
        (create_index_audio synth_probe () "mp4" 0 uneven_audio_packets
          { libav_handler_zero with audio_index := 1 }).audio_frame_count :=
  ⟨C26_pcm_sample_count synth_probe () "mp4" 0 shifted_audio_packets
      { libav_handler_zero with audio_index := 1 } { audio_h with audio_pcm_sample_count := 0 }
      ⟨2, 2⟩ none rfl (by decide)
      (by
        intro k h1 h2
        have h3 : k ≤ 2 := h2
        interval_cases k <;> decide)
      (by decide),
    C26_pcm_sample_count synth_probe () "mp4" 0 uneven_audio_packets
      { libav_handler_zero with audio_index := 1 } { audio_h with audio_pcm_sample_count := 0 }
      ⟨2, 2⟩ none rfl (by decide)
      (by
        intro k h1 h2
        have h3 : k ≤ 2 := h2
        interval_cases k <;> decide)
      (by decide)⟩

/-! ## Sample count returned by `read_audio` (C23) -/

/-- The samples one copy step hands out, `copy_size / block_align` with
`copy_size = min( available, wanted_length * block_align )`, are at most
`wanted_length`. -/
theorem copied_length_le (a : Nat) (wanted_length : Int) (block_align width : Nat)
    (hw : 0 ≤ wanted_length) :
    ((umin a (wanted_length * block_align) width / block_align : Nat) : Int) ≤ wanted_length := by
  obtain ⟨m, hm⟩ : ∃ m : Nat, wanted_length = m := ⟨wanted_length.toNat, by omega⟩
  subst hm
  have h1 : umin a ((m : Int) * block_align) width ≤ m * block_align := by
    unfold umin
    simp only []
    have hb : (((m : Int) * (block_align : Int)) % (2 ^ width : Int)).toNat ≤ m * block_align := by
      have e : ((m : Int) * (block_align : Int)) % (2 ^ width : Int) =
          (((m * block_align) % 2 ^ width : Nat) : Int) := by push_cast; rfl
      rw [e, Int.toNat_natCast]
      exact Nat.mod_le _ _
    split_ifs <;> omega
  have h2 : umin a ((m : Int) * block_align) width / block_align ≤ m :=
    Nat.div_le_of_le_mul (by rw [Nat.mul_comm]; exact h1)
  exact_mod_cast h2

/-- The decode loops of `read_audio` raise `output_length` by at most the samples
still wanted. -/
theorem audio_decode_loop_bound {σ : Type} (A : LibavAudio σ) (block_align : Nat) :
    ∀ (fuel : Nat) (pkt : Option AVPacket) (copy_size data_offset : Nat)
      (wanted_length output_length : Int) (frame_number : Nat) (buf : List Nat)
      (hp : libav_handler_t) (w : AudioWorld σ) (r : AudioLoopResult σ),
      audio_decode_loop A block_align fuel pkt copy_size data_offset wanted_length output_length
        frame_number buf hp w = some r →
      0 ≤ wanted_length →
      output_length ≤ r.output_length ∧ r.output_length ≤ output_length + wanted_length := by
  intro fuel
  induction fuel with
  | zero =>
    intro pkt cs off wl ol fn buf hp w r h
    simp [audio_decode_loop] at h
  | succ fuel ih =>
    intro pkt cs off wl ol fn buf hp w r h hw
    cases pkt with
    | none =>
      unfold audio_decode_loop at h
      simp only [] at h
      split at h
      · have e := Option.some.inj h
        rw [← e]
        exact ⟨le_refl _, by simp only []; omega⟩
      · exact ih _ _ _ _ _ _ _ _ _ _ h hw
    | some p =>
      revert h
      unfold audio_decode_loop
      by_cases h1 : p.size > 0
      · rw [if_pos h1]
        lift_lets
        intro d obs hp1 w1 p1 cs1 buf1 copied ol1 wl1 cs0 off1
        have hc : copied ≤ wl := copied_length_le (obs - off) wl block_align 64 hw
        have hc0 : (0 : Int) ≤ copied := Int.natCast_nonneg _
        have e1 : ol1 = ol + copied := rfl
        have e2 : wl1 = wl - copied := rfl
        by_cases h2 : d.wasted_data_length < 0
        · rw [if_pos h2]
          intro h
          have e := Option.some.inj h
          rw [← e]
          exact ⟨le_refl _, by simp only []; omega⟩
        · rw [if_neg h2]
          by_cases h3 : obs > off
          · rw [if_pos h3]
            by_cases h4 : wl1 ≤ 0
            · rw [if_pos h4]
              intro h
              have e := Option.some.inj h
              rw [← e]
              show ol ≤ ol1 ∧ ol1 ≤ ol + wl
              omega
            · rw [if_neg h4]
              intro h
              have := ih _ _ _ _ _ _ _ _ _ _ h (by omega)
              omega
          · rw [if_neg h3]
            by_cases h4 : wl ≤ 0
            · rw [if_pos h4]
              intro h
              have e := Option.some.inj h
              rw [← e]
              exact ⟨le_refl _, by simp only []; omega⟩
            · rw [if_neg h4]
              intro h
              exact ih _ _ _ _ _ _ _ _ _ _ h hw
      · rw [if_neg h1]
        intro h
        exact ih _ _ _ _ _ _ _ _ _ _ h hw

theorem audio_fuel_cons (p : AVPacket) (l : List AVPacket) :
    audio_fuel (p :: l) = p.size.toNat + 2 + audio_fuel l := by
  unfold audio_fuel
  simp only [List.map_cons, List.sum_cons]
  omega

theorem audio_fuel_pos (l : List AVPacket) : 1 ≤ audio_fuel l := by
  unfold audio_fuel; omega

theorem audio_fuel_drop_le (l : List AVPacket) : ∀ n, audio_fuel (l.drop n) ≤ audio_fuel l := by
  induction l with
  | nil => intro n; simp
  | cons p l ih =>
    intro n
    cases n with
    | zero => exact le_refl _
    | succ n =>
      rw [List.drop_succ_cons, audio_fuel_cons]
      have := ih n
      omega

/-- A packet found by `get_sample` and the packets after it weigh no more than
the packets `get_sample` started from. -/
theorem get_sample_fuel (idx : Int) : ∀ (l : List AVPacket) (k : Nat) (p : AVPacket),
    (get_sample idx l k).1 = some p →
    p.size.toNat + 2 + audio_fuel (l.drop ((get_sample idx l k).2 - k)) ≤ audio_fuel l := by
  intro l
  induction l with
  | nil => intro k p h; simp [get_sample] at h
  | cons q l ih =>
    intro k p h
    by_cases hq : q.stream_index ≠ idx
    · have e : get_sample idx (q :: l) k = get_sample idx l (k + 1) := by
        rw [get_sample, if_pos hq]
      rw [e] at h ⊢
      have h1 := ih (k + 1) p h
      have h2 : k + 1 ≤ (get_sample idx l (k + 1)).2 := by
        rcases get_sample_spec idx l (k + 1) with ⟨_, _, h3, _⟩ | ⟨h3, _⟩
        · omega
        · rw [h3] at h; cases h
      have e2 : (get_sample idx l (k + 1)).2 - k = ((get_sample idx l (k + 1)).2 - (k + 1)) + 1 := by
        omega
      rw [e2, List.drop_succ_cons, audio_fuel_cons]
      omega
    · have e : get_sample idx (q :: l) k = (some q, k + 1) := by
        rw [get_sample, if_neg hq]
      rw [e] at h ⊢
      have hp : q = p := Option.some.inj h
      subst hp
      show q.size.toNat + 2 + audio_fuel ((q :: l).drop (k + 1 - k)) ≤ _
      rw [show k + 1 - k = 1 by omega, List.drop_succ_cons, List.drop_zero, audio_fuel_cons]

theorem audio_skip_packets {σ : Type} (hp : libav_handler_t) :
    ∀ (n : Nat) (w : AudioWorld σ), (audio_skip hp n w).packets = w.packets := by
  intro n
  induction n with
  | zero => intro w; rfl
  | succ n ih =>
    intro w
    unfold audio_skip
    simp only []
    split
    · rfl
    · rw [ih]; rfl

/-- The decode loops of `read_audio` reach `audio_out` within `audio_fuel` passes
when every decoder call on a non-empty packet either fails or consumes data. -/
theorem audio_decode_loop_returns {σ : Type} (A : LibavAudio σ) (block_align : Nat)
    (hprog : ∀ (w : AudioWorld σ) (pkt : AVPacket), 0 < pkt.size →
      (A.avcodec_decode_audio3 w pkt).wasted_data_length ≠ 0) :
    ∀ (fuel : Nat) (pkt : Option AVPacket) (copy_size data_offset : Nat)
      (wanted_length output_length : Int) (frame_number : Nat) (buf : List Nat)
      (hp : libav_handler_t) (w : AudioWorld σ),
      (match pkt with
        | none => 0
        | some p => p.size.toNat + 1) + audio_fuel (w.packets.drop w.cursor) ≤ fuel →
      ∃ r, audio_decode_loop A block_align fuel pkt copy_size data_offset wanted_length
        output_length frame_number buf hp w = some r := by
  intro fuel
  induction fuel with
  | zero =>
    intro pkt cs off wl ol fn buf hp w h
    have := audio_fuel_pos (w.packets.drop w.cursor)
    omega
  | succ fuel ih =>
    intro pkt cs off wl ol fn buf hp w h
    cases pkt with
    | none =>
      unfold audio_decode_loop
      simp only []
      cases hg : (audio_get_sample hp w).1 with
      | none => exact ⟨_, rfl⟩
      | some p =>
        simp only []
        apply ih
        have h1 := get_sample_fuel hp.audio_index (w.packets.drop w.cursor) 0 p hg
        have e : (audio_get_sample hp w).2.packets.drop (audio_get_sample hp w).2.cursor =
            (w.packets.drop w.cursor).drop
              ((get_sample hp.audio_index (w.packets.drop w.cursor) 0).2 - 0) := by
          rw [List.drop_drop]
          show w.packets.drop (w.cursor + _) = _
          rw [Nat.sub_zero, Nat.add_comm]
        rw [e]
        simp only [] at h ⊢
        omega
    | some p =>
      unfold audio_decode_loop
      simp only [] at h
      by_cases h1 : p.size > 0
      · rw [if_pos h1]
        lift_lets
        intro d obs hp1 w1 p1 cs1 buf1 copied ol1 wl1 cs0 off1
        by_cases h2 : d.wasted_data_length < 0
        · rw [if_pos h2]; exact ⟨_, rfl⟩
        · rw [if_neg h2]
          have hpr := hprog w p h1
          have hsz : p1.size.toNat + 1 ≤ p.size.toNat := by
            show (p.size - d.wasted_data_length).toNat + 1 ≤ p.size.toNat
            have : d.wasted_data_length ≠ 0 := hpr
            omega
          have hnext : (match (some p1 : Option AVPacket) with
              | none => 0
              | some p => p.size.toNat + 1) + audio_fuel (w1.packets.drop w1.cursor) ≤ fuel := by
            show p1.size.toNat + 1 + audio_fuel (w.packets.drop w.cursor) ≤ fuel
            omega
          by_cases h3 : obs > off
          · rw [if_pos h3]
            by_cases h4 : wl1 ≤ 0
            · rw [if_pos h4]; exact ⟨_, rfl⟩
            · rw [if_neg h4]; exact ih _ _ _ _ _ _ _ _ _ hnext
          · rw [if_neg h3]
            by_cases h4 : wl ≤ 0
            · rw [if_pos h4]; exact ⟨_, rfl⟩
            · rw [if_neg h4]; exact ih _ _ _ _ _ _ _ _ _ hnext
      · rw [if_neg h1]
        apply ih
        simp only []
        omega

/-- C23: for every handle state (carry state included), every demuxer and decoder
and every request with `wanted_length >= 0`, a sample count returned by
`read_audio` lies between 0 and `wanted_length`.  And the call does return: when
every decoder call on a non-empty packet either fails or consumes data, the decode
loops end within `audio_fuel` passes over the container. -/
theorem C23_read_audio_bounded {σ : Type} (A : LibavAudio σ) (fuel : Nat)
    (h : lsmash_handler_t) (hp : libav_handler_t) (w : AudioWorld σ)
    (start wanted_length : Int) (hw : 0 ≤ wanted_length) :
    (∀ r, read_audio A fuel h hp w start wanted_length = some r →
      0 ≤ r.ret ∧ r.ret ≤ wanted_length) ∧
    ((∀ (w : AudioWorld σ) (pkt : AVPacket), 0 < pkt.size →
        (A.avcodec_decode_audio3 w pkt).wasted_data_length ≠ 0) →
      audio_fuel w.packets ≤ fuel →
      ∃ r, read_audio A fuel h hp w start wanted_length = some r) := by
  unfold read_audio
  by_cases hgap : start < hp.av_gap ∧ start + wanted_length < hp.av_gap
  · rw [if_pos hgap]
    refine ⟨?_, fun _ _ => ⟨_, rfl⟩⟩
    intro r hr
    have e := Option.some.inj hr
    rw [← e]
    exact ⟨le_refl _, hw⟩
  · rw [if_neg hgap]
    lift_lets
    intro start1 ba fn cs buf hp1 copied ol wl1 hp2 found fn1 fl nfp off rapn rapp flags s w1
      s1 w2 w3 w4
    have hc : copied ≤ wanted_length :=
      copied_length_le hp.last_remainder_size wanted_length h.nBlockAlign 32 hw
    have hc0 : (0 : Int) ≤ copied := Int.natCast_nonneg _
    have e1 : ol = copied := rfl
    have e2 : wl1 = wanted_length - copied := rfl
    have hloop : ∀ (cs0 off0 : Nat) (wl0 ol0 : Int) (fn0 : Nat) (buf0 : List Nat)
        (hp0 : libav_handler_t) (w0 : AudioWorld σ) (r : ReadAudioResult σ),
        (audio_decode_loop A ba fuel none cs0 off0 wl0 ol0 fn0 buf0 hp0 w0).map
          (audio_out start1) = some r → 0 ≤ wl0 →
        ol0 ≤ r.ret ∧ r.ret ≤ ol0 + wl0 := by
      intro cs0 off0 wl0 ol0 fn0 buf0 hp0 w0 r hr hwl
      obtain ⟨r0, hr0, hr1⟩ := Option.map_eq_some'.mp hr
      have := audio_decode_loop_bound A ba fuel none cs0 off0 wl0 ol0 fn0 buf0 hp0 w0 r0 hr0 hwl
      rw [← hr1]
      exact this
    have hw4 : w4.packets = w.packets := by
      have a1 : w4.packets = w3.packets := audio_skip_packets hp2 _ w3
      have a2 : w3.packets = w2.packets := rfl
      have a3 : w2.packets = w1.packets := by
        show (if s.ret < 0 then _ else w1).packets = w1.packets
        split_ifs <;> rfl
      rw [a1, a2, a3]
    constructor
    · intro r
      by_cases h1 : start1 = (hp.next_audio_pcm_sample_number : Int)
      · rw [if_pos h1]
        by_cases h2 : hp.last_remainder_size ≠ 0
        · rw [if_pos h2]
          by_cases h3 : wl1 ≤ 0
          · rw [if_pos h3]
            intro hr
            have e := Option.some.inj hr
            rw [← e]
            show 0 ≤ ol ∧ ol ≤ wanted_length
            omega
          · rw [if_neg h3]
            intro hr
            have := hloop _ _ _ _ _ _ _ _ r hr (by omega)
            omega
        · rw [if_neg h2]
          intro hr
          have := hloop _ _ _ _ _ _ _ _ r hr hw
          omega
      · rw [if_neg h1]
        intro hr
        have := hloop _ _ _ _ _ _ _ _ r hr hw
        omega
    · intro hprog hfuel
      have hret : ∀ (cs0 off0 : Nat) (wl0 ol0 : Int) (fn0 : Nat) (buf0 : List Nat)
          (hp0 : libav_handler_t) (w0 : AudioWorld σ), w0.packets = w.packets →
          ∃ r, (audio_decode_loop A ba fuel none cs0 off0 wl0 ol0 fn0 buf0 hp0 w0).map
            (audio_out start1) = some r := by
        intro cs0 off0 wl0 ol0 fn0 buf0 hp0 w0 hpk
        obtain ⟨r0, hr0⟩ := audio_decode_loop_returns A ba hprog fuel none cs0 off0 wl0 ol0 fn0
          buf0 hp0 w0 (by
            have := audio_fuel_drop_le w0.packets w0.cursor
            rw [hpk] at this
            simp only []
            rw [hpk]
            omega)
        exact ⟨_, by rw [hr0]; rfl⟩
      by_cases h1 : start1 = (hp.next_audio_pcm_sample_number : Int)
      · rw [if_pos h1]
        by_cases h2 : hp.last_remainder_size ≠ 0
        · rw [if_pos h2]
          by_cases h3 : wl1 ≤ 0
          · rw [if_pos h3]; exact ⟨_, rfl⟩
          · rw [if_neg h3]; exact hret _ _ _ _ _ _ _ _ rfl
        · rw [if_neg h2]; exact hret _ _ _ _ _ _ _ _ rfl
      · rw [if_neg h1]; exact hret _ _ _ _ _ _ _ _ hw4

/-- C23 (witness): on `audio_packets`, the request for two samples from sample 1
returns, and what it returns lies between 0 and 2. -/
theorem C23_read_audio_bounded_witness :
    ∃ r, read_audio synth_audio 20 audio_h (audio_hp 0) audio_world 1 2 = some r ∧
      0 ≤ r.ret ∧ r.ret ≤ 2 := by
  obtain ⟨r, hr⟩ := (C23_read_audio_bounded synth_audio 20 audio_h (audio_hp 0) audio_world 1 2
    (by decide)).2 (fun _ pkt hp => ne_of_gt hp) (by decide)
  exact ⟨r, hr, (C23_read_audio_bounded synth_audio 20 audio_h (audio_hp 0) audio_world 1 2
    (by decide)).1 r hr⟩

/-! ## Record writes of the scan and capacity (C22) -/

/-- One packet either leaves the scan at a failed `realloc` or hands a state on
to the rest of the container. -/
theorem scan_storage_step {σ : Type} (alloc : AllocSite → Nat → Bool) (P : AudioProbe σ)
    (vi ai : Int) (p : AVPacket) (st : IndexScan σ) :
    ∃ st1, (∀ rest, scan_storage alloc P vi ai (p :: rest) st =
        scan_storage alloc P vi ai rest st1) ∨
      (∀ rest, scan_storage alloc P vi ai (p :: rest) st = (false, st1)) := by
  by_cases h1 : 0 ≤ vi ∧ p.stream_index = vi
  · by_cases h2 : st.video_sample_count + 1 = st.video_info_count
    · by_cases h3 : alloc AllocSite.video_info_realloc ((st.video_info_count * 2) % 2 ^ 32) = true
      · exact ⟨_, Or.inl (fun rest => by
          rw [scan_storage, if_pos h1]; simp only []; rw [if_pos h2, if_pos h3])⟩
      · exact ⟨_, Or.inr (fun rest => by
          rw [scan_storage, if_pos h1]; simp only []; rw [if_pos h2, if_neg h3])⟩
    · exact ⟨_, Or.inl (fun rest => by
        rw [scan_storage, if_pos h1]; simp only []; rw [if_neg h2])⟩
  · by_cases h2 : (scan_audio P vi ai [p] st.audio).audio_sample_count =
        st.audio.audio_sample_count
    · exact ⟨_, Or.inl (fun rest => by
        rw [scan_storage, if_neg h1]; simp only []; rw [if_pos h2])⟩
    · by_cases h3 : (scan_audio P vi ai [p] st.audio).audio_sample_count = st.audio_info_count
      · by_cases h4 : alloc AllocSite.audio_info_realloc ((st.audio_info_count * 2) % 2 ^ 32) = true
        · exact ⟨_, Or.inl (fun rest => by
            rw [scan_storage, if_neg h1]; simp only []; rw [if_neg h2, if_pos h3, if_pos h4])⟩
        · exact ⟨_, Or.inr (fun rest => by
            rw [scan_storage, if_neg h1]; simp only []; rw [if_neg h2, if_pos h3, if_neg h4])⟩
      · exact ⟨_, Or.inl (fun rest => by
          rw [scan_storage, if_neg h1]; simp only []; rw [if_neg h2, if_neg h3])⟩

/-- The scan of a container in two parts. -/
theorem scan_storage_append {σ : Type} (alloc : AllocSite → Nat → Bool) (P : AudioProbe σ)
    (vi ai : Int) : ∀ (l1 l2 : List AVPacket) (st : IndexScan σ),
    (scan_storage alloc P vi ai l1 st).1 = true →
    scan_storage alloc P vi ai (l1 ++ l2) st =
      scan_storage alloc P vi ai l2 (scan_storage alloc P vi ai l1 st).2 := by
  intro l1
  induction l1 with
  | nil => intro l2 st _; rfl
  | cons p l1 ih =>
    intro l2 st
    rw [List.cons_append]
    obtain ⟨st1, h | h⟩ := scan_storage_step alloc P vi ai p st
    · rw [h (l1 ++ l2), h l1]
      exact ih l2 st1
    · rw [h l1]
      intro hc
      cases hc

/-- A run of video packets that stops short of the capacity: the count goes up
by the length of the run, nothing grows. -/
theorem scan_storage_video_run {σ : Type} (alloc : AllocSite → Nat → Bool) (P : AudioProbe σ)
    (vi ai : Int) (p : AVPacket) (hp : 0 ≤ vi ∧ p.stream_index = vi) :
    ∀ (n : Nat) (st : IndexScan σ), st.video_sample_count + n < st.video_info_count →
      ∃ ws, scan_storage alloc P vi ai (List.replicate n p) st =
        (true, { st with video_sample_count := st.video_sample_count + n,
                         writes := st.writes ++ ws }) := by
  intro n
  induction n with
  | zero => intro st _; exact ⟨[], by simp [scan_storage]⟩
  | succ n ih =>
    intro st h
    rw [List.replicate_succ, scan_storage, if_pos hp]
    simp only []
    rw [if_neg (by omega)]
    obtain ⟨ws, hws⟩ := ih ⟨st.video_info_count, st.audio_info_count, st.video_sample_count + 1,
      st.audio,
      st.writes ++ [⟨Block.video_info, st.video_sample_count + 1, st.video_info_count⟩]⟩
      (by show st.video_sample_count + 1 + n < st.video_info_count; omega)
    refine ⟨⟨Block.video_info, st.video_sample_count + 1, st.video_info_count⟩ :: ws, ?_⟩
    rw [hws]
    simp only [List.append_assoc, List.singleton_append, Nat.add_assoc, Nat.add_comm 1 n]

/-- The video unit whose number equals the capacity is written before the array
grows: record `capacity` of an array of `capacity` records. -/
theorem scan_storage_video_full {σ : Type} (alloc : AllocSite → Nat → Bool) (P : AudioProbe σ)
    (vi ai : Int) (p : AVPacket) (hp : 0 ≤ vi ∧ p.stream_index = vi) (n : Nat)
    (st : IndexScan σ) (h : st.video_sample_count + n + 1 = st.video_info_count) :
    (⟨Block.video_info, st.video_info_count, st.video_info_count⟩ : RecordWrite) ∈
      (scan_storage alloc P vi ai (List.replicate (n + 1) p) st).2.writes := by
  obtain ⟨ws, hws⟩ := scan_storage_video_run alloc P vi ai p hp n st (by omega)
  rw [List.replicate_succ', scan_storage_append alloc P vi ai _ _ st (by rw [hws]), hws,
    scan_storage, if_pos hp]
  simp only []
  rw [if_pos (by omega)]
  have hw : (⟨Block.video_info, st.video_info_count, st.video_info_count⟩ : RecordWrite) ∈
      st.writes ++ ws ++ [⟨Block.video_info, st.video_sample_count + n + 1, st.video_info_count⟩] := by
    rw [h]; simp
  split_ifs
  · rw [scan_storage]
    exact hw
  · exact hw

/-- A run of audio packets, each recorded with one sample, that stops short of
the capacity and of the sample ceiling: the count goes up by the length of the
run, nothing grows. -/
theorem scan_storage_audio_run {σ : Type} (alloc : AllocSite → Nat → Bool) (P : AudioProbe σ)
    (vi ai : Int) (p : AVPacket) (hnv : ¬ (0 ≤ vi ∧ p.stream_index = vi))
    (hone : ∀ a : AudioScan σ, a.audio_duration < INT32_MAX →
      (scan_audio P vi ai [p] a).audio_sample_count = a.audio_sample_count + 1 ∧
      (scan_audio P vi ai [p] a).audio_duration = a.audio_duration + 1) :
    ∀ (n : Nat) (st : IndexScan σ), st.audio.audio_duration + n ≤ INT32_MAX →
      st.audio.audio_sample_count + n < st.audio_info_count →
      ∃ st1, scan_storage alloc P vi ai (List.replicate n p) st = (true, st1) ∧
        st1.audio.audio_sample_count = st.audio.audio_sample_count + n ∧
        st1.audio.audio_duration = st.audio.audio_duration + n ∧
        st1.audio_info_count = st.audio_info_count ∧ ∃ ws, st1.writes = st.writes ++ ws := by
  intro n
  induction n with
  | zero => intro st _ _; exact ⟨st, by simp [scan_storage], rfl, rfl, rfl, [], by simp⟩
  | succ n ih =>
    intro st hd hc
    obtain ⟨c1, d1⟩ := hone st.audio (by omega)
    rw [List.replicate_succ, scan_storage, if_neg hnv]
    simp only []
    rw [if_neg (by omega), if_neg (by omega)]
    obtain ⟨st1, e, a1, a2, a3, ws, a4⟩ := ih ⟨st.video_info_count, st.audio_info_count,
      st.video_sample_count, scan_audio P vi ai [p] st.audio,
      st.writes ++ [⟨Block.audio_info, (scan_audio P vi ai [p] st.audio).audio_sample_count,
        st.audio_info_count⟩]⟩
      (by show (scan_audio P vi ai [p] st.audio).audio_duration + n ≤ INT32_MAX; omega)
      (by show (scan_audio P vi ai [p] st.audio).audio_sample_count + n < st.audio_info_count
          omega)
    refine ⟨st1, e, ?_, ?_, a3,
      ⟨Block.audio_info, (scan_audio P vi ai [p] st.audio).audio_sample_count,
        st.audio_info_count⟩ :: ws, ?_⟩
    · rw [a1]; show (scan_audio P vi ai [p] st.audio).audio_sample_count + n = _; omega
    · rw [a2]; show (scan_audio P vi ai [p] st.audio).audio_duration + n = _; omega
    · rw [a4]; simp

/-- The audio frame whose number equals the capacity is written before the array
grows: record `capacity` of an array of `capacity` records. -/
theorem scan_storage_audio_full {σ : Type} (alloc : AllocSite → Nat → Bool) (P : AudioProbe σ)
    (vi ai : Int) (p : AVPacket) (hnv : ¬ (0 ≤ vi ∧ p.stream_index = vi))
    (hone : ∀ a : AudioScan σ, a.audio_duration < INT32_MAX →
      (scan_audio P vi ai [p] a).audio_sample_count = a.audio_sample_count + 1 ∧
      (scan_audio P vi ai [p] a).audio_duration = a.audio_duration + 1)
    (n : Nat) (st : IndexScan σ) (hd : st.audio.audio_duration + n + 1 ≤ INT32_MAX)
    (h : st.audio.audio_sample_count + n + 1 = st.audio_info_count) :
    (⟨Block.audio_info, st.audio_info_count, st.audio_info_count⟩ : RecordWrite) ∈
      (scan_storage alloc P vi ai (List.replicate (n + 1) p) st).2.writes := by
  obtain ⟨st1, e, a1, a2, a3, ws, a4⟩ :=
    scan_storage_audio_run alloc P vi ai p hnv hone n st (by omega) (by omega)
  obtain ⟨c1, d1⟩ := hone st1.audio (by omega)
  rw [List.replicate_succ', scan_storage_append alloc P vi ai _ _ st (by rw [e]), e,
    scan_storage, if_neg hnv]
  simp only []
  rw [if_neg (by omega), if_pos (by omega)]
  have hw : (⟨Block.audio_info, st.audio_info_count, st.audio_info_count⟩ : RecordWrite) ∈
      st1.writes ++ [⟨Block.audio_info, (scan_audio P vi ai [p] st1.audio).audio_sample_count,
        st1.audio_info_count⟩] := by
    rw [c1, a1, a3, h]; simp
  split_ifs
  · rw [scan_storage]
    exact hw
  · exact hw

/-- The synthetic probe records a one-byte audio packet with one sample. -/
theorem synth_probe_one (a : AudioScan Unit) (ha : a.audio_duration < INT32_MAX) :
    (scan_audio synth_probe 0 1 [apkt 0 [10]] a).audio_sample_count = a.audio_sample_count + 1 ∧
    (scan_audio synth_probe 0 1 [apkt 0 [10]] a).audio_duration = a.audio_duration + 1 := by
  have hmax : INT32_MAX = 2147483647 := rfl
  have h1 : ¬ ((0 : Int) ≤ 0 ∧ (apkt 0 [10]).stream_index = 0) := by decide
  have h2 : (0 : Int) ≤ 1 ∧ (apkt 0 [10]).stream_index = 1 ∧ a.audio_duration ≤ INT32_MAX :=
    ⟨by decide, by decide, by omega⟩
  have hg : get_frame_length synth_probe a.probe (apkt 0 [10]) = (1, a.probe) := rfl
  rw [scan_audio, if_neg h1, if_pos h2]
  simp only [hg]
  have hd : (((a.audio_duration : Int) + 1) % 2 ^ 64).toNat = a.audio_duration + 1 := by omega
  rw [hd, if_neg (by omega)]
  simp [scan_audio]

/-- With an allocator that grants every request, the record writes of
`create_index` are those of its scan. -/
theorem create_index_writes {σ : Type} (P : AudioProbe σ) (s : σ) (nb : Int) (size : Nat)
    (packets : List AVPacket) (hp : IndexStorage) :
    (create_index (fun _ _ => true) P s nb size packets hp).writes =
      (scan_storage (fun _ _ => true) P hp.video_index hp.audio_index packets
        ⟨65536, 65536, 0, ⟨[], 0, true, 0, 0, s⟩, []⟩).2.writes := by
  unfold create_index
  simp only [Bool.true_eq_false, and_false, if_false]
  have e : ∀ b : Bool, (if b = true then { hp with audio_output_buffer := some Block.audio_output_buffer }
      else hp).video_index = hp.video_index ∧
      (if b = true then { hp with audio_output_buffer := some Block.audio_output_buffer }
      else hp).audio_index = hp.audio_index := by
    intro b; cases b <;> exact ⟨rfl, rfl⟩
  rw [(e _).1, (e _).2]
  split_ifs <;> rfl

/-- One packet raises the audio count by at most one. -/
theorem scan_audio_single_count {σ : Type} (P : AudioProbe σ) (vi ai : Int) (p : AVPacket)
    (a : AudioScan σ) :
    (scan_audio P vi ai [p] a).audio_sample_count ≤ a.audio_sample_count + 1 := by
  rw [scan_audio]
  by_cases h1 : 0 ≤ vi ∧ p.stream_index = vi
  · rw [if_pos h1, scan_audio]; omega
  · rw [if_neg h1]
    by_cases h2 : 0 ≤ ai ∧ p.stream_index = ai ∧ a.audio_duration ≤ INT32_MAX
    · rw [if_pos h2]
      lift_lets
      intro g frame_length audio_duration r constant_frame_length
      by_cases h3 : audio_duration > INT32_MAX
      · rw [if_pos h3, scan_audio]
        exact Nat.le_succ _
      · rw [if_neg h3, scan_audio]
    · rw [if_neg h2, scan_audio]; omega

/-- In a container of fewer packets than the arrays have room for beyond their
counts, every record write of the scan stays inside its array. -/
theorem scan_storage_writes_below {σ : Type} (alloc : AllocSite → Nat → Bool)
    (P : AudioProbe σ) (vi ai : Int) :
    ∀ (packets : List AVPacket) (st : IndexScan σ),
      st.video_sample_count + packets.length < st.video_info_count →
      st.audio.audio_sample_count + packets.length < st.audio_info_count →
      (∀ w ∈ st.writes, w.index < w.capacity) →
      ∀ w ∈ (scan_storage alloc P vi ai packets st).2.writes, w.index < w.capacity := by
  intro packets
  induction packets with
  | nil => intro st _ _ h; exact h
  | cons p rest ih =>
    intro st hv ha hw
    rw [List.length_cons] at hv ha
    rw [scan_storage]
    by_cases h1 : 0 ≤ vi ∧ p.stream_index = vi
    · rw [if_pos h1]
      simp only []
      rw [if_neg (by omega)]
      apply ih
      · show st.video_sample_count + 1 + rest.length < st.video_info_count; omega
      · exact (by omega : st.audio.audio_sample_count + rest.length < st.audio_info_count)
      · intro w hm
        rcases List.mem_append.mp hm with h | h
        · exact hw w h
        · rw [List.mem_singleton] at h
          rw [h]
          show st.video_sample_count + 1 < st.video_info_count
          omega
    · rw [if_neg h1]
      simp only []
      have hc := scan_audio_single_count P vi ai p st.audio
      by_cases h2 : (scan_audio P vi ai [p] st.audio).audio_sample_count =
          st.audio.audio_sample_count
      · rw [if_pos h2]
        apply ih
        · exact (by omega : st.video_sample_count + rest.length < st.video_info_count)
        · show (scan_audio P vi ai [p] st.audio).audio_sample_count + rest.length <
            st.audio_info_count
          omega
        · exact hw
      · rw [if_neg h2, if_neg (by omega)]
        apply ih
        · exact (by omega : st.video_sample_count + rest.length < st.video_info_count)
        · show (scan_audio P vi ai [p] st.audio).audio_sample_count + rest.length <
            st.audio_info_count
          omega
        · intro w hm
          rcases List.mem_append.mp hm with h | h
          · exact hw w h
          · rw [List.mem_singleton] at h
            rw [h]
            show (scan_audio P vi ai [p] st.audio).audio_sample_count < st.audio_info_count
            omega

/-- The record written by video unit number `capacity`, for a run given by its
length. -/
theorem scan_storage_video_at_capacity {σ : Type} (alloc : AllocSite → Nat → Bool)
    (P : AudioProbe σ) (vi ai : Int) (p : AVPacket) (hp : 0 ≤ vi ∧ p.stream_index = vi)
    (m : Nat) (st : IndexScan σ) (hm : 1 ≤ m)
    (h : st.video_sample_count + m = st.video_info_count) :
    (⟨Block.video_info, st.video_info_count, st.video_info_count⟩ : RecordWrite) ∈
      (scan_storage alloc P vi ai (List.replicate m p) st).2.writes := by
  obtain ⟨n, rfl⟩ : ∃ n, m = n + 1 := ⟨m - 1, by omega⟩
  exact scan_storage_video_full alloc P vi ai p hp n st h

/-- The record written by audio frame number `capacity`, for a run given by its
length. -/
theorem scan_storage_audio_at_capacity {σ : Type} (alloc : AllocSite → Nat → Bool)
    (P : AudioProbe σ) (vi ai : Int) (p : AVPacket) (hnv : ¬ (0 ≤ vi ∧ p.stream_index = vi))
    (hone : ∀ a : AudioScan σ, a.audio_duration < INT32_MAX →
      (scan_audio P vi ai [p] a).audio_sample_count = a.audio_sample_count + 1 ∧
      (scan_audio P vi ai [p] a).audio_duration = a.audio_duration + 1)
    (m : Nat) (st : IndexScan σ) (hm : 1 ≤ m) (hd : st.audio.audio_duration + m ≤ INT32_MAX)
    (h : st.audio.audio_sample_count + m = st.audio_info_count) :
    (⟨Block.audio_info, st.audio_info_count, st.audio_info_count⟩ : RecordWrite) ∈
      (scan_storage alloc P vi ai (List.replicate m p) st).2.writes := by
  obtain ⟨n, rfl⟩ : ∃ n, m = n + 1 := ⟨m - 1, by omega⟩
  exact scan_storage_audio_full alloc P vi ai p hnv hone n st hd h

/-- The record writes of `create_index` on a fresh handler, every request being
granted. -/
theorem create_index_writes_fresh {σ : Type} (P : AudioProbe σ) (s : σ) (nb : Int) (size : Nat)
    (packets : List AVPacket) (vi ai : Int) :
    (create_index (fun _ _ => true) P s nb size packets (storage_zero vi ai)).writes =
      (scan_storage (fun _ _ => true) P vi ai packets
        ⟨65536, 65536, 0, ⟨[], 0, true, 0, 0, s⟩, []⟩).2.writes :=
  create_index_writes P s nb size packets (storage_zero vi ai)

/-- C22 (the code departs from the claim): in a container of 65536 video units,
and in one of 65536 audio frames, with every allocation granted, the scan of
`create_index` writes record 65536 of an array that holds 65536 records at that
moment, indices 0 to 65535: the record is written first, the test
`video_sample_count == video_info_count` that grows the array comes after it. -/
theorem C22_write_at_capacity :
    (⟨Block.video_info, 65536, 65536⟩ : RecordWrite) ∈
      (create_index (fun _ _ => true) synth_probe () 0 0
        (List.replicate 65536 (vpkt 1 1 [11])) (storage_zero 0 1)).writes ∧
    (⟨Block.audio_info, 65536, 65536⟩ : RecordWrite) ∈
      (create_index (fun _ _ => true) synth_probe () 0 0
        (List.replicate 65536 (apkt 0 [10])) (storage_zero 0 1)).writes := by
  refine ⟨?_, ?_⟩
  · rewrite [create_index_writes_fresh synth_probe () 0 0 (List.replicate 65536 (vpkt 1 1 [11]))
      0 1]
    exact scan_storage_video_at_capacity (fun _ _ => true) synth_probe 0 1 (vpkt 1 1 [11])
      ⟨le_refl _, rfl⟩ 65536 ⟨65536, 65536, 0, ⟨[], 0, true, 0, 0, ()⟩, []⟩ (by decide)
      (Nat.zero_add _)
  · rewrite [create_index_writes_fresh synth_probe () 0 0 (List.replicate 65536 (apkt 0 [10]))
      0 1]
    exact scan_storage_audio_at_capacity (fun _ _ => true) synth_probe 0 1 (apkt 0 [10])
      (by decide) synth_probe_one 65536 ⟨65536, 65536, 0, ⟨[], 0, true, 0, 0, ()⟩, []⟩
      (by decide) (by decide) (Nat.zero_add _)

/-! ## The handler after a failed `create_index` (C21) -/

/-- A `create_index` that fails on a fresh handler at any request but the last,
the copy of the audio index entries, leaves both counts at 0 and the three list
fields null, so that `get_first_video_track` and `get_first_audio_track` return -1. -/
theorem create_index_failed_clean {σ : Type} (alloc : AllocSite → Nat → Bool)
    (P : AudioProbe σ) (s : σ) (nb : Int) (size : Nat) (packets : List AVPacket)
    (vi ai : Int) (reopened : Bool)
    (hfail : (create_index alloc P s nb size packets (storage_zero vi ai)).completed = false)
    (hlast : ai < 0 ∨ nb ≤ 0 ∨ alloc AllocSite.audio_index_entries size = true) :
    (create_index alloc P s nb size packets (storage_zero vi ai)).hp.video_frame_count = 0 ∧
    (create_index alloc P s nb size packets (storage_zero vi ai)).hp.audio_frame_count = 0 ∧
    (create_index alloc P s nb size packets (storage_zero vi ai)).hp.video_frame_list = none ∧
    (create_index alloc P s nb size packets (storage_zero vi ai)).hp.keyframe_list = none ∧
    (create_index alloc P s nb size packets (storage_zero vi ai)).hp.audio_frame_list = none ∧
    (get_first_video_track reopened
      (create_index alloc P s nb size packets (storage_zero vi ai)).hp).1 = -1 ∧
    (get_first_audio_track reopened
      (create_index alloc P s nb size packets (storage_zero vi ai)).hp).1 = -1 := by
  have key : (create_index alloc P s nb size packets (storage_zero vi ai)).hp.video_frame_count = 0 ∧
      (create_index alloc P s nb size packets (storage_zero vi ai)).hp.audio_frame_count = 0 ∧
      (create_index alloc P s nb size packets (storage_zero vi ai)).hp.video_frame_list = none ∧
      (create_index alloc P s nb size packets (storage_zero vi ai)).hp.keyframe_list = none ∧
      (create_index alloc P s nb size packets (storage_zero vi ai)).hp.audio_frame_list = none := by
    revert hfail
    unfold create_index
    simp only []
    by_cases hv : (0 : Int) ≤ (storage_zero vi ai).video_index <;>
      by_cases ha : (0 : Int) ≤ (storage_zero vi ai).audio_index <;>
      simp only [hv, ha, decide_True, decide_False, true_and, false_and, if_true, if_false,
        Bool.false_eq_true]
    all_goals split_ifs
    all_goals first
      | (intro h; exact absurd h (by decide))
      | (intro _; exact ⟨rfl, rfl, rfl, rfl, rfl⟩)
      | (intro _
         rcases hlast with h | h | h
         · exact absurd ha (not_le.mpr h)
         · omega
         · simp_all)
  obtain ⟨k1, k2, k3, k4, k5⟩ := key
  refine ⟨k1, k2, k3, k4, k5, ?_, ?_⟩
  · unfold get_first_video_track
    rw [if_pos (Or.inr (Or.inl k1))]
  · unfold get_first_audio_track
    rw [if_pos (Or.inr (Or.inl k2))]

/-- C21 (the code departs from the claim): the container holds one video unit
and one audio frame, the audio stream has one index entry, and every allocation
succeeds but the last, `av_malloc` for the copy of the index entries.
`create_index` returns at that failure after it has stored `video_info` and
`audio_info` in `video_frame_list` and `audio_frame_list` and set both counts to 1,
and it frees both arrays on the way out: the two list fields refer to released
storage, both counts are 1, `get_first_video_track` and `get_first_audio_track`
return 0 when the file reopens, and when it does not, `get_first_video_track`
frees `video_frame_list` a second time. -/
theorem C21_entries_refused :
    entries_refused.completed = false ∧
    entries_refused.hp.video_frame_count = 1 ∧ entries_refused.hp.audio_frame_count = 1 ∧
    entries_refused.hp.video_frame_list = some Block.video_info ∧
    Block.video_info ∈ entries_refused.hp.released ∧
    entries_refused.hp.audio_frame_list = some Block.audio_info ∧
    Block.audio_info ∈ entries_refused.hp.released ∧
    (get_first_video_track true entries_refused.hp).1 = 0 ∧
    (get_first_audio_track true entries_refused.hp).1 = 0 ∧
    (get_first_video_track false entries_refused.hp).2.released.count Block.video_info = 2 := by
  decide

end LSmash
